import Mathlib

/-!
# pfish_bovespa: the Bovespa file importer

A shallow embedding of `file_import.c`, of `pfish_bovespa.c` and `revision_marker.c`, and of
the export loop of `stock_history.c`, with the properties proved about them.

Conventions of the embedding.

* A C `char` is a `Char` holding one byte; a character array is a `List Char`; the C string that
  an array holds is what precedes its first NUL (`cstr`).
* Integer widths are those of LP64 (Linux x86-64): `unsigned long`, `size_t`, `time_t` and the
  `uint_fast` types are 64 bits wide, `int` and `unsigned int` 32 bits.  Counters that only count
  registers or array elements are `Nat`.
* An array of pointers to daily quotes is a list over an arbitrary type `P` of pointers together
  with the function that reads the trading date of the pointee; taking `P` to be the record type
  itself gives the by-value reading.
* `malloc` succeeds, and so do `scandir`, `close` and `munmap`.  The database directory DBPATH
  exists and can be written; it and the directories above it hold regular files only, so that
  no pathname component names a directory except the empty one, `.` and `..`; the device has
  room, so that `fopen`, `fwrite` and `fclose` of a file of the directory succeed.  What `open`,
  `mmap`, `unlink` and `rename` answer for a pathname is decided by the pathname and by the
  files present, and each error branch of the code is kept.
* A store past the end of an allocated array has no defined result; the stock list allocator
  gives `overrun` for it.
* Standard input is the list of lines that the successive `fgets` calls deliver.
-/

/-! ## Records of `pilot_fish/bovespa.h` -/

structure pfish_bovespa_daily_quote where
  trading_date : Int
  stock_spec : List Char
  price_factor : Nat
  opening_price : Nat
  closing_price : Nat
  minimum_price : Nat
  maximum_price : Nat
  average_price : Nat
  total_trades : Nat
  total_stocks : Nat
  total_volume : Nat
deriving DecidableEq

structure pfish_bovespa_stock_history where
  daily_quotes_size : Nat
  last_xplit : Nat
  daily_quotes : List pfish_bovespa_daily_quote
deriving DecidableEq

structure pfish_bovespa_library_info where
  build_date : List Char
  build_time : List Char
  compiler_version : List Char
deriving DecidableEq

/-! ## C strings and memory blocks -/

def NUL : Char := Char.ofNat 0

/-- Content of the C string that starts at the head of a character array. -/
def cstr (s : List Char) : List Char := s.takeWhile (fun c => c != NUL)

/-- The C library strcmp, up to the sign of its result: zero exactly when the two C strings have
the same content, otherwise the sign of the difference of the first differing bytes. The end of
the list counts as a terminator. -/
def strcmp : List Char → List Char → Int
  | [], [] => 0
  | [], y :: _ => if y = NUL then 0 else -1
  | x :: _, [] => if x = NUL then 0 else 1
  | x :: xs, y :: ys =>
    if x = NUL ∧ y = NUL then 0
    else if x.toNat < y.toNat then -1
    else if x.toNat > y.toNat then 1
    else strcmp xs ys

/-- The test `memcmp (buf, lit, n) == 0`: the first n bytes agree. -/
def memcmp_eq (buf : List Char) (lit : List Char) (n : Nat) : Bool :=
  (List.range n).all (fun k => buf.getD k NUL == lit.getD k NUL)

/-- The C library memmove inside one array: n bytes from offset src to offset dst. -/
def memmove (field : List Char) (dst src n : Nat) : List Char :=
  (List.range field.length).map
    (fun k => if dst ≤ k ∧ k < dst + n then field.getD (src + (k - dst)) NUL else field.getD k NUL)

/-! ## sanitize_field -/

/-- First loop of sanitize_field, entered with loop index `i + 1`:
`for (i = field_size - 1; i > 0; i--)`, trailing spaces become terminators. -/
def sanitize_trailing : Nat → List Char → Nat → List Char × Nat
  | 0, field, field_size => (field, field_size)
  | i + 1, field, field_size =>
    if field.getD (i + 1) NUL ≠ ' ' then (field, field_size)
    else sanitize_trailing i (field.set (i + 1) NUL) (i + 1)

/-- Inner `while (field[i + 1] == ' ')` of the second loop.  The first argument bounds the number
of passes; the array length is enough, since every pass removes one byte of the field. -/
def sanitize_shift : Nat → List Char → Nat → Nat → List Char × Nat
  | 0, field, field_size, _ => (field, field_size)
  | fuel + 1, field, field_size, i =>
    if field.getD (i + 1) NUL = ' ' then
      sanitize_shift fuel (memmove field i (i + 1) (field_size - i)) (field_size - 1) i
    else (field, field_size)

/-- Second loop of sanitize_field, `for (i = 0; i < field_size; i++)`.  The first argument
bounds the number of passes; the initial field_size is enough, since i grows and field_size
never does. -/
def sanitize_consecutive : Nat → List Char → Nat → Nat → List Char × Nat
  | 0, field, field_size, _ => (field, field_size)
  | fuel + 1, field, field_size, i =>
    if i < field_size then
      if field.getD i NUL = ' ' then
        let r := sanitize_shift field.length field field_size i
        sanitize_consecutive fuel r.1 r.2 (i + 1)
      else sanitize_consecutive fuel field field_size (i + 1)
    else (field, field_size)

/-- Third loop of sanitize_field: the index of the first byte that is not '0'. -/
def sanitize_zeros : Nat → List Char → Nat → Nat → Nat
  | 0, _, _, i => i
  | fuel + 1, field, field_size, i =>
    if i < field_size then
      if field.getD i NUL ≠ '0' then i
      else sanitize_zeros fuel field field_size (i + 1)
    else i

/-- Sanitize a field of a Bovespa register; `field` is the whole array (field_size bytes and
the terminator). -/
def sanitize_field (field : List Char) (field_size : Nat) : List Char :=
  let r1 := sanitize_trailing (field_size - 1) field field_size
  let r2 := sanitize_consecutive r1.2 r1.1 r1.2 0
  let i := sanitize_zeros r2.2 r2.1 r2.2 0
  memmove r2.1 0 i (r2.2 - i + 1)

/-! ## C library conversions -/

def isspace (c : Char) : Bool :=
  c.toNat = 32 || (9 ≤ c.toNat && c.toNat ≤ 13)

def isdigit (c : Char) : Bool := 48 ≤ c.toNat && c.toNat ≤ 57

def skip_spaces : List Char → List Char
  | [] => []
  | c :: cs => if isspace c then skip_spaces cs else c :: cs

def scan_digits : List Char → Nat → Nat × List Char
  | [], acc => (acc, [])
  | c :: cs, acc =>
    if isdigit c then scan_digits cs (acc * 10 + (c.toNat - 48)) else (acc, c :: cs)

/-- The subject sequence of strtol and strtoul in base 10: white space, an optional sign, decimal
digits.  The result is the sign, the magnitude and the unread rest; `none` when there is no digit
(no conversion is performed). -/
def scan_number (s : List Char) : Option (Bool × Nat × List Char) :=
  let t := skip_spaces s
  let signed : Bool × List Char :=
    match t with
    | '-' :: u => (true, u)
    | '+' :: u => (false, u)
    | u => (false, u)
  match signed.2 with
  | [] => none
  | c :: cs =>
    if isdigit c then
      let r := scan_digits (c :: cs) 0
      some (signed.1, r.1, r.2)
    else none

def ULONG_MAX : Nat := 2 ^ 64 - 1
def LONG_MAX : Int := 2 ^ 63 - 1
def LONG_MIN : Int := - 2 ^ 63

/-- The call strtoul (nptr, &endptr, 10): the value and the C string that endptr points to. -/
def strtoul (nptr : List Char) : Nat × List Char :=
  match scan_number (cstr nptr) with
  | none => (0, cstr nptr)
  | some (neg, v, rest) =>
    if v > ULONG_MAX then (ULONG_MAX, rest)
    else if neg then ((2 ^ 64 - v) % 2 ^ 64, rest)
    else (v, rest)

/-- The call strtol (nptr, &endptr, 10): the value and the C string that endptr points to. -/
def strtol (nptr : List Char) : Int × List Char :=
  match scan_number (cstr nptr) with
  | none => (0, cstr nptr)
  | some (neg, v, rest) =>
    if neg then (if - (v : Int) < LONG_MIN then LONG_MIN else - (v : Int), rest)
    else (if (v : Int) > LONG_MAX then LONG_MAX else (v : Int), rest)

/-- Conversion of a long to int (32 bits, wrapping). -/
def long_to_int (v : Int) : Int := (v + 2 ^ 31) % 2 ^ 32 - 2 ^ 31

/-- Conversion of an unsigned long to unsigned int (32 bits). -/
def ulong_to_uint (v : Nat) : Nat := v % 2 ^ 32

/-- Days from 1970-01-01 to the proleptic Gregorian date y-m-d, m in 1..12, any d. -/
def days_from_civil (y m d : Int) : Int :=
  let y1 := if m ≤ 2 then y - 1 else y
  let era := y1 / 400
  let yoe := y1 - era * 400
  let mp := if m > 2 then m - 3 else m + 9
  let doy := (153 * mp + 2) / 5 + d - 1
  let doe := yoe * 365 + yoe / 4 - yoe / 100 + doy
  era * 146097 + doe - 719468

structure tm where
  tm_sec : Int
  tm_min : Int
  tm_hour : Int
  tm_mday : Int
  tm_mon : Int
  tm_year : Int
deriving DecidableEq

/-- The C library timegm: seconds since the epoch of a broken-down UTC time, fields out of
their range being carried over. -/
def timegm (t : tm) : Int :=
  let year := t.tm_year + 1900 + t.tm_mon / 12
  let mon := t.tm_mon % 12
  (days_from_civil year (mon + 1) 1 + (t.tm_mday - 1)) * 86400
    + t.tm_hour * 3600 + t.tm_min * 60 + t.tm_sec

/-! ## Constants and register containers of `file_import.c` -/

def BOVESPA_REGISTER_LENGTH : Nat := 0x200
def BOVESPA_FILE_TYPE_HIST : Nat := 0
def BOVESPA_FILE_TYPE_BDIN : Nat := 1
def BOVESPA_FILE_SECTION_HEADER : Nat := 0
def BOVESPA_FILE_SECTION_QUOTES : Nat := 1
def BOVESPA_FILE_SECTION_TRAILER : Nat := 2
def BOVESPA_FILE_SECTION_OTHER : Nat := 3

/-- The union bovespa_header_register; a HIST file uses three of the names. -/
structure bovespa_header_register where
  nome_arquivo : List Char
  codigo_origem : List Char
  codigo_destino : List Char
  data_geracao : List Char
  ano_pregao : List Char
  mes_pregao : List Char
  dia_pregao : List Char
  hora_geracao : List Char
deriving DecidableEq

/-- The union bovespa_quote_register; a BDIN file does not use the trading date and mod_ref. -/
structure bovespa_quote_register where
  ano_pregao : List Char
  mes_pregao : List Char
  dia_pregao : List Char
  cod_bdi : List Char
  cod_neg : List Char
  tp_merc : List Char
  nom_res : List Char
  especi : List Char
  mod_ref : List Char
  pre_abe : List Char
  pre_max : List Char
  pre_min : List Char
  pre_med : List Char
  pre_ult : List Char
  tot_neg : List Char
  qua_tot : List Char
  vol_tot : List Char
  fat_cot : List Char
  cod_isi : List Char
deriving DecidableEq

/-- The union bovespa_trailer_register; a HIST file does not use codigo_destino. -/
structure bovespa_trailer_register where
  nome_arquivo : List Char
  codigo_origem : List Char
  codigo_destino : List Char
  data_geracao : List Char
  total_registros : List Char
deriving DecidableEq

/-- The struct bovespa_mapper, each pointer read as the array it points to. -/
structure bovespa_mapper where
  ano_pregao : List Char
  mes_pregao : List Char
  dia_pregao : List Char
  cod_bdi : List Char
  cod_neg : List Char
  tp_merc : List Char
  nom_res : List Char
  especi : List Char
  mod_ref : List Char
  pre_abe : List Char
  pre_max : List Char
  pre_min : List Char
  pre_med : List Char
  pre_ult : List Char
  tot_neg : List Char
  qua_tot : List Char
  vol_tot : List Char
  fat_cot : List Char
  cod_isi : List Char
deriving DecidableEq

/-- A node of the quotes linked list; the list itself is a `List quote_node`, and `stock` is the
content of the zero-padded identifier array. -/
structure quote_node where
  stock : List Char
  quote : pfish_bovespa_daily_quote
deriving DecidableEq

/-! ## discover_file_type, discover_register_type -/

/-- Discover the type of a Bovespa file: `none` is the negative return. -/
def discover_file_type (header_register : List Char) : Option Nat :=
  if memcmp_eq header_register "00COTAHIST".toList 10 then some BOVESPA_FILE_TYPE_HIST
  else if memcmp_eq header_register "00BDIN9999".toList 10 then some BOVESPA_FILE_TYPE_BDIN
  else none

/-- Discover the type of a Bovespa register: `none` is the negative return. -/
def discover_register_type (file_type : Nat) (bovespa_register : List Char) : Option Nat :=
  let COMPARE_WITH := fun (s : String) => memcmp_eq bovespa_register s.toList 2
  if file_type = BOVESPA_FILE_TYPE_HIST then
    if COMPARE_WITH "00" then some BOVESPA_FILE_SECTION_HEADER
    else if COMPARE_WITH "01" then some BOVESPA_FILE_SECTION_QUOTES
    else if COMPARE_WITH "99" then some BOVESPA_FILE_SECTION_TRAILER
    else none
  else if file_type = BOVESPA_FILE_TYPE_BDIN then
    if COMPARE_WITH "00" then some BOVESPA_FILE_SECTION_HEADER
    else if COMPARE_WITH "01" then some BOVESPA_FILE_SECTION_OTHER
    else if COMPARE_WITH "02" then some BOVESPA_FILE_SECTION_QUOTES
    else if COMPARE_WITH "03" then some BOVESPA_FILE_SECTION_OTHER
    else if COMPARE_WITH "04" then some BOVESPA_FILE_SECTION_OTHER
    else if COMPARE_WITH "05" then some BOVESPA_FILE_SECTION_OTHER
    else if COMPARE_WITH "06" then some BOVESPA_FILE_SECTION_OTHER
    else if COMPARE_WITH "07" then some BOVESPA_FILE_SECTION_OTHER
    else if COMPARE_WITH "99" then some BOVESPA_FILE_SECTION_TRAILER
    else none
  else none

/-! ## quotes_list_append -/

def APPEND_SUCCESS : Int := 0
def APPEND_IGNORE : Int := 1
def APPEND_FAILURE : Int := -1

/-- Decide if a Bovespa mapping is useful; if so, turn it into a quote node and append it to the
quotes list.  The result is the return code and the list afterwards. -/
def quotes_list_append (mapper : bovespa_mapper) (quotes_list : List quote_node) :
    Int × List quote_node :=
  if strcmp mapper.tp_merc "10".toList ≠ 0 then (APPEND_IGNORE, quotes_list)
  else if strcmp mapper.cod_bdi "2".toList ≠ 0 then (APPEND_IGNORE, quotes_list)
  else if strcmp mapper.mod_ref "R$".toList ≠ 0 then (APPEND_IGNORE, quotes_list)
  else
    let dia := strtol mapper.dia_pregao
    if dia.2 ≠ [] then (APPEND_FAILURE, quotes_list) else
    let mes := strtol mapper.mes_pregao
    if mes.2 ≠ [] then (APPEND_FAILURE, quotes_list) else
    let ano := strtol mapper.ano_pregao
    if ano.2 ≠ [] then (APPEND_FAILURE, quotes_list) else
    let cal_time : tm :=
      { tm_sec := 0, tm_min := 0, tm_hour := 12,
        tm_mday := long_to_int dia.1,
        tm_mon := long_to_int mes.1 - 1,
        tm_year := long_to_int ano.1 - 1900 }
    let pre_abe := strtoul mapper.pre_abe
    if pre_abe.2 ≠ [] then (APPEND_FAILURE, quotes_list) else
    let pre_max := strtoul mapper.pre_max
    if pre_max.2 ≠ [] then (APPEND_FAILURE, quotes_list) else
    let pre_min := strtoul mapper.pre_min
    if pre_min.2 ≠ [] then (APPEND_FAILURE, quotes_list) else
    let pre_med := strtoul mapper.pre_med
    if pre_med.2 ≠ [] then (APPEND_FAILURE, quotes_list) else
    let pre_ult := strtoul mapper.pre_ult
    if pre_ult.2 ≠ [] then (APPEND_FAILURE, quotes_list) else
    let tot_neg := strtoul mapper.tot_neg
    if tot_neg.2 ≠ [] then (APPEND_FAILURE, quotes_list) else
    let qua_tot := strtoul mapper.qua_tot
    if qua_tot.2 ≠ [] then (APPEND_FAILURE, quotes_list) else
    let vol_tot := strtoul mapper.vol_tot
    if vol_tot.2 ≠ [] then (APPEND_FAILURE, quotes_list) else
    let fat_cot := strtoul mapper.fat_cot
    if fat_cot.2 ≠ [] then (APPEND_FAILURE, quotes_list) else
    let quote : pfish_bovespa_daily_quote :=
      { trading_date := timegm cal_time,
        stock_spec := cstr mapper.especi,
        price_factor := fat_cot.1,
        opening_price := pre_abe.1,
        closing_price := pre_ult.1,
        minimum_price := pre_min.1,
        maximum_price := pre_max.1,
        average_price := pre_med.1,
        total_trades := tot_neg.1,
        total_stocks := qua_tot.1,
        total_volume := vol_tot.1 }
    (APPEND_SUCCESS, quotes_list ++ [{ stock := cstr mapper.cod_neg, quote := quote }])

/-! ## compare_quote_nodes, merge_daily_quotes -/

/-- Compare two quote nodes: by stock name ascending, then by timestamp ascending. -/
def compare_quote_nodes (a b : quote_node) : Int :=
  let rcode := strcmp a.stock b.stock
  if rcode < 0 then -1
  else if rcode > 0 then 1
  else if a.quote.trading_date < b.quote.trading_date then -1
  else if a.quote.trading_date > b.quote.trading_date then 1
  else 0

/-- The `while ((a_count < a_size) || (b_count < b_size))` loop of merge_daily_quotes; the
store `c[c_count++] = x` appends x to c, so c_count is the length of c. -/
def merge_daily_quotes_loop {P : Type} (TRADING_DATE : P → Int) (a b : List P)
    (a_count b_count : Nat) (c : List P) : List P :=
  if h : a_count < a.length ∨ b_count < b.length then
    if ha : a_count ≥ a.length then
      have hb : b_count < b.length := by omega
      merge_daily_quotes_loop TRADING_DATE a b a_count (b_count + 1) (c ++ [b[b_count]])
    else if hb : b_count ≥ b.length then
      merge_daily_quotes_loop TRADING_DATE a b (a_count + 1) b_count (c ++ [a[a_count]])
    else if TRADING_DATE a[a_count] < TRADING_DATE b[b_count] then
      merge_daily_quotes_loop TRADING_DATE a b (a_count + 1) b_count (c ++ [a[a_count]])
    else if TRADING_DATE a[a_count] > TRADING_DATE b[b_count] then
      merge_daily_quotes_loop TRADING_DATE a b a_count (b_count + 1) (c ++ [b[b_count]])
    else
      merge_daily_quotes_loop TRADING_DATE a b (a_count + 1) (b_count + 1) (c ++ [b[b_count]])
  else c
termination_by (a.length - a_count) + (b.length - b_count)
decreasing_by all_goals simp_wf; all_goals omega

/-- Merge two arrays of (pointers to) daily quotes; the result is the answer array, whose
length is answer_size. -/
def merge_daily_quotes {P : Type} (TRADING_DATE : P → Int) (a b : List P) : List P :=
  merge_daily_quotes_loop TRADING_DATE a b 0 0 []

/-- The two-pointer merge read on the unmerged rests of both arrays; used to reason about
merge_daily_quotes, to which it is proved equal. -/
def merge_heads {P : Type} (date : P → Int) : List P → List P → List P
  | [], bs => bs
  | x :: xs, [] => x :: xs
  | x :: xs, y :: ys =>
    if date x < date y then x :: merge_heads date xs (y :: ys)
    else if date x > date y then y :: merge_heads date (x :: xs) ys
    else y :: merge_heads date xs ys
termination_by xs ys => xs.length + ys.length

/-- Strictly ascending by date: sorted, and no two elements share a date. -/
def StrictAscending {P : Type} (date : P → Int) (l : List P) : Prop :=
  l.Pairwise (fun x y => date x < date y)

instance {P : Type} (date : P → Int) (l : List P) : Decidable (StrictAscending date l) := by
  unfold StrictAscending; infer_instance

/-! ## Detection of the most recent inplit or split -/

def REG_NOMATCH : Int := 1

/-- Does `E.?[BG] *` match a prefix of the string: an E, at most one arbitrary character, then
B or G (the trailing ` *` also matches no space at all). -/
def xplit_match_here : List Char → Bool
  | 'E' :: c1 :: rest =>
    (c1 == 'B' || c1 == 'G') ||
      (match rest with
       | c2 :: _ => c2 == 'B' || c2 == 'G'
       | [] => false)
  | _ => false

/-- Unanchored search of the pattern: it matches at some position of the string. -/
def xplit_search : List Char → Bool
  | [] => false
  | c :: cs => xplit_match_here (c :: cs) || xplit_search cs

/-- The call regexec (&xplit_regex, stock_spec, 0, NULL, 0) for the pattern `E.?[BG] *` compiled
with REG_EXTENDED | REG_NOSUB: 0 on a match, REG_NOMATCH otherwise. -/
def regexec_xplit (stock_spec : List Char) : Int :=
  if xplit_search stock_spec then 0 else REG_NOMATCH

/-- The do-while loop of the split detection, entered with index `i` before its decrement and
the current match flag; the flags have negative logic (0 is a match).  The result is the final
(i, xplit_match_previous, xplit_match_current); `none` stands for the failure exit on a regexec
error, and for a decrement of index 0 or a read outside the array, which the code does not
define. -/
def xplit_scan_loop (merged_daily_quotes : List pfish_bovespa_daily_quote) :
    Nat → Int → Option (Nat × Int × Int)
  | 0, _ => none
  | i + 1, xplit_match_current =>
    let xplit_match_previous := xplit_match_current
    match merged_daily_quotes[i]? with
    | none => none
    | some q =>
      let xplit_match_current := regexec_xplit q.stock_spec
      if xplit_match_current ≠ 0 ∧ xplit_match_current ≠ REG_NOMATCH then none
      else if i = 0 then some (i, xplit_match_previous, xplit_match_current)
      else if ¬ (xplit_match_previous = 0 ∧ ¬ xplit_match_current = 0) then
        xplit_scan_loop merged_daily_quotes i xplit_match_current
      else some (i, xplit_match_previous, xplit_match_current)

/-- The split detection of main: the value it gives to last_xplit. -/
def detect_last_xplit (merged_daily_quotes : List pfish_bovespa_daily_quote) : Option Nat :=
  match xplit_scan_loop merged_daily_quotes merged_daily_quotes.length 1 with
  | none => none
  | some (i, xplit_match_previous, xplit_match_current) =>
    if xplit_match_previous = 0 ∧ ¬ xplit_match_current = 0 then some (i + 1) else some 0

/-- Record i of the series matches the xplit pattern. -/
def xplit_m (C : List pfish_bovespa_daily_quote) (i : Nat) : Bool :=
  match C[i]? with
  | some q => decide (regexec_xplit q.stock_spec = 0)
  | none => false

/-- Index j starts a matching regime: record j matches and record j - 1 does not. -/
def xplit_transition (C : List pfish_bovespa_daily_quote) (j : Nat) : Prop :=
  xplit_m C j = true ∧ xplit_m C (j - 1) = false

/-- The value r is the greatest index j with 1 ≤ j < n that starts a matching regime, or 0 when
there is none. -/
def last_xplit_post (C : List pfish_bovespa_daily_quote) (r : Nat) : Prop :=
  (r = 0 ∧ ∀ j, 1 ≤ j → j < C.length → ¬ xplit_transition C j) ∨
  (1 ≤ r ∧ r < C.length ∧ xplit_transition C r ∧
    ∀ j, r < j → j < C.length → ¬ xplit_transition C j)

/-! ## The register loop of main -/

/-- The failure exits of main, named after their diagnostics. -/
inductive import_failure where
  | cannot_discover_file_type
  | unknown_file_type
  | cannot_discover_register_type
  | missing_header_register
  | heading_garbage
  | duplicate_header_register
  | cannot_append_quote
  | trailer_field_mismatch
  | cannot_verify_register_count
  | register_count_mismatch
  | trailing_garbage
  | unknown_register_type
  | cannot_retrieve_history
  | cannot_match_xplit
  | cannot_open_temporary_file
  | cannot_build_pathname
  | cannot_build_backup_pathname
  | cannot_erase_backup
  | cannot_move_to_backup
  | cannot_move_temporary_file
deriving DecidableEq

/-- The variables of main that the register loop reads and writes. -/
structure import_state where
  bovespa_register : List Char
  file_type : Nat
  file_section : Nat
  register_count : Nat
  header_register : bovespa_header_register
  quote_register : bovespa_quote_register
  trailer_register : bovespa_trailer_register
  quotes_list : List quote_node
  quotes_list_count : Nat
deriving DecidableEq

/-- The call fgets (bovespa_register, BOVESPA_REGISTER_LENGTH, stdin) when it delivers `line`
(at most BOVESPA_REGISTER_LENGTH - 1 characters): the line and a terminator overwrite the start
of the buffer, the rest of the buffer keeps its old content. -/
def fgets (bovespa_register : List Char) (line : List Char) : List Char :=
  line ++ NUL :: bovespa_register.drop (line.length + 1)

/-- The BOVESPA_FIELD definition used inside the register loop: copy columns FROM..TO (1-based,
inclusive) of the register buffer, terminate, sanitize. -/
def BOVESPA_FIELD (bovespa_register : List Char) (FROM TO : Nat) : List Char :=
  sanitize_field (((bovespa_register.drop (FROM - 1)).take (TO - FROM + 1)) ++ [NUL])
    (TO - FROM + 1)

def HIST_HEADER_REGISTER (r : List Char) (h : bovespa_header_register) :
    bovespa_header_register :=
  { h with
    nome_arquivo := BOVESPA_FIELD r 3 15,
    codigo_origem := BOVESPA_FIELD r 16 23,
    data_geracao := BOVESPA_FIELD r 24 31 }

def BDIN_HEADER_REGISTER (r : List Char) (_h : bovespa_header_register) :
    bovespa_header_register :=
  { nome_arquivo := BOVESPA_FIELD r 3 10,
    codigo_origem := BOVESPA_FIELD r 11 18,
    codigo_destino := BOVESPA_FIELD r 19 22,
    data_geracao := BOVESPA_FIELD r 23 30,
    ano_pregao := BOVESPA_FIELD r 31 34,
    mes_pregao := BOVESPA_FIELD r 35 36,
    dia_pregao := BOVESPA_FIELD r 37 38,
    hora_geracao := BOVESPA_FIELD r 39 42 }

def HIST_QUOTE_REGISTER (r : List Char) (_q : bovespa_quote_register) :
    bovespa_quote_register :=
  { ano_pregao := BOVESPA_FIELD r 3 6,
    mes_pregao := BOVESPA_FIELD r 7 8,
    dia_pregao := BOVESPA_FIELD r 9 10,
    cod_bdi := BOVESPA_FIELD r 11 12,
    cod_neg := BOVESPA_FIELD r 13 24,
    tp_merc := BOVESPA_FIELD r 25 27,
    nom_res := BOVESPA_FIELD r 28 39,
    especi := BOVESPA_FIELD r 40 49,
    mod_ref := BOVESPA_FIELD r 53 56,
    pre_abe := BOVESPA_FIELD r 57 69,
    pre_max := BOVESPA_FIELD r 70 82,
    pre_min := BOVESPA_FIELD r 83 95,
    pre_med := BOVESPA_FIELD r 96 108,
    pre_ult := BOVESPA_FIELD r 109 121,
    tot_neg := BOVESPA_FIELD r 148 152,
    qua_tot := BOVESPA_FIELD r 153 170,
    vol_tot := BOVESPA_FIELD r 171 188,
    fat_cot := BOVESPA_FIELD r 211 217,
    cod_isi := BOVESPA_FIELD r 231 242 }

def BDIN_QUOTE_REGISTER (r : List Char) (q : bovespa_quote_register) :
    bovespa_quote_register :=
  { q with
    cod_bdi := BOVESPA_FIELD r 3 4,
    cod_neg := BOVESPA_FIELD r 58 69,
    tp_merc := BOVESPA_FIELD r 70 72,
    nom_res := BOVESPA_FIELD r 35 46,
    especi := BOVESPA_FIELD r 47 56,
    pre_abe := BOVESPA_FIELD r 91 101,
    pre_max := BOVESPA_FIELD r 102 112,
    pre_min := BOVESPA_FIELD r 113 123,
    pre_med := BOVESPA_FIELD r 124 134,
    pre_ult := BOVESPA_FIELD r 135 145,
    tot_neg := BOVESPA_FIELD r 174 178,
    qua_tot := BOVESPA_FIELD r 179 193,
    vol_tot := BOVESPA_FIELD r 194 210,
    fat_cot := BOVESPA_FIELD r 246 252,
    cod_isi := BOVESPA_FIELD r 266 277 }

def HIST_TRAILER_REGISTER (r : List Char) (t : bovespa_trailer_register) :
    bovespa_trailer_register :=
  { t with
    nome_arquivo := BOVESPA_FIELD r 3 15,
    codigo_origem := BOVESPA_FIELD r 16 23,
    data_geracao := BOVESPA_FIELD r 24 31,
    total_registros := BOVESPA_FIELD r 32 42 }

def BDIN_TRAILER_REGISTER (r : List Char) (_t : bovespa_trailer_register) :
    bovespa_trailer_register :=
  { nome_arquivo := BOVESPA_FIELD r 3 10,
    codigo_origem := BOVESPA_FIELD r 11 18,
    codigo_destino := BOVESPA_FIELD r 19 22,
    data_geracao := BOVESPA_FIELD r 23 30,
    total_registros := BOVESPA_FIELD r 31 39 }

/-- Copy the fields of the register to the header structure, by file type. -/
def copy_header (file_type : Nat) (r : List Char) (h : bovespa_header_register) :
    bovespa_header_register :=
  if file_type = BOVESPA_FILE_TYPE_HIST then HIST_HEADER_REGISTER r h
  else BDIN_HEADER_REGISTER r h

/-- Copy the fields of the register to the quote structure, by file type. -/
def copy_quote (file_type : Nat) (r : List Char) (q : bovespa_quote_register) :
    bovespa_quote_register :=
  if file_type = BOVESPA_FILE_TYPE_HIST then HIST_QUOTE_REGISTER r q
  else BDIN_QUOTE_REGISTER r q

/-- Copy the fields of the register to the trailer structure, by file type. -/
def copy_trailer (file_type : Nat) (r : List Char) (t : bovespa_trailer_register) :
    bovespa_trailer_register :=
  if file_type = BOVESPA_FILE_TYPE_HIST then HIST_TRAILER_REGISTER r t
  else BDIN_TRAILER_REGISTER r t

/-- The field mapper as main binds it on the first register, read at the time of a call: for
HIST every name points into the quote register; for BDIN the trading date points into the
header register and mod_ref is the constant "R$". -/
def mapper_of (file_type : Nat) (h : bovespa_header_register) (q : bovespa_quote_register) :
    bovespa_mapper :=
  if file_type = BOVESPA_FILE_TYPE_HIST then
    { ano_pregao := q.ano_pregao, mes_pregao := q.mes_pregao, dia_pregao := q.dia_pregao,
      cod_bdi := q.cod_bdi, cod_neg := q.cod_neg, tp_merc := q.tp_merc, nom_res := q.nom_res,
      especi := q.especi, mod_ref := q.mod_ref, pre_abe := q.pre_abe, pre_max := q.pre_max,
      pre_min := q.pre_min, pre_med := q.pre_med, pre_ult := q.pre_ult, tot_neg := q.tot_neg,
      qua_tot := q.qua_tot, vol_tot := q.vol_tot, fat_cot := q.fat_cot, cod_isi := q.cod_isi }
  else
    { ano_pregao := h.ano_pregao, mes_pregao := h.mes_pregao, dia_pregao := h.dia_pregao,
      cod_bdi := q.cod_bdi, cod_neg := q.cod_neg, tp_merc := q.tp_merc, nom_res := q.nom_res,
      especi := q.especi, mod_ref := "R$".toList, pre_abe := q.pre_abe, pre_max := q.pre_max,
      pre_min := q.pre_min, pre_med := q.pre_med, pre_ult := q.pre_ult, tot_neg := q.tot_neg,
      qua_tot := q.qua_tot, vol_tot := q.vol_tot, fat_cot := q.fat_cot, cod_isi := q.cod_isi }

/-- The mapper that main hands to quotes_list_append for the quote register `line` read in
state `s`. -/
def quote_mapper (s : import_state) (line : List Char) : bovespa_mapper :=
  mapper_of s.file_type s.header_register
    (copy_quote s.file_type (fgets s.bovespa_register line) s.quote_register)

/-- The MATCH_TRAILER_FIELD checks of one file type, in source order: true when none fails. -/
def MATCH_TRAILER_FIELDS (file_type : Nat) (h : bovespa_header_register)
    (t : bovespa_trailer_register) : Bool :=
  if file_type = BOVESPA_FILE_TYPE_HIST then
    strcmp h.nome_arquivo t.nome_arquivo == 0
      && strcmp h.codigo_origem t.codigo_origem == 0
      && strcmp h.data_geracao t.data_geracao == 0
  else
    strcmp h.nome_arquivo t.nome_arquivo == 0
      && strcmp h.codigo_origem t.codigo_origem == 0
      && strcmp h.codigo_destino t.codigo_destino == 0
      && strcmp h.data_geracao t.data_geracao == 0

/-- The VERIFY_REGISTER_COUNT check: `none` when it passes.  The variable aux_ul is an
unsigned int. -/
def VERIFY_REGISTER_COUNT (register_count : Nat) (total_registros : List Char) :
    Option import_failure :=
  let r := strtoul total_registros
  let aux_ul := ulong_to_uint r.1
  if r.2 ≠ [] then some .cannot_verify_register_count
  else if register_count ≠ aux_ul then some .register_count_mismatch
  else none

/-- One pass of the `while (fgets ...)` loop of main, on the register `line`. -/
def register_step (s : import_state) (line : List Char) : Except import_failure import_state :=
  let bovespa_register := fgets s.bovespa_register line
  let first : Except import_failure Nat :=
    if s.register_count = 0 then
      match discover_file_type bovespa_register with
      | none => .error .cannot_discover_file_type
      | some file_type =>
        if file_type = BOVESPA_FILE_TYPE_HIST ∨ file_type = BOVESPA_FILE_TYPE_BDIN then
          .ok file_type
        else .error .unknown_file_type
    else .ok s.file_type
  match first with
  | .error e => .error e
  | .ok file_type =>
    let register_count := s.register_count + 1
    match discover_register_type file_type bovespa_register with
    | none => .error .cannot_discover_register_type
    | some register_type =>
      let s1 : import_state :=
        { s with bovespa_register := bovespa_register, file_type := file_type,
                 register_count := register_count }
      if s.file_section = BOVESPA_FILE_SECTION_HEADER then
        if register_type ≠ BOVESPA_FILE_SECTION_HEADER then .error .missing_header_register
        else if file_type = BOVESPA_FILE_TYPE_HIST ∨ file_type = BOVESPA_FILE_TYPE_BDIN then
          let header_register := copy_header file_type bovespa_register s.header_register
          if strcmp header_register.codigo_origem "BOVESPA".toList ≠ 0 then
            .error .heading_garbage
          else .ok { s1 with header_register := header_register,
                             file_section := BOVESPA_FILE_SECTION_QUOTES }
        else .error .unknown_file_type
      else if s.file_section = BOVESPA_FILE_SECTION_QUOTES then
        if register_type = BOVESPA_FILE_SECTION_HEADER then .error .duplicate_header_register
        else if register_type = BOVESPA_FILE_SECTION_QUOTES then
          if file_type = BOVESPA_FILE_TYPE_HIST ∨ file_type = BOVESPA_FILE_TYPE_BDIN then
            let quote_register := copy_quote file_type bovespa_register s.quote_register
            let r := quotes_list_append (mapper_of file_type s.header_register quote_register)
              s.quotes_list
            if r.1 < 0 then .error .cannot_append_quote
            else .ok { s1 with quote_register := quote_register,
                               quotes_list := r.2,
                               quotes_list_count :=
                                 if r.1 = 0 then s.quotes_list_count + 1
                                 else s.quotes_list_count }
          else .error .unknown_file_type
        else if register_type = BOVESPA_FILE_SECTION_OTHER then .ok s1
        else if register_type = BOVESPA_FILE_SECTION_TRAILER then
          if file_type = BOVESPA_FILE_TYPE_HIST ∨ file_type = BOVESPA_FILE_TYPE_BDIN then
            let trailer_register := copy_trailer file_type bovespa_register s.trailer_register
            if ¬ MATCH_TRAILER_FIELDS file_type s.header_register trailer_register then
              .error .trailer_field_mismatch
            else
              match VERIFY_REGISTER_COUNT register_count trailer_register.total_registros with
              | some e => .error e
              | none => .ok { s1 with trailer_register := trailer_register,
                                      file_section := BOVESPA_FILE_SECTION_TRAILER }
          else .error .unknown_file_type
        else .ok s1
      else if s.file_section = BOVESPA_FILE_SECTION_TRAILER then .error .trailing_garbage
      else .error .unknown_register_type

/-- The whole `while (fgets ...)` loop, over the lines that stdin delivers. -/
def register_loop : import_state → List (List Char) → Except import_failure import_state
  | s, [] => .ok s
  | s, line :: rest =>
    match register_step s line with
    | .error e => .error e
    | .ok s1 => register_loop s1 rest

/-- The variables of main when the register loop is entered; `stack` is the content of the
register buffer, which main does not set. -/
def initial_state (stack : List Char) : import_state :=
  { bovespa_register := stack,
    file_type := 0,
    file_section := BOVESPA_FILE_SECTION_HEADER,
    register_count := 0,
    header_register := ⟨[], [], [], [], [], [], [], []⟩,
    quote_register := ⟨[], [], [], [], [], [], [], [], [], [], [], [], [], [], [], [], [], [], []⟩,
    trailer_register := ⟨[], [], [], [], []⟩,
    quotes_list := [],
    quotes_list_count := 0 }

/-- The file section in which the register loop is after reading `stdin`; `none` when the
loop has failed. -/
def section_reached (stack : List Char) (stdin : List (List Char)) : Option Nat :=
  match register_loop (initial_state stack) stdin with
  | .ok s => some s.file_section
  | .error _ => none

/-- The variables of main after the register loop has read `stdin` (the initial ones when the
loop has failed). -/
def state_reached (stack : List Char) (stdin : List (List Char)) : import_state :=
  match register_loop (initial_state stack) stdin with
  | .ok s => s
  | .error _ => initial_state stack

/-! ## The database directory -/

/-- Content of a file of the database directory: text (the revision marker) or the dump of a
stock history. -/
inductive db_file where
  | text (content : List Char)
  | stock (history : pfish_bovespa_stock_history)
deriving DecidableEq

/-- The database directory DBPATH: the files in it, by name. -/
abbrev database := List (List Char × db_file)

def db_lookup (db : database) (name : List Char) : Option db_file :=
  match db with
  | [] => none
  | (n, f) :: rest => if n = name then some f else db_lookup rest name

def db_unlink (db : database) (name : List Char) : database :=
  db.filter (fun e => e.1 ≠ name)

def db_write (db : database) (name : List Char) (f : db_file) : database :=
  (name, f) :: db_unlink db name

def REVISION_MARKER_NAME : List Char := ".revision_marker".toList
def STOCK_TEMP_NAME : List Char := ".stock.tmp".toList

/-! ### Pathnames and system calls on the database directory -/

/-- The error numbers that the calls on the database directory give. -/
inductive errno where
  | ENOENT
  | ENOTDIR
  | EISDIR
  | ENODEV
  | EINVAL
  | EBUSY
  | ENAMETOOLONG
deriving DecidableEq

def PATH_MAX : Nat := 4096
def NAME_MAX : Nat := 255

/-- The database path.  DBPATH comes from the build configuration (config.h), which is not part
of the sources; this value stands for it.  Only its length is used, in the tests against
PATH_MAX. -/
def DBPATH : List Char := "/var/lib/pfish_bovespa".toList

/-- What the pathname DBPATH/name names: a place for a file, given by its key in the database
(the name itself for an entry of the directory, the name after as many `../` as directories were
left for a file of a directory above), a directory (DBPATH itself or a directory above it), or
nothing, with the error of the pathname resolution. -/
inductive db_path where
  | file (key : List Char)
  | directory
  | error (e : errno)
deriving DecidableEq

/-- The components of a pathname: what lies between its slashes. -/
def path_components : List Char → List (List Char)
  | [] => [[]]
  | c :: cs =>
    if c = '/' then [] :: path_components cs
    else
      match path_components cs with
      | [] => [[c]]
      | x :: xs => (c :: x) :: xs

/-- Pathname resolution, component by component, from the directory `up` levels above DBPATH.
An empty component and `.` stay in the directory, `..` goes one level up.  The database
directory holds regular files only, and no directory is known by its name: a name that is not the
last component gives ENOTDIR when a file has it, and ENOENT otherwise. -/
def db_walk (db : database) : Nat → List (List Char) → db_path
  | _, [] => .directory
  | up, c :: rest =>
    if c = [] ∨ c = ".".toList then db_walk db up rest
    else if c = "..".toList then db_walk db (up + 1) rest
    else if c.length > NAME_MAX then .error .ENAMETOOLONG
    else
      let key := (List.replicate up "../".toList).flatten ++ c
      if rest = [] then .file key
      else
        match db_lookup db key with
        | some _ => .error .ENOTDIR
        | none => .error .ENOENT

/-- What the pathname DBPATH/name names. -/
def db_resolve (db : database) (name : List Char) : db_path :=
  db_walk db 0 (path_components name)

/-- The call open (DBPATH/name, O_RDONLY | O_EXCL): the file that the descriptor refers to,
`none` for a directory, which open accepts for reading. -/
def sys_open (db : database) (name : List Char) : Except errno (Option db_file) :=
  match db_resolve db name with
  | .error e => .error e
  | .directory => .ok none
  | .file key =>
    match db_lookup db key with
    | none => .error .ENOENT
    | some f => .ok (some f)

/-- Size in bytes of the dump of a daily quote (LP64: a time_t, 11 characters padded to 16 bytes,
nine 64 bit integers). -/
def DAILY_QUOTE_SIZE : Nat := 96

/-- The call fstat on an open descriptor: st_size.  It does not fail on a descriptor that open
has just returned. -/
def sys_fstat (stock_file_des : Option db_file) : Except errno Nat :=
  match stock_file_des with
  | none => .ok 4096
  | some (.text content) => .ok content.length
  | some (.stock h) => .ok (16 + DAILY_QUOTE_SIZE * h.daily_quotes.length)

/-- The unsigned integer that the bytes hold, least significant byte first. -/
def le_value : List Char → Nat
  | [] => 0
  | c :: cs => c.toNat % 256 + 256 * le_value cs

/-- The integer of `size` bytes at `offset`; bytes past the end of the file read as zero, as in
the last page of a mapping. -/
def le_field (bytes : List Char) (offset size : Nat) : Nat :=
  le_value ((bytes.drop offset).take size)

/-- The daily quote that the 96 bytes of a record hold. -/
def mapped_quote (r : List Char) : pfish_bovespa_daily_quote :=
  { trading_date :=
      if le_field r 0 8 < 2 ^ 63 then (le_field r 0 8 : Int) else (le_field r 0 8 : Int) - 2 ^ 64,
    stock_spec := cstr ((r.drop 8).take 11),
    price_factor := le_field r 24 8,
    opening_price := le_field r 32 8,
    closing_price := le_field r 40 8,
    minimum_price := le_field r 48 8,
    maximum_price := le_field r 56 8,
    average_price := le_field r 64 8,
    total_trades := le_field r 72 8,
    total_stocks := le_field r 80 8,
    total_volume := le_field r 88 8 }

/-- The stock history that a mapped file holds when the file is not the dump of one: the bytes
read in the layout of pfish_bovespa_stock_history_t, with the records that the file holds in
full or in part. -/
def mapped_history (content : List Char) : pfish_bovespa_stock_history :=
  { daily_quotes_size := le_field content 0 8,
    last_xplit := le_field content 8 8,
    daily_quotes :=
      (List.range ((content.length - 16 + (DAILY_QUOTE_SIZE - 1)) / DAILY_QUOTE_SIZE)).map
        (fun i => mapped_quote ((content.drop (16 + DAILY_QUOTE_SIZE * i)).take DAILY_QUOTE_SIZE)) }

/-- The call mmap (NULL, length, PROT_READ, MAP_PRIVATE, fd, 0): a directory cannot be mapped
(ENODEV) and a length of zero is refused (EINVAL); otherwise the answer is the content of the
file, read as a stock history. -/
def sys_mmap (length : Nat) (stock_file_des : Option db_file) :
    Except errno pfish_bovespa_stock_history :=
  match stock_file_des with
  | none => .error .ENODEV
  | some f =>
    if length = 0 then .error .EINVAL
    else
      match f with
      | .stock h => .ok h
      | .text content => .ok (mapped_history content)

/-- The call unlink (DBPATH/name). -/
def sys_unlink (db : database) (name : List Char) : Except errno database :=
  match db_resolve db name with
  | .error e => .error e
  | .directory => .error .EISDIR
  | .file key =>
    match db_lookup db key with
    | none => .error .ENOENT
    | some _ => .ok (db_unlink db key)

/-- The call rename (DBPATH/old, DBPATH/new).  Both pathnames are resolved first; a directory
cannot be moved or replaced here (EBUSY); a missing `old` gives ENOENT; otherwise `new` is
replaced by `old`, and nothing happens when both name the same file. -/
def sys_rename (db : database) (old new : List Char) : Except errno database :=
  match db_resolve db old with
  | .error e => .error e
  | .directory =>
    match db_resolve db new with
    | .error e => .error e
    | _ => .error .EBUSY
  | .file old_key =>
    match db_resolve db new with
    | .error e => .error e
    | .directory => .error .EBUSY
    | .file new_key =>
      match db_lookup db old_key with
      | none => .error .ENOENT
      | some f =>
        if old_key = new_key then .ok db else .ok (db_write (db_unlink db old_key) new_key f)

/-- The calls fopen (DBPATH/name, "w"), fwrite of the content and fclose: the file is created or
replaced. -/
def sys_fopen_w (db : database) (name : List Char) (f : db_file) : Except errno database :=
  match db_resolve db name with
  | .error e => .error e
  | .directory => .error .EISDIR
  | .file key => .ok (db_write db key f)

/-- The switch on errno after an unlink or a rename that main allows to find nothing: ENOENT
leaves the directory as it was and lets the run go on, any other error ends it (`none`). -/
def pass_ENOENT (db : database) (r : Except errno database) : Option database :=
  match r with
  | .ok db1 => some db1
  | .error .ENOENT => some db
  | .error _ => none


def pfish_bovespa_revision_marker_content_alloc (info : pfish_bovespa_library_info) :
    List Char :=
  cstr info.build_date ++ [Char.ofNat 10] ++ cstr info.build_time ++ [Char.ofNat 10]
    ++ cstr info.compiler_version ++ [Char.ofNat 10]

/-- Check the validity of the database revision marker: 0 if valid, negative otherwise. -/
def pfish_bovespa_revision_marker_check (info : pfish_bovespa_library_info) (db : database) :
    Int :=
  match db_lookup db REVISION_MARKER_NAME with
  | some (.text current_content) =>
    let expected_content := pfish_bovespa_revision_marker_content_alloc info
    let content_size := expected_content.length
    if current_content.length < content_size then -1
    else if current_content.take content_size ≠ expected_content then -1
    else 0
  | _ => -1

/-- Stock history allocator: `none` is the negative return, `some none` the success with a NULL
answer (open has found no file: ENOENT), `some (some h)` the success with the mapped file. -/
def pfish_bovespa_stock_history_alloc (info : pfish_bovespa_library_info) (db : database)
    (stock_id : List Char) : Option (Option pfish_bovespa_stock_history) :=
  if pfish_bovespa_revision_marker_check info db < 0 then none
  else if DBPATH.length + 1 + (cstr stock_id).length ≥ PATH_MAX then none
  else
    match sys_open db (cstr stock_id) with
    | .error .ENOENT => some none
    | .error _ => none
    | .ok stock_file_des =>
      match sys_fstat stock_file_des with
      | .error _ => none
      | .ok st_size =>
        match sys_mmap st_size stock_file_des with
        | .error _ => none
        | .ok answer => some (some answer)

/-! ## The rest of main: sort, per-stock merge, persistence -/

/-- The call qsort (quotes_array, ..., compare_quote_nodes).  The C library leaves the relative
order of elements that compare equal unspecified; here they keep their input order. -/
def qsort (quotes_array : List quote_node) : List quote_node :=
  quotes_array.insertionSort (fun a b => compare_quote_nodes a b ≤ 0)

/-- The file operations of main for one stock, in order: the temporary file written, the stale
backup removed, the official file renamed to the backup, the temporary file renamed to the
official name, the backup removed.  The result is the database directory after each operation
that was carried out, and the failure exit taken, if any. -/
def write_sequence (db : database) (current_stock_id : List Char)
    (h : pfish_bovespa_stock_history) : List database × Option import_failure :=
  match sys_fopen_w db STOCK_TEMP_NAME (.stock h) with
  | .error _ => ([], some .cannot_open_temporary_file)
  | .ok db1 =>
    if DBPATH.length + 1 + (cstr current_stock_id).length ≥ PATH_MAX then
      ([db1], some .cannot_build_pathname)
    else if DBPATH.length + 2 + (cstr current_stock_id).length ≥ PATH_MAX then
      ([db1], some .cannot_build_backup_pathname)
    else
      let stock_pathname := cstr current_stock_id
      let stock_backup_pathname := '.' :: cstr current_stock_id
      match pass_ENOENT db1 (sys_unlink db1 stock_backup_pathname) with
      | none => ([db1], some .cannot_erase_backup)
      | some db2 =>
        match pass_ENOENT db2 (sys_rename db2 stock_pathname stock_backup_pathname) with
        | none => ([db1, db2], some .cannot_move_to_backup)
        | some db3 =>
          match sys_rename db3 STOCK_TEMP_NAME stock_pathname with
          | .error _ => ([db1, db2, db3], some .cannot_move_temporary_file)
          | .ok db4 =>
            match pass_ENOENT db4 (sys_unlink db4 stock_backup_pathname) with
            | none => ([db1, db2, db3, db4], some .cannot_erase_backup)
            | some db5 => ([db1, db2, db3, db4, db5], none)

/-- The file operations that build the stock file under its temporary name and make it
official: the failure exit taken, if any, and the database directory that they leave. -/
def promote_stock_file (db : database) (current_stock_id : List Char)
    (h : pfish_bovespa_stock_history) : Option import_failure × database :=
  ((write_sequence db current_stock_id h).2, (write_sequence db current_stock_id h).1.getLastD db)

/-- The loop of main over the sorted quotes array, from the element at quotes_index (the head
of the list) on.  The result is the failure, if any, stock_count and the database directory. -/
def stock_loop (info : pfish_bovespa_library_info) :
    List quote_node → List Char → Nat → database → Option import_failure × Nat × database
  | [], _, stock_count, db => (none, stock_count, db)
  | node :: rest, current_stock_id, stock_count, db =>
    if node.stock ≠ current_stock_id then
      let current_stock_id := node.stock
      let stock_count := stock_count + 1
      let quote_history_size :=
        1 + (rest.takeWhile (fun n => n.stock = current_stock_id)).length
      let new_daily_quotes := ((node :: rest).take quote_history_size).map (fun n => n.quote)
      match pfish_bovespa_stock_history_alloc info db node.stock with
      | none => (some .cannot_retrieve_history, stock_count, db)
      | some database_stock_history =>
        let merged_daily_quotes :=
          match database_stock_history with
          | some h =>
            merge_daily_quotes (fun q => q.trading_date)
              (h.daily_quotes.take h.daily_quotes_size) new_daily_quotes
          | none => new_daily_quotes
        match detect_last_xplit merged_daily_quotes with
        | none => (some .cannot_match_xplit, stock_count, db)
        | some last_xplit =>
          let history : pfish_bovespa_stock_history :=
            { daily_quotes_size := merged_daily_quotes.length,
              last_xplit := last_xplit,
              daily_quotes := merged_daily_quotes }
          match promote_stock_file db current_stock_id history with
          | (some e, db1) => (some e, stock_count, db1)
          | (none, db1) => stock_loop info rest current_stock_id stock_count db1
    else stock_loop info rest current_stock_id stock_count db

def EXIT_SUCCESS : Nat := 0
def EXIT_FAILURE : Nat := 1

/-- What a run of the importer leaves: its exit status, the failure exit taken, if any, and
the database directory. -/
structure import_result where
  exit_status : Nat
  failure : Option import_failure
  db : database
deriving DecidableEq

/-- The main function of file_import.c. -/
def file_import_main (info : pfish_bovespa_library_info) (db : database) (stack : List Char)
    (stdin : List (List Char)) : import_result :=
  match register_loop (initial_state stack) stdin with
  | .error e => { exit_status := EXIT_FAILURE, failure := some e, db := db }
  | .ok s =>
    let quotes_array := qsort s.quotes_list
    match stock_loop info quotes_array [] 0 db with
    | (some e, _, db1) => { exit_status := EXIT_FAILURE, failure := some e, db := db1 }
    | (none, _, db1) => { exit_status := EXIT_SUCCESS, failure := none, db := db1 }

/-! ## Properties stated in the words of the specification -/

/-- The relevance filter on the sanitized fields of a mapper. -/
def relevance_filter (mapper : bovespa_mapper) : Prop :=
  cstr mapper.tp_merc = "10".toList ∧ cstr mapper.cod_bdi = "2".toList
    ∧ cstr mapper.mod_ref = "R$".toList

instance (mapper : bovespa_mapper) : Decidable (relevance_filter mapper) := by
  unfold relevance_filter; infer_instance

/-- The identity fields of the trailer are string-equal to those of the header. -/
def trailer_fields_equal (file_type : Nat) (h : bovespa_header_register)
    (t : bovespa_trailer_register) : Prop :=
  cstr h.nome_arquivo = cstr t.nome_arquivo ∧ cstr h.codigo_origem = cstr t.codigo_origem
    ∧ cstr h.data_geracao = cstr t.data_geracao
    ∧ (file_type = BOVESPA_FILE_TYPE_BDIN → cstr h.codigo_destino = cstr t.codigo_destino)

instance (file_type : Nat) (h : bovespa_header_register) (t : bovespa_trailer_register) :
    Decidable (trailer_fields_equal file_type h t) := by
  unfold trailer_fields_equal; infer_instance

/-! ## Sample inputs -/

/-- A register buffer holding zeros. -/
def sample_stack : List Char := List.replicate (BOVESPA_REGISTER_LENGTH + 2) NUL

def sample_info : pfish_bovespa_library_info :=
  ⟨"Jan  1 2024".toList, "00:00:00".toList, "13.2.0".toList⟩

/-- A database directory that holds a valid revision marker and nothing else. -/
def sample_db : database :=
  [(REVISION_MARKER_NAME,
    .text (pfish_bovespa_revision_marker_content_alloc sample_info))]

def sample_hist_header : List Char := "00COTAHIST.2024BOVESPA 20240103\n".toList

/-- A HIST quote register (245 columns): PETR4, cash market, standard lot, 2024-01-02. -/
def sample_hist_quote : List Char :=
  ("012024010202PETR4       010PETROBRAS   PN      N2   R$  "
    ++ "0000000003700" ++ "0000000003800" ++ "0000000003600" ++ "0000000003700"
    ++ "0000000003750" ++ "0000000003750" ++ "0000000003751"
    ++ "00100" ++ "000000000000123456" ++ "000000000456789012"
    ++ "0000000000000" ++ "0" ++ "99991231" ++ "0000001" ++ "0000000000000"
    ++ "BRPETRACNPR6" ++ "100" ++ "\n").toList

/-- The same register in the fractional market (tp_merc 020), which the importer ignores. -/
def sample_hist_quote_fractional : List Char :=
  ("012024010202PETR4F      020PETROBRAS   PN      N2   R$  "
    ++ "0000000003700" ++ "0000000003800" ++ "0000000003600" ++ "0000000003700"
    ++ "0000000003750" ++ "0000000003750" ++ "0000000003751"
    ++ "00100" ++ "000000000000123456" ++ "000000000456789012"
    ++ "0000000000000" ++ "0" ++ "99991231" ++ "0000001" ++ "0000000000000"
    ++ "BRPETRACNPR6" ++ "100" ++ "\n").toList

/-- A HIST trailer that declares 2 registers. -/
def sample_hist_trailer_2 : List Char :=
  "99COTAHIST.2024BOVESPA 2024010300000000002\n".toList

/-- A HIST trailer that declares 4294967298 registers. -/
def sample_hist_trailer_big : List Char :=
  "99COTAHIST.2024BOVESPA 2024010304294967298\n".toList

/-- A HIST trailer whose generation date differs from the one of the sample header. -/
def sample_hist_trailer_other_date : List Char :=
  "99COTAHIST.2024BOVESPA 2024010400000000002\n".toList

def sample_quote (date : Int) (spec : String) (price : Nat) : pfish_bovespa_daily_quote :=
  { trading_date := date, stock_spec := spec.toList, price_factor := 1,
    opening_price := price, closing_price := price, minimum_price := price,
    maximum_price := price, average_price := price, total_trades := 1,
    total_stocks := 1, total_volume := price }

/-- An on-disk series: 2024-01-01 and 2024-01-02 (noon UTC). -/
def sample_A : List pfish_bovespa_daily_quote :=
  [sample_quote 1704110400 "ON" 1000, sample_quote 1704196800 "ON" 1010]

/-- A new batch: 2024-01-02 again, with another price, and 2024-01-03. -/
def sample_B : List pfish_bovespa_daily_quote :=
  [sample_quote 1704196800 "ON" 1015, sample_quote 1704283200 "ON EB" 510]

/-! ### Field sanitation, stated on lists -/

/-- The list without its trailing spaces. -/
def rstrip_spaces (l : List Char) : List Char :=
  (l.reverse.dropWhile (fun c => c == ' ')).reverse

/-- Every run of consecutive spaces replaced by a single space. -/
def collapse_spaces : List Char → List Char
  | [] => []
  | [c] => [c]
  | c :: d :: rest =>
    if c = ' ' ∧ d = ' ' then collapse_spaces (d :: rest) else c :: collapse_spaces (d :: rest)

/-- No two adjacent elements are both spaces. -/
def no_adjacent_spaces (l : List Char) : Prop :=
  List.Chain' (fun a b => ¬ (a = ' ' ∧ b = ' ')) l

instance (l : List Char) : Decidable (no_adjacent_spaces l) := by
  unfold no_adjacent_spaces; infer_instance

/-! ### Observers of the register loop -/

/-- The characters that strtol and strtoul leave unread: the C string at endptr. -/
def unread_rest (field : List Char) : List Char :=
  match scan_number (cstr field) with
  | none => cstr field
  | some (_, _, rest) => rest

/-- The date and numeric fields that quotes_list_append converts, in the order of conversion. -/
def numeric_fields (m : bovespa_mapper) : List (List Char) :=
  [m.dia_pregao, m.mes_pregao, m.ano_pregao, m.pre_abe, m.pre_max, m.pre_min, m.pre_med,
    m.pre_ult, m.tot_neg, m.qua_tot, m.vol_tot, m.fat_cot]

/-- The trading date that quotes_list_append builds from the day, month and year fields. -/
def trading_date_of (dia_pregao mes_pregao ano_pregao : List Char) : Int :=
  timegm
    { tm_sec := 0, tm_min := 0, tm_hour := 12,
      tm_mday := long_to_int (strtol dia_pregao).1,
      tm_mon := long_to_int (strtol mes_pregao).1 - 1,
      tm_year := long_to_int (strtol ano_pregao).1 - 1900 }

/-- The node that quotes_list_append builds from a mapper whose fields all convert. -/
def quote_node_of (m : bovespa_mapper) : quote_node :=
  { stock := cstr m.cod_neg,
    quote :=
      { trading_date := trading_date_of m.dia_pregao m.mes_pregao m.ano_pregao,
        stock_spec := cstr m.especi,
        price_factor := (strtoul m.fat_cot).1,
        opening_price := (strtoul m.pre_abe).1,
        closing_price := (strtoul m.pre_ult).1,
        minimum_price := (strtoul m.pre_min).1,
        maximum_price := (strtoul m.pre_max).1,
        average_price := (strtoul m.pre_med).1,
        total_trades := (strtoul m.tot_neg).1,
        total_stocks := (strtoul m.qua_tot).1,
        total_volume := (strtoul m.vol_tot).1 } }

/-- What a register that the loop consumes turns out to be. -/
inductive register_kind where
  | header
  | emitted
  | ignored
  | other
  | trailer
deriving DecidableEq

/-- The kind of the register that takes the loop from state s to state s1: the register read in
state HEADER is the header; afterwards the type code decides, a quote register being emitted
when it raised the count of emitted quotes and ignored otherwise. -/
def consumed_kind (s s1 : import_state) : register_kind :=
  if s.file_section = BOVESPA_FILE_SECTION_HEADER then .header
  else if discover_register_type s1.file_type s1.bovespa_register
      = some BOVESPA_FILE_SECTION_QUOTES then
    (if s1.quotes_list_count = s.quotes_list_count + 1 then .emitted else .ignored)
  else if discover_register_type s1.file_type s1.bovespa_register
      = some BOVESPA_FILE_SECTION_TRAILER then .trailer
  else .other

/-- The kinds of the registers that the loop consumes, in input order, up to its first
failure. -/
def register_kinds : import_state → List (List Char) → List register_kind
  | _, [] => []
  | s, line :: rest =>
    match register_step s line with
    | .error _ => []
    | .ok s1 => consumed_kind s s1 :: register_kinds s1 rest

/-- The facts that the loop keeps from a state in section QUOTES on. -/
def quotes_phase (s s1 : import_state) (xs : List (List Char)) : Prop :=
  s1.file_type = s.file_type ∧ s1.header_register = s.header_register ∧
  s1.register_count = s.register_count + xs.length ∧
  (register_kinds s xs).length = xs.length ∧
  (register_kinds s xs).count .header = 0 ∧
  s1.quotes_list_count = s.quotes_list_count + (register_kinds s xs).count .emitted ∧
  s1.quotes_list.length = s.quotes_list.length + (register_kinds s xs).count .emitted ∧
  ((s1.file_section = BOVESPA_FILE_SECTION_QUOTES ∧ (register_kinds s xs).count .trailer = 0) ∨
    (s1.file_section = BOVESPA_FILE_SECTION_TRAILER ∧ (register_kinds s xs).count .trailer = 1 ∧
      VERIFY_REGISTER_COUNT s1.register_count s1.trailer_register.total_registros = none)) ∧
  (s.file_type = BOVESPA_FILE_TYPE_HIST → (register_kinds s xs).count .other = 0) ∧
  (s.file_type = BOVESPA_FILE_TYPE_BDIN → ∀ n ∈ s1.quotes_list,
    n ∈ s.quotes_list ∨
      n.quote.trading_date = trading_date_of s.header_register.dia_pregao
        s.header_register.mes_pregao s.header_register.ano_pregao)

/-! ### Sample BDIN registers -/

def blanks (n : Nat) : String := String.mk (List.replicate n ' ')

def sample_bdin_header : List Char :=
  ("00" ++ "BDIN9999" ++ "BOVESPA " ++ "9999" ++ "20240103" ++ "2024" ++ "01" ++ "02"
    ++ "1830" ++ "\n").toList

/-- A BDIN quote register (277 columns): PETR4, cash market, standard lot. -/
def sample_bdin_quote : List Char :=
  ("02" ++ "02" ++ blanks 30 ++ "PETROBRAS   " ++ "PN      N2" ++ " " ++ "PETR4       "
    ++ "010" ++ blanks 18
    ++ "00000003700" ++ "00000003800" ++ "00000003600" ++ "00000003700" ++ "00000003750"
    ++ blanks 28 ++ "00100" ++ "000000000123456" ++ "00000000456789012"
    ++ blanks 35 ++ "0000001" ++ blanks 13 ++ "BRPETRACNPR6" ++ "\n").toList

/-- A BDIN register of type 01, which the importer passes over. -/
def sample_bdin_other : List Char := "01IBOVESPA  0000012345\n".toList

/-- A BDIN trailer that declares 3 registers. -/
def sample_bdin_trailer_3 : List Char :=
  ("99" ++ "BDIN9999" ++ "BOVESPA " ++ "9999" ++ "20240103" ++ "000000003" ++ "\n").toList

/-- A HIST quote register whose opening price holds a letter after its digits. -/
def sample_hist_quote_malformed : List Char :=
  ("012024010202PETR4       010PETROBRAS   PN      N2   R$  "
    ++ "00000000037x0" ++ "0000000003800" ++ "0000000003600" ++ "0000000003700"
    ++ "0000000003750" ++ "0000000003750" ++ "0000000003751"
    ++ "00100" ++ "000000000000123456" ++ "000000000456789012"
    ++ "0000000000000" ++ "0" ++ "99991231" ++ "0000001" ++ "0000000000000"
    ++ "BRPETRACNPR6" ++ "100" ++ "\n").toList

/-! ### C library: gmtime and strftime -/

/-- The civil date (year, month 1..12, day) of a count of days since 1970-01-01. -/
def civil_from_days (days : Int) : Int × Int × Int :=
  let z := days + 719468
  let era := z / 146097
  let doe := z - era * 146097
  let yoe := (doe - doe / 1460 + doe / 36524 - doe / 146096) / 365
  let y := yoe + era * 400
  let doy := doe - (365 * yoe + yoe / 4 - yoe / 100)
  let mp := (5 * doy + 2) / 153
  let d := doy - (153 * mp + 2) / 5 + 1
  let m := if mp < 10 then mp + 3 else mp - 9
  (if m ≤ 2 then y + 1 else y, m, d)

/-- A leap year of the Gregorian calendar. -/
def is_leap_year (y : Int) : Prop := y % 4 = 0 ∧ (y % 100 ≠ 0 ∨ y % 400 = 0)

instance (y : Int) : Decidable (is_leap_year y) := by unfold is_leap_year; infer_instance

/-- The number of days of month m (1..12) of year y. -/
def days_in_month (y m : Int) : Int :=
  if m = 2 then (if is_leap_year y then 29 else 28)
  else if m = 4 ∨ m = 6 ∨ m = 9 ∨ m = 11 then 30 else 31

/-- The triple is a date of the Gregorian calendar. -/
def valid_date (y m d : Int) : Prop :=
  1 ≤ m ∧ m ≤ 12 ∧ 1 ≤ d ∧ d ≤ days_in_month y m

instance (y m d : Int) : Decidable (valid_date y m d) := by unfold valid_date; infer_instance

def INT_MAX : Int := 2 ^ 31 - 1

def INT_MIN : Int := - 2 ^ 31

/-- The C library gmtime: the broken-down UTC time of a time_t; `none` is the NULL return, given
when the year does not fit an int. -/
def gmtime (timep : Int) : Option tm :=
  let days := timep / 86400
  let rem := timep % 86400
  let c := civil_from_days days
  if c.1 - 1900 < INT_MIN ∨ c.1 - 1900 > INT_MAX then none
  else
    some { tm_sec := rem % 60, tm_min := rem / 60 % 60, tm_hour := rem / 3600,
           tm_mday := c.2.2, tm_mon := c.2.1 - 1, tm_year := c.1 - 1900 }

/-- A number in decimal, padded with zeros on the left up to `width` characters. -/
def decimal_pad (width n : Nat) : List Char :=
  List.replicate (width - (Nat.toDigits 10 n).length) '0' ++ Nat.toDigits 10 n

/-- The call strftime (s, maxsize, "%F", t), that is "%Y-%m-%d": the year in decimal, the month
and the day of the month on two digits; `none` is the return 0, given when the text and its
terminator do not fit maxsize bytes. -/
def strftime_F (maxsize : Nat) (t : tm) : Option (List Char) :=
  let year := t.tm_year + 1900
  let Y := if year < 0 then '-' :: Nat.toDigits 10 year.natAbs else Nat.toDigits 10 year.toNat
  let s := Y ++ '-' :: decimal_pad 2 (t.tm_mon + 1).toNat ++ '-' :: decimal_pad 2 t.tm_mday.toNat
  if s.length + 1 > maxsize then none else some s

def DATE_BUF_SIZE : Nat := 16

/-- The date column of the stock_history export: gmtime, then strftime with "%F"; `none` when
either call fails. -/
def export_date (trading_date : Int) : Option (List Char) :=
  match gmtime trading_date with
  | none => none
  | some t => strftime_F DATE_BUF_SIZE t

/-- The text YYYY-MM-DD of a date. -/
def iso_date (y m d : Nat) : List Char :=
  [Nat.digitChar (y / 1000 % 10), Nat.digitChar (y / 100 % 10), Nat.digitChar (y / 10 % 10),
    Nat.digitChar (y % 10), '-', Nat.digitChar (m / 10 % 10), Nat.digitChar (m % 10), '-',
    Nat.digitChar (d / 10 % 10), Nat.digitChar (d % 10)]

/-- The mapper of the sample HIST quote register, read after the sample header. -/
def sample_mapper : bovespa_mapper :=
  quote_mapper (state_reached sample_stack [sample_hist_header]) sample_hist_quote

/-! ### The stock list allocator and the write sequence -/

def PFISH_BOVESPA_CODNEG_SIZE : Nat := 13

def DT_REG : Nat := 8

/-- The fields of a struct dirent that the library reads. -/
structure dirent where
  d_type : Nat
  d_name : List Char
deriving DecidableEq

/-- The scandir filter of pfish_bovespa_stock_list_alloc. -/
def pfish_bovespa_stock_list_alloc_selector (d : dirent) : Int :=
  if d.d_type ≠ DT_REG then 0
  else if d.d_name.getD 0 NUL = '.' then 0
  else 1

/-- The C library alphasort (strcoll on the names); no program of the package calls setlocale,
so the collation is the one of strcmp. -/
def alphasort (a b : dirent) : Int := strcmp a.d_name b.d_name

/-- The C library scandir on the entries `dir` of a directory: the entries that the filter
accepts, sorted with the comparison function. -/
def scandir (dir : List dirent) (filter : dirent → Int) (compar : dirent → dirent → Int) :
    List dirent :=
  (dir.filter (fun d => filter d ≠ 0)).insertionSort (fun a b => compar a b ≤ 0)

/-- The answer of the stock list allocator: stock_list_size and the bytes of the array
stock_list, PFISH_BOVESPA_CODNEG_SIZE for each element. -/
structure pfish_bovespa_stock_list where
  stock_list_size : Nat
  stock_list : List Char
deriving DecidableEq

/-- The bytes `data` stored into the array from `offset` on; `none` when the store runs past the
end of the array. -/
def store_bytes (mem : List Char) (offset : Nat) (data : List Char) : Option (List Char) :=
  if offset + data.length ≤ mem.length then
    some (mem.take offset ++ data ++ mem.drop (offset + data.length))
  else none

/-- The loop that fills the answer, from element i on: memset of the id, then strcpy of d_name,
which copies the name and its terminator whatever their length. -/
def stock_list_fill : List dirent → Nat → List Char → Option (List Char)
  | [], _, mem => some mem
  | d :: rest, i, mem =>
    match store_bytes mem (i * PFISH_BOVESPA_CODNEG_SIZE)
        (List.replicate PFISH_BOVESPA_CODNEG_SIZE NUL) with
    | none => none
    | some mem1 =>
      match store_bytes mem1 (i * PFISH_BOVESPA_CODNEG_SIZE) (cstr d.d_name ++ [NUL]) with
      | none => none
      | some mem2 => stock_list_fill rest (i + 1) mem2

/-- What pfish_bovespa_stock_list_alloc gives: NULL, the answer, or no defined result because
strcpy has written past the end of the allocated answer. -/
inductive stock_list_answer where
  | null
  | overrun
  | list (answer : pfish_bovespa_stock_list)
deriving DecidableEq

/-- Stock list allocator; `dir` is what the database directory holds when it is scanned.  The
array of ids is allocated with PFISH_BOVESPA_CODNEG_SIZE bytes for each kept entry. -/
def pfish_bovespa_stock_list_alloc (info : pfish_bovespa_library_info) (db : database)
    (dir : List dirent) : stock_list_answer :=
  if pfish_bovespa_revision_marker_check info db < 0 then .null
  else
    let namelist := scandir dir pfish_bovespa_stock_list_alloc_selector alphasort
    match stock_list_fill namelist 0
        (List.replicate (namelist.length * PFISH_BOVESPA_CODNEG_SIZE) NUL) with
    | none => .overrun
    | some stock_list => .list { stock_list_size := namelist.length, stock_list := stock_list }

/-- The C string that printf reads at stock_list[i].id; `none` when no terminator is found
before the end of the array. -/
def stock_list_id (answer : pfish_bovespa_stock_list) (i : Nat) : Option (List Char) :=
  if NUL ∈ answer.stock_list.drop (i * PFISH_BOVESPA_CODNEG_SIZE) then
    some (cstr (answer.stock_list.drop (i * PFISH_BOVESPA_CODNEG_SIZE)))
  else none

/-- The lines that the stock_list command prints for an answer: the id of each element. -/
def stock_list_export (answer : pfish_bovespa_stock_list) : List (Option (List Char)) :=
  (List.range answer.stock_list_size).map (stock_list_id answer)

/-- A database directory without revision marker. -/
def sample_stale_db : database := []

/-- The failures that main detects while it reads its input. -/
def format_errors : List import_failure :=
  [.cannot_discover_file_type, .unknown_file_type, .cannot_discover_register_type,
    .missing_header_register, .heading_garbage, .duplicate_header_register,
    .cannot_append_quote, .trailer_field_mismatch, .cannot_verify_register_count,
    .register_count_mismatch, .trailing_garbage, .unknown_register_type]

/-- A database directory with a valid revision marker and the file of stock PETR4, whose
series is sample_A. -/
def sample_db_petr4 : database :=
  ("PETR4".toList, .stock { daily_quotes_size := 2, last_xplit := 0, daily_quotes := sample_A })
    :: sample_db

/-! ### The stock_history command -/

/-- The call printf ("%s,%s,%u,%Lu,%Lu,%Lu,%Lu,%Lu,%u,%Lu,%Lu\n", ...) of the export loop.  The
two arguments printed with %u are 64 bits wide, of which %u prints the low 32. -/
def printf_row (date_buf : List Char) (QUOTE : pfish_bovespa_daily_quote) : List Char :=
  date_buf ++ ',' :: cstr QUOTE.stock_spec
    ++ ',' :: Nat.toDigits 10 (ulong_to_uint QUOTE.price_factor)
    ++ ',' :: Nat.toDigits 10 QUOTE.opening_price
    ++ ',' :: Nat.toDigits 10 QUOTE.closing_price
    ++ ',' :: Nat.toDigits 10 QUOTE.minimum_price
    ++ ',' :: Nat.toDigits 10 QUOTE.maximum_price
    ++ ',' :: Nat.toDigits 10 QUOTE.average_price
    ++ ',' :: Nat.toDigits 10 (ulong_to_uint QUOTE.total_trades)
    ++ ',' :: Nat.toDigits 10 QUOTE.total_stocks
    ++ ',' :: Nat.toDigits 10 QUOTE.total_volume
    ++ [Char.ofNat 10]

/-- One pass of the export loop on the record QUOTE, whose date column is `date` (`none` when
gmtime or strftime has failed): the failure ends the run, otherwise the row is printed and the
loop goes on with the later records. -/
def export_pass (date : Option (List Char)) (QUOTE : pfish_bovespa_daily_quote)
    (later : List (List Char) × Bool) : List (List Char) × Bool :=
  match date with
  | none => ([], false)
  | some date_buf => (printf_row date_buf QUOTE :: later.1, later.2)

/-- The export loop of the stock_history command over the records from index i on: the rows
printed, and whether the loop ran to its end (false: gmtime or strftime failed). -/
def export_loop : List pfish_bovespa_daily_quote → List (List Char) × Bool
  | [] => ([], true)
  | QUOTE :: rest => export_pass (export_date QUOTE.trading_date) QUOTE (export_loop rest)

/-- What a run of the stock_history command leaves: its exit status and the rows printed. -/
structure export_result where
  exit_status : Nat
  stdout : List (List Char)
deriving DecidableEq

/-- The main function of stock_history.c; `all` and `stock` are the parsed command line, the
file of the stock holds daily_quotes_size records. -/
def stock_history_main (info : pfish_bovespa_library_info) (db : database) (all : Nat)
    (stock : Option (List Char)) : export_result :=
  match stock with
  | none => { exit_status := EXIT_FAILURE, stdout := [] }
  | some stock =>
    if (cstr stock).length > PFISH_BOVESPA_CODNEG_SIZE - 1 then
      { exit_status := EXIT_FAILURE, stdout := [] }
    else
      match pfish_bovespa_stock_history_alloc info db stock with
      | none => { exit_status := EXIT_FAILURE, stdout := [] }
      | some none => { exit_status := EXIT_FAILURE, stdout := [] }
      | some (some stock_history) =>
        let i := if all ≠ 0 then 0 else stock_history.last_xplit
        let r := export_loop
          ((stock_history.daily_quotes.take stock_history.daily_quotes_size).drop i)
        { exit_status := if r.2 then EXIT_SUCCESS else EXIT_FAILURE, stdout := r.1 }

/-- A database directory with a valid revision marker and the file of stock PETR4, whose
series is sample_B with the split at index 1. -/
def sample_db_xplit : database :=
  ("PETR4".toList, .stock { daily_quotes_size := 2, last_xplit := 1, daily_quotes := sample_B })
    :: sample_db

/-! ### Observers of the stock loop -/

/-- The stock files that the loop of main over the sorted quotes array dumps, in the order of
writing: the stock id and the history dumped, for each pass that reaches the file operations;
the loop ends at the first pass whose file operations fail. -/
def stock_writes (info : pfish_bovespa_library_info) :
    List quote_node → List Char → database → List (List Char × pfish_bovespa_stock_history)
  | [], _, _ => []
  | node :: rest, current_stock_id, db =>
    if node.stock ≠ current_stock_id then
      let current_stock_id := node.stock
      let quote_history_size :=
        1 + (rest.takeWhile (fun n => n.stock = current_stock_id)).length
      let new_daily_quotes := ((node :: rest).take quote_history_size).map (fun n => n.quote)
      match pfish_bovespa_stock_history_alloc info db node.stock with
      | none => []
      | some database_stock_history =>
        let merged_daily_quotes :=
          match database_stock_history with
          | some h =>
            merge_daily_quotes (fun q => q.trading_date)
              (h.daily_quotes.take h.daily_quotes_size) new_daily_quotes
          | none => new_daily_quotes
        match detect_last_xplit merged_daily_quotes with
        | none => []
        | some last_xplit =>
          let history : pfish_bovespa_stock_history :=
            { daily_quotes_size := merged_daily_quotes.length,
              last_xplit := last_xplit,
              daily_quotes := merged_daily_quotes }
          (current_stock_id, history) ::
            match promote_stock_file db current_stock_id history with
            | (some _, _) => []
            | (none, db1) => stock_writes info rest current_stock_id db1
    else stock_writes info rest current_stock_id db

/-- The series that the database directory holds for a stock: the first daily_quotes_size
records of its file, nothing when it has no file. -/
def stock_series (db : database) (stock_id : List Char) : List pfish_bovespa_daily_quote :=
  match db_lookup db stock_id with
  | some (.stock h) => h.daily_quotes.take h.daily_quotes_size
  | _ => []

/-- Every stock file of the directory holds a series that is strictly ascending by date. -/
def histories_strictly_ascending (db : database) : Prop :=
  ∀ name h, db_lookup db name = some (.stock h) →
    StrictAscending (fun q : pfish_bovespa_daily_quote => q.trading_date)
      (h.daily_quotes.take h.daily_quotes_size)

/-- No two quotes of the list have the same stock and the same trading date. -/
def dates_distinct_per_stock (l : List quote_node) : Prop :=
  l.Pairwise (fun a b => ¬ (a.stock = b.stock ∧ a.quote.trading_date = b.quote.trading_date))

instance (l : List quote_node) : Decidable (dates_distinct_per_stock l) := by
  unfold dates_distinct_per_stock; infer_instance

/-- The new daily quotes of the stock found at the head of the sorted array: the quotes of the
run of nodes that carry its id. -/
def run_quotes (node : quote_node) (rest : List quote_node) :
    List pfish_bovespa_daily_quote :=
  ((node :: rest).take (1 + (rest.takeWhile (fun n => n.stock = node.stock)).length)).map
    (fun n => n.quote)

/-- The merged daily quotes of a stock: the new ones merged into its history, or the new ones
alone when it has none. -/
def merged_quotes (database_stock_history : Option pfish_bovespa_stock_history)
    (new_daily_quotes : List pfish_bovespa_daily_quote) : List pfish_bovespa_daily_quote :=
  match database_stock_history with
  | some h =>
    merge_daily_quotes (fun q => q.trading_date)
      (h.daily_quotes.take h.daily_quotes_size) new_daily_quotes
  | none => new_daily_quotes

/-- A HIST trailer that declares 3 registers. -/
def sample_hist_trailer_3 : List Char :=
  "99COTAHIST.2024BOVESPA 2024010300000000003\n".toList

/-- A HIST trailer that declares 4 registers. -/
def sample_hist_trailer_4 : List Char :=
  "99COTAHIST.2024BOVESPA 2024010300000000004\n".toList

/-! ### Definitions for the field bounds, the numbers, the pattern and the runs -/

def PFISH_BOVESPA_ESPECI_SIZE : Nat := 11

/-- A HIST quote register like sample_hist_quote, with the given cod_neg (12 columns) and pre_abe
(13 columns) fields. -/
def hist_quote_with (cod_neg pre_abe : String) : List Char :=
  ("012024010202" ++ cod_neg ++ "010PETROBRAS   PN      N2   R$  "
    ++ pre_abe ++ "0000000003800" ++ "0000000003600" ++ "0000000003700"
    ++ "0000000003750" ++ "0000000003750" ++ "0000000003751"
    ++ "00100" ++ "000000000000123456" ++ "000000000456789012"
    ++ "0000000000000" ++ "0" ++ "99991231" ++ "0000001" ++ "0000000000000"
    ++ "BRPETRACNPR6" ++ "100" ++ "\n").toList

/-- A database directory with a valid revision marker and the file of a stock whose id has 12
characters. -/
def sample_db_twelve : database :=
  ("ABCDEFGHIJKL".toList,
      .stock { daily_quotes_size := 2, last_xplit := 0, daily_quotes := sample_A })
    :: sample_db

/-- The text without one leading sign character. -/
def strip_sign : List Char → List Char
  | '-' :: u => u
  | '+' :: u => u
  | u => u

/-- A number in the sense of strtol and strtoul: optional white space, an optional sign, at least
one decimal digit, and nothing after the digits. -/
def number_text (s : List Char) : Bool :=
  !(strip_sign (skip_spaces s)).isEmpty && (strip_sign (skip_spaces s)).all isdigit

/-- The decimal value of a string of digits, in positional notation. -/
def decimal_value : List Char → Nat
  | [] => 0
  | c :: cs => (c.toNat - 48) * 10 ^ cs.length + decimal_value cs

/-- An atom of an extended regular expression: an ordinary character, the period, or a bracket
expression listing its characters. -/
inductive re_atom where
  | char (c : Char)
  | any
  | bracket (cs : List Char)

/-- The duplication symbol that follows an atom: none, `?` or `*`. -/
inductive re_dup where
  | one
  | optional
  | star

/-- Does the atom match the character. -/
def re_atom_matches : re_atom → Char → Bool
  | .char c, x => x == c
  | .any, _ => true
  | .bracket cs, x => cs.contains x

/-- An atom followed by `*`, then the continuation k: some number of characters that the atom
matches, then a text that k accepts. -/
def re_star (a : re_atom) (k : List Char → Bool) : List Char → Bool
  | [] => k []
  | c :: cs => k (c :: cs) || (re_atom_matches a c && re_star a k cs)

/-- Does the concatenation of the pieces match a prefix of the text. -/
def re_match_here : List (re_atom × re_dup) → List Char → Bool
  | [] => fun _ => true
  | (a, .one) :: ps => fun s =>
    match s with
    | [] => false
    | c :: cs => re_atom_matches a c && re_match_here ps cs
  | (a, .optional) :: ps => fun s =>
    re_match_here ps s ||
      (match s with
       | [] => false
       | c :: cs => re_atom_matches a c && re_match_here ps cs)
  | (a, .star) :: ps => re_star a (re_match_here ps)

/-- The search that regexec makes for a pattern without anchors: the pattern matches at some
position of the text, the end of the text included. -/
def re_search (p : List (re_atom × re_dup)) : List Char → Bool
  | [] => re_match_here p []
  | c :: cs => re_match_here p (c :: cs) || re_search p cs

/-- The pattern `E.?[BG] *` of XPLIT_PATTERN, piece by piece. -/
def XPLIT_PATTERN : List (re_atom × re_dup) :=
  [(.char 'E', .one), (.any, .optional), (.bracket ['B', 'G'], .one), (.char ' ', .star)]

/-- The pattern `E.?[BG]`: XPLIT_PATTERN without its trailing part. -/
def XPLIT_PATTERN_HEAD : List (re_atom × re_dup) :=
  [(.char 'E', .one), (.any, .optional), (.bracket ['B', 'G'], .one)]

/-- The text holds, at some position, an E followed at once or after exactly one character by B
or G. -/
def has_xplit_mark (s : List Char) : Prop :=
  ∃ (pre post : List Char) (x : Char), (x = 'B' ∨ x = 'G') ∧
    (s = pre ++ 'E' :: x :: post ∨ ∃ c : Char, s = pre ++ 'E' :: c :: x :: post)

/-- The dates that occur both in a record of A and in a record of B, in the order of A. -/
def common_dates {P : Type} (date : P → Int) (A B : List P) : List Int :=
  (A.map date).filter (fun d => decide (d ∈ B.map date))

/-- The runs of the loop of main over the sorted quotes array, from the element at quotes_index
(the head of the list) on: the id and the quote_history_size of every stock that the loop finds,
leaving the failure exits aside. -/
def stock_runs : List quote_node → List Char → List (List Char × Nat)
  | [], _ => []
  | node :: rest, current_stock_id =>
    if node.stock ≠ current_stock_id then
      (node.stock, 1 + (rest.takeWhile (fun n => n.stock = node.stock)).length)
        :: stock_runs rest node.stock
    else stock_runs rest current_stock_id

/-- A HIST file of four registers: the header, a quote register whose cod_neg field is made of
zeros, the quote register of PETR4, and the trailer. -/
def sample_hist_file_empty_id : List (List Char) :=
  [sample_hist_header, hist_quote_with "000000000000" "0000000003700", sample_hist_quote,
    sample_hist_trailer_4]

/-- A database directory with a valid revision marker and the file of a stock whose id is
stock.tmp, with the series sample_A. -/
def sample_db_stock_tmp : database :=
  ("stock.tmp".toList,
      .stock { daily_quotes_size := 2, last_xplit := 0, daily_quotes := sample_A })
    :: sample_db

/-- A HIST file of three registers: the header, a quote register of 2024-01-02 whose cod_neg
field is stock.tmp, and the trailer. -/
def sample_hist_file_stock_tmp : List (List Char) :=
  [sample_hist_header, hist_quote_with "stock.tmp   " "0000000003700", sample_hist_trailer_3]

instance {ε α : Type} [DecidableEq ε] [DecidableEq α] : DecidableEq (Except ε α) :=
  fun a b =>
    match a, b with
    | .error e1, .error e2 =>
      if h : e1 = e2 then isTrue (by rw [h]) else isFalse (fun c => h (Except.error.inj c))
    | .ok a1, .ok a2 =>
      if h : a1 = a2 then isTrue (by rw [h]) else isFalse (fun c => h (Except.ok.inj c))
    | .error _, .ok _ => isFalse (fun c => by cases c)
    | .ok _, .error _ => isFalse (fun c => by cases c)

/-- The daily quote that the register sample_hist_quote gives. -/
def sample_hist_daily_quote : pfish_bovespa_daily_quote :=
  { trading_date := 1704196800, stock_spec := "PN N2".toList, price_factor := 1,
    opening_price := 3700, closing_price := 3750, minimum_price := 3600,
    maximum_price := 3800, average_price := 3700, total_trades := 100,
    total_stocks := 123456, total_volume := 456789012 }

/-- A HIST quote register like sample_hist_quote, dated 0999-01-02. -/
def sample_hist_quote_year_999 : List Char :=
  ("010999010202PETR4       010PETROBRAS   PN      N2   R$  "
    ++ "0000000003700" ++ "0000000003800" ++ "0000000003600" ++ "0000000003700"
    ++ "0000000003750" ++ "0000000003750" ++ "0000000003751"
    ++ "00100" ++ "000000000000123456" ++ "000000000456789012"
    ++ "0000000000000" ++ "0" ++ "99991231" ++ "0000001" ++ "0000000000000"
    ++ "BRPETRACNPR6" ++ "100" ++ "\n").toList

/-- The mapper of the register dated 0999-01-02, read after the sample header. -/
def sample_mapper_year_999 : bovespa_mapper :=
  quote_mapper (state_reached sample_stack [sample_hist_header]) sample_hist_quote_year_999

/-- A HIST file of three registers: the header, a relevant quote register whose cod_neg is
000000000000, which gives the empty stock id, and the trailer. -/
def sample_hist_file_only_empty_id : List (List Char) :=
  [sample_hist_header, hist_quote_with "000000000000" "0000000003700", sample_hist_trailer_3]

/-- The bytes of an id that holds the name: the name, then NUL up to PFISH_BOVESPA_CODNEG_SIZE
bytes. -/
def id_bytes (name : List Char) : List Char :=
  name ++ List.replicate (PFISH_BOVESPA_CODNEG_SIZE - name.length) NUL

/-- A database directory with a regular file whose name has 16 characters, and a stock B. -/
def sample_long_name_dir : List dirent :=
  [⟨DT_REG, "AAAAAAAAAAAAAAAA".toList⟩, ⟨DT_REG, "B".toList⟩]

/-- A database directory whose last name in strcmp order has 16 characters. -/
def sample_long_last_name_dir : List dirent :=
  [⟨DT_REG, "B".toList⟩, ⟨DT_REG, "ZZZZZZZZZZZZZZZZ".toList⟩]

/-- A name that an entry of a directory can have: not empty, neither `.` nor `..`, without a
slash and not longer than NAME_MAX. -/
def plain_name (name : List Char) : Prop :=
  name ≠ [] ∧ name ≠ ".".toList ∧ name ≠ "..".toList ∧ '/' ∉ name ∧ name.length ≤ NAME_MAX

instance (name : List Char) : Decidable (plain_name name) := by
  unfold plain_name; infer_instance

/-! ## Theorems -/

/-! ### merge_daily_quotes -/

theorem merge_daily_quotes_loop_eq {P : Type} (date : P → Int) (a b : List P)
    (i j : Nat) (c : List P) :
    merge_daily_quotes_loop date a b i j c = c ++ merge_heads date (a.drop i) (b.drop j) := by
  induction i, j, c using merge_daily_quotes_loop.induct date a b with
  | case1 i j c h ha hb ih =>
    rw [merge_daily_quotes_loop, dif_pos h, dif_pos ha]
    simp only [ih]
    rw [List.drop_eq_nil_of_le ha, List.drop_eq_getElem_cons hb]
    simp only [merge_heads, List.append_assoc, List.singleton_append]
  | case2 i j c h ha hb ih =>
    rw [merge_daily_quotes_loop, dif_pos h, dif_neg ha, dif_pos hb, ih]
    have ha' : i < a.length := by omega
    rw [List.drop_eq_nil_of_le hb, List.drop_eq_getElem_cons ha']
    simp only [merge_heads, List.append_assoc, List.singleton_append]
    cases List.drop (i + 1) a <;> simp only [merge_heads]
  | case3 i j c h ha hb hlt ih =>
    rw [merge_daily_quotes_loop, dif_pos h, dif_neg ha, dif_neg hb, if_pos hlt, ih]
    have ha' : i < a.length := by omega
    have hb' : j < b.length := by omega
    rw [List.drop_eq_getElem_cons ha', List.drop_eq_getElem_cons hb']
    simp only [merge_heads, if_pos hlt, List.append_assoc, List.singleton_append]
  | case4 i j c h ha hb hlt hgt ih =>
    rw [merge_daily_quotes_loop, dif_pos h, dif_neg ha, dif_neg hb, if_neg hlt, if_pos hgt, ih]
    have ha' : i < a.length := by omega
    have hb' : j < b.length := by omega
    rw [List.drop_eq_getElem_cons ha', List.drop_eq_getElem_cons hb']
    simp only [merge_heads, if_neg hlt, if_pos hgt, List.append_assoc, List.singleton_append]
  | case5 i j c h ha hb hlt hgt ih =>
    rw [merge_daily_quotes_loop, dif_pos h, dif_neg ha, dif_neg hb, if_neg hlt, if_neg hgt, ih]
    have ha' : i < a.length := by omega
    have hb' : j < b.length := by omega
    rw [List.drop_eq_getElem_cons ha', List.drop_eq_getElem_cons hb']
    simp only [merge_heads, if_neg hlt, if_neg hgt, List.append_assoc, List.singleton_append]
  | case6 i j c h =>
    rw [merge_daily_quotes_loop, dif_neg h]
    have ha : a.length ≤ i := by omega
    have hb : b.length ≤ j := by omega
    rw [List.drop_eq_nil_of_le ha, List.drop_eq_nil_of_le hb]
    simp [merge_heads]

theorem merge_daily_quotes_eq_heads {P : Type} (date : P → Int) (a b : List P) :
    merge_daily_quotes date a b = merge_heads date a b := by
  simp [merge_daily_quotes, merge_daily_quotes_loop_eq]

theorem merge_heads_nil_right {P : Type} (date : P → Int) (a : List P) :
    merge_heads date a [] = a := by
  cases a <;> simp [merge_heads]

theorem mem_merge_heads {P : Type} (date : P → Int) (a b : List P) (z : P)
    (hz : z ∈ merge_heads date a b) : z ∈ a ∨ z ∈ b := by
  induction a, b using merge_heads.induct date with
  | case1 bs => simp [merge_heads] at hz; exact Or.inr hz
  | case2 x xs => simp [merge_heads] at hz; exact Or.inl (by simpa using hz)
  | case3 x xs y ys hlt ih =>
    simp only [merge_heads, if_pos hlt, List.mem_cons] at hz
    rcases hz with rfl | hz
    · simp
    · rcases ih hz with h | h
      · exact Or.inl (List.mem_cons_of_mem _ h)
      · exact Or.inr h
  | case4 x xs y ys hlt hgt ih =>
    simp only [merge_heads, if_neg hlt, if_pos hgt, List.mem_cons] at hz
    rcases hz with rfl | hz
    · simp
    · rcases ih hz with h | h
      · exact Or.inl h
      · exact Or.inr (List.mem_cons_of_mem _ h)
  | case5 x xs y ys hlt hgt ih =>
    simp only [merge_heads, if_neg hlt, if_neg hgt, List.mem_cons] at hz
    rcases hz with rfl | hz
    · simp
    · rcases ih hz with h | h
      · exact Or.inl (List.mem_cons_of_mem _ h)
      · exact Or.inr (List.mem_cons_of_mem _ h)

theorem mem_merge_heads_of_right {P : Type} (date : P → Int) (a b : List P) (z : P)
    (hz : z ∈ b) : z ∈ merge_heads date a b := by
  induction a, b using merge_heads.induct date with
  | case1 bs => simpa [merge_heads] using hz
  | case2 x xs => simp at hz
  | case3 x xs y ys hlt ih =>
    simp only [merge_heads, if_pos hlt]
    exact List.mem_cons_of_mem _ (ih hz)
  | case4 x xs y ys hlt hgt ih =>
    simp only [merge_heads, if_neg hlt, if_pos hgt]
    rcases List.mem_cons.mp hz with rfl | h
    · simp
    · exact List.mem_cons_of_mem _ (ih h)
  | case5 x xs y ys hlt hgt ih =>
    simp only [merge_heads, if_neg hlt, if_neg hgt]
    rcases List.mem_cons.mp hz with rfl | h
    · simp
    · exact List.mem_cons_of_mem _ (ih h)

theorem strictAscending_merge_heads {P : Type} (date : P → Int) (a b : List P)
    (ha : StrictAscending date a) (hb : StrictAscending date b) :
    StrictAscending date (merge_heads date a b) := by
  unfold StrictAscending at *
  induction a, b using merge_heads.induct date with
  | case1 bs => simpa [merge_heads] using hb
  | case2 x xs => simpa [merge_heads] using ha
  | case3 x xs y ys hlt ih =>
    simp only [merge_heads, if_pos hlt]
    rw [List.pairwise_cons] at ha ⊢
    refine ⟨?_, ih ha.2 hb⟩
    intro z hz
    rcases mem_merge_heads date _ _ z hz with h | h
    · exact ha.1 z h
    · rcases List.mem_cons.mp h with rfl | h'
      · exact hlt
      · exact lt_trans hlt ((List.pairwise_cons.mp hb).1 z h')
  | case4 x xs y ys hlt hgt ih =>
    simp only [merge_heads, if_neg hlt, if_pos hgt]
    rw [List.pairwise_cons] at hb ⊢
    refine ⟨?_, ih ha hb.2⟩
    intro z hz
    rcases mem_merge_heads date _ _ z hz with h | h
    · rcases List.mem_cons.mp h with rfl | h'
      · exact hgt
      · exact lt_trans hgt ((List.pairwise_cons.mp ha).1 z h')
    · exact hb.1 z h
  | case5 x xs y ys hlt hgt ih =>
    simp only [merge_heads, if_neg hlt, if_neg hgt]
    have heq : date x = date y := by omega
    rw [List.pairwise_cons] at ha hb ⊢
    refine ⟨?_, ih ha.2 hb.2⟩
    intro z hz
    rcases mem_merge_heads date _ _ z hz with h | h
    · rw [← heq]; exact ha.1 z h
    · exact hb.1 z h

theorem merge_heads_idem {P : Type} (date : P → Int) (a b : List P) :
    merge_heads date (merge_heads date a b) b = merge_heads date a b := by
  induction a, b using merge_heads.induct date with
  | case1 bs =>
    simp only [merge_heads]
    induction bs with
    | nil => simp [merge_heads]
    | cons y ys ih => simp [merge_heads, ih]
  | case2 x xs => simp [merge_heads]
  | case3 x xs y ys hlt ih =>
    simp only [merge_heads, if_pos hlt]
    rw [ih]
  | case4 x xs y ys hlt hgt ih =>
    simp only [merge_heads, if_neg hlt, if_pos hgt]
    simp [ih]
  | case5 x xs y ys hlt hgt ih =>
    simp only [merge_heads, if_neg hlt, if_neg hgt]
    simp [ih]

theorem strictAscending_date_inj {P : Type} (date : P → Int) (l : List P)
    (hl : StrictAscending date l) (z y : P) (hz : z ∈ l) (hy : y ∈ l)
    (hd : date z = date y) : z = y := by
  unfold StrictAscending at hl
  induction l with
  | nil => simp at hz
  | cons x xs ih =>
    rw [List.pairwise_cons] at hl
    rcases List.mem_cons.mp hz with rfl | hz'
    · rcases List.mem_cons.mp hy with rfl | hy'
      · rfl
      · have := hl.1 y hy'
        omega
    · rcases List.mem_cons.mp hy with rfl | hy'
      · have := hl.1 z hz'
        omega
      · exact ih hl.2 hz' hy'

/-- Claim C1.  For arrays A and B that are each strictly ascending by trading date, the array
that merge_daily_quotes returns is strictly ascending by trading date: it is sorted and no two
of its records share a trading date. -/
theorem merge_daily_quotes_strictly_ascending {P : Type} (TRADING_DATE : P → Int)
    (A B : List P) (hA : StrictAscending TRADING_DATE A) (hB : StrictAscending TRADING_DATE B) :
    StrictAscending TRADING_DATE (merge_daily_quotes TRADING_DATE A B) := by
  rw [merge_daily_quotes_eq_heads]
  exact strictAscending_merge_heads TRADING_DATE A B hA hB

theorem merge_daily_quotes_strictly_ascending_witness :
    StrictAscending (fun q : pfish_bovespa_daily_quote => q.trading_date) sample_A ∧
    StrictAscending (fun q : pfish_bovespa_daily_quote => q.trading_date) sample_B ∧
    StrictAscending (fun q : pfish_bovespa_daily_quote => q.trading_date)
      (merge_daily_quotes (fun q => q.trading_date) sample_A sample_B) :=
  ⟨by decide, by decide,
    merge_daily_quotes_strictly_ascending _ sample_A sample_B (by decide) (by decide)⟩

/-- Claim C2.  For strictly ascending A (existing history) and B (new batch): when a record x
of A and a record y of B have the same trading date, the merged array contains y, y is its only
record of that date, and it does not contain x (x and y being different records). -/
theorem merge_daily_quotes_new_wins {P : Type} (TRADING_DATE : P → Int) (A B : List P)
    (hA : StrictAscending TRADING_DATE A) (hB : StrictAscending TRADING_DATE B)
    (x y : P) (_hx : x ∈ A) (hy : y ∈ B) (hdate : TRADING_DATE x = TRADING_DATE y) :
    y ∈ merge_daily_quotes TRADING_DATE A B ∧
    (∀ z ∈ merge_daily_quotes TRADING_DATE A B, TRADING_DATE z = TRADING_DATE y → z = y) ∧
    (x ≠ y → x ∉ merge_daily_quotes TRADING_DATE A B) := by
  have hsorted := strictAscending_merge_heads TRADING_DATE A B hA hB
  have hmem : y ∈ merge_heads TRADING_DATE A B := mem_merge_heads_of_right TRADING_DATE A B y hy
  rw [merge_daily_quotes_eq_heads]
  refine ⟨hmem, ?_, ?_⟩
  · intro z hz hd
    exact strictAscending_date_inj TRADING_DATE _ hsorted z y hz hmem hd
  · intro hne hxin
    exact hne (strictAscending_date_inj TRADING_DATE _ hsorted x y hxin hmem hdate)

theorem merge_daily_quotes_new_wins_witness :
    sample_quote 1704196800 "ON" 1010 ∈ sample_A ∧
    sample_quote 1704196800 "ON" 1015 ∈ sample_B ∧
    (sample_quote 1704196800 "ON" 1015
        ∈ merge_daily_quotes (fun q => q.trading_date) sample_A sample_B ∧
      (∀ z ∈ merge_daily_quotes (fun q => q.trading_date) sample_A sample_B,
        z.trading_date = (sample_quote 1704196800 "ON" 1015).trading_date →
          z = sample_quote 1704196800 "ON" 1015) ∧
      (sample_quote 1704196800 "ON" 1010 ≠ sample_quote 1704196800 "ON" 1015 →
        sample_quote 1704196800 "ON" 1010
          ∉ merge_daily_quotes (fun q => q.trading_date) sample_A sample_B)) :=
  ⟨by decide, by decide,
    merge_daily_quotes_new_wins (fun q => q.trading_date) sample_A sample_B
      (by decide) (by decide) _ _ (by decide) (by decide) (by decide)⟩

/-- Claim C3.  Merging a series A with an empty new batch returns exactly A (same length, same
records, same order), and the split scan computes the same last_xplit on the result as on A.
This holds for every A, strictly ascending or not. -/
theorem merge_daily_quotes_empty_batch (A : List pfish_bovespa_daily_quote) :
    merge_daily_quotes (fun q => q.trading_date) A [] = A ∧
    detect_last_xplit (merge_daily_quotes (fun q => q.trading_date) A []) =
      detect_last_xplit A := by
  have h : merge_daily_quotes (fun q : pfish_bovespa_daily_quote => q.trading_date) A [] = A := by
    rw [merge_daily_quotes_eq_heads, merge_heads_nil_right]
  exact ⟨h, by rw [h]⟩

/-- Claim C4.  Importing the same batch twice equals importing it once:
merge_daily_quotes (merge_daily_quotes (A, B), B) = merge_daily_quotes (A, B), record for
record.  This holds for all A and B, strictly ascending or not. -/
theorem merge_daily_quotes_reimport {P : Type} (TRADING_DATE : P → Int) (A B : List P) :
    merge_daily_quotes TRADING_DATE (merge_daily_quotes TRADING_DATE A B) B =
      merge_daily_quotes TRADING_DATE A B := by
  simp only [merge_daily_quotes_eq_heads]
  exact merge_heads_idem TRADING_DATE A B

/-! ### Split detection -/

theorem regexec_xplit_codes (s : List Char) :
    regexec_xplit s = 0 ∨ regexec_xplit s = REG_NOMATCH := by
  unfold regexec_xplit
  split <;> simp

theorem xplit_scan_loop_post (C : List pfish_bovespa_daily_quote) :
    ∀ (k : Nat) (cur : Int), 1 ≤ k → k ≤ C.length →
      (cur = 0 ↔ (k < C.length ∧ xplit_m C k = true)) →
      (∀ j, k < j → j < C.length → ¬ xplit_transition C j) →
      ∃ i p c, xplit_scan_loop C k cur = some (i, p, c) ∧
        last_xplit_post C (if p = 0 ∧ ¬ c = 0 then i + 1 else 0) := by
  intro k
  induction k with
  | zero => intro cur h; omega
  | succ i ih =>
    intro cur _ hkn hcur hnone
    have hi : i < C.length := by omega
    have hget : C[i]? = some C[i] := List.getElem?_eq_getElem hi
    have hcodes := regexec_xplit_codes C[i].stock_spec
    have hnot : ¬ (regexec_xplit C[i].stock_spec ≠ 0 ∧ regexec_xplit C[i].stock_spec ≠ REG_NOMATCH) := by
      rcases hcodes with h | h <;> simp [h]
    have hmi : xplit_m C i = decide (regexec_xplit C[i].stock_spec = 0) := by
      simp [xplit_m, hget]
    -- the transition test made by this pass
    have hdet : (cur = 0 ∧ ¬ regexec_xplit C[i].stock_spec = 0) ↔ (i + 1 < C.length ∧ xplit_transition C (i + 1)) := by
      unfold xplit_transition
      simp only [Nat.add_sub_cancel, hmi, decide_eq_false_iff_not]
      constructor
      · rintro ⟨h1, h2⟩
        have := hcur.mp h1
        exact ⟨this.1, this.2, h2⟩
      · rintro ⟨h1, h2, h3⟩
        exact ⟨hcur.mpr ⟨h1, h2⟩, h3⟩
    have hnone' : ¬ (cur = 0 ∧ ¬ regexec_xplit C[i].stock_spec = 0) →
        ∀ j, i < j → j < C.length → ¬ xplit_transition C j := by
      intro hnd j hj hjn
      by_cases hje : j = i + 1
      · subst hje
        intro ht
        exact hnd (hdet.mpr ⟨hjn, ht⟩)
      · exact hnone j (by omega) hjn
    simp only [xplit_scan_loop, hget, if_neg hnot]
    by_cases hi0 : i = 0
    · subst hi0
      refine ⟨0, cur, regexec_xplit C[0].stock_spec, by simp, ?_⟩
      by_cases hd : cur = 0 ∧ ¬ regexec_xplit C[0].stock_spec = 0
      · rw [if_pos hd]
        have := hdet.mp hd
        exact Or.inr ⟨by omega, this.1, this.2, fun j hj hjn => hnone j hj hjn⟩
      · rw [if_neg hd]
        exact Or.inl ⟨rfl, fun j hj hjn => hnone' hd j (by omega) hjn⟩
    · rw [if_neg hi0]
      by_cases hd : cur = 0 ∧ ¬ regexec_xplit C[i].stock_spec = 0
      · rw [if_neg (not_not.mpr hd)]
        refine ⟨i, cur, regexec_xplit C[i].stock_spec, rfl, ?_⟩
        rw [if_pos hd]
        have := hdet.mp hd
        exact Or.inr ⟨by omega, this.1, this.2, fun j hj hjn => hnone j hj hjn⟩
      · rw [if_pos hd]
        refine ih (regexec_xplit C[i].stock_spec) (by omega) (by omega) ?_ (hnone' hd)
        rw [hmi]
        simp [hi]

theorem detect_last_xplit_post (C : List pfish_bovespa_daily_quote) (hne : C ≠ []) :
    ∃ r, detect_last_xplit C = some r ∧ last_xplit_post C r := by
  have hlen : 1 ≤ C.length := by
    cases C with
    | nil => exact absurd rfl hne
    | cons x xs => simp
  obtain ⟨i, p, c, hloop, hpost⟩ :=
    xplit_scan_loop_post C C.length 1 hlen (le_refl _) (by simp) (by intro j h1 h2; omega)
  unfold detect_last_xplit
  rw [hloop]
  by_cases hd : p = 0 ∧ ¬ c = 0
  · simp only [if_pos hd] at hpost ⊢
    exact ⟨i + 1, rfl, hpost⟩
  · simp only [if_neg hd] at hpost ⊢
    exact ⟨0, rfl, hpost⟩

theorem xplit_scan_loop_congr (C C' : List pfish_bovespa_daily_quote)
    (h : C'.map (fun q => q.stock_spec) = C.map (fun q => q.stock_spec)) :
    ∀ (k : Nat) (cur : Int), xplit_scan_loop C' k cur = xplit_scan_loop C k cur := by
  intro k
  induction k with
  | zero => intro cur; rfl
  | succ i ih =>
    intro cur
    have hi : C'[i]?.map (fun q => q.stock_spec) = C[i]?.map (fun q => q.stock_spec) := by
      rw [← List.getElem?_map, ← List.getElem?_map, h]
    simp only [xplit_scan_loop]
    cases h1 : C'[i]? with
    | none =>
      cases h2 : C[i]? with
      | none => rfl
      | some y => rw [h1, h2] at hi; simp at hi
    | some x =>
      cases h2 : C[i]? with
      | none => rw [h1, h2] at hi; simp at hi
      | some y =>
        rw [h1, h2] at hi
        simp only [Option.map_some', Option.some.injEq] at hi
        simp only [hi, ih]

theorem detect_last_xplit_congr (C C' : List pfish_bovespa_daily_quote)
    (h : C'.map (fun q => q.stock_spec) = C.map (fun q => q.stock_spec)) :
    detect_last_xplit C' = detect_last_xplit C := by
  have hl : C'.length = C.length := by
    have := congrArg List.length h
    simpa using this
  unfold detect_last_xplit
  rw [xplit_scan_loop_congr C C' h, hl]

/-- Claim C5.  For a non-empty merged series C of length n, with m(i) meaning that the
stock_spec of record i matches the xplit pattern, the split scan sets last_xplit to the greatest
index j with 1 ≤ j < n, m(j) true and m(j - 1) false, and to 0 when there is no such j; the
result depends on the sequence of stock_spec strings only. -/
theorem detect_last_xplit_greatest_transition (C : List pfish_bovespa_daily_quote)
    (hne : C ≠ []) :
    (∃ r, detect_last_xplit C = some r ∧ last_xplit_post C r) ∧
    (∀ D : List pfish_bovespa_daily_quote,
      D.map (fun q => q.stock_spec) = C.map (fun q => q.stock_spec) →
        detect_last_xplit D = detect_last_xplit C) :=
  ⟨detect_last_xplit_post C hne, fun D h => detect_last_xplit_congr C D h⟩

theorem detect_last_xplit_greatest_transition_witness :
    sample_B ≠ [] ∧
    ((∃ r, detect_last_xplit sample_B = some r ∧ last_xplit_post sample_B r) ∧
      (∀ D : List pfish_bovespa_daily_quote,
        D.map (fun q => q.stock_spec) = sample_B.map (fun q => q.stock_spec) →
          detect_last_xplit D = detect_last_xplit sample_B)) :=
  ⟨by decide, detect_last_xplit_greatest_transition sample_B (by decide)⟩

/-! ### C strings -/

theorem char_eq_of_toNat_eq (x y : Char) (h : x.toNat = y.toNat) : x = y := by
  apply Char.ext
  apply UInt32.eq_of_val_eq
  apply Fin.ext
  exact h

theorem cstr_cons_nul (xs : List Char) : cstr (NUL :: xs) = [] := by
  simp [cstr, List.takeWhile]

theorem cstr_cons_ne (x : Char) (xs : List Char) (h : x ≠ NUL) : cstr (x :: xs) = x :: cstr xs := by
  have hb : (x != NUL) = true := by simpa using h
  simp only [cstr, List.takeWhile, hb]

theorem strcmp_eq_zero_iff (a b : List Char) : strcmp a b = 0 ↔ cstr a = cstr b := by
  induction a generalizing b with
  | nil =>
    cases b with
    | nil => simp [strcmp]
    | cons y ys =>
      by_cases hy : y = NUL
      · subst hy; simp [strcmp, cstr_cons_nul, cstr]
      · simp [strcmp, hy, cstr_cons_ne, cstr]
  | cons x xs ih =>
    cases b with
    | nil =>
      by_cases hx : x = NUL
      · subst hx; simp [strcmp, cstr_cons_nul, cstr]
      · simp [strcmp, hx, cstr_cons_ne, cstr]
    | cons y ys =>
      by_cases hx : x = NUL
      · by_cases hy : y = NUL
        · subst hx; subst hy; simp [strcmp, cstr_cons_nul]
        · have hlt : x.toNat < y.toNat := by
            have h0 : x.toNat = 0 := by subst hx; rfl
            have : y.toNat ≠ 0 := fun h => hy (char_eq_of_toNat_eq y NUL (by rw [h]; rfl))
            omega
          subst hx
          simp [strcmp, hy, hlt, cstr_cons_nul, cstr_cons_ne]
      · by_cases hy : y = NUL
        · have hgt : y.toNat < x.toNat := by
            have h0 : y.toNat = 0 := by subst hy; rfl
            have : x.toNat ≠ 0 := fun h => hx (char_eq_of_toNat_eq x NUL (by rw [h]; rfl))
            omega
          have hnlt : ¬ x.toNat < y.toNat := by omega
          subst hy
          simp [strcmp, hx, hgt, hnlt, cstr_cons_nul, cstr_cons_ne]
        · rw [cstr_cons_ne x xs hx, cstr_cons_ne y ys hy]
          simp only [strcmp, hx, hy, and_self, if_false]
          by_cases hlt : x.toNat < y.toNat
          · have hne : x ≠ y := fun h => by subst h; omega
            simp [hlt, hne]
          · by_cases hgt : x.toNat > y.toNat
            · have hne : x ≠ y := fun h => by subst h; omega
              simp [hlt, hgt, hne]
            · have heq : x = y := char_eq_of_toNat_eq x y (by omega)
              subst heq
              simp [hlt, ih]

/-! ### The register loop -/

theorem relevance_filter_iff (m : bovespa_mapper) :
    relevance_filter m ↔
      (strcmp m.tp_merc "10".toList = 0 ∧ strcmp m.cod_bdi "2".toList = 0
        ∧ strcmp m.mod_ref "R$".toList = 0) := by
  have h1 : cstr "10".toList = "10".toList := by decide
  have h2 : cstr "2".toList = "2".toList := by decide
  have h3 : cstr "R$".toList = "R$".toList := by decide
  unfold relevance_filter
  rw [strcmp_eq_zero_iff, strcmp_eq_zero_iff, strcmp_eq_zero_iff, h1, h2, h3]

theorem quotes_list_append_irrelevant (m : bovespa_mapper) (l : List quote_node)
    (h : ¬ relevance_filter m) : quotes_list_append m l = (APPEND_IGNORE, l) := by
  rw [relevance_filter_iff] at h
  unfold quotes_list_append
  by_cases h1 : strcmp m.tp_merc "10".toList = 0
  · by_cases h2 : strcmp m.cod_bdi "2".toList = 0
    · by_cases h3 : strcmp m.mod_ref "R$".toList = 0
      · exact absurd ⟨h1, h2, h3⟩ h
      · rw [if_neg (not_not.mpr h1), if_neg (not_not.mpr h2), if_pos h3]
    · rw [if_neg (not_not.mpr h1), if_pos h2]
  · rw [if_pos h1]

theorem discover_register_type_file_type (ft : Nat) (r : List Char) (t : Nat)
    (h : discover_register_type ft r = some t) :
    ft = BOVESPA_FILE_TYPE_HIST ∨ ft = BOVESPA_FILE_TYPE_BDIN := by
  unfold discover_register_type at h
  by_cases h1 : ft = BOVESPA_FILE_TYPE_HIST
  · exact Or.inl h1
  · by_cases h2 : ft = BOVESPA_FILE_TYPE_BDIN
    · exact Or.inr h2
    · simp [h1, h2] at h

theorem register_step_ignored (s : import_state) (line : List Char)
    (hcount : s.register_count ≠ 0)
    (hsec : s.file_section = BOVESPA_FILE_SECTION_QUOTES)
    (htype : discover_register_type s.file_type (fgets s.bovespa_register line)
      = some BOVESPA_FILE_SECTION_QUOTES)
    (hrel : ¬ relevance_filter (quote_mapper s line)) :
    ∃ s1, register_step s line = .ok s1 ∧ s1.quotes_list = s.quotes_list
      ∧ s1.quotes_list_count = s.quotes_list_count
      ∧ s1.file_section = BOVESPA_FILE_SECTION_QUOTES
      ∧ s1.register_count = s.register_count + 1 := by
  have hft := discover_register_type_file_type _ _ _ htype
  have happ := quotes_list_append_irrelevant _ s.quotes_list hrel
  unfold quote_mapper at happ
  have h10 : BOVESPA_FILE_SECTION_QUOTES ≠ BOVESPA_FILE_SECTION_HEADER := by decide
  simp only [register_step, if_neg hcount, htype, hsec, if_neg h10, if_pos hft, happ]
  simp [APPEND_IGNORE]

theorem MATCH_TRAILER_FIELDS_iff (ft : Nat) (h : bovespa_header_register)
    (t : bovespa_trailer_register)
    (hft : ft = BOVESPA_FILE_TYPE_HIST ∨ ft = BOVESPA_FILE_TYPE_BDIN) :
    MATCH_TRAILER_FIELDS ft h t = true ↔ trailer_fields_equal ft h t := by
  have hne : BOVESPA_FILE_TYPE_BDIN ≠ BOVESPA_FILE_TYPE_HIST := by decide
  unfold MATCH_TRAILER_FIELDS trailer_fields_equal
  rcases hft with rfl | rfl
  · simp only [if_true, Bool.and_eq_true, beq_iff_eq, strcmp_eq_zero_iff]
    constructor
    · rintro ⟨⟨h1, h2⟩, h3⟩
      exact ⟨h1, h2, h3, fun hc => absurd hc.symm hne⟩
    · rintro ⟨h1, h2, h3, _⟩
      exact ⟨⟨h1, h2⟩, h3⟩
  · simp only [if_neg hne, Bool.and_eq_true, beq_iff_eq, strcmp_eq_zero_iff]
    constructor
    · rintro ⟨⟨⟨h1, h2⟩, h3⟩, h4⟩
      exact ⟨h1, h2, h4, fun _ => h3⟩
    · rintro ⟨h1, h2, h3, h4⟩
      exact ⟨⟨⟨h1, h2⟩, h4 trivial⟩, h3⟩

theorem VERIFY_REGISTER_COUNT_failures (n : Nat) (f : List Char) (e : import_failure)
    (h : VERIFY_REGISTER_COUNT n f = some e) :
    e = .cannot_verify_register_count ∨ e = .register_count_mismatch := by
  unfold VERIFY_REGISTER_COUNT at h
  simp only at h
  split at h
  · left; exact (Option.some.inj h).symm
  · split at h
    · right; exact (Option.some.inj h).symm
    · exact absurd h (by simp)

theorem register_step_trailer (s : import_state) (line : List Char)
    (hcount : s.register_count ≠ 0)
    (hsec : s.file_section = BOVESPA_FILE_SECTION_QUOTES)
    (htype : discover_register_type s.file_type (fgets s.bovespa_register line)
      = some BOVESPA_FILE_SECTION_TRAILER) :
    register_step s line =
      if ¬ MATCH_TRAILER_FIELDS s.file_type s.header_register
            (copy_trailer s.file_type (fgets s.bovespa_register line) s.trailer_register) then
        .error .trailer_field_mismatch
      else
        match VERIFY_REGISTER_COUNT (s.register_count + 1)
            (copy_trailer s.file_type (fgets s.bovespa_register line)
              s.trailer_register).total_registros with
        | some e => .error e
        | none =>
          .ok { s with
                bovespa_register := fgets s.bovespa_register line,
                register_count := s.register_count + 1,
                trailer_register :=
                  copy_trailer s.file_type (fgets s.bovespa_register line) s.trailer_register,
                file_section := BOVESPA_FILE_SECTION_TRAILER } := by
  have hft := discover_register_type_file_type _ _ _ htype
  have h10 : BOVESPA_FILE_SECTION_QUOTES ≠ BOVESPA_FILE_SECTION_HEADER := by decide
  have h20 : BOVESPA_FILE_SECTION_TRAILER ≠ BOVESPA_FILE_SECTION_HEADER := by decide
  have h21 : BOVESPA_FILE_SECTION_TRAILER ≠ BOVESPA_FILE_SECTION_QUOTES := by decide
  have h23 : BOVESPA_FILE_SECTION_TRAILER ≠ BOVESPA_FILE_SECTION_OTHER := by decide
  simp only [register_step, if_neg hcount, htype, hsec, if_neg h10, if_neg h20, if_neg h21,
    if_neg h23, if_pos hft, if_true]

theorem register_step_in_trailer (s : import_state) (line : List Char)
    (hcount : s.register_count ≠ 0)
    (hsec : s.file_section = BOVESPA_FILE_SECTION_TRAILER) :
    register_step s line = .error .trailing_garbage ∨
      register_step s line = .error .cannot_discover_register_type := by
  have h20 : BOVESPA_FILE_SECTION_TRAILER ≠ BOVESPA_FILE_SECTION_HEADER := by decide
  have h21 : BOVESPA_FILE_SECTION_TRAILER ≠ BOVESPA_FILE_SECTION_QUOTES := by decide
  cases hd : discover_register_type s.file_type (fgets s.bovespa_register line) with
  | none =>
    right
    simp only [register_step, if_neg hcount, hd]
  | some t =>
    left
    simp only [register_step, if_neg hcount, hd, hsec, if_neg h20, if_neg h21, if_true]

theorem register_step_count (s s1 : import_state) (line : List Char)
    (h : register_step s line = .ok s1) : s1.register_count = s.register_count + 1 := by
  unfold register_step at h
  simp only at h
  repeat' split at h
  all_goals first
    | (cases h; rfl)
    | cases h

theorem register_loop_count (xs : List (List Char)) :
    ∀ (s s1 : import_state), register_loop s xs = .ok s1 →
      s1.register_count = s.register_count + xs.length := by
  induction xs with
  | nil =>
    intro s s1 h
    simp only [register_loop] at h
    cases h
    rfl
  | cons x xs ih =>
    intro s s1 h
    simp only [register_loop] at h
    cases hs : register_step s x with
    | error e => rw [hs] at h; exact absurd h (by simp)
    | ok s2 =>
      rw [hs] at h
      have h1 := register_step_count s s2 x hs
      have h2 := ih s2 s1 h
      simp only [List.length_cons]
      omega

theorem register_loop_append (xs ys : List (List Char)) :
    ∀ s : import_state, register_loop s (xs ++ ys) =
      match register_loop s xs with
      | .error e => .error e
      | .ok s1 => register_loop s1 ys := by
  induction xs with
  | nil => intro s; simp [register_loop]
  | cons x xs ih =>
    intro s
    simp only [List.cons_append, register_loop]
    cases register_step s x with
    | error e => rfl
    | ok s2 => exact ih s2

/-- Claim C6.  quotes_list_append appends a quote only when the sanitized fields satisfy
tp_merc = "10", cod_bdi = "2" and mod_ref = "R$"; if any of the three differs it returns the
positive ignored code and leaves the quotes list as it is, whatever the other fields hold; and a
quote register so ignored is no error in main: the register loop goes on in state QUOTES with
the quotes list and the count of emitted quotes unchanged, the register being counted. -/
theorem quotes_list_append_relevance (s : import_state) (line : List Char)
    (hcount : s.register_count ≠ 0)
    (hsec : s.file_section = BOVESPA_FILE_SECTION_QUOTES)
    (htype : discover_register_type s.file_type (fgets s.bovespa_register line)
      = some BOVESPA_FILE_SECTION_QUOTES) :
    (∀ (mapper : bovespa_mapper) (quotes_list : List quote_node),
      ((quotes_list_append mapper quotes_list).1 = APPEND_SUCCESS
        ∨ (quotes_list_append mapper quotes_list).2 ≠ quotes_list) →
        relevance_filter mapper) ∧
    (∀ (mapper : bovespa_mapper) (quotes_list : List quote_node),
      ¬ relevance_filter mapper →
        quotes_list_append mapper quotes_list = (APPEND_IGNORE, quotes_list)) ∧
    (¬ relevance_filter (quote_mapper s line) →
      ∃ s1, register_step s line = .ok s1 ∧ s1.quotes_list = s.quotes_list
        ∧ s1.quotes_list_count = s.quotes_list_count
        ∧ s1.file_section = BOVESPA_FILE_SECTION_QUOTES
        ∧ s1.register_count = s.register_count + 1) := by
  refine ⟨?_, fun m l h => quotes_list_append_irrelevant m l h,
    fun h => register_step_ignored s line hcount hsec htype h⟩
  intro m l h
  by_contra hrel
  rw [quotes_list_append_irrelevant m l hrel] at h
  rcases h with h | h
  · have h1 : APPEND_IGNORE = APPEND_SUCCESS := h
    exact absurd h1 (by decide)
  · exact h rfl

set_option maxRecDepth 100000 in
theorem quotes_list_append_relevance_witness :
    (state_reached sample_stack [sample_hist_header]).register_count ≠ 0 ∧
    (state_reached sample_stack [sample_hist_header]).file_section
      = BOVESPA_FILE_SECTION_QUOTES ∧
    discover_register_type (state_reached sample_stack [sample_hist_header]).file_type
      (fgets (state_reached sample_stack [sample_hist_header]).bovespa_register
        sample_hist_quote_fractional) = some BOVESPA_FILE_SECTION_QUOTES ∧
    ¬ relevance_filter
      (quote_mapper (state_reached sample_stack [sample_hist_header])
        sample_hist_quote_fractional) ∧
    ((∀ (mapper : bovespa_mapper) (quotes_list : List quote_node),
      ((quotes_list_append mapper quotes_list).1 = APPEND_SUCCESS
        ∨ (quotes_list_append mapper quotes_list).2 ≠ quotes_list) →
        relevance_filter mapper) ∧
    (∀ (mapper : bovespa_mapper) (quotes_list : List quote_node),
      ¬ relevance_filter mapper →
        quotes_list_append mapper quotes_list = (APPEND_IGNORE, quotes_list)) ∧
    (¬ relevance_filter (quote_mapper (state_reached sample_stack [sample_hist_header])
        sample_hist_quote_fractional) →
      ∃ s1, register_step (state_reached sample_stack [sample_hist_header])
          sample_hist_quote_fractional = .ok s1
        ∧ s1.quotes_list = (state_reached sample_stack [sample_hist_header]).quotes_list
        ∧ s1.quotes_list_count
            = (state_reached sample_stack [sample_hist_header]).quotes_list_count
        ∧ s1.file_section = BOVESPA_FILE_SECTION_QUOTES
        ∧ s1.register_count
            = (state_reached sample_stack [sample_hist_header]).register_count + 1)) :=
  ⟨by decide, by decide, by decide, by decide,
    quotes_list_append_relevance _ _ (by decide) (by decide) (by decide)⟩

set_option maxRecDepth 100000 in
/-- Claim C7, evaluated on a HIST stream of two registers, the header and a trailer whose
identity fields match and whose total_registros field reads 04294967298: the field parses as
4294967298, two registers have been consumed, and yet the trailer is accepted (state TRAILER)
and the import exits with success, the parsed value having been stored in an unsigned int. -/
theorem register_count_truncated :
    (strtoul (state_reached sample_stack
      [sample_hist_header, sample_hist_trailer_big]).trailer_register.total_registros)
      = (4294967298, []) ∧
    (state_reached sample_stack
      [sample_hist_header, sample_hist_trailer_big]).register_count = 2 ∧
    section_reached sample_stack [sample_hist_header, sample_hist_trailer_big]
      = some BOVESPA_FILE_SECTION_TRAILER ∧
    (file_import_main sample_info sample_db sample_stack
      [sample_hist_header, sample_hist_trailer_big]).exit_status = EXIT_SUCCESS := by
  decide

/-- Claim C8.  When a trailer register is read in state QUOTES: unless the sanitized trailer
fields nome_arquivo, codigo_origem and data_geracao (and codigo_destino for BDIN) are
string-equal to the header fields, the stream is rejected as a trailer field mismatch, whatever
total_registros holds (the field check comes first); when they are equal the outcome is that of
the register count check alone, which never reports a field mismatch. -/
theorem trailer_fields_checked_first (s : import_state) (line : List Char)
    (hcount : s.register_count ≠ 0)
    (hsec : s.file_section = BOVESPA_FILE_SECTION_QUOTES)
    (htype : discover_register_type s.file_type (fgets s.bovespa_register line)
      = some BOVESPA_FILE_SECTION_TRAILER) :
    (¬ trailer_fields_equal s.file_type s.header_register
        (copy_trailer s.file_type (fgets s.bovespa_register line) s.trailer_register) →
      register_step s line = .error .trailer_field_mismatch) ∧
    (trailer_fields_equal s.file_type s.header_register
        (copy_trailer s.file_type (fgets s.bovespa_register line) s.trailer_register) →
      register_step s line ≠ .error .trailer_field_mismatch ∧
      register_step s line =
        match VERIFY_REGISTER_COUNT (s.register_count + 1)
            (copy_trailer s.file_type (fgets s.bovespa_register line)
              s.trailer_register).total_registros with
        | some e => .error e
        | none =>
          .ok { s with
                bovespa_register := fgets s.bovespa_register line,
                register_count := s.register_count + 1,
                trailer_register :=
                  copy_trailer s.file_type (fgets s.bovespa_register line) s.trailer_register,
                file_section := BOVESPA_FILE_SECTION_TRAILER }) := by
  have hft := discover_register_type_file_type _ _ _ htype
  have hstep := register_step_trailer s line hcount hsec htype
  have hiff := MATCH_TRAILER_FIELDS_iff s.file_type s.header_register
    (copy_trailer s.file_type (fgets s.bovespa_register line) s.trailer_register) hft
  constructor
  · intro hne
    have hm : ¬ MATCH_TRAILER_FIELDS s.file_type s.header_register
        (copy_trailer s.file_type (fgets s.bovespa_register line) s.trailer_register) = true :=
      fun hm => hne (hiff.mp hm)
    rw [hstep, if_pos hm]
  · intro heq
    have hm := hiff.mpr heq
    rw [hstep, if_neg (not_not.mpr hm)]
    refine ⟨?_, rfl⟩
    cases hv : VERIFY_REGISTER_COUNT (s.register_count + 1)
        (copy_trailer s.file_type (fgets s.bovespa_register line)
          s.trailer_register).total_registros with
    | none => simp
    | some e =>
      rcases VERIFY_REGISTER_COUNT_failures _ _ _ hv with rfl | rfl <;> simp

set_option maxRecDepth 100000 in
theorem trailer_fields_checked_first_witness :
    (state_reached sample_stack [sample_hist_header]).register_count ≠ 0 ∧
    (state_reached sample_stack [sample_hist_header]).file_section
      = BOVESPA_FILE_SECTION_QUOTES ∧
    discover_register_type (state_reached sample_stack [sample_hist_header]).file_type
      (fgets (state_reached sample_stack [sample_hist_header]).bovespa_register
        sample_hist_trailer_other_date) = some BOVESPA_FILE_SECTION_TRAILER ∧
    ¬ trailer_fields_equal (state_reached sample_stack [sample_hist_header]).file_type
        (state_reached sample_stack [sample_hist_header]).header_register
        (copy_trailer (state_reached sample_stack [sample_hist_header]).file_type
          (fgets (state_reached sample_stack [sample_hist_header]).bovespa_register
            sample_hist_trailer_other_date)
          (state_reached sample_stack [sample_hist_header]).trailer_register) ∧
    register_step (state_reached sample_stack [sample_hist_header])
      sample_hist_trailer_other_date = .error .trailer_field_mismatch :=
  ⟨by decide, by decide, by decide, by decide,
    (trailer_fields_checked_first _ _ (by decide) (by decide) (by decide)).1 (by decide)⟩

theorem section_reached_ok (stack : List Char) (stdin : List (List Char)) (n : Nat)
    (h : section_reached stack stdin = some n) :
    register_loop (initial_state stack) stdin = .ok (state_reached stack stdin) ∧
      (state_reached stack stdin).file_section = n := by
  unfold section_reached at h
  unfold state_reached
  cases hl : register_loop (initial_state stack) stdin with
  | error e => rw [hl] at h; exact absurd h (by simp)
  | ok s =>
    rw [hl] at h
    exact ⟨rfl, Option.some.inj h⟩

theorem write_sequence_failures (db : database) (id : List Char)
    (h : pfish_bovespa_stock_history) (e : import_failure)
    (he : (write_sequence db id h).2 = some e) : e ∉ format_errors := by
  unfold write_sequence at he
  split at he
  · cases he; decide
  · split at he
    · cases he; decide
    · split at he
      · cases he; decide
      · simp only [] at he
        split at he
        · cases he; decide
        · split at he
          · cases he; decide
          · split at he
            · cases he; decide
            · split at he
              · cases he; decide
              · cases he

theorem stock_loop_failures (info : pfish_bovespa_library_info) (l : List quote_node) :
    ∀ (cur : List Char) (n : Nat) (db : database) (e : import_failure),
      (stock_loop info l cur n db).1 = some e → e ∉ format_errors := by
  induction l with
  | nil => intro cur n db e he; cases he
  | cons node rest ih =>
    intro cur n db e he
    unfold stock_loop at he
    split at he
    · simp only at he
      split at he
      · cases he; decide
      · split at he
        · cases he; decide
        · split at he
          · rename_i e2 db1 hp
            cases he
            have hw : (write_sequence db node.stock _).2 = some e :=
              congrArg Prod.fst hp
            exact write_sequence_failures _ _ _ _ hw
          · exact ih _ _ _ _ he
    · exact ih _ _ _ _ he

theorem section_reached_nil (stack : List Char) :
    section_reached stack [] = some BOVESPA_FILE_SECTION_HEADER := rfl

/-- Claim C10.  Once a trailer register has been accepted (state TRAILER), every further
register read from the input, whatever its content or type code, makes the import fail (as
trailing garbage, or as a register of unknown type) with the database left as it was. -/
theorem trailing_register_fails (info : pfish_bovespa_library_info) (db : database)
    (stack : List Char) (before : List (List Char)) (line : List Char)
    (after : List (List Char))
    (h : section_reached stack before = some BOVESPA_FILE_SECTION_TRAILER) :
    (file_import_main info db stack (before ++ line :: after)).exit_status = EXIT_FAILURE ∧
    (file_import_main info db stack (before ++ line :: after)).db = db ∧
    ((file_import_main info db stack (before ++ line :: after)).failure
        = some .trailing_garbage ∨
      (file_import_main info db stack (before ++ line :: after)).failure
        = some .cannot_discover_register_type) := by
  obtain ⟨hok, hsec⟩ := section_reached_ok stack before _ h
  have hcount : (state_reached stack before).register_count ≠ 0 := by
    have hc := register_loop_count before _ _ hok
    have hne : before ≠ [] := by
      intro he
      rw [he, section_reached_nil] at h
      exact absurd (Option.some.inj h) (by decide)
    have hl : 0 < before.length := List.length_pos.mpr hne
    omega
  have hloop : register_loop (initial_state stack) (before ++ line :: after) =
      match register_step (state_reached stack before) line with
      | .error e => .error e
      | .ok s1 => register_loop s1 after := by
    rw [register_loop_append, hok]
    simp only [register_loop]
  unfold file_import_main
  rw [hloop]
  rcases register_step_in_trailer (state_reached stack before) line hcount hsec with hs | hs
  · rw [hs]
    exact ⟨rfl, rfl, Or.inl rfl⟩
  · rw [hs]
    exact ⟨rfl, rfl, Or.inr rfl⟩

theorem trailing_register_fails_witness :
    section_reached sample_stack [sample_hist_header, sample_hist_trailer_2]
      = some BOVESPA_FILE_SECTION_TRAILER ∧
    ((file_import_main sample_info sample_db sample_stack
        ([sample_hist_header, sample_hist_trailer_2] ++ sample_hist_quote :: [])).exit_status
      = EXIT_FAILURE ∧
    (file_import_main sample_info sample_db sample_stack
        ([sample_hist_header, sample_hist_trailer_2] ++ sample_hist_quote :: [])).db
      = sample_db ∧
    ((file_import_main sample_info sample_db sample_stack
        ([sample_hist_header, sample_hist_trailer_2] ++ sample_hist_quote :: [])).failure
        = some .trailing_garbage ∨
      (file_import_main sample_info sample_db sample_stack
        ([sample_hist_header, sample_hist_trailer_2] ++ sample_hist_quote :: [])).failure
        = some .cannot_discover_register_type)) :=
  ⟨by decide,
    trailing_register_fails sample_info sample_db sample_stack
      [sample_hist_header, sample_hist_trailer_2] sample_hist_quote [] (by decide)⟩

/-! ### File type and register type discovery -/

theorem all_range_succ (p : Nat → Bool) (n : Nat) :
    (List.range (n + 1)).all p = (p 0 && (List.range n).all (fun k => p (k + 1))) := by
  rw [List.range_succ_eq_map]
  simp [List.all_map, Function.comp_def]

theorem memcmp_eq_iff_take (lit : List Char) (hnul : NUL ∉ lit) :
    ∀ buf : List Char, memcmp_eq buf lit lit.length = true ↔ buf.take lit.length = lit := by
  induction lit with
  | nil => intro buf; simp [memcmp_eq]
  | cons c l ih =>
    intro buf
    have hc : c ≠ NUL := fun h => hnul (by simp [h])
    have hl : NUL ∉ l := fun h => hnul (List.mem_cons_of_mem _ h)
    unfold memcmp_eq at ih ⊢
    rw [List.length_cons, all_range_succ]
    cases buf with
    | nil =>
      have : (NUL == c) = false := by simpa using fun h => hc h.symm
      simp [this]
    | cons b bs =>
      simp only [List.getD_cons_zero, List.getD_cons_succ, Bool.and_eq_true, beq_iff_eq,
        List.take_succ_cons, List.cons.injEq]
      rw [ih hl bs]

theorem take_fgets_iff (stack line lit : List Char) (hnul : NUL ∉ lit) :
    (fgets stack line).take lit.length = lit ↔ line.take lit.length = lit := by
  unfold fgets
  by_cases h : lit.length ≤ line.length
  · rw [List.take_append_of_le_length h]
  · have hlt : line.length < lit.length := by omega
    constructor
    · intro he
      exfalso
      apply hnul
      rw [← he, List.take_append_eq_append_take]
      have : lit.length - line.length = (lit.length - line.length - 1) + 1 := by omega
      rw [this, List.take_succ_cons]
      simp
    · intro he
      exfalso
      have := congrArg List.length he
      rw [List.length_take] at this
      omega

theorem memcmp_eq_lit (lit : String) (n : Nat) (hn : lit.toList.length = n)
    (hnul : NUL ∉ lit.toList) (buf : List Char) :
    memcmp_eq buf lit.toList n = true ↔ buf.take n = lit.toList := by
  subst hn
  exact memcmp_eq_iff_take lit.toList hnul buf

theorem discover_file_type_take (header_register : List Char) :
    (discover_file_type header_register = some BOVESPA_FILE_TYPE_HIST ↔
      header_register.take 10 = "00COTAHIST".toList) ∧
    (discover_file_type header_register = some BOVESPA_FILE_TYPE_BDIN ↔
      header_register.take 10 = "00BDIN9999".toList) ∧
    (discover_file_type header_register = none ↔
      (header_register.take 10 ≠ "00COTAHIST".toList ∧
        header_register.take 10 ≠ "00BDIN9999".toList)) := by
  have h1 := memcmp_eq_lit "00COTAHIST" 10 (by decide) (by decide) header_register
  have h2 := memcmp_eq_lit "00BDIN9999" 10 (by decide) (by decide) header_register
  have hne : "00COTAHIST".toList ≠ "00BDIN9999".toList := by decide
  have hft : BOVESPA_FILE_TYPE_BDIN ≠ BOVESPA_FILE_TYPE_HIST := by decide
  unfold discover_file_type
  by_cases c1 : memcmp_eq header_register "00COTAHIST".toList 10 = true
  · have t1 := h1.mp c1
    simp only [c1, if_true, true_iff, t1]
    refine ⟨trivial, ?_, ?_⟩
    · simp [hne, hft.symm]
    · simp
  · have t1 : ¬ header_register.take 10 = "00COTAHIST".toList := fun h => c1 (h1.mpr h)
    by_cases c2 : memcmp_eq header_register "00BDIN9999".toList 10 = true
    · have t2 := h2.mp c2
      simp only [c1, c2, if_true, t2]
      simp [hne.symm, hft]
    · have t2 : ¬ header_register.take 10 = "00BDIN9999".toList := fun h => c2 (h2.mpr h)
      simp only [c1, c2, t1, t2]
      refine ⟨by simp, by simp, ?_⟩
      exact ⟨fun _ => ⟨t1, t2⟩, fun _ => by simp⟩

/-- Claim C11. discover_file_type answers HIST exactly when the first 10 bytes of the first
register are 00COTAHIST and BDIN exactly when they are 00BDIN9999; for every other first register
it fails, and the import ends at once with EXIT_FAILURE, reporting that the file type could not be
discovered and leaving the database as it was. -/
theorem discover_file_type_magic (info : pfish_bovespa_library_info) (db : database)
    (stack line : List Char) (rest : List (List Char)) :
    (discover_file_type (fgets stack line) = some BOVESPA_FILE_TYPE_HIST ↔
      line.take 10 = "00COTAHIST".toList) ∧
    (discover_file_type (fgets stack line) = some BOVESPA_FILE_TYPE_BDIN ↔
      line.take 10 = "00BDIN9999".toList) ∧
    (line.take 10 ≠ "00COTAHIST".toList → line.take 10 ≠ "00BDIN9999".toList →
      discover_file_type (fgets stack line) = none ∧
      file_import_main info db stack (line :: rest) =
        { exit_status := EXIT_FAILURE, failure := some .cannot_discover_file_type, db := db }) := by
  have f1 := take_fgets_iff stack line "00COTAHIST".toList (by decide)
  have f2 := take_fgets_iff stack line "00BDIN9999".toList (by decide)
  have hlen1 : "00COTAHIST".toList.length = 10 := by decide
  have hlen2 : "00BDIN9999".toList.length = 10 := by decide
  rw [hlen1] at f1
  rw [hlen2] at f2
  obtain ⟨d1, d2, d3⟩ := discover_file_type_take (fgets stack line)
  refine ⟨d1.trans f1, d2.trans f2, ?_⟩
  intro n1 n2
  have hnone : discover_file_type (fgets stack line) = none :=
    d3.mpr ⟨fun h => n1 (f1.mp h), fun h => n2 (f2.mp h)⟩
  refine ⟨hnone, ?_⟩
  have hstep : register_step (initial_state stack) line = .error .cannot_discover_file_type := by
    have h0 : (initial_state stack).register_count = 0 := rfl
    have hb : (initial_state stack).bovespa_register = stack := rfl
    simp only [register_step, h0, hb, if_true, hnone]
  unfold file_import_main
  simp only [register_loop, hstep]

set_option maxRecDepth 100000 in
theorem discover_file_type_magic_witness :
    "01COTAHIST.2024".toList.take 10 ≠ "00COTAHIST".toList ∧
    "01COTAHIST.2024".toList.take 10 ≠ "00BDIN9999".toList ∧
    discover_file_type (fgets sample_stack "01COTAHIST.2024".toList) = none ∧
    file_import_main sample_info sample_db sample_stack
        ("01COTAHIST.2024".toList :: [sample_hist_trailer_2]) =
      { exit_status := EXIT_FAILURE, failure := some .cannot_discover_file_type,
        db := sample_db } :=
  ⟨by decide, by decide,
    (discover_file_type_magic sample_info sample_db sample_stack "01COTAHIST.2024".toList
      [sample_hist_trailer_2]).2.2 (by decide) (by decide)⟩

theorem memcmp_eq_decide (lit : String) (n : Nat) (hn : lit.toList.length = n)
    (hnul : NUL ∉ lit.toList) (buf : List Char) :
    memcmp_eq buf lit.toList n = decide (buf.take n = lit.toList) := by
  rw [Bool.eq_iff_iff, decide_eq_true_iff]
  exact memcmp_eq_lit lit n hn hnul buf

/-- Claim C12. discover_register_type classifies a register by its first two bytes. For HIST,
00 is HEADER, 01 is QUOTES, 99 is TRAILER, no code is OTHER and every other code fails. For BDIN,
00 is HEADER, 02 is QUOTES, 99 is TRAILER, 01 and 03 to 07 are OTHER and every other code
fails. -/
theorem discover_register_type_codes (bovespa_register : List Char) :
    (discover_register_type BOVESPA_FILE_TYPE_HIST bovespa_register
        = some BOVESPA_FILE_SECTION_HEADER ↔ bovespa_register.take 2 = "00".toList) ∧
    (discover_register_type BOVESPA_FILE_TYPE_HIST bovespa_register
        = some BOVESPA_FILE_SECTION_QUOTES ↔ bovespa_register.take 2 = "01".toList) ∧
    (discover_register_type BOVESPA_FILE_TYPE_HIST bovespa_register
        = some BOVESPA_FILE_SECTION_TRAILER ↔ bovespa_register.take 2 = "99".toList) ∧
    (discover_register_type BOVESPA_FILE_TYPE_HIST bovespa_register
        ≠ some BOVESPA_FILE_SECTION_OTHER) ∧
    (discover_register_type BOVESPA_FILE_TYPE_HIST bovespa_register = none ↔
      bovespa_register.take 2 ∉ ["00".toList, "01".toList, "99".toList]) ∧
    (discover_register_type BOVESPA_FILE_TYPE_BDIN bovespa_register
        = some BOVESPA_FILE_SECTION_HEADER ↔ bovespa_register.take 2 = "00".toList) ∧
    (discover_register_type BOVESPA_FILE_TYPE_BDIN bovespa_register
        = some BOVESPA_FILE_SECTION_QUOTES ↔ bovespa_register.take 2 = "02".toList) ∧
    (discover_register_type BOVESPA_FILE_TYPE_BDIN bovespa_register
        = some BOVESPA_FILE_SECTION_TRAILER ↔ bovespa_register.take 2 = "99".toList) ∧
    (discover_register_type BOVESPA_FILE_TYPE_BDIN bovespa_register
        = some BOVESPA_FILE_SECTION_OTHER ↔
      bovespa_register.take 2 ∈ ["01".toList, "03".toList, "04".toList, "05".toList,
        "06".toList, "07".toList]) ∧
    (discover_register_type BOVESPA_FILE_TYPE_BDIN bovespa_register = none ↔
      bovespa_register.take 2 ∉ ["00".toList, "01".toList, "02".toList, "03".toList,
        "04".toList, "05".toList, "06".toList, "07".toList, "99".toList]) := by
  have h00 := memcmp_eq_decide "00" 2 (by decide) (by decide) bovespa_register
  have h01 := memcmp_eq_decide "01" 2 (by decide) (by decide) bovespa_register
  have h02 := memcmp_eq_decide "02" 2 (by decide) (by decide) bovespa_register
  have h03 := memcmp_eq_decide "03" 2 (by decide) (by decide) bovespa_register
  have h04 := memcmp_eq_decide "04" 2 (by decide) (by decide) bovespa_register
  have h05 := memcmp_eq_decide "05" 2 (by decide) (by decide) bovespa_register
  have h06 := memcmp_eq_decide "06" 2 (by decide) (by decide) bovespa_register
  have h07 := memcmp_eq_decide "07" 2 (by decide) (by decide) bovespa_register
  have h99 := memcmp_eq_decide "99" 2 (by decide) (by decide) bovespa_register
  simp only [discover_register_type, h00, h01, h02, h03, h04, h05, h06, h07, h99]
  generalize bovespa_register.take 2 = c
  by_cases c00 : c = "00".toList
  · subst c00; decide
  by_cases c01 : c = "01".toList
  · subst c01; decide
  by_cases c02 : c = "02".toList
  · subst c02; decide
  by_cases c03 : c = "03".toList
  · subst c03; decide
  by_cases c04 : c = "04".toList
  · subst c04; decide
  by_cases c05 : c = "05".toList
  · subst c05; decide
  by_cases c06 : c = "06".toList
  · subst c06; decide
  by_cases c07 : c = "07".toList
  · subst c07; decide
  by_cases c99 : c = "99".toList
  · subst c99; decide
  have hd : BOVESPA_FILE_TYPE_BDIN ≠ BOVESPA_FILE_TYPE_HIST := by decide
  simp only [c00, c01, c02, c03, c04, c05, c06, c07, c99, decide_False, if_true, if_false,
    hd, List.mem_cons, List.mem_singleton, List.not_mem_nil, or_self, or_false,
    not_false_eq_true, iff_true, iff_false, Bool.false_eq_true, ne_eq]
  simp

theorem discover_register_type_header (ft : Nat) (buf : List Char)
    (hft : ft = BOVESPA_FILE_TYPE_HIST ∨ ft = BOVESPA_FILE_TYPE_BDIN)
    (h : buf.take 2 = "00".toList) :
    discover_register_type ft buf = some BOVESPA_FILE_SECTION_HEADER := by
  have h00 := memcmp_eq_decide "00" 2 (by decide) (by decide) buf
  have hd : BOVESPA_FILE_TYPE_BDIN ≠ BOVESPA_FILE_TYPE_HIST := by decide
  rcases hft with rfl | rfl
  · simp only [discover_register_type, h00, h, decide_True, if_true]
  · simp only [discover_register_type, h00, h, decide_True, if_true, if_neg hd]

theorem discover_file_type_header (buf : List Char) (ft : Nat)
    (h : discover_file_type buf = some ft) :
    (ft = BOVESPA_FILE_TYPE_HIST ∨ ft = BOVESPA_FILE_TYPE_BDIN) ∧
      discover_register_type ft buf = some BOVESPA_FILE_SECTION_HEADER := by
  obtain ⟨d1, d2, d3⟩ := discover_file_type_take buf
  have r1 := fun h2 => discover_register_type_header BOVESPA_FILE_TYPE_HIST buf (Or.inl rfl) h2
  have r2 := fun h2 => discover_register_type_header BOVESPA_FILE_TYPE_BDIN buf (Or.inr rfl) h2
  have hcases : ft = BOVESPA_FILE_TYPE_HIST ∨ ft = BOVESPA_FILE_TYPE_BDIN := by
    unfold discover_file_type at h
    split at h
    · left; exact (Option.some.inj h).symm
    · split at h
      · right; exact (Option.some.inj h).symm
      · exact absurd h (by simp)
  refine ⟨hcases, ?_⟩
  have take2 : ∀ l : List Char, buf.take 10 = l → buf.take 2 = l.take 2 := by
    intro l hl
    rw [← hl, List.take_take]
    rfl
  rcases hcases with rfl | rfl
  · exact r1 (take2 _ (d1.mp h))
  · exact r2 (take2 _ (d2.mp h))

/-- Claim C13. On the first register, read in state HEADER, the import advances to state QUOTES
exactly when the sanitized codigo_origem of the header (columns 16-23 for HIST, 11-18 for BDIN) is
BOVESPA, and fails with heading garbage otherwise; in state QUOTES a register of type HEADER fails
as a duplicate header. -/
theorem header_register_checked (s : import_state) (line : List Char) (ft : Nat)
    (hsec : s.file_section = BOVESPA_FILE_SECTION_HEADER)
    (hcount : s.register_count = 0)
    (hft : discover_file_type (fgets s.bovespa_register line) = some ft) :
    ((∃ s1, register_step s line = .ok s1 ∧ s1.file_section = BOVESPA_FILE_SECTION_QUOTES) ↔
      cstr (BOVESPA_FIELD (fgets s.bovespa_register line)
        (if ft = BOVESPA_FILE_TYPE_HIST then 16 else 11)
        (if ft = BOVESPA_FILE_TYPE_HIST then 23 else 18)) = "BOVESPA".toList) ∧
    (cstr (BOVESPA_FIELD (fgets s.bovespa_register line)
        (if ft = BOVESPA_FILE_TYPE_HIST then 16 else 11)
        (if ft = BOVESPA_FILE_TYPE_HIST then 23 else 18)) ≠ "BOVESPA".toList →
      register_step s line = .error .heading_garbage) ∧
    (∀ (t : import_state) (second : List Char),
      t.file_section = BOVESPA_FILE_SECTION_QUOTES → t.register_count ≠ 0 →
      discover_register_type t.file_type (fgets t.bovespa_register second)
        = some BOVESPA_FILE_SECTION_HEADER →
      register_step t second = .error .duplicate_header_register) := by
  obtain ⟨hcases, htype⟩ := discover_file_type_header _ _ hft
  have hB : cstr "BOVESPA".toList = "BOVESPA".toList := by decide
  have hfield : (copy_header ft (fgets s.bovespa_register line) s.header_register).codigo_origem
      = BOVESPA_FIELD (fgets s.bovespa_register line)
        (if ft = BOVESPA_FILE_TYPE_HIST then 16 else 11)
        (if ft = BOVESPA_FILE_TYPE_HIST then 23 else 18) := by
    rcases hcases with rfl | rfl
    · rfl
    · rfl
  have hstep : register_step s line =
      if strcmp (BOVESPA_FIELD (fgets s.bovespa_register line)
          (if ft = BOVESPA_FILE_TYPE_HIST then 16 else 11)
          (if ft = BOVESPA_FILE_TYPE_HIST then 23 else 18)) "BOVESPA".toList ≠ 0 then
        .error .heading_garbage
      else
        .ok { s with
              bovespa_register := fgets s.bovespa_register line,
              file_type := ft,
              register_count := s.register_count + 1,
              header_register := copy_header ft (fgets s.bovespa_register line) s.header_register,
              file_section := BOVESPA_FILE_SECTION_QUOTES } := by
    simp only [register_step, hcount, if_true, hft, if_pos hcases, htype, hsec, ne_eq,
      not_true_eq_false, if_false, hfield]
  refine ⟨?_, ?_, ?_⟩
  · rw [hstep]
    constructor
    · rintro ⟨s1, h1, _⟩
      by_contra hne
      have : strcmp (BOVESPA_FIELD (fgets s.bovespa_register line)
          (if ft = BOVESPA_FILE_TYPE_HIST then 16 else 11)
          (if ft = BOVESPA_FILE_TYPE_HIST then 23 else 18)) "BOVESPA".toList ≠ 0 := by
        rw [ne_eq, strcmp_eq_zero_iff, hB]
        exact hne
      rw [if_pos this] at h1
      exact absurd h1 (by simp)
    · intro heq
      have : ¬ strcmp (BOVESPA_FIELD (fgets s.bovespa_register line)
          (if ft = BOVESPA_FILE_TYPE_HIST then 16 else 11)
          (if ft = BOVESPA_FILE_TYPE_HIST then 23 else 18)) "BOVESPA".toList ≠ 0 := by
        rw [ne_eq, strcmp_eq_zero_iff, hB, not_not]
        exact heq
      rw [if_neg this]
      exact ⟨_, rfl, rfl⟩
  · intro hne
    have : strcmp (BOVESPA_FIELD (fgets s.bovespa_register line)
        (if ft = BOVESPA_FILE_TYPE_HIST then 16 else 11)
        (if ft = BOVESPA_FILE_TYPE_HIST then 23 else 18)) "BOVESPA".toList ≠ 0 := by
      rw [ne_eq, strcmp_eq_zero_iff, hB]
      exact hne
    rw [hstep, if_pos this]
  · intro t second htsec htcount httype
    have h10 : BOVESPA_FILE_SECTION_QUOTES ≠ BOVESPA_FILE_SECTION_HEADER := by decide
    simp only [register_step, if_neg htcount, httype, htsec, if_neg h10, if_true]

set_option maxRecDepth 100000 in
theorem header_register_checked_witness :
    (initial_state sample_stack).file_section = BOVESPA_FILE_SECTION_HEADER ∧
    (initial_state sample_stack).register_count = 0 ∧
    discover_file_type (fgets (initial_state sample_stack).bovespa_register sample_hist_header)
      = some BOVESPA_FILE_TYPE_HIST ∧
    cstr (BOVESPA_FIELD (fgets (initial_state sample_stack).bovespa_register sample_hist_header)
        (if BOVESPA_FILE_TYPE_HIST = BOVESPA_FILE_TYPE_HIST then 16 else 11)
        (if BOVESPA_FILE_TYPE_HIST = BOVESPA_FILE_TYPE_HIST then 23 else 18))
      = "BOVESPA".toList ∧
    ∃ s1, register_step (initial_state sample_stack) sample_hist_header = .ok s1
      ∧ s1.file_section = BOVESPA_FILE_SECTION_QUOTES :=
  ⟨by decide, by decide, by decide, by decide,
    (header_register_checked (initial_state sample_stack) sample_hist_header
      BOVESPA_FILE_TYPE_HIST (by decide) (by decide) (by decide)).1.mpr (by decide)⟩

/-! ### Field sanitation -/

theorem getD_append_length (pre : List Char) (x : Char) (post : List Char) (d : Char) :
    (pre ++ x :: post).getD pre.length d = x := by
  induction pre with
  | nil => rfl
  | cons p ps ih => simpa using ih

theorem set_append_length (pre : List Char) (x y : Char) (post : List Char) :
    (pre ++ x :: post).set pre.length y = pre ++ y :: post := by
  induction pre with
  | nil => rfl
  | cons p ps ih => simp [List.set, ih]

theorem map_range_getD (l : List Char) (d : Char) :
    (List.range l.length).map (fun k => l.getD k d) = l := by
  induction l with
  | nil => rfl
  | cons a t ih =>
    rw [List.length_cons, List.range_succ_eq_map, List.map_cons, List.map_map]
    simp only [List.getD_cons_zero, List.cons.injEq, true_and]
    have : ((fun k => (a :: t).getD k d) ∘ Nat.succ) = fun k => t.getD k d := by
      funext k
      simp
    rw [this, ih]

theorem memmove_zero_bytes (field : List Char) (dst src : Nat) :
    memmove field dst src 0 = field := by
  unfold memmove
  have : (fun k => if dst ≤ k ∧ k < dst + 0 then field.getD (src + (k - dst)) NUL
      else field.getD k NUL) = fun k => field.getD k NUL := by
    funext k
    have : ¬ (dst ≤ k ∧ k < dst + 0) := by omega
    rw [if_neg this]
  rw [this, map_range_getD]

theorem memmove_same (field : List Char) (p n : Nat) :
    memmove field p p n = field := by
  unfold memmove
  have : (fun k => if p ≤ k ∧ k < p + n then field.getD (p + (k - p)) NUL
      else field.getD k NUL) = fun k => field.getD k NUL := by
    funext k
    split
    · rename_i h
      have : p + (k - p) = k := by omega
      rw [this]
    · rfl
  rw [this, map_range_getD]

theorem memmove_cons (c : Char) (field : List Char) (dst src n : Nat) :
    memmove (c :: field) (dst + 1) (src + 1) n = c :: memmove field dst src n := by
  unfold memmove
  rw [List.length_cons, List.range_succ_eq_map, List.map_cons, List.map_map]
  have h0 : ¬ (dst + 1 ≤ 0 ∧ 0 < dst + 1 + n) := by omega
  rw [if_neg h0]
  simp only [List.getD_cons_zero, List.cons.injEq, true_and]
  apply List.map_congr_left
  intro k _
  simp only [Function.comp, Nat.succ_eq_add_one]
  by_cases h : dst ≤ k ∧ k < dst + n
  · have h' : dst + 1 ≤ k + 1 ∧ k + 1 < dst + 1 + n := by omega
    rw [if_pos h, if_pos h']
    have : src + 1 + (k + 1 - (dst + 1)) = (src + (k - dst)) + 1 := by omega
    rw [this, List.getD_cons_succ]
  · have h' : ¬ (dst + 1 ≤ k + 1 ∧ k + 1 < dst + 1 + n) := by omega
    rw [if_neg h, if_neg h', List.getD_cons_succ]

theorem memmove_zero_succ (a : Char) (t : List Char) (src n : Nat) :
    memmove (a :: t) 0 (src + 1) (n + 1) = t.getD src NUL :: memmove t 0 (src + 1) n := by
  unfold memmove
  rw [List.length_cons, List.range_succ_eq_map, List.map_cons, List.map_map]
  have h0 : (0 ≤ 0 ∧ 0 < 0 + (n + 1)) := by omega
  rw [if_pos h0]
  simp only [Nat.sub_zero, Nat.add_zero, List.getD_cons_succ, List.cons.injEq, true_and]
  apply List.map_congr_left
  intro k _
  simp only [Function.comp, Nat.succ_eq_add_one]
  by_cases h : 0 ≤ k ∧ k < 0 + n
  · have h' : 0 ≤ k + 1 ∧ k + 1 < 0 + (n + 1) := by omega
    rw [if_pos h, if_pos h']
    have : src + 1 + (k + 1) = (src + 1 + k) + 1 := by omega
    rw [this, List.getD_cons_succ]
  · have h' : ¬ (0 ≤ k + 1 ∧ k + 1 < 0 + (n + 1)) := by omega
    rw [if_neg h, if_neg h', List.getD_cons_succ]

/-- Removing the byte at offset `pre.length` by the shift of the second loop. -/
theorem memmove_shift_aux (post : List Char) :
    ∀ (rest : List Char) (a : Char),
      memmove (a :: (rest ++ NUL :: post)) 0 1 (rest.length + 1) = rest ++ NUL :: NUL :: post := by
  intro rest
  induction rest with
  | nil =>
    intro a
    rw [List.nil_append, List.length_nil, Nat.zero_add, memmove_zero_succ, memmove_zero_bytes]
    rfl
  | cons r rs ih =>
    intro a
    rw [List.cons_append, List.length_cons, memmove_zero_succ, ih r]
    rfl

theorem memmove_shift (pre rest post : List Char) (a : Char) :
    memmove (pre ++ a :: (rest ++ NUL :: post)) pre.length (pre.length + 1) (rest.length + 1)
      = pre ++ (rest ++ NUL :: NUL :: post) := by
  induction pre with
  | nil => exact memmove_shift_aux post rest a
  | cons p ps ih =>
    rw [List.cons_append, List.length_cons, memmove_cons, ih]
    rfl

/-- The final move of sanitize_field brings the bytes after the leading zeros, terminator
included, to the front. -/
theorem memmove_front (tail : List Char) :
    ∀ (body zs : List Char),
      ∃ junk, memmove (zs ++ (body ++ NUL :: tail)) 0 zs.length (body.length + 1)
        = body ++ NUL :: junk := by
  intro body
  induction body with
  | nil =>
    intro zs
    cases zs with
    | nil => exact ⟨tail, by
        show memmove (NUL :: tail) 0 0 1 = NUL :: tail
        rw [memmove_same]⟩
    | cons z zs1 =>
      refine ⟨zs1 ++ NUL :: tail, ?_⟩
      rw [List.nil_append, List.length_nil, Nat.zero_add, List.cons_append, List.length_cons,
        memmove_zero_succ, memmove_zero_bytes, getD_append_length]
      rfl
  | cons b bs ih =>
    intro zs
    cases zs with
    | nil =>
      refine ⟨tail, ?_⟩
      show memmove (b :: bs ++ NUL :: tail) 0 0 ((b :: bs).length + 1) = b :: bs ++ NUL :: tail
      rw [memmove_same]
    | cons z zs1 =>
      obtain ⟨junk, hj⟩ := ih (zs1 ++ [b])
      refine ⟨junk, ?_⟩
      rw [List.cons_append, List.length_cons, List.cons_append, List.length_cons,
        memmove_zero_succ, getD_append_length]
      have e1 : zs1 ++ b :: (bs ++ NUL :: tail) = (zs1 ++ [b]) ++ (bs ++ NUL :: tail) := by
        simp
      have e2 : zs1.length + 1 = (zs1 ++ [b]).length := by simp
      rw [e1, e2, hj]
      rfl

theorem getD_append_length_succ (pre : List Char) (a x : Char) (post : List Char) (d : Char) :
    (pre ++ a :: x :: post).getD (pre.length + 1) d = x := by
  induction pre with
  | nil => rfl
  | cons p ps ih => simpa using ih

theorem sanitize_trailing_eq (c : Char) :
    ∀ (r t : List Char), ∃ junk,
      sanitize_trailing r.length (c :: (r.reverse ++ NUL :: t)) (r.length + 1)
        = (c :: ((r.dropWhile (fun c => c == ' ')).reverse ++ NUL :: junk),
            (r.dropWhile (fun c => c == ' ')).length + 1) := by
  intro r
  induction r with
  | nil => intro t; exact ⟨t, rfl⟩
  | cons x r ih =>
    intro t
    have hget : (c :: ((x :: r).reverse ++ NUL :: t)).getD (r.length + 1) NUL = x := by
      rw [List.getD_cons_succ, List.reverse_cons, List.append_assoc, ← List.length_reverse r]
      exact getD_append_length r.reverse x _ NUL
    rw [List.length_cons, sanitize_trailing, hget]
    by_cases hx : x = ' '
    · subst hx
      have hset : (c :: ((' ' :: r).reverse ++ NUL :: t)).set (r.length + 1) NUL
          = c :: (r.reverse ++ NUL :: NUL :: t) := by
        rw [List.set_cons_succ, List.reverse_cons, List.append_assoc, ← List.length_reverse r]
        rw [List.singleton_append, set_append_length]
      rw [if_neg (by simp), hset]
      obtain ⟨junk, hj⟩ := ih (NUL :: t)
      refine ⟨junk, ?_⟩
      rw [hj]
      simp [List.dropWhile]
    · rw [if_pos hx]
      refine ⟨t, ?_⟩
      have hb : (x == ' ') = false := by simpa using hx
      simp [List.dropWhile, hb]

theorem sanitize_shift_eq (pre : List Char) :
    ∀ (rest post : List Char) (fuel : Nat), rest.length < fuel → ∃ junk,
      sanitize_shift fuel (pre ++ ' ' :: (rest ++ NUL :: post)) (pre.length + 1 + rest.length)
          pre.length
        = (pre ++ ' ' :: (rest.dropWhile (fun c => c == ' ') ++ NUL :: junk),
            pre.length + 1 + (rest.dropWhile (fun c => c == ' ')).length) := by
  intro rest
  induction rest with
  | nil =>
    intro post fuel hf
    obtain ⟨f, rfl⟩ : ∃ f, fuel = f + 1 := ⟨fuel - 1, by simp at hf; omega⟩
    refine ⟨post, ?_⟩
    rw [sanitize_shift, List.nil_append, getD_append_length_succ]
    rw [if_neg (by decide)]
    rfl
  | cons x xs ih =>
    intro post fuel hf
    obtain ⟨f, rfl⟩ : ∃ f, fuel = f + 1 := ⟨fuel - 1, by simp at hf; omega⟩
    have hf2 : xs.length < f := by simp at hf; omega
    rw [sanitize_shift, List.cons_append, getD_append_length_succ]
    by_cases hx : x = ' '
    · subst hx
      rw [if_pos rfl]
      have hn : pre.length + 1 + (' ' :: xs).length - pre.length = (' ' :: xs).length + 1 := by
        simp; omega
      have hm := memmove_shift pre (' ' :: xs) post ' '
      rw [List.cons_append] at hm
      rw [hn, hm]
      have hs : pre.length + 1 + (' ' :: xs).length - 1 = pre.length + 1 + xs.length := by
        simp
      rw [hs]
      obtain ⟨junk, hj⟩ := ih (NUL :: post) f hf2
      refine ⟨junk, ?_⟩
      rw [List.cons_append, hj]
      simp [List.dropWhile]
    · rw [if_neg hx]
      refine ⟨post, ?_⟩
      have hb : (x == ' ') = false := by simpa using hx
      simp [List.dropWhile, hb]

theorem collapse_spaces_space (xs : List Char) :
    collapse_spaces (' ' :: xs) = ' ' :: collapse_spaces (xs.dropWhile (fun c => c == ' ')) := by
  induction xs with
  | nil => rfl
  | cons y ys ih =>
    by_cases hy : y = ' '
    · subst hy
      rw [collapse_spaces, if_pos ⟨rfl, rfl⟩, ih]
      simp [List.dropWhile]
    · have hb : (y == ' ') = false := by simpa using hy
      rw [collapse_spaces, if_neg (fun h => hy h.2)]
      simp [List.dropWhile, hb]

theorem collapse_spaces_other (x : Char) (xs : List Char) (hx : x ≠ ' ') :
    collapse_spaces (x :: xs) = x :: collapse_spaces xs := by
  cases xs with
  | nil => rfl
  | cons y ys => rw [collapse_spaces, if_neg (fun h => hx h.1)]

theorem sanitize_consecutive_eq :
    ∀ (fuel : Nat) (done todo junk : List Char), todo.length ≤ fuel → ∃ junk2,
      sanitize_consecutive fuel (done ++ (todo ++ NUL :: junk)) (done.length + todo.length)
          done.length
        = (done ++ (collapse_spaces todo ++ NUL :: junk2),
            done.length + (collapse_spaces todo).length) := by
  intro fuel
  induction fuel with
  | zero =>
    intro done todo junk hf
    have : todo = [] := List.length_eq_zero.mp (by omega)
    subst this
    exact ⟨junk, rfl⟩
  | succ f ih =>
    intro done todo junk hf
    cases todo with
    | nil =>
      refine ⟨junk, ?_⟩
      rw [sanitize_consecutive, if_neg (by simp)]
      rfl
    | cons x xs =>
      have hf2 : xs.length ≤ f := by simp at hf; omega
      rw [sanitize_consecutive, if_pos (by simp), List.cons_append, getD_append_length]
      by_cases hx : x = ' '
      · subst hx
        rw [if_pos rfl]
        have hlen : xs.length < (done ++ ' ' :: (xs ++ NUL :: junk)).length := by
          simp; omega
        obtain ⟨j1, h1⟩ := sanitize_shift_eq done xs junk _ hlen
        have e0 : done.length + (' ' :: xs).length = done.length + 1 + xs.length := by
          simp; omega
        rw [e0]
        simp only [h1]
        have hd : (xs.dropWhile (fun c => c == ' ')).length ≤ f :=
          le_trans (List.dropWhile_sublist _).length_le hf2
        obtain ⟨j2, h2⟩ := ih (done ++ [' ']) (xs.dropWhile (fun c => c == ' ')) j1 hd
        refine ⟨j2, ?_⟩
        have e1 : done ++ ' ' :: (xs.dropWhile (fun c => c == ' ') ++ NUL :: j1)
            = (done ++ [' ']) ++ (xs.dropWhile (fun c => c == ' ') ++ NUL :: j1) := by simp
        have e2 : done.length + 1 = (done ++ [' ']).length := by simp
        rw [e1, e2, h2, collapse_spaces_space]
        simp
        omega
      · rw [if_neg hx]
        obtain ⟨j2, h2⟩ := ih (done ++ [x]) xs junk hf2
        refine ⟨j2, ?_⟩
        have e1 : done ++ x :: (xs ++ NUL :: junk) = (done ++ [x]) ++ (xs ++ NUL :: junk) := by
          simp
        have e2 : done.length + 1 = (done ++ [x]).length := by simp
        have e0 : done.length + (x :: xs).length = (done ++ [x]).length + xs.length := by
          simp; omega
        rw [e0, e1, e2, h2, collapse_spaces_other x xs hx]
        simp
        omega

theorem sanitize_zeros_eq :
    ∀ (fuel : Nat) (done todo junk : List Char), todo.length ≤ fuel →
      sanitize_zeros fuel (done ++ (todo ++ NUL :: junk)) (done.length + todo.length) done.length
        = done.length + (todo.takeWhile (fun c => c == '0')).length := by
  intro fuel
  induction fuel with
  | zero =>
    intro done todo junk hf
    have : todo = [] := List.length_eq_zero.mp (by omega)
    subst this
    rfl
  | succ f ih =>
    intro done todo junk hf
    cases todo with
    | nil =>
      rw [sanitize_zeros, if_neg (by simp)]
      rfl
    | cons x xs =>
      have hf2 : xs.length ≤ f := by simp at hf; omega
      rw [sanitize_zeros, if_pos (by simp), List.cons_append, getD_append_length]
      by_cases hx : x = '0'
      · subst hx
        rw [if_neg (by simp)]
        have e1 : done ++ '0' :: (xs ++ NUL :: junk) = (done ++ ['0']) ++ (xs ++ NUL :: junk) := by
          simp
        have e2 : done.length + 1 = (done ++ ['0']).length := by simp
        have e0 : done.length + ('0' :: xs).length = (done ++ ['0']).length + xs.length := by
          simp; omega
        rw [e0, e1, e2, ih _ _ _ hf2]
        simp [List.takeWhile]
        omega
      · rw [if_pos hx]
        have hb : (x == '0') = false := by simpa using hx
        simp [List.takeWhile, hb]

theorem cstr_append_nul (body junk : List Char) (h : NUL ∉ body) :
    cstr (body ++ NUL :: junk) = body := by
  induction body with
  | nil => exact cstr_cons_nul junk
  | cons b bs ih =>
    have hb : b ≠ NUL := fun e => h (by rw [e]; exact List.mem_cons_self _ _)
    rw [List.cons_append, cstr_cons_ne b _ hb, ih (fun m => h (List.mem_cons_of_mem _ m))]

/-- The array that sanitize_field leaves behind: the field without the trailing spaces that
follow its first byte, with every run of spaces collapsed, without its leading zeros, then a
terminator. -/
theorem sanitize_field_eq (c : Char) (rest : List Char) : ∃ junk,
    sanitize_field (c :: rest ++ [NUL]) (rest.length + 1)
      = (collapse_spaces (c :: rstrip_spaces rest)).dropWhile (fun x => x == '0')
          ++ NUL :: junk := by
  obtain ⟨j1, h1⟩ := sanitize_trailing_eq c rest.reverse []
  rw [List.reverse_reverse, List.length_reverse] at h1
  have h1' : sanitize_trailing (rest.length + 1 - 1) (c :: rest ++ [NUL]) (rest.length + 1)
      = (c :: (rstrip_spaces rest ++ NUL :: j1), (rstrip_spaces rest).length + 1) := by
    rw [Nat.add_sub_cancel, List.cons_append, h1]
    simp [rstrip_spaces]
  obtain ⟨j2, h2⟩ := sanitize_consecutive_eq ((rstrip_spaces rest).length + 1) []
    (c :: rstrip_spaces rest) j1 (by simp)
  have h2' : sanitize_consecutive ((rstrip_spaces rest).length + 1)
      (c :: (rstrip_spaces rest ++ NUL :: j1)) ((rstrip_spaces rest).length + 1) 0
      = (collapse_spaces (c :: rstrip_spaces rest) ++ NUL :: j2,
          (collapse_spaces (c :: rstrip_spaces rest)).length) := by
    have := h2
    simp only [List.nil_append, List.length_nil, Nat.zero_add, List.length_cons,
      List.cons_append] at this
    exact this
  have h3 := sanitize_zeros_eq (collapse_spaces (c :: rstrip_spaces rest)).length []
    (collapse_spaces (c :: rstrip_spaces rest)) j2 (le_refl _)
  simp only [List.nil_append, List.length_nil, Nat.zero_add] at h3
  obtain ⟨j4, h4⟩ := memmove_front j2
    ((collapse_spaces (c :: rstrip_spaces rest)).dropWhile (fun x => x == '0'))
    ((collapse_spaces (c :: rstrip_spaces rest)).takeWhile (fun x => x == '0'))
  rw [← List.append_assoc, List.takeWhile_append_dropWhile] at h4
  refine ⟨j4, ?_⟩
  unfold sanitize_field
  simp only [h1', h2', h3]
  have hl : (collapse_spaces (c :: rstrip_spaces rest)).length
      - (List.takeWhile (fun x => x == '0') (collapse_spaces (c :: rstrip_spaces rest))).length
      = (List.dropWhile (fun x => x == '0') (collapse_spaces (c :: rstrip_spaces rest))).length := by
    have := congrArg List.length
      (List.takeWhile_append_dropWhile (fun x => x == '0')
        (collapse_spaces (c :: rstrip_spaces rest)))
    rw [List.length_append] at this
    omega
  rw [hl, h4]

theorem collapse_spaces_head (rest : List Char) :
    ∀ d, ∃ t, collapse_spaces (d :: rest) = d :: t := by
  induction rest with
  | nil => intro d; exact ⟨[], rfl⟩
  | cons e es ih =>
    intro d
    by_cases h : d = ' ' ∧ e = ' '
    · obtain ⟨t, ht⟩ := ih e
      refine ⟨t, ?_⟩
      rw [collapse_spaces, if_pos h, ht, h.1, h.2]
    · exact ⟨collapse_spaces (e :: es), by rw [collapse_spaces, if_neg h]⟩

theorem collapse_spaces_chain (l : List Char) : no_adjacent_spaces (collapse_spaces l) := by
  unfold no_adjacent_spaces
  induction l with
  | nil => exact List.chain'_nil
  | cons c rest ih =>
    cases rest with
    | nil => exact List.chain'_singleton c
    | cons d ds =>
      by_cases h : c = ' ' ∧ d = ' '
      · rw [collapse_spaces, if_pos h]
        exact ih
      · rw [collapse_spaces, if_neg h]
        obtain ⟨t, ht⟩ := collapse_spaces_head ds d
        rw [ht] at ih ⊢
        exact List.chain'_cons.mpr ⟨h, ih⟩

theorem collapse_spaces_sublist (l : List Char) : (collapse_spaces l).Sublist l := by
  induction l with
  | nil => exact List.Sublist.slnil
  | cons c rest ih =>
    cases rest with
    | nil => exact List.Sublist.refl _
    | cons d ds =>
      by_cases h : c = ' ' ∧ d = ' '
      · rw [collapse_spaces, if_pos h]
        exact List.Sublist.cons c ih
      · rw [collapse_spaces, if_neg h]
        exact List.Sublist.cons₂ c ih

theorem rstrip_spaces_sublist (l : List Char) : (rstrip_spaces l).Sublist l := by
  unfold rstrip_spaces
  have h := (List.dropWhile_sublist (fun c => c == ' ') (l := l.reverse)).reverse
  rwa [List.reverse_reverse] at h

theorem collapse_spaces_no_space (l : List Char) (h : ∀ x ∈ l, x ≠ ' ') :
    collapse_spaces l = l := by
  induction l with
  | nil => rfl
  | cons c rest ih =>
    rw [collapse_spaces_other c rest (h c (List.mem_cons_self _ _)),
      ih (fun x hx => h x (List.mem_cons_of_mem _ hx))]

theorem sanitized_sublist (c : Char) (rest : List Char) :
    ((collapse_spaces (c :: rstrip_spaces rest)).dropWhile (fun x => x == '0')).Sublist
      (c :: rest) :=
  ((List.dropWhile_sublist _).trans (collapse_spaces_sublist _)).trans
    (List.Sublist.cons₂ c (rstrip_spaces_sublist rest))

/-- Claim C14. A field made of n + 1 spaces does not sanitize to the empty string but to a
single space: the loop that removes trailing spaces stops above index 0 and never tests the first
byte of the field. -/
theorem all_space_field_keeps_a_space (n : Nat) :
    cstr (sanitize_field (List.replicate (n + 1) ' ' ++ [NUL]) (n + 1)) = [' '] := by
  obtain ⟨junk, h⟩ := sanitize_field_eq ' ' (List.replicate n ' ')
  rw [List.length_replicate] at h
  have hr : rstrip_spaces (List.replicate n ' ') = [] := by
    unfold rstrip_spaces
    rw [List.reverse_replicate, List.reverse_eq_nil_iff, List.dropWhile_eq_nil_iff]
    intro x hx
    rw [List.eq_of_mem_replicate hx]
    rfl
  rw [hr] at h
  rw [List.replicate_succ, h]
  exact cstr_append_nul [' '] junk (by decide)

/-- Claim C15 fails on its own input: the 10-character field made of two spaces, 007700 and two
spaces does not sanitize to 7700. -/
theorem leading_spaces_field_not_7700 :
    cstr (sanitize_field ("  007700  ".toList ++ [NUL]) 10) ≠ "7700".toList := by
  decide

/-- Claim C15, amended. The 10-character field made of two spaces, 007700 and two spaces
sanitizes to one space followed by 007700: the trailing spaces are removed, the two leading
spaces collapse to one, and the zeros stay, since they do not lead the field. -/
theorem leading_spaces_field_result :
    cstr (sanitize_field ("  007700  ".toList ++ [NUL]) 10) = " 007700".toList := by
  decide

/-- Claim C16. For a field without a NUL byte, the output of sanitize_field is the field
without the trailing spaces that follow its first byte, every run of spaces collapsed to a single
space, and leading zeros dropped; it has no two adjacent spaces, and it is a subsequence of the
field, so the characters that remain keep their order. -/
theorem sanitize_field_collapses_spaces (c : Char) (rest : List Char) (h : NUL ∉ c :: rest) :
    cstr (sanitize_field (c :: rest ++ [NUL]) (rest.length + 1))
        = (collapse_spaces (c :: rstrip_spaces rest)).dropWhile (fun x => x == '0')
      ∧ no_adjacent_spaces (cstr (sanitize_field (c :: rest ++ [NUL]) (rest.length + 1)))
      ∧ (cstr (sanitize_field (c :: rest ++ [NUL]) (rest.length + 1))).Sublist (c :: rest) := by
  obtain ⟨junk, hj⟩ := sanitize_field_eq c rest
  have hs := sanitized_sublist c rest
  have he : cstr (sanitize_field (c :: rest ++ [NUL]) (rest.length + 1))
      = (collapse_spaces (c :: rstrip_spaces rest)).dropWhile (fun x => x == '0') := by
    rw [hj]
    exact cstr_append_nul _ junk (fun m => h (hs.subset m))
  rw [he]
  exact ⟨rfl, List.Chain'.suffix (collapse_spaces_chain _) (List.dropWhile_suffix _), hs⟩

theorem sanitize_field_collapses_spaces_witness :
    NUL ∉ "AB  CD".toList
      ∧ cstr (sanitize_field ("AB  CD".toList ++ [NUL]) 6) = "AB CD".toList
      ∧ no_adjacent_spaces (cstr (sanitize_field ("AB  CD".toList ++ [NUL]) 6)) :=
  ⟨by decide,
    (sanitize_field_collapses_spaces 'A' "B  CD".toList (by decide)).1.trans (by decide),
    (sanitize_field_collapses_spaces 'A' "B  CD".toList (by decide)).2.1⟩

/-- Claim C17 fails on the field 0000, which sanitizes to the empty string. -/
theorem all_zero_field_example :
    cstr (sanitize_field ("0000".toList ++ [NUL]) 4) = [] := by
  decide

/-- Claim C17, amended. A field made of n + 1 zeros sanitizes to the empty string: the loop
that skips leading zeros runs to the end of the field and no digit is kept. -/
theorem all_zero_field_is_emptied (n : Nat) :
    cstr (sanitize_field (List.replicate (n + 1) '0' ++ [NUL]) (n + 1)) = [] := by
  obtain ⟨junk, h⟩ := sanitize_field_eq '0' (List.replicate n '0')
  rw [List.length_replicate] at h
  have hr : rstrip_spaces (List.replicate n '0') = List.replicate n '0' := by
    unfold rstrip_spaces
    rw [List.reverse_replicate]
    cases n with
    | zero => rfl
    | succ m =>
      rw [List.replicate_succ, List.dropWhile_cons_of_neg (by decide), ← List.replicate_succ,
        List.reverse_replicate]
  have hc : collapse_spaces ('0' :: List.replicate n '0') = List.replicate (n + 1) '0' := by
    rw [← List.replicate_succ]
    apply collapse_spaces_no_space
    intro x hx
    rw [List.eq_of_mem_replicate hx]
    decide
  have hd : (List.replicate (n + 1) '0').dropWhile (fun x => x == '0') = [] := by
    rw [List.dropWhile_eq_nil_iff]
    intro x hx
    rw [List.eq_of_mem_replicate hx]
    rfl
  rw [hr, hc, hd] at h
  rw [List.replicate_succ, h]
  exact cstr_cons_nul junk

/-! ### The register loop in section QUOTES -/

theorem strtol_rest (f : List Char) : (strtol f).2 = unread_rest f := by
  unfold strtol unread_rest
  cases scan_number (cstr f) with
  | none => rfl
  | some r =>
    obtain ⟨neg, v, rest⟩ := r
    simp only
    split <;> rfl

theorem strtoul_rest (f : List Char) : (strtoul f).2 = unread_rest f := by
  unfold strtoul unread_rest
  cases scan_number (cstr f) with
  | none => rfl
  | some r =>
    obtain ⟨neg, v, rest⟩ := r
    simp only
    split
    · rfl
    · split <;> rfl

theorem quotes_list_append_eq (m : bovespa_mapper) (l : List quote_node) :
    quotes_list_append m l =
      if strcmp m.tp_merc "10".toList ≠ 0 then (APPEND_IGNORE, l)
      else if strcmp m.cod_bdi "2".toList ≠ 0 then (APPEND_IGNORE, l)
      else if strcmp m.mod_ref "R$".toList ≠ 0 then (APPEND_IGNORE, l)
      else if (strtol m.dia_pregao).2 ≠ [] then (APPEND_FAILURE, l)
      else if (strtol m.mes_pregao).2 ≠ [] then (APPEND_FAILURE, l)
      else if (strtol m.ano_pregao).2 ≠ [] then (APPEND_FAILURE, l)
      else if (strtoul m.pre_abe).2 ≠ [] then (APPEND_FAILURE, l)
      else if (strtoul m.pre_max).2 ≠ [] then (APPEND_FAILURE, l)
      else if (strtoul m.pre_min).2 ≠ [] then (APPEND_FAILURE, l)
      else if (strtoul m.pre_med).2 ≠ [] then (APPEND_FAILURE, l)
      else if (strtoul m.pre_ult).2 ≠ [] then (APPEND_FAILURE, l)
      else if (strtoul m.tot_neg).2 ≠ [] then (APPEND_FAILURE, l)
      else if (strtoul m.qua_tot).2 ≠ [] then (APPEND_FAILURE, l)
      else if (strtoul m.vol_tot).2 ≠ [] then (APPEND_FAILURE, l)
      else if (strtoul m.fat_cot).2 ≠ [] then (APPEND_FAILURE, l)
      else (APPEND_SUCCESS, l ++ [quote_node_of m]) := rfl

theorem quotes_list_append_malformed (m : bovespa_mapper) (l : List quote_node)
    (hrel : relevance_filter m)
    (hbad : ∃ f ∈ numeric_fields m, unread_rest f ≠ []) :
    quotes_list_append m l = (APPEND_FAILURE, l) := by
  rw [relevance_filter_iff] at hrel
  obtain ⟨r1, r2, r3⟩ := hrel
  rw [quotes_list_append_eq, if_neg (not_not.mpr r1), if_neg (not_not.mpr r2),
    if_neg (not_not.mpr r3)]
  by_cases h1 : (strtol m.dia_pregao).2 ≠ []
  · rw [if_pos h1]
  rw [if_neg h1]
  by_cases h2 : (strtol m.mes_pregao).2 ≠ []
  · rw [if_pos h2]
  rw [if_neg h2]
  by_cases h3 : (strtol m.ano_pregao).2 ≠ []
  · rw [if_pos h3]
  rw [if_neg h3]
  by_cases h4 : (strtoul m.pre_abe).2 ≠ []
  · rw [if_pos h4]
  rw [if_neg h4]
  by_cases h5 : (strtoul m.pre_max).2 ≠ []
  · rw [if_pos h5]
  rw [if_neg h5]
  by_cases h6 : (strtoul m.pre_min).2 ≠ []
  · rw [if_pos h6]
  rw [if_neg h6]
  by_cases h7 : (strtoul m.pre_med).2 ≠ []
  · rw [if_pos h7]
  rw [if_neg h7]
  by_cases h8 : (strtoul m.pre_ult).2 ≠ []
  · rw [if_pos h8]
  rw [if_neg h8]
  by_cases h9 : (strtoul m.tot_neg).2 ≠ []
  · rw [if_pos h9]
  rw [if_neg h9]
  by_cases h10 : (strtoul m.qua_tot).2 ≠ []
  · rw [if_pos h10]
  rw [if_neg h10]
  by_cases h11 : (strtoul m.vol_tot).2 ≠ []
  · rw [if_pos h11]
  rw [if_neg h11]
  by_cases h12 : (strtoul m.fat_cot).2 ≠ []
  · rw [if_pos h12]
  rw [if_neg h12]
  exfalso
  rw [strtol_rest] at h1 h2 h3
  rw [strtoul_rest] at h4 h5 h6 h7 h8 h9 h10 h11 h12
  obtain ⟨f, hf, hne⟩ := hbad
  simp only [numeric_fields, List.mem_cons, List.mem_singleton, List.not_mem_nil,
    or_false] at hf
  rcases hf with rfl | rfl | rfl | rfl | rfl | rfl | rfl | rfl | rfl | rfl | rfl | rfl
  · exact h1 hne
  · exact h2 hne
  · exact h3 hne
  · exact h4 hne
  · exact h5 hne
  · exact h6 hne
  · exact h7 hne
  · exact h8 hne
  · exact h9 hne
  · exact h10 hne
  · exact h11 hne
  · exact h12 hne

theorem quotes_list_append_result (m : bovespa_mapper) (l : List quote_node) :
    (quotes_list_append m l = (APPEND_IGNORE, l) ∧ ¬ relevance_filter m) ∨
    (quotes_list_append m l = (APPEND_FAILURE, l) ∧ relevance_filter m ∧
      ∃ f ∈ numeric_fields m, unread_rest f ≠ []) ∨
    (quotes_list_append m l = (APPEND_SUCCESS, l ++ [quote_node_of m]) ∧
      relevance_filter m ∧ ∀ f ∈ numeric_fields m, unread_rest f = []) := by
  by_cases hrel : relevance_filter m
  · by_cases hbad : ∃ f ∈ numeric_fields m, unread_rest f ≠ []
    · right; left
      exact ⟨quotes_list_append_malformed m l hrel hbad, hrel, hbad⟩
    · right; right
      have hall : ∀ f ∈ numeric_fields m, unread_rest f = [] := by
        intro f hf
        by_contra hne
        exact hbad ⟨f, hf, hne⟩
      refine ⟨?_, hrel, hall⟩
      have hrel2 := (relevance_filter_iff m).mp hrel
      obtain ⟨r1, r2, r3⟩ := hrel2
      have a1 := hall m.dia_pregao (by simp [numeric_fields])
      have a2 := hall m.mes_pregao (by simp [numeric_fields])
      have a3 := hall m.ano_pregao (by simp [numeric_fields])
      have a4 := hall m.pre_abe (by simp [numeric_fields])
      have a5 := hall m.pre_max (by simp [numeric_fields])
      have a6 := hall m.pre_min (by simp [numeric_fields])
      have a7 := hall m.pre_med (by simp [numeric_fields])
      have a8 := hall m.pre_ult (by simp [numeric_fields])
      have a9 := hall m.tot_neg (by simp [numeric_fields])
      have a10 := hall m.qua_tot (by simp [numeric_fields])
      have a11 := hall m.vol_tot (by simp [numeric_fields])
      have a12 := hall m.fat_cot (by simp [numeric_fields])
      rw [← strtol_rest] at a1 a2 a3
      rw [← strtoul_rest] at a4 a5 a6 a7 a8 a9 a10 a11 a12
      rw [quotes_list_append_eq, if_neg (not_not.mpr r1), if_neg (not_not.mpr r2),
        if_neg (not_not.mpr r3),
        if_neg (not_not.mpr a1), if_neg (not_not.mpr a2), if_neg (not_not.mpr a3),
        if_neg (not_not.mpr a4), if_neg (not_not.mpr a5), if_neg (not_not.mpr a6),
        if_neg (not_not.mpr a7), if_neg (not_not.mpr a8), if_neg (not_not.mpr a9),
        if_neg (not_not.mpr a10), if_neg (not_not.mpr a11), if_neg (not_not.mpr a12)]
  · left
    exact ⟨quotes_list_append_irrelevant m l hrel, hrel⟩

theorem register_step_quote (s : import_state) (line : List Char)
    (hcount : s.register_count ≠ 0)
    (hsec : s.file_section = BOVESPA_FILE_SECTION_QUOTES)
    (htype : discover_register_type s.file_type (fgets s.bovespa_register line)
      = some BOVESPA_FILE_SECTION_QUOTES) :
    register_step s line =
      if (quotes_list_append (quote_mapper s line) s.quotes_list).1 < 0 then
        .error .cannot_append_quote
      else
        .ok { s with
              bovespa_register := fgets s.bovespa_register line,
              register_count := s.register_count + 1,
              quote_register :=
                copy_quote s.file_type (fgets s.bovespa_register line) s.quote_register,
              quotes_list := (quotes_list_append (quote_mapper s line) s.quotes_list).2,
              quotes_list_count :=
                if (quotes_list_append (quote_mapper s line) s.quotes_list).1 = 0 then
                  s.quotes_list_count + 1
                else s.quotes_list_count } := by
  have hft := discover_register_type_file_type _ _ _ htype
  have h10 : BOVESPA_FILE_SECTION_QUOTES ≠ BOVESPA_FILE_SECTION_HEADER := by decide
  simp only [register_step, if_neg hcount, htype, hsec, if_neg h10, if_pos hft, if_true,
    quote_mapper]

theorem register_step_other (s : import_state) (line : List Char) (t : Nat)
    (hcount : s.register_count ≠ 0)
    (hsec : s.file_section = BOVESPA_FILE_SECTION_QUOTES)
    (htype : discover_register_type s.file_type (fgets s.bovespa_register line) = some t)
    (h0 : t ≠ BOVESPA_FILE_SECTION_HEADER) (h1 : t ≠ BOVESPA_FILE_SECTION_QUOTES)
    (h2 : t ≠ BOVESPA_FILE_SECTION_TRAILER) :
    register_step s line =
      .ok { s with
            bovespa_register := fgets s.bovespa_register line,
            register_count := s.register_count + 1 } := by
  have h10 : BOVESPA_FILE_SECTION_QUOTES ≠ BOVESPA_FILE_SECTION_HEADER := by decide
  simp only [register_step, if_neg hcount, htype, hsec, if_neg h10, if_neg h0, if_neg h1,
    if_neg h2, ite_self, if_true]

theorem register_step_header (s : import_state) (line : List Char) (ft : Nat)
    (hsec : s.file_section = BOVESPA_FILE_SECTION_HEADER)
    (hcount : s.register_count = 0)
    (hft : discover_file_type (fgets s.bovespa_register line) = some ft) :
    register_step s line =
      if strcmp (copy_header ft (fgets s.bovespa_register line) s.header_register).codigo_origem
          "BOVESPA".toList ≠ 0 then
        .error .heading_garbage
      else
        .ok { s with
              bovespa_register := fgets s.bovespa_register line,
              file_type := ft,
              register_count := s.register_count + 1,
              header_register := copy_header ft (fgets s.bovespa_register line) s.header_register,
              file_section := BOVESPA_FILE_SECTION_QUOTES } := by
  obtain ⟨hcases, htype⟩ := discover_file_type_header _ _ hft
  simp only [register_step, hcount, if_true, hft, if_pos hcases, htype, hsec, ne_eq,
    not_true_eq_false, if_false]

theorem register_step_header_none (s : import_state) (line : List Char)
    (hcount : s.register_count = 0)
    (hft : discover_file_type (fgets s.bovespa_register line) = none) :
    register_step s line = .error .cannot_discover_file_type := by
  simp only [register_step, hcount, if_true, hft]

theorem register_step_from_quotes (s s1 : import_state) (line : List Char)
    (hcount : s.register_count ≠ 0)
    (hsec : s.file_section = BOVESPA_FILE_SECTION_QUOTES)
    (hok : register_step s line = .ok s1) :
    s1.file_type = s.file_type ∧ s1.header_register = s.header_register ∧
    s1.register_count = s.register_count + 1 ∧
    s1.bovespa_register = fgets s.bovespa_register line ∧
    ∃ t, discover_register_type s.file_type (fgets s.bovespa_register line) = some t ∧
      ((t = BOVESPA_FILE_SECTION_QUOTES ∧ s1.file_section = BOVESPA_FILE_SECTION_QUOTES ∧
          ((¬ relevance_filter (quote_mapper s line) ∧ s1.quotes_list = s.quotes_list ∧
              s1.quotes_list_count = s.quotes_list_count) ∨
            (relevance_filter (quote_mapper s line) ∧
              (∀ f ∈ numeric_fields (quote_mapper s line), unread_rest f = []) ∧
              s1.quotes_list = s.quotes_list ++ [quote_node_of (quote_mapper s line)] ∧
              s1.quotes_list_count = s.quotes_list_count + 1))) ∨
        (t = BOVESPA_FILE_SECTION_TRAILER ∧ s1.file_section = BOVESPA_FILE_SECTION_TRAILER ∧
          s1.quotes_list = s.quotes_list ∧ s1.quotes_list_count = s.quotes_list_count ∧
          s1.trailer_register
            = copy_trailer s.file_type (fgets s.bovespa_register line) s.trailer_register ∧
          trailer_fields_equal s.file_type s.header_register s1.trailer_register ∧
          VERIFY_REGISTER_COUNT s1.register_count s1.trailer_register.total_registros = none) ∨
        (t ≠ BOVESPA_FILE_SECTION_HEADER ∧ t ≠ BOVESPA_FILE_SECTION_QUOTES ∧
          t ≠ BOVESPA_FILE_SECTION_TRAILER ∧
          s1.file_section = BOVESPA_FILE_SECTION_QUOTES ∧
          s1.quotes_list = s.quotes_list ∧ s1.quotes_list_count = s.quotes_list_count)) := by
  cases htype : discover_register_type s.file_type (fgets s.bovespa_register line) with
  | none =>
    simp only [register_step, if_neg hcount, htype] at hok
    exact absurd hok (by simp)
  | some t =>
    by_cases t0 : t = BOVESPA_FILE_SECTION_HEADER
    · subst t0
      have h10 : BOVESPA_FILE_SECTION_QUOTES ≠ BOVESPA_FILE_SECTION_HEADER := by decide
      simp only [register_step, if_neg hcount, htype, hsec, if_neg h10, if_true] at hok
      exact absurd hok (by simp)
    by_cases t1 : t = BOVESPA_FILE_SECTION_QUOTES
    · subst t1
      rw [register_step_quote s line hcount hsec htype] at hok
      rcases quotes_list_append_result (quote_mapper s line) s.quotes_list with
        ⟨hr, hrel⟩ | ⟨hr, _, _⟩ | ⟨hr, hrel, hall⟩
      · rw [hr] at hok
        have hn : ¬ ((APPEND_IGNORE, s.quotes_list).1 < 0) := by
          show ¬ (APPEND_IGNORE < 0); decide
        have hz : ¬ ((APPEND_IGNORE, s.quotes_list).1 = 0) := by
          show ¬ (APPEND_IGNORE = 0); decide
        rw [if_neg hn, if_neg hz] at hok
        cases hok
        exact ⟨rfl, rfl, rfl, rfl, _, rfl, Or.inl ⟨rfl, hsec, Or.inl ⟨hrel, rfl, rfl⟩⟩⟩
      · rw [hr] at hok
        have hn : ((APPEND_FAILURE, s.quotes_list).1 < 0) := by
          show APPEND_FAILURE < 0; decide
        rw [if_pos hn] at hok
        exact absurd hok (by simp)
      · rw [hr] at hok
        have hn : ¬ ((APPEND_SUCCESS, s.quotes_list ++ [quote_node_of (quote_mapper s line)]).1
            < 0) := by
          show ¬ (APPEND_SUCCESS < 0); decide
        have hz : (APPEND_SUCCESS, s.quotes_list ++ [quote_node_of (quote_mapper s line)]).1
            = 0 := rfl
        rw [if_neg hn, if_pos hz] at hok
        cases hok
        exact ⟨rfl, rfl, rfl, rfl, _, rfl, Or.inl ⟨rfl, hsec, Or.inr ⟨hrel, hall, rfl, rfl⟩⟩⟩
    by_cases t2 : t = BOVESPA_FILE_SECTION_TRAILER
    · subst t2
      have hft := discover_register_type_file_type _ _ _ htype
      rw [register_step_trailer s line hcount hsec htype] at hok
      by_cases hm : MATCH_TRAILER_FIELDS s.file_type s.header_register
          (copy_trailer s.file_type (fgets s.bovespa_register line) s.trailer_register) = true
      · rw [if_neg (not_not.mpr hm)] at hok
        cases hv : VERIFY_REGISTER_COUNT (s.register_count + 1)
            (copy_trailer s.file_type (fgets s.bovespa_register line)
              s.trailer_register).total_registros with
        | some e => rw [hv] at hok; exact absurd hok (by simp)
        | none =>
          rw [hv] at hok
          cases hok
          exact ⟨rfl, rfl, rfl, rfl, _, rfl, Or.inr (Or.inl ⟨rfl, rfl, rfl, rfl, rfl,
            (MATCH_TRAILER_FIELDS_iff _ _ _ hft).mp hm, hv⟩)⟩
      · rw [if_pos hm] at hok
        exact absurd hok (by simp)
    · rw [register_step_other s line t hcount hsec htype t0 t1 t2] at hok
      cases hok
      exact ⟨rfl, rfl, rfl, rfl, _, rfl, Or.inr (Or.inr ⟨t0, t1, t2, hsec, rfl, rfl⟩)⟩

theorem discover_register_type_hist (r : List Char) (t : Nat)
    (h : discover_register_type BOVESPA_FILE_TYPE_HIST r = some t) :
    t = BOVESPA_FILE_SECTION_HEADER ∨ t = BOVESPA_FILE_SECTION_QUOTES ∨
      t = BOVESPA_FILE_SECTION_TRAILER := by
  unfold discover_register_type at h
  simp only [if_true] at h
  split at h
  · left; exact (Option.some.inj h).symm
  · split at h
    · right; left; exact (Option.some.inj h).symm
    · split at h
      · right; right; exact (Option.some.inj h).symm
      · exact absurd h (by simp)

theorem quote_mapper_bdin (s : import_state) (line : List Char)
    (h : s.file_type = BOVESPA_FILE_TYPE_BDIN) :
    (quote_mapper s line).ano_pregao = s.header_register.ano_pregao ∧
    (quote_mapper s line).mes_pregao = s.header_register.mes_pregao ∧
    (quote_mapper s line).dia_pregao = s.header_register.dia_pregao ∧
    (quote_mapper s line).mod_ref = "R$".toList := by
  have hne : BOVESPA_FILE_TYPE_BDIN ≠ BOVESPA_FILE_TYPE_HIST := by decide
  unfold quote_mapper mapper_of
  rw [h, if_neg hne]
  exact ⟨rfl, rfl, rfl, rfl⟩

theorem consumed_kind_quotes (s s1 : import_state) (t : Nat)
    (hsec : s.file_section = BOVESPA_FILE_SECTION_QUOTES)
    (ht : discover_register_type s1.file_type s1.bovespa_register = some t) :
    consumed_kind s s1 =
      if t = BOVESPA_FILE_SECTION_QUOTES then
        (if s1.quotes_list_count = s.quotes_list_count + 1 then .emitted else .ignored)
      else if t = BOVESPA_FILE_SECTION_TRAILER then .trailer
      else .other := by
  have h10 : BOVESPA_FILE_SECTION_QUOTES ≠ BOVESPA_FILE_SECTION_HEADER := by decide
  unfold consumed_kind
  rw [hsec, if_neg h10, ht]
  simp only [Option.some.injEq]

theorem register_loop_quotes_phase (xs : List (List Char)) :
    ∀ (s s1 : import_state), s.register_count ≠ 0 →
      s.file_section = BOVESPA_FILE_SECTION_QUOTES →
      register_loop s xs = .ok s1 → quotes_phase s s1 xs := by
  induction xs with
  | nil =>
    intro s s1 _ hsec h
    simp only [register_loop] at h
    cases h
    unfold quotes_phase
    simp only [register_kinds, List.length_nil, List.count_nil, Nat.add_zero, hsec, true_and,
      and_self, true_or, implies_true]
    intro _ n hn
    exact Or.inl hn
  | cons line rest ih =>
    intro s s1 hcount hsec h
    simp only [register_loop] at h
    cases hs : register_step s line with
    | error e => rw [hs] at h; exact absurd h (by simp)
    | ok s2 =>
      rw [hs] at h
      obtain ⟨e1, e2, e3, e4, t, ht, hcase⟩ := register_step_from_quotes s s2 line hcount hsec hs
      have ht2 : discover_register_type s2.file_type s2.bovespa_register = some t := by
        rw [e1, e4]; exact ht
      have hk : register_kinds s (line :: rest) = consumed_kind s s2 :: register_kinds s2 rest := by
        simp only [register_kinds, hs]
      have hkind := consumed_kind_quotes s s2 t hsec ht2
      have hc2 : s2.register_count ≠ 0 := by omega
      have h21 : BOVESPA_FILE_SECTION_TRAILER ≠ BOVESPA_FILE_SECTION_QUOTES := by decide
      rcases hcase with ⟨rfl, hsec2, hq⟩ | ⟨rfl, hsec2, q1, q2, q3, q4, q5⟩ |
        ⟨t0, t1, t2, hsec2, q1, q2⟩
      · -- a quote register
        obtain ⟨p1, p2, p3, p4, p5, p6, p7, p8, p9, p10⟩ := ih s2 s1 hc2 hsec2 h
        rw [if_pos rfl] at hkind
        rcases hq with ⟨hrel, q1, q2⟩ | ⟨hrel, hall, q1, q2⟩
        · have hne : ¬ s2.quotes_list_count = s.quotes_list_count + 1 := by omega
          have hl : s2.quotes_list.length = s.quotes_list.length := by rw [q1]
          rw [if_neg hne] at hkind
          unfold quotes_phase
          rw [hk, hkind]
          simp only [List.length_cons, List.count_cons]
          refine ⟨p1.trans e1, p2.trans e2, by omega, by omega, by simpa using p5,
            by simp; omega, by simp; omega, ?_, ?_, ?_⟩
          · rcases p8 with ⟨a, b⟩ | ⟨a, b, c⟩
            · left; exact ⟨a, by simpa using b⟩
            · right; exact ⟨a, by simpa using b, c⟩
          · intro hh
            have := p9 (e1.trans hh)
            simpa using this
          · intro hb n hn
            rcases p10 (e1.trans hb) n hn with h1 | h1
            · left; rw [q1] at h1; exact h1
            · right; rw [e2] at h1; exact h1
        · have he : s2.quotes_list_count = s.quotes_list_count + 1 := q2
          rw [if_pos he] at hkind
          unfold quotes_phase
          rw [hk, hkind]
          simp only [List.length_cons, List.count_cons]
          refine ⟨p1.trans e1, p2.trans e2, by omega, by omega, by simpa using p5,
            by simp; omega, ?_, ?_, ?_, ?_⟩
          · rw [q1] at p7
            simp at p7 ⊢
            omega
          · rcases p8 with ⟨a, b⟩ | ⟨a, b, c⟩
            · left; exact ⟨a, by simpa using b⟩
            · right; exact ⟨a, by simpa using b, c⟩
          · intro hh
            have := p9 (e1.trans hh)
            simpa using this
          · intro hb n hn
            rcases p10 (e1.trans hb) n hn with h1 | h1
            · rw [q1] at h1
              rcases List.mem_append.mp h1 with h2 | h2
              · left; exact h2
              · right
                rw [List.mem_singleton] at h2
                rw [h2]
                obtain ⟨m1, m2, m3, _⟩ := quote_mapper_bdin s line hb
                show trading_date_of (quote_mapper s line).dia_pregao
                  (quote_mapper s line).mes_pregao (quote_mapper s line).ano_pregao = _
                rw [m1, m2, m3]
            · right; rw [e2] at h1; exact h1
      · -- the trailer
        have hrest : rest = [] := by
          cases rest with
          | nil => rfl
          | cons y ys =>
            exfalso
            simp only [register_loop] at h
            rcases register_step_in_trailer s2 y hc2 hsec2 with hy | hy
            · rw [hy] at h; exact absurd h (by simp)
            · rw [hy] at h; exact absurd h (by simp)
        subst hrest
        simp only [register_loop] at h
        cases h
        rw [if_neg h21, if_pos rfl] at hkind
        unfold quotes_phase
        rw [hk, hkind]
        simp only [register_kinds, List.length_cons, List.length_nil, List.count_cons,
          List.count_nil]
        refine ⟨e1, e2, by simp; omega, by simp, by simp, by simp; exact q2, by simp; rw [q1],
          Or.inr ⟨hsec2, by simp, q5⟩, fun _ => by simp, ?_⟩
        intro _ n hn
        left; rw [q1] at hn; exact hn
      · -- a register of another type
        obtain ⟨p1, p2, p3, p4, p5, p6, p7, p8, p9, p10⟩ := ih s2 s1 hc2 hsec2 h
        rw [if_neg t1, if_neg t2] at hkind
        have hl : s2.quotes_list.length = s.quotes_list.length := by rw [q1]
        unfold quotes_phase
        rw [hk, hkind]
        simp only [List.length_cons, List.count_cons]
        refine ⟨p1.trans e1, p2.trans e2, by omega, by omega, by simpa using p5,
          by simp; omega, by simp; omega, ?_, ?_, ?_⟩
        · rcases p8 with ⟨a, b⟩ | ⟨a, b, c⟩
          · left; exact ⟨a, by simpa using b⟩
          · right; exact ⟨a, by simpa using b, c⟩
        · intro hh
          exfalso
          rw [hh] at ht
          rcases discover_register_type_hist _ _ ht with h1 | h1 | h1
          · exact t0 h1
          · exact t1 h1
          · exact t2 h1
        · intro hb n hn
          rcases p10 (e1.trans hb) n hn with h1 | h1
          · left; rw [q1] at h1; exact h1
          · right; rw [e2] at h1; exact h1

/-! ### Malformed numbers, the register count and the mapper -/

theorem register_loop_first (stack first : List Char) (rest : List (List Char))
    (s : import_state)
    (h : register_loop (initial_state stack) (first :: rest) = .ok s) :
    ∃ ft s0, discover_file_type (fgets stack first) = some ft ∧
      register_step (initial_state stack) first = .ok s0 ∧
      s0.file_type = ft ∧
      s0.header_register
        = copy_header ft (fgets stack first) (initial_state stack).header_register ∧
      s0.register_count = 1 ∧ s0.quotes_list = [] ∧ s0.quotes_list_count = 0 ∧
      s0.file_section = BOVESPA_FILE_SECTION_QUOTES ∧
      register_loop s0 rest = .ok s := by
  simp only [register_loop] at h
  have hsec : (initial_state stack).file_section = BOVESPA_FILE_SECTION_HEADER := rfl
  have hcount : (initial_state stack).register_count = 0 := rfl
  have hbuf : (initial_state stack).bovespa_register = stack := rfl
  cases hft : discover_file_type (fgets stack first) with
  | none =>
    have := register_step_header_none (initial_state stack) first hcount (by rw [hbuf]; exact hft)
    rw [this] at h
    exact absurd h (by simp)
  | some ft =>
    have hstep := register_step_header (initial_state stack) first ft hsec hcount
      (by rw [hbuf]; exact hft)
    rw [hbuf] at hstep
    by_cases hg : strcmp (copy_header ft (fgets stack first)
        (initial_state stack).header_register).codigo_origem "BOVESPA".toList ≠ 0
    · rw [if_pos hg] at hstep
      rw [hstep] at h
      exact absurd h (by simp)
    · rw [if_neg hg] at hstep
      rw [hstep] at h
      exact ⟨ft, _, rfl, hstep, rfl, rfl, rfl, rfl, rfl, rfl, h⟩

theorem section_reached_count (stack : List Char) (stdin : List (List Char)) (sec : Nat)
    (h : section_reached stack stdin = some sec) (hne : sec ≠ BOVESPA_FILE_SECTION_HEADER) :
    (state_reached stack stdin).register_count ≠ 0 := by
  obtain ⟨hok, _⟩ := section_reached_ok stack stdin _ h
  have hc := register_loop_count stdin _ _ hok
  have hnil : stdin ≠ [] := by
    intro he
    rw [he, section_reached_nil] at h
    exact hne (Option.some.inj h).symm
  have hl : 0 < stdin.length := List.length_pos.mpr hnil
  omega

/-- Claim C18. When a quote register passes the relevance filter and one of its date or numeric
fields leaves characters unread after the number, quotes_list_append returns failure with the
list unchanged, the register is not skipped, and the import ends with EXIT_FAILURE, leaving the
database as it was. -/
theorem malformed_number_fails (info : pfish_bovespa_library_info) (db : database)
    (stack : List Char) (before : List (List Char)) (line : List Char)
    (after : List (List Char))
    (hsec : section_reached stack before = some BOVESPA_FILE_SECTION_QUOTES)
    (htype : discover_register_type (state_reached stack before).file_type
      (fgets (state_reached stack before).bovespa_register line)
        = some BOVESPA_FILE_SECTION_QUOTES)
    (hrel : relevance_filter (quote_mapper (state_reached stack before) line))
    (hbad : ∃ f ∈ numeric_fields (quote_mapper (state_reached stack before) line),
      unread_rest f ≠ []) :
    (∀ quotes_list : List quote_node,
      quotes_list_append (quote_mapper (state_reached stack before) line) quotes_list
        = (APPEND_FAILURE, quotes_list)) ∧
    register_step (state_reached stack before) line = .error .cannot_append_quote ∧
    file_import_main info db stack (before ++ line :: after) =
      { exit_status := EXIT_FAILURE, failure := some .cannot_append_quote, db := db } := by
  obtain ⟨hok, hs⟩ := section_reached_ok stack before _ hsec
  have hcount := section_reached_count stack before _ hsec (by decide)
  have happ := fun l => quotes_list_append_malformed
    (quote_mapper (state_reached stack before) line) l hrel hbad
  have hstep : register_step (state_reached stack before) line
      = .error .cannot_append_quote := by
    rw [register_step_quote _ line hcount hs htype, happ]
    have hn : (APPEND_FAILURE, (state_reached stack before).quotes_list).1 < 0 := by
      show APPEND_FAILURE < 0
      decide
    rw [if_pos hn]
  refine ⟨happ, hstep, ?_⟩
  unfold file_import_main
  rw [register_loop_append, hok]
  simp only [register_loop, hstep]

set_option maxRecDepth 100000 in
theorem malformed_number_fails_witness :
    section_reached sample_stack [sample_hist_header] = some BOVESPA_FILE_SECTION_QUOTES ∧
    discover_register_type (state_reached sample_stack [sample_hist_header]).file_type
      (fgets (state_reached sample_stack [sample_hist_header]).bovespa_register
        sample_hist_quote_malformed) = some BOVESPA_FILE_SECTION_QUOTES ∧
    relevance_filter
      (quote_mapper (state_reached sample_stack [sample_hist_header])
        sample_hist_quote_malformed) ∧
    (∃ f ∈ numeric_fields (quote_mapper (state_reached sample_stack [sample_hist_header])
        sample_hist_quote_malformed), unread_rest f ≠ []) ∧
    ((∀ quotes_list : List quote_node,
      quotes_list_append (quote_mapper (state_reached sample_stack [sample_hist_header])
          sample_hist_quote_malformed) quotes_list = (APPEND_FAILURE, quotes_list)) ∧
    register_step (state_reached sample_stack [sample_hist_header])
      sample_hist_quote_malformed = .error .cannot_append_quote ∧
    file_import_main sample_info sample_db sample_stack
        ([sample_hist_header] ++ sample_hist_quote_malformed :: [sample_hist_trailer_2]) =
      { exit_status := EXIT_FAILURE, failure := some .cannot_append_quote,
        db := sample_db }) :=
  ⟨by decide, by decide, by decide, by decide,
    malformed_number_fails sample_info sample_db sample_stack [sample_hist_header]
      sample_hist_quote_malformed [sample_hist_trailer_2]
      (by decide) (by decide) (by decide) (by decide)⟩

theorem register_kind_count_total (k : List register_kind) :
    k.count .header + k.count .emitted + k.count .ignored + k.count .other + k.count .trailer
      = k.length := by
  induction k with
  | nil => rfl
  | cons a l ih =>
    cases a <;> simp [List.count_cons] <;> omega

theorem VERIFY_REGISTER_COUNT_none (n : Nat) (f : List Char)
    (h : VERIFY_REGISTER_COUNT n f = none) :
    (strtoul f).2 = [] ∧ n = ulong_to_uint (strtoul f).1 := by
  unfold VERIFY_REGISTER_COUNT at h
  simp only at h
  split at h
  · exact absurd h (by simp)
  · rename_i h1
    split at h
    · exact absurd h (by simp)
    · rename_i h2
      exact ⟨not_not.mp h1, not_not.mp h2⟩

/-- Claim C19, amended. For a stream accepted through its trailer, the quotes emitted, the quote
registers ignored and the registers of type OTHER, plus 2 for the header and the trailer, add up
to the number of registers read; that number is the declared total_registros narrowed to 32 bits,
hence the declared total when it is below 2^32. A HIST stream has no register of type OTHER. -/
theorem accepted_register_count (stack : List Char) (stdin : List (List Char))
    (h : section_reached stack stdin = some BOVESPA_FILE_SECTION_TRAILER) :
    (register_kinds (initial_state stack) stdin).count .emitted
      + (register_kinds (initial_state stack) stdin).count .ignored
      + (register_kinds (initial_state stack) stdin).count .other + 2
      = (state_reached stack stdin).register_count ∧
    (state_reached stack stdin).register_count = stdin.length ∧
    (register_kinds (initial_state stack) stdin).count .emitted
      = (state_reached stack stdin).quotes_list_count ∧
    (register_kinds (initial_state stack) stdin).count .emitted
      = (state_reached stack stdin).quotes_list.length ∧
    ((state_reached stack stdin).file_type = BOVESPA_FILE_TYPE_HIST →
      (register_kinds (initial_state stack) stdin).count .other = 0) ∧
    (strtoul (state_reached stack stdin).trailer_register.total_registros).2 = [] ∧
    (state_reached stack stdin).register_count
      = ulong_to_uint (strtoul (state_reached stack stdin).trailer_register.total_registros).1 ∧
    ((strtoul (state_reached stack stdin).trailer_register.total_registros).1 < 2 ^ 32 →
      (register_kinds (initial_state stack) stdin).count .emitted
        + (register_kinds (initial_state stack) stdin).count .ignored
        + (register_kinds (initial_state stack) stdin).count .other + 2
        = (strtoul (state_reached stack stdin).trailer_register.total_registros).1) := by
  obtain ⟨hok, hsec⟩ := section_reached_ok stack stdin _ h
  cases stdin with
  | nil =>
    rw [section_reached_nil] at h
    exact absurd (Option.some.inj h) (by decide)
  | cons first rest =>
    obtain ⟨ft, s0, hft, hstep, f1, f2, f3, f4, f5, f6, hloop⟩ :=
      register_loop_first stack first rest _ hok
    have hphase := register_loop_quotes_phase rest s0 _ (by omega) f6 hloop
    obtain ⟨p1, p2, p3, p4, p5, p6, p7, p8, p9, p10⟩ := hphase
    have hk : register_kinds (initial_state stack) (first :: rest)
        = .header :: register_kinds s0 rest := by
      simp only [register_kinds, hstep]
      rfl
    have htot := register_kind_count_total (register_kinds s0 rest)
    have h12 : BOVESPA_FILE_SECTION_TRAILER ≠ BOVESPA_FILE_SECTION_QUOTES := by decide
    rcases p8 with ⟨a, _⟩ | ⟨_, ptr, pv⟩
    · rw [hsec] at a
      exact absurd a h12
    obtain ⟨v1, v2⟩ := VERIFY_REGISTER_COUNT_none _ _ pv
    have hcnt : (register_kinds s0 rest).count .emitted
        + (register_kinds s0 rest).count .ignored
        + (register_kinds s0 rest).count .other + 2
        = (state_reached stack (first :: rest)).register_count := by omega
    rw [hk]
    simp only [List.count_cons, List.length_cons]
    refine ⟨by simpa using hcnt, by omega, by simp; omega, by simp; rw [f4] at p7; simpa using p7.symm,
      ?_, v1, v2, ?_⟩
    · intro hh
      have := p9 (p1.symm.trans hh)
      simpa using this
    · intro hlt
      have hmod : ulong_to_uint
          (strtoul (state_reached stack (first :: rest)).trailer_register.total_registros).1
          = (strtoul (state_reached stack (first :: rest)).trailer_register.total_registros).1 :=
        Nat.mod_eq_of_lt hlt
      rw [hmod] at v2
      rw [← v2]
      simpa using hcnt

set_option maxRecDepth 100000 in
theorem accepted_register_count_witness :
    section_reached sample_stack [sample_bdin_header, sample_bdin_other, sample_bdin_trailer_3]
      = some BOVESPA_FILE_SECTION_TRAILER ∧
    (strtoul (state_reached sample_stack [sample_bdin_header, sample_bdin_other,
      sample_bdin_trailer_3]).trailer_register.total_registros).1 < 2 ^ 32 ∧
    (register_kinds (initial_state sample_stack)
        [sample_bdin_header, sample_bdin_other, sample_bdin_trailer_3]).count .emitted
      + (register_kinds (initial_state sample_stack)
        [sample_bdin_header, sample_bdin_other, sample_bdin_trailer_3]).count .ignored
      + (register_kinds (initial_state sample_stack)
        [sample_bdin_header, sample_bdin_other, sample_bdin_trailer_3]).count .other + 2
      = (strtoul (state_reached sample_stack [sample_bdin_header, sample_bdin_other,
          sample_bdin_trailer_3]).trailer_register.total_registros).1 :=
  ⟨by decide, by decide,
    (accepted_register_count sample_stack
      [sample_bdin_header, sample_bdin_other, sample_bdin_trailer_3]
      (by decide)).2.2.2.2.2.2.2 (by decide)⟩

set_option maxRecDepth 100000 in
/-- Claim C19 fails on a BDIN stream made of a header, one register of type 01 and a trailer
that declares 3 registers: the stream is accepted and the import succeeds, no quote is emitted or
ignored, and 0 + 0 + 2 is not the declared 3. -/
theorem other_registers_are_counted :
    section_reached sample_stack [sample_bdin_header, sample_bdin_other, sample_bdin_trailer_3]
      = some BOVESPA_FILE_SECTION_TRAILER ∧
    (file_import_main sample_info sample_db sample_stack
      [sample_bdin_header, sample_bdin_other, sample_bdin_trailer_3]).exit_status
      = EXIT_SUCCESS ∧
    (register_kinds (initial_state sample_stack)
      [sample_bdin_header, sample_bdin_other, sample_bdin_trailer_3]).count .emitted = 0 ∧
    (register_kinds (initial_state sample_stack)
      [sample_bdin_header, sample_bdin_other, sample_bdin_trailer_3]).count .ignored = 0 ∧
    strtoul (state_reached sample_stack [sample_bdin_header, sample_bdin_other,
      sample_bdin_trailer_3]).trailer_register.total_registros = (3, []) ∧
    (register_kinds (initial_state sample_stack)
        [sample_bdin_header, sample_bdin_other, sample_bdin_trailer_3]).count .emitted
      + (register_kinds (initial_state sample_stack)
        [sample_bdin_header, sample_bdin_other, sample_bdin_trailer_3]).count .ignored + 2
      ≠ (strtoul (state_reached sample_stack [sample_bdin_header, sample_bdin_other,
          sample_bdin_trailer_3]).trailer_register.total_registros).1 := by
  decide

theorem quote_mapper_hist (s : import_state) (line : List Char)
    (h : s.file_type = BOVESPA_FILE_TYPE_HIST) :
    (quote_mapper s line).ano_pregao = BOVESPA_FIELD (fgets s.bovespa_register line) 3 6 ∧
    (quote_mapper s line).mes_pregao = BOVESPA_FIELD (fgets s.bovespa_register line) 7 8 ∧
    (quote_mapper s line).dia_pregao = BOVESPA_FIELD (fgets s.bovespa_register line) 9 10 ∧
    (quote_mapper s line).mod_ref = BOVESPA_FIELD (fgets s.bovespa_register line) 53 56 := by
  unfold quote_mapper mapper_of copy_quote
  rw [h]
  exact ⟨rfl, rfl, rfl, rfl⟩

/-- Claim C20. For BDIN the mapper takes ano_pregao, mes_pregao and dia_pregao from the header
register (columns 31-34, 35-36, 37-38) and mod_ref is the constant R$, so the currency test
passes and every quote of the list carries the trading date of the header; for HIST the four
fields are columns 3-6, 7-8, 9-10 and 53-56 of the quote register. -/
theorem mapper_binding (stack first : List Char) (rest : List (List Char)) (sec : Nat)
    (hrun : section_reached stack (first :: rest) = some sec) :
    (∀ (s : import_state) (line : List Char), s.file_type = BOVESPA_FILE_TYPE_BDIN →
      (quote_mapper s line).ano_pregao = s.header_register.ano_pregao ∧
      (quote_mapper s line).mes_pregao = s.header_register.mes_pregao ∧
      (quote_mapper s line).dia_pregao = s.header_register.dia_pregao ∧
      (quote_mapper s line).mod_ref = "R$".toList ∧
      strcmp (quote_mapper s line).mod_ref "R$".toList = 0 ∧
      (relevance_filter (quote_mapper s line) ↔
        (cstr (quote_mapper s line).tp_merc = "10".toList ∧
          cstr (quote_mapper s line).cod_bdi = "2".toList))) ∧
    (∀ (s : import_state) (line : List Char), s.file_type = BOVESPA_FILE_TYPE_HIST →
      (quote_mapper s line).ano_pregao = BOVESPA_FIELD (fgets s.bovespa_register line) 3 6 ∧
      (quote_mapper s line).mes_pregao = BOVESPA_FIELD (fgets s.bovespa_register line) 7 8 ∧
      (quote_mapper s line).dia_pregao = BOVESPA_FIELD (fgets s.bovespa_register line) 9 10 ∧
      (quote_mapper s line).mod_ref = BOVESPA_FIELD (fgets s.bovespa_register line) 53 56) ∧
    ((state_reached stack (first :: rest)).file_type = BOVESPA_FILE_TYPE_BDIN →
      (state_reached stack (first :: rest)).header_register.ano_pregao
        = BOVESPA_FIELD (fgets stack first) 31 34 ∧
      (state_reached stack (first :: rest)).header_register.mes_pregao
        = BOVESPA_FIELD (fgets stack first) 35 36 ∧
      (state_reached stack (first :: rest)).header_register.dia_pregao
        = BOVESPA_FIELD (fgets stack first) 37 38 ∧
      ∀ n ∈ (state_reached stack (first :: rest)).quotes_list,
        n.quote.trading_date =
          trading_date_of (BOVESPA_FIELD (fgets stack first) 37 38)
            (BOVESPA_FIELD (fgets stack first) 35 36)
            (BOVESPA_FIELD (fgets stack first) 31 34)) := by
  refine ⟨?_, fun s line h => quote_mapper_hist s line h, ?_⟩
  · intro s line h
    obtain ⟨m1, m2, m3, m4⟩ := quote_mapper_bdin s line h
    have hcur : strcmp (quote_mapper s line).mod_ref "R$".toList = 0 := by
      rw [m4]; decide
    refine ⟨m1, m2, m3, m4, hcur, ?_⟩
    unfold relevance_filter
    rw [m4]
    have : cstr "R$".toList = "R$".toList := by decide
    simp only [this, and_true]
  · intro hb
    obtain ⟨hok, _⟩ := section_reached_ok stack (first :: rest) _ hrun
    obtain ⟨ft, s0, hft, hstep, f1, f2, f3, f4, f5, f6, hloop⟩ :=
      register_loop_first stack first rest _ hok
    obtain ⟨p1, p2, p3, p4, p5, p6, p7, p8, p9, p10⟩ :=
      register_loop_quotes_phase rest s0 _ (by omega) f6 hloop
    have hft2 : ft = BOVESPA_FILE_TYPE_BDIN := by rw [← f1, ← p1]; exact hb
    subst hft2
    have hne : BOVESPA_FILE_TYPE_BDIN ≠ BOVESPA_FILE_TYPE_HIST := by decide
    have hh : s0.header_register = BDIN_HEADER_REGISTER (fgets stack first)
        (initial_state stack).header_register := by
      rw [f2]
      unfold copy_header
      rw [if_neg hne]
    have a1 : (state_reached stack (first :: rest)).header_register.ano_pregao
        = BOVESPA_FIELD (fgets stack first) 31 34 := by rw [p2, hh]; rfl
    have a2 : (state_reached stack (first :: rest)).header_register.mes_pregao
        = BOVESPA_FIELD (fgets stack first) 35 36 := by rw [p2, hh]; rfl
    have a3 : (state_reached stack (first :: rest)).header_register.dia_pregao
        = BOVESPA_FIELD (fgets stack first) 37 38 := by rw [p2, hh]; rfl
    refine ⟨a1, a2, a3, ?_⟩
    intro n hn
    rcases p10 f1 n hn with h1 | h1
    · rw [f4] at h1
      exact absurd h1 (List.not_mem_nil n)
    · rw [h1, ← p2, a1, a2, a3]

set_option maxRecDepth 100000 in
theorem mapper_binding_witness :
    section_reached sample_stack
      (sample_bdin_header :: [sample_bdin_quote, sample_bdin_quote])
      = some BOVESPA_FILE_SECTION_QUOTES ∧
    (state_reached sample_stack
      (sample_bdin_header :: [sample_bdin_quote, sample_bdin_quote])).file_type = BOVESPA_FILE_TYPE_BDIN ∧
    (state_reached sample_stack
      (sample_bdin_header :: [sample_bdin_quote, sample_bdin_quote])).quotes_list.length = 2 ∧
    ∀ n ∈ (state_reached sample_stack
        (sample_bdin_header :: [sample_bdin_quote, sample_bdin_quote])).quotes_list,
      n.quote.trading_date =
        trading_date_of (BOVESPA_FIELD (fgets sample_stack sample_bdin_header) 37 38)
          (BOVESPA_FIELD (fgets sample_stack sample_bdin_header) 35 36)
          (BOVESPA_FIELD (fgets sample_stack sample_bdin_header) 31 34) :=
  ⟨by decide, by decide, by decide,
    ((mapper_binding sample_stack sample_bdin_header
      [sample_bdin_quote, sample_bdin_quote]
      BOVESPA_FILE_SECTION_QUOTES (by decide)).2.2 (by decide)).2.2.2⟩

/-! ### Trading dates -/

theorem yoe_recover (yoe doy doe : Int) (h0 : 0 ≤ yoe) (h1 : yoe < 400) (hd0 : 0 ≤ doy)
    (hd1 : doy ≤ 365) (hleap : doy = 365 → (yoe % 4 = 3 ∧ (yoe % 100 ≠ 99 ∨ yoe = 399)))
    (hdoe : doe = yoe * 365 + yoe / 4 - yoe / 100 + doy) :
    (doe - doe / 1460 + doe / 36524 - doe / 146096) / 365 = yoe := by
  have hc : yoe / 100 = 0 ∨ yoe / 100 = 1 ∨ yoe / 100 = 2 ∨ yoe / 100 = 3 := by omega
  have hg : doe / 36524 = yoe / 100 ∨ (yoe = 399 ∧ doy = 365) := by omega
  have hi : doe / 146096 = 0 ∨ (yoe = 399 ∧ doy = 365) := by omega
  rcases hc with c | c | c | c <;> rcases hg with g | g <;> rcases hi with i | i <;> omega

theorem month_recover (mp d doy : Int) (hmp0 : 0 ≤ mp) (hmp1 : mp ≤ 11) (hd0 : 1 ≤ d)
    (hd1 : d ≤ 31) (h30 : (mp = 1 ∨ mp = 3 ∨ mp = 6 ∨ mp = 8) → d ≤ 30)
    (hfeb : mp = 11 → d ≤ 29) (hdoy : (153 * mp + 2) / 5 + d - 1 = doy) :
    (5 * doy + 2) / 153 = mp ∧ doy - (153 * mp + 2) / 5 + 1 = d ∧ 0 ≤ doy ∧ doy ≤ 365 ∧
      (doy = 365 → mp = 11 ∧ d = 29) := by
  have hc : mp = 0 ∨ mp = 1 ∨ mp = 2 ∨ mp = 3 ∨ mp = 4 ∨ mp = 5 ∨ mp = 6 ∨ mp = 7 ∨ mp = 8
      ∨ mp = 9 ∨ mp = 10 ∨ mp = 11 := by omega
  rcases hc with rfl | rfl | rfl | rfl | rfl | rfl | rfl | rfl | rfl | rfl | rfl | rfl <;>
    omega

/-- The inverse step on an era-relative date: from the shifted year y1 (March-based), the
March-based month mp and the day. -/
theorem civil_from_days_shifted (y1 mp d : Int) (hmp0 : 0 ≤ mp) (hmp1 : mp ≤ 11) (hd0 : 1 ≤ d)
    (hd1 : d ≤ 31) (h30 : (mp = 1 ∨ mp = 3 ∨ mp = 6 ∨ mp = 8) → d ≤ 30)
    (hfeb : mp = 11 → d ≤ 29)
    (hleap : mp = 11 → d = 29 →
      ((y1 - y1 / 400 * 400) % 4 = 3 ∧
        ((y1 - y1 / 400 * 400) % 100 ≠ 99 ∨ y1 - y1 / 400 * 400 = 399))) :
    civil_from_days (y1 / 400 * 146097
        + ((y1 - y1 / 400 * 400) * 365 + (y1 - y1 / 400 * 400) / 4
            - (y1 - y1 / 400 * 400) / 100 + ((153 * mp + 2) / 5 + d - 1)) - 719468)
      = (if (if mp < 10 then mp + 3 else mp - 9) ≤ 2 then y1 + 1 else y1,
          if mp < 10 then mp + 3 else mp - 9, d) := by
  obtain ⟨m1, m2, d0, d1, m5⟩ := month_recover mp d _ hmp0 hmp1 hd0 hd1 h30 hfeb rfl
  generalize (153 * mp + 2) / 5 + d - 1 = doy at m1 m2 d0 d1 m5
  have y0 : 0 ≤ y1 - y1 / 400 * 400 := by omega
  have y1' : y1 - y1 / 400 * 400 < 400 := by omega
  have hy1 : y1 - y1 / 400 * 400 + y1 / 400 * 400 = y1 := by omega
  generalize y1 / 400 = era at hleap y0 y1' hy1 ⊢
  generalize y1 - era * 400 = yoe at hleap y0 y1' hy1 ⊢
  have dl : doy = 365 → (yoe % 4 = 3 ∧ (yoe % 100 ≠ 99 ∨ yoe = 399)) := by
    intro h
    exact hleap (m5 h).1 (m5 h).2
  have hy := yoe_recover yoe doy _ y0 y1' d0 d1 dl rfl
  have hb0 : 0 ≤ yoe * 365 + yoe / 4 - yoe / 100 + doy := by omega
  have hb1 : yoe * 365 + yoe / 4 - yoe / 100 + doy ≤ 146096 := by omega
  have hdoy2 : yoe * 365 + yoe / 4 - yoe / 100 + doy - (365 * yoe + yoe / 4 - yoe / 100)
      = doy := by omega
  generalize yoe * 365 + yoe / 4 - yoe / 100 + doy = doe at hy hb0 hb1 hdoy2 ⊢
  have hz : era * 146097 + doe - 719468 + 719468 = era * 146097 + doe := by omega
  have he : (era * 146097 + doe) / 146097 = era := by omega
  have hdoe2 : era * 146097 + doe - era * 146097 = doe := by omega
  unfold civil_from_days
  simp only [hz, he, hdoe2, hy, hdoy2, m1, m2, hy1]

theorem civil_from_days_days_from_civil (y m d : Int) (h : valid_date y m d) :
    civil_from_days (days_from_civil y m d) = (y, m, d) := by
  obtain ⟨h1, h2, h3, h4⟩ := h
  unfold days_in_month is_leap_year at h4
  have hmp0 : 0 ≤ (if m > 2 then m - 3 else m + 9) := by split <;> omega
  have hmp1 : (if m > 2 then m - 3 else m + 9) ≤ 11 := by split <;> omega
  have key := civil_from_days_shifted (if m ≤ 2 then y - 1 else y)
    (if m > 2 then m - 3 else m + 9) d hmp0 hmp1 h3
    (by split_ifs at h4 <;> omega)
    (by intro hh; split_ifs at h4 hh <;> omega)
    (by intro hh; split_ifs at h4 hh <;> omega)
    (by
      intro hh hd
      have hm2 : m = 2 := by split_ifs at hh <;> omega
      subst hm2
      simp only [if_true] at h4
      split_ifs at h4 with hl
      · simp only [show (2 : Int) ≤ 2 from le_refl _, if_true]
        omega
      · omega)
  unfold days_from_civil
  simp only []
  rw [key]
  have e1 : (if (if m > 2 then m - 3 else m + 9) < 10 then (if m > 2 then m - 3 else m + 9) + 3
      else (if m > 2 then m - 3 else m + 9) - 9) = m := by
    split_ifs <;> omega
  rw [e1]
  have e2 : (if m ≤ 2 then (if m ≤ 2 then y - 1 else y) + 1 else (if m ≤ 2 then y - 1 else y))
      = y := by
    split_ifs <;> omega
  rw [e2]

theorem toDigits_four (y : Nat) (h1 : 1000 ≤ y) (h2 : y ≤ 9999) :
    Nat.toDigits 10 y = [Nat.digitChar (y / 1000 % 10), Nat.digitChar (y / 100 % 10),
      Nat.digitChar (y / 10 % 10), Nat.digitChar (y % 10)] := by
  obtain ⟨f, rfl⟩ : ∃ f, y = f + 3 := ⟨y - 3, by omega⟩
  have a1 : (f + 3) / 10 ≠ 0 := by omega
  have a2 : (f + 3) / 10 / 10 ≠ 0 := by omega
  have a3 : (f + 3) / 10 / 10 / 10 ≠ 0 := by omega
  have a4 : (f + 3) / 10 / 10 / 10 / 10 = 0 := by omega
  have b1 : (f + 3) / 10 / 10 = (f + 3) / 100 := by omega
  have b2 : (f + 3) / 10 / 10 / 10 = (f + 3) / 1000 := by omega
  simp only [Nat.toDigits, Nat.toDigitsCore, a1, a2, a3, a4, if_true, if_false]
  rw [b2, b1]

theorem decimal_pad_two (n : Nat) (h : n ≤ 99) :
    decimal_pad 2 n = [Nat.digitChar (n / 10 % 10), Nat.digitChar (n % 10)] := by
  unfold decimal_pad
  by_cases h9 : n ≤ 9
  · have a1 : n / 10 = 0 := by omega
    have e : Nat.toDigits 10 n = [Nat.digitChar (n % 10)] := by
      simp only [Nat.toDigits, Nat.toDigitsCore, a1, if_true]
    rw [e, a1]
    rfl
  · obtain ⟨f, rfl⟩ : ∃ f, n = f + 1 := ⟨n - 1, by omega⟩
    have a1 : (f + 1) / 10 ≠ 0 := by omega
    have a2 : (f + 1) / 10 / 10 = 0 := by omega
    have a3 : (f + 1) / 10 % 10 = (f + 1) / 10 := by omega
    have e : Nat.toDigits 10 (f + 1)
        = [Nat.digitChar ((f + 1) / 10 % 10), Nat.digitChar ((f + 1) % 10)] := by
      simp only [Nat.toDigits, Nat.toDigitsCore, a1, a2, if_true, if_false]
    rw [e]
    rfl

theorem quotes_list_append_success (m : bovespa_mapper) (l : List quote_node)
    (hrel : relevance_filter m) (hnum : ∀ f ∈ numeric_fields m, unread_rest f = []) :
    quotes_list_append m l = (APPEND_SUCCESS, l ++ [quote_node_of m]) := by
  rcases quotes_list_append_result m l with ⟨_, h⟩ | ⟨_, _, f, hf, hbad⟩ | ⟨h, _⟩
  · exact absurd hrel h
  · exact absurd (hnum f hf) hbad
  · exact h

theorem days_from_civil_day (y m d : Int) :
    days_from_civil y m d = days_from_civil y m 1 + (d - 1) := by
  unfold days_from_civil
  simp only []
  omega

theorem timegm_noon (y m d : Int) (hm0 : 1 ≤ m) (hm1 : m ≤ 12) :
    timegm { tm_sec := 0, tm_min := 0, tm_hour := 12, tm_mday := d, tm_mon := m - 1,
             tm_year := y - 1900 } = days_from_civil y m d * 86400 + 43200 := by
  unfold timegm
  simp only []
  have e1 : (m - 1) / 12 = 0 := by omega
  have e2 : (m - 1) % 12 + 1 = m := by omega
  have e3 : y - 1900 + 1900 + 0 = y := by omega
  rw [e1, e2, e3, days_from_civil_day y m d]
  omega

theorem long_to_int_small (v : Int) (h0 : - 2 ^ 31 ≤ v) (h1 : v < 2 ^ 31) : long_to_int v = v := by
  unfold long_to_int
  omega

theorem gmtime_noon (y m d : Int) (h : valid_date y m d) (hy0 : 0 ≤ y) (hy1 : y ≤ 9999) :
    gmtime (days_from_civil y m d * 86400 + 43200)
      = some { tm_sec := 0, tm_min := 0, tm_hour := 12, tm_mday := d, tm_mon := m - 1,
               tm_year := y - 1900 } := by
  unfold gmtime
  have e1 : (days_from_civil y m d * 86400 + 43200) / 86400 = days_from_civil y m d := by omega
  have e2 : (days_from_civil y m d * 86400 + 43200) % 86400 = 43200 := by omega
  simp only [e1, e2, civil_from_days_days_from_civil y m d h]
  have hr : ¬ (y - 1900 < INT_MIN ∨ y - 1900 > INT_MAX) := by
    unfold INT_MIN INT_MAX
    omega
  rw [if_neg hr]
  rfl

theorem strftime_F_iso (y m d : Int) (hy0 : 1000 ≤ y) (hy1 : y ≤ 9999) (hm0 : 1 ≤ m)
    (hm1 : m ≤ 12) (hd0 : 1 ≤ d) (hd1 : d ≤ 31) :
    strftime_F DATE_BUF_SIZE
        { tm_sec := 0, tm_min := 0, tm_hour := 12, tm_mday := d, tm_mon := m - 1,
          tm_year := y - 1900 }
      = some (iso_date y.toNat m.toNat d.toNat) := by
  unfold strftime_F
  have e3 : y - 1900 + 1900 = y := by omega
  have e4 : m - 1 + 1 = m := by omega
  have hneg : ¬ y < 0 := by omega
  simp only [e3, e4, if_neg hneg]
  rw [toDigits_four y.toNat (by omega) (by omega), decimal_pad_two m.toNat (by omega),
    decimal_pad_two d.toNat (by omega)]
  rfl

theorem days_in_month_le (y m : Int) : days_in_month y m ≤ 31 := by
  unfold days_in_month
  split_ifs <;> omega

theorem toDigits_below_1000 (y : Nat) (h : y < 1000) : (Nat.toDigits 10 y).length ≤ 3 := by
  by_cases h1 : y / 10 = 0
  · simp [Nat.toDigits, Nat.toDigitsCore, h1]
  · obtain ⟨f, rfl⟩ : ∃ f, y = f + 2 := ⟨y - 2, by omega⟩
    by_cases h2 : (f + 2) / 10 / 10 = 0
    · simp [Nat.toDigits, Nat.toDigitsCore, h1, h2]
    · have h3 : (f + 2) / 10 / 10 / 10 = 0 := by omega
      simp [Nat.toDigits, Nat.toDigitsCore, h1, h2, h3]

theorem strftime_F_short_year (y m d : Int) (hy0 : 0 ≤ y) (hy1 : y < 1000) (hm0 : 1 ≤ m)
    (hm1 : m ≤ 12) (hd0 : 1 ≤ d) (hd1 : d ≤ 31) :
    strftime_F DATE_BUF_SIZE
        { tm_sec := 0, tm_min := 0, tm_hour := 12, tm_mday := d, tm_mon := m - 1,
          tm_year := y - 1900 }
      = some (Nat.toDigits 10 y.toNat ++ '-' :: decimal_pad 2 m.toNat
          ++ '-' :: decimal_pad 2 d.toNat) := by
  unfold strftime_F
  have e3 : y - 1900 + 1900 = y := by omega
  have e4 : m - 1 + 1 = m := by omega
  have hneg : ¬ y < 0 := by omega
  simp only [e3, e4, if_neg hneg]
  have hl := toDigits_below_1000 y.toNat (by omega)
  rw [if_neg]
  rw [decimal_pad_two m.toNat (by omega), decimal_pad_two d.toNat (by omega)]
  simp only [List.length_append, List.length_cons, List.length_nil, DATE_BUF_SIZE]
  omega

theorem iso_date_length (y m d : Nat) : (iso_date y m d).length = 10 := rfl

set_option maxRecDepth 100000 in
/-- Claim C21. When the year, month and day fields of a relevant register parse to a valid
calendar date y-mo-d (0 <= y <= 9999) and its other numeric fields parse, quotes_list_append
appends a quote whose trading_date is 12:00:00 UTC of that date: a function of y, mo and d alone,
with remainder 43200 modulo 86400, which gmtime breaks down to the same year, month and day at
noon.  The export (gmtime, then strftime with %F) prints it as the same YYYY-MM-DD when the year
has four digits; for a year below 1000 it prints the year without leading zeros, a text of
fewer than ten characters, though the stock_history command documents the format of its date
fields as YYYY-MM-DD.  The register dated 0999-01-02 is accepted, imported and exported as
999-01-02. -/
theorem year_below_1000_exported_without_padding :
    (relevance_filter sample_mapper_year_999 ∧
      (∀ f ∈ numeric_fields sample_mapper_year_999, unread_rest f = []) ∧
      (strtol sample_mapper_year_999.ano_pregao).1 = 999 ∧
      (strtol sample_mapper_year_999.mes_pregao).1 = 1 ∧
      (strtol sample_mapper_year_999.dia_pregao).1 = 2 ∧
      valid_date 999 1 2 ∧
      quotes_list_append sample_mapper_year_999 []
        = (APPEND_SUCCESS, [quote_node_of sample_mapper_year_999]) ∧
      (quote_node_of sample_mapper_year_999).quote.trading_date
        = days_from_civil 999 1 2 * 86400 + 12 * 3600 ∧
      (quote_node_of sample_mapper_year_999).quote.trading_date % 86400 = 43200 ∧
      export_date (quote_node_of sample_mapper_year_999).quote.trading_date
        = some "999-01-02".toList ∧
      iso_date 999 1 2 = "0999-01-02".toList ∧
      (file_import_main sample_info sample_db sample_stack
          [sample_hist_header, sample_hist_quote_year_999, sample_hist_trailer_3]).exit_status
        = EXIT_SUCCESS ∧
      stock_history_main sample_info
          (file_import_main sample_info sample_db sample_stack
            [sample_hist_header, sample_hist_quote_year_999, sample_hist_trailer_3]).db
          1 (some "PETR4".toList)
        = { exit_status := EXIT_SUCCESS,
            stdout := [("999-01-02,PN N2,1,3700,3750,3600,3800,3700,100,123456,456789012"
              ++ "\n").toList] }) ∧
    (∀ (m : bovespa_mapper) (l : List quote_node) (y mo d : Int),
      relevance_filter m → (∀ f ∈ numeric_fields m, unread_rest f = []) →
      (strtol m.ano_pregao).1 = y → (strtol m.mes_pregao).1 = mo →
      (strtol m.dia_pregao).1 = d →
      valid_date y mo d → 0 ≤ y → y ≤ 9999 →
      quotes_list_append m l = (APPEND_SUCCESS, l ++ [quote_node_of m]) ∧
      (quote_node_of m).quote.trading_date = days_from_civil y mo d * 86400 + 12 * 3600 ∧
      (quote_node_of m).quote.trading_date % 86400 = 43200 ∧
      gmtime (quote_node_of m).quote.trading_date
        = some { tm_sec := 0, tm_min := 0, tm_hour := 12, tm_mday := d, tm_mon := mo - 1,
                 tm_year := y - 1900 } ∧
      (1000 ≤ y →
        export_date (quote_node_of m).quote.trading_date
          = some (iso_date y.toNat mo.toNat d.toNat)) ∧
      (y < 1000 →
        export_date (quote_node_of m).quote.trading_date
          = some (Nat.toDigits 10 y.toNat ++ '-' :: decimal_pad 2 mo.toNat
              ++ '-' :: decimal_pad 2 d.toNat) ∧
        (Nat.toDigits 10 y.toNat ++ '-' :: decimal_pad 2 mo.toNat
              ++ '-' :: decimal_pad 2 d.toNat).length < 10 ∧
        export_date (quote_node_of m).quote.trading_date
          ≠ some (iso_date y.toNat mo.toNat d.toNat))) := by
  refine ⟨⟨by decide, by decide, by decide, by decide, by decide, by decide, by decide,
    by decide, by decide, by decide, by decide, by decide, by decide⟩, ?_⟩
  intro m l y mo d hrel hnum hy hmo hd hvalid hy0 hy1
  obtain ⟨m0, m1, d0, d1⟩ := hvalid
  have d31 := days_in_month_le y mo
  have ht : (quote_node_of m).quote.trading_date = days_from_civil y mo d * 86400 + 43200 := by
    show trading_date_of m.dia_pregao m.mes_pregao m.ano_pregao = _
    unfold trading_date_of
    rw [hy, hmo, hd, long_to_int_small y (by omega) (by omega),
      long_to_int_small mo (by omega) (by omega), long_to_int_small d (by omega) (by omega)]
    exact timegm_noon y mo d m0 m1
  have hg := gmtime_noon y mo d ⟨m0, m1, d0, d1⟩ hy0 hy1
  refine ⟨quotes_list_append_success m l hrel hnum, by rw [ht]; omega, by rw [ht]; omega,
    by rw [ht]; exact hg, ?_, ?_⟩
  · intro hy2
    unfold export_date
    rw [ht, hg]
    exact strftime_F_iso y mo d hy2 hy1 m0 m1 d0 (by omega)
  · intro hy2
    have he : export_date (quote_node_of m).quote.trading_date
        = some (Nat.toDigits 10 y.toNat ++ '-' :: decimal_pad 2 mo.toNat
            ++ '-' :: decimal_pad 2 d.toNat) := by
      unfold export_date
      rw [ht, hg]
      exact strftime_F_short_year y mo d hy0 hy2 m0 m1 d0 (by omega)
    have hl : (Nat.toDigits 10 y.toNat ++ '-' :: decimal_pad 2 mo.toNat
        ++ '-' :: decimal_pad 2 d.toNat).length < 10 := by
      have h3 := toDigits_below_1000 y.toNat (by omega)
      rw [decimal_pad_two mo.toNat (by omega), decimal_pad_two d.toNat (by omega)]
      simp only [List.length_append, List.length_cons, List.length_nil]
      omega
    refine ⟨he, hl, ?_⟩
    rw [he]
    intro e
    have e2 := congrArg List.length (Option.some.inj e)
    rw [iso_date_length] at e2
    omega

set_option maxRecDepth 100000 in
theorem year_below_1000_exported_without_padding_witness :
    relevance_filter sample_mapper ∧
    (∀ f ∈ numeric_fields sample_mapper, unread_rest f = []) ∧
    (strtol sample_mapper.ano_pregao).1 = 2024 ∧ (strtol sample_mapper.mes_pregao).1 = 1 ∧
    (strtol sample_mapper.dia_pregao).1 = 2 ∧ valid_date 2024 1 2 ∧
    (quote_node_of sample_mapper).quote.trading_date = 1704196800 ∧
    export_date (quote_node_of sample_mapper).quote.trading_date = some "2024-01-02".toList ∧
    (strtol sample_mapper_year_999.ano_pregao).1 = 999 ∧
    export_date (quote_node_of sample_mapper_year_999).quote.trading_date
      ≠ some (iso_date 999 1 2) :=
  ⟨by decide, by decide, by decide, by decide, by decide, by decide,
    (year_below_1000_exported_without_padding.2 sample_mapper [] 2024 1 2 (by decide)
      (by decide) (by decide) (by decide) (by decide) (by decide) (by decide)
      (by decide)).2.1.trans (by decide),
    ((year_below_1000_exported_without_padding.2 sample_mapper [] 2024 1 2 (by decide)
      (by decide) (by decide) (by decide) (by decide) (by decide) (by decide)
      (by decide)).2.2.2.2.1 (by decide)).trans (by decide),
    by decide,
    ((year_below_1000_exported_without_padding.2 sample_mapper_year_999 [] 999 1 2 (by decide)
      (by decide) (by decide) (by decide) (by decide) (by decide) (by decide)
      (by decide)).2.2.2.2.2 (by decide)).2.2⟩

/-! ### The order of compare_quote_nodes -/

theorem char_nul_iff (x : Char) : x = NUL ↔ x.toNat = 0 := by
  constructor
  · intro h; rw [h]; rfl
  · intro h; exact char_eq_of_toNat_eq x NUL (by rw [h]; rfl)

theorem strcmp_swap (a : List Char) : ∀ b, strcmp b a = - strcmp a b := by
  induction a with
  | nil =>
    intro b
    cases b with
    | nil => rfl
    | cons y ys =>
      simp only [strcmp]
      split_ifs <;> rfl
  | cons x xs ih =>
    intro b
    cases b with
    | nil =>
      simp only [strcmp]
      split_ifs <;> rfl
    | cons y ys =>
      simp only [strcmp]
      have hx := char_nul_iff x
      have hy := char_nul_iff y
      split_ifs <;> first | rfl | omega | (exact ih ys) | (exfalso; simp_all)

theorem strcmp_trans_le (a : List Char) :
    ∀ b c, strcmp a b ≤ 0 → strcmp b c ≤ 0 → strcmp a c ≤ 0 := by
  induction a with
  | nil =>
    intro b c
    cases b with
    | nil =>
      cases c with
      | nil => intro h1 _; exact h1
      | cons z zs => intro _ h2; exact h2
    | cons y ys =>
      cases c with
      | nil =>
        simp only [strcmp]
        intro h1 h2
        split_ifs at * <;> omega
      | cons z zs =>
        have hy := char_nul_iff y
        have hz := char_nul_iff z
        simp only [strcmp]
        intro h1 h2
        split_ifs at * <;> omega
  | cons x xs ih =>
    intro b c
    have hx := char_nul_iff x
    cases b with
    | nil =>
      cases c with
      | nil => simp only [strcmp]; intro h1 h2; exact h1
      | cons z zs =>
        have hz := char_nul_iff z
        simp only [strcmp]
        intro h1 h2
        split_ifs at * <;> first | omega | simp_all
    | cons y ys =>
      have hy := char_nul_iff y
      cases c with
      | nil =>
        simp only [strcmp]
        intro h1 h2
        split_ifs at * <;> first | omega | simp_all
      | cons z zs =>
        have hz := char_nul_iff z
        simp only [strcmp]
        intro h1 h2
        have := ih ys zs
        split_ifs at * <;> first | omega | (exact this h1 h2) | simp_all

theorem strcmp_values (a : List Char) : ∀ b, strcmp a b = -1 ∨ strcmp a b = 0 ∨ strcmp a b = 1 := by
  induction a with
  | nil =>
    intro b
    cases b with
    | nil => right; left; rfl
    | cons y ys =>
      simp only [strcmp]
      split_ifs <;> simp
  | cons x xs ih =>
    intro b
    cases b with
    | nil =>
      simp only [strcmp]
      split_ifs <;> simp
    | cons y ys =>
      simp only [strcmp]
      split_ifs <;> first | simp | exact ih ys

theorem compare_quote_nodes_neg_iff (a b : quote_node) :
    compare_quote_nodes a b < 0 ↔
      (strcmp a.stock b.stock < 0 ∨
        (strcmp a.stock b.stock = 0 ∧ a.quote.trading_date < b.quote.trading_date)) := by
  unfold compare_quote_nodes
  simp only []
  split_ifs <;> omega

theorem compare_quote_nodes_pos_iff (a b : quote_node) :
    compare_quote_nodes a b > 0 ↔
      (strcmp a.stock b.stock > 0 ∨
        (strcmp a.stock b.stock = 0 ∧ a.quote.trading_date > b.quote.trading_date)) := by
  unfold compare_quote_nodes
  simp only []
  split_ifs <;> omega

theorem compare_quote_nodes_zero_iff (a b : quote_node) :
    compare_quote_nodes a b = 0 ↔
      (cstr a.stock = cstr b.stock ∧ a.quote.trading_date = b.quote.trading_date) := by
  rw [← strcmp_eq_zero_iff]
  unfold compare_quote_nodes
  simp only []
  split_ifs <;> constructor <;> intro h <;> (try obtain ⟨h5, h6⟩ := h) <;>
    (try constructor) <;> omega

theorem compare_quote_nodes_swap (a b : quote_node) :
    compare_quote_nodes b a = - compare_quote_nodes a b := by
  have hs := strcmp_swap a.stock b.stock
  unfold compare_quote_nodes
  simp only []
  split_ifs <;> omega

theorem compare_quote_nodes_trans (a b c : quote_node)
    (hab : compare_quote_nodes a b ≤ 0) (hbc : compare_quote_nodes b c ≤ 0) :
    compare_quote_nodes a c ≤ 0 := by
  have s1 := strcmp_swap a.stock b.stock
  have s2 := strcmp_swap b.stock c.stock
  have s3 := strcmp_swap a.stock c.stock
  have t1 := strcmp_trans_le a.stock b.stock c.stock
  have t2 := strcmp_trans_le b.stock c.stock a.stock
  have t3 := strcmp_trans_le c.stock a.stock b.stock
  unfold compare_quote_nodes at *
  simp only [] at *
  split_ifs at * <;> omega

theorem qsort_perm (l : List quote_node) : (qsort l).Perm l :=
  List.perm_insertionSort _ l

theorem qsort_sorted (l : List quote_node) :
    (qsort l).Pairwise (fun a b => compare_quote_nodes a b ≤ 0) := by
  haveI : IsTotal quote_node (fun a b => compare_quote_nodes a b ≤ 0) :=
    ⟨fun a b => by have := compare_quote_nodes_swap a b; omega⟩
  haveI : IsTrans quote_node (fun a b => compare_quote_nodes a b ≤ 0) :=
    ⟨fun a b c => compare_quote_nodes_trans a b c⟩
  exact List.sorted_insertionSort _ l

theorem pairwise_getElem_opt {α : Type} (R : α → α → Prop) (L : List α) (h : L.Pairwise R)
    (i j : Nat) (a b : α) (hij : i < j) (ha : L[i]? = some a) (hb : L[j]? = some b) :
    R a b := by
  rw [List.getElem?_eq_some] at ha hb
  obtain ⟨hi, rfl⟩ := ha
  obtain ⟨hj, rfl⟩ := hb
  exact (List.pairwise_iff_getElem.mp h) i j hi hj hij

theorem compare_le_strcmp_le (a b : quote_node) (h : compare_quote_nodes a b ≤ 0) :
    strcmp a.stock b.stock ≤ 0 := by
  unfold compare_quote_nodes at h
  simp only [] at h
  split_ifs at h <;> omega

theorem compare_le_date_le (a b : quote_node) (h : compare_quote_nodes a b ≤ 0)
    (hs : strcmp a.stock b.stock = 0) : a.quote.trading_date ≤ b.quote.trading_date := by
  unfold compare_quote_nodes at h
  simp only [] at h
  split_ifs at h <;> omega

/-- In an array sorted by compare_quote_nodes the quotes of one stock are contiguous and
ascending by date. -/
theorem sorted_runs (L : List quote_node)
    (h : L.Pairwise (fun a b => compare_quote_nodes a b ≤ 0)) :
    (∀ (i j k : Nat) (a b c : quote_node), i < j → j < k →
      L[i]? = some a → L[j]? = some b → L[k]? = some c →
      cstr a.stock = cstr c.stock → cstr b.stock = cstr a.stock) ∧
    (∀ (i j : Nat) (a b : quote_node), i < j → L[i]? = some a → L[j]? = some b →
      cstr a.stock = cstr b.stock → a.quote.trading_date ≤ b.quote.trading_date) := by
  constructor
  · intro i j k a b c hij hjk ha hb hc hs
    have r1 := compare_le_strcmp_le a b (pairwise_getElem_opt _ L h i j a b hij ha hb)
    have r2 := compare_le_strcmp_le b c (pairwise_getElem_opt _ L h j k b c hjk hb hc)
    have hca : strcmp c.stock a.stock = 0 := (strcmp_eq_zero_iff _ _).mpr hs.symm
    have r3 := strcmp_trans_le b.stock c.stock a.stock r2 (by omega)
    have sw := strcmp_swap a.stock b.stock
    exact (strcmp_eq_zero_iff _ _).mp (by omega)
  · intro i j a b hij ha hb hs
    exact compare_le_date_le a b (pairwise_getElem_opt _ L h i j a b hij ha hb)
      ((strcmp_eq_zero_iff _ _).mpr hs)

/-- Claim C22. compare_quote_nodes is the lexicographic order on the stock id (compared by
strcmp) and the trading date: negative exactly when a precedes b, positive exactly when b
precedes a, zero exactly when both ids and both dates are equal; swapping the arguments negates
the result, the relation is transitive, qsort yields a sorted permutation of its input, and in
every array sorted by it the quotes of one stock are contiguous and ascending by date. -/
theorem compare_quote_nodes_lexicographic :
    (∀ a b : quote_node,
      (compare_quote_nodes a b < 0 ↔
        (strcmp a.stock b.stock < 0 ∨
          (strcmp a.stock b.stock = 0 ∧ a.quote.trading_date < b.quote.trading_date))) ∧
      (compare_quote_nodes a b > 0 ↔
        (strcmp a.stock b.stock > 0 ∨
          (strcmp a.stock b.stock = 0 ∧ a.quote.trading_date > b.quote.trading_date))) ∧
      (compare_quote_nodes a b = 0 ↔
        (cstr a.stock = cstr b.stock ∧ a.quote.trading_date = b.quote.trading_date)) ∧
      compare_quote_nodes b a = - compare_quote_nodes a b) ∧
    (∀ a b c : quote_node, compare_quote_nodes a b ≤ 0 → compare_quote_nodes b c ≤ 0 →
      compare_quote_nodes a c ≤ 0) ∧
    (∀ quotes_array : List quote_node,
      (qsort quotes_array).Perm quotes_array ∧
      (qsort quotes_array).Pairwise (fun a b => compare_quote_nodes a b ≤ 0)) ∧
    (∀ sorted : List quote_node,
      sorted.Pairwise (fun a b => compare_quote_nodes a b ≤ 0) →
      (∀ (i j k : Nat) (a b c : quote_node), i < j → j < k →
        sorted[i]? = some a → sorted[j]? = some b → sorted[k]? = some c →
        cstr a.stock = cstr c.stock → cstr b.stock = cstr a.stock) ∧
      (∀ (i j : Nat) (a b : quote_node), i < j → sorted[i]? = some a → sorted[j]? = some b →
        cstr a.stock = cstr b.stock → a.quote.trading_date ≤ b.quote.trading_date)) :=
  ⟨fun a b => ⟨compare_quote_nodes_neg_iff a b, compare_quote_nodes_pos_iff a b,
      compare_quote_nodes_zero_iff a b, compare_quote_nodes_swap a b⟩,
    compare_quote_nodes_trans,
    fun l => ⟨qsort_perm l, qsort_sorted l⟩,
    sorted_runs⟩

theorem compare_quote_nodes_lexicographic_witness :
    compare_quote_nodes ⟨"PETR4".toList, sample_quote 1704110400 "ON" 1000⟩
      ⟨"PETR4".toList, sample_quote 1704196800 "ON" 1010⟩ ≤ 0 ∧
    compare_quote_nodes ⟨"PETR4".toList, sample_quote 1704196800 "ON" 1010⟩
      ⟨"VALE3".toList, sample_quote 1704110400 "ON" 5000⟩ ≤ 0 ∧
    compare_quote_nodes ⟨"PETR4".toList, sample_quote 1704110400 "ON" 1000⟩
      ⟨"VALE3".toList, sample_quote 1704110400 "ON" 5000⟩ ≤ 0 :=
  ⟨by decide, by decide,
    compare_quote_nodes_lexicographic.2.1
      ⟨"PETR4".toList, sample_quote 1704110400 "ON" 1000⟩
      ⟨"PETR4".toList, sample_quote 1704196800 "ON" 1010⟩
      ⟨"VALE3".toList, sample_quote 1704110400 "ON" 5000⟩ (by decide) (by decide)⟩

/-! ### The database directory, the revision marker and the write sequence -/

theorem db_lookup_unlink (db : database) (n m : List Char) :
    db_lookup (db_unlink db n) m = if m = n then none else db_lookup db m := by
  induction db with
  | nil =>
    simp only [db_unlink, List.filter_nil, db_lookup]
    split <;> rfl
  | cons e rest ih =>
    obtain ⟨k, f⟩ := e
    unfold db_unlink at ih ⊢
    by_cases hk : k = n
    · subst hk
      rw [List.filter_cons_of_neg (by simp), ih]
      by_cases hm : m = k
      · simp only [hm, if_true]
      · have hkm : ¬ k = m := fun h => hm h.symm
        simp only [hm, if_false, db_lookup, hkm]
    · rw [List.filter_cons_of_pos (by simpa using hk)]
      by_cases hm : m = n
      · subst hm
        simp only [db_lookup, hk, if_false, ih, if_true]
      · by_cases hkm : k = m
        · simp only [db_lookup, hkm, if_true, hm, if_false]
        · simp only [db_lookup, hkm, if_false, ih, hm]

theorem db_lookup_write (db : database) (n m : List Char) (f : db_file) :
    db_lookup (db_write db n f) m = if m = n then some f else db_lookup db m := by
  unfold db_write
  by_cases hm : m = n
  · subst hm
    rw [db_lookup, if_pos rfl, if_pos rfl]
  · rw [db_lookup, if_neg (fun h => hm h.symm), db_lookup_unlink, if_neg hm, if_neg hm]

theorem db_lookup_move (db : database) (old new m : List Char) (f : db_file) :
    db_lookup (db_write (db_unlink db old) new f) m =
      if m = new then some f else if m = old then none else db_lookup db m := by
  rw [db_lookup_write, db_lookup_unlink]

theorem revision_marker_check_values (info : pfish_bovespa_library_info) (db : database) :
    pfish_bovespa_revision_marker_check info db = 0 ∨
      pfish_bovespa_revision_marker_check info db = -1 := by
  unfold pfish_bovespa_revision_marker_check
  split
  · simp only []
    split_ifs <;> simp
  · right; rfl

theorem revision_marker_check_zero_iff (info : pfish_bovespa_library_info) (db : database) :
    pfish_bovespa_revision_marker_check info db = 0 ↔
      ∃ current_content, db_lookup db REVISION_MARKER_NAME = some (.text current_content) ∧
        pfish_bovespa_revision_marker_content_alloc info <+: current_content := by
  unfold pfish_bovespa_revision_marker_check
  split
  · rename_i current heq
    simp only []
    constructor
    · intro h
      split_ifs at h with h1 h2
      refine ⟨current, heq, ?_⟩
      rw [List.prefix_iff_eq_take]
      exact (not_not.mp h2).symm
    · rintro ⟨c, hc, hp⟩
      rw [heq] at hc
      cases hc
      have hl := hp.length_le
      rw [List.prefix_iff_eq_take] at hp
      rw [if_neg (by omega), if_neg (not_not.mpr hp.symm)]
  · rename_i hne
    constructor
    · intro h
      exact absurd h (by decide)
    · rintro ⟨c, hc, _⟩
      exact absurd hc (hne c)

theorem revision_marker_check_congr (info : pfish_bovespa_library_info) (db db2 : database)
    (h : db_lookup db2 REVISION_MARKER_NAME = db_lookup db REVISION_MARKER_NAME) :
    pfish_bovespa_revision_marker_check info db2 = pfish_bovespa_revision_marker_check info db := by
  unfold pfish_bovespa_revision_marker_check
  rw [h]

/-- Claim C24. pfish_bovespa_revision_marker_check returns 0 exactly when the marker file exists
and begins with the expected content; so it also returns 0 for a marker file that holds the
expected content followed by any other bytes, which is not equal to the expected content. -/
theorem revision_marker_check_accepts_longer (info : pfish_bovespa_library_info) :
    (∀ db : database,
      pfish_bovespa_revision_marker_check info db = 0 ↔
        ∃ current_content, db_lookup db REVISION_MARKER_NAME = some (.text current_content) ∧
          pfish_bovespa_revision_marker_content_alloc info <+: current_content) ∧
    (∀ (extra : List Char) (others : database),
      pfish_bovespa_revision_marker_check info
        ((REVISION_MARKER_NAME,
          .text (pfish_bovespa_revision_marker_content_alloc info ++ extra)) :: others) = 0) := by
  refine ⟨revision_marker_check_zero_iff info, ?_⟩
  intro extra others
  rw [revision_marker_check_zero_iff]
  exact ⟨_, by rw [db_lookup, if_pos rfl], List.prefix_append _ _⟩

theorem stock_history_alloc_stale (info : pfish_bovespa_library_info) (db : database)
    (h : pfish_bovespa_revision_marker_check info db < 0) (stock_id : List Char) :
    pfish_bovespa_stock_history_alloc info db stock_id = none := by
  unfold pfish_bovespa_stock_history_alloc
  rw [if_pos h]

theorem stock_loop_stale (info : pfish_bovespa_library_info) (db : database)
    (h : pfish_bovespa_revision_marker_check info db < 0) (q : List quote_node) :
    (∃ n ∈ q, n.stock ≠ []) →
      stock_loop info q [] 0 db = (some .cannot_retrieve_history, 1, db) := by
  induction q with
  | nil => rintro ⟨n, hn, _⟩; exact absurd hn (List.not_mem_nil n)
  | cons node rest ih =>
    rintro ⟨n, hn, hne⟩
    by_cases hs : node.stock ≠ []
    · rw [stock_loop, if_pos hs]
      simp only [stock_history_alloc_stale info db h]
    · rw [stock_loop, if_neg hs]
      rcases List.mem_cons.mp hn with rfl | hmem
      · exact absurd hne hs
      · exact ih ⟨n, hmem, hne⟩

set_option maxRecDepth 100000 in
/-- Claim C25. When the revision marker check fails, pfish_bovespa_stock_history_alloc fails for
every stock and pfish_bovespa_stock_list_alloc returns NULL whatever the directory holds, and
the run of the importer on a batch that holds a quote with a non-empty stock id fails at its
first stock, with the database directory exactly as it was.  A non-empty batch whose quotes all
have the empty stock id is not noticed: the stock loop passes over every quote, the library is
never called, and the import of the accepted file sample_hist_file_only_empty_id into a directory
without revision marker ends with success. -/
theorem stale_database_unnoticed_by_empty_ids :
    (pfish_bovespa_revision_marker_check sample_info sample_stale_db < 0 ∧
      section_reached sample_stack sample_hist_file_only_empty_id
        = some BOVESPA_FILE_SECTION_TRAILER ∧
      (state_reached sample_stack sample_hist_file_only_empty_id).quotes_list.length = 1 ∧
      (∀ n ∈ (state_reached sample_stack sample_hist_file_only_empty_id).quotes_list,
        n.stock = []) ∧
      file_import_main sample_info sample_stale_db sample_stack sample_hist_file_only_empty_id
        = { exit_status := EXIT_SUCCESS, failure := none, db := sample_stale_db }) ∧
    (∀ (info : pfish_bovespa_library_info) (db : database),
      pfish_bovespa_revision_marker_check info db < 0 →
      (∀ stock_id : List Char, pfish_bovespa_stock_history_alloc info db stock_id = none) ∧
      (∀ dir : List dirent, pfish_bovespa_stock_list_alloc info db dir = .null) ∧
      (∀ (stack : List Char) (stdin : List (List Char)) (s : import_state),
        register_loop (initial_state stack) stdin = .ok s →
        (∃ n ∈ s.quotes_list, n.stock ≠ []) →
        stock_loop info (qsort s.quotes_list) [] 0 db
            = (some .cannot_retrieve_history, 1, db) ∧
          file_import_main info db stack stdin =
            { exit_status := EXIT_FAILURE, failure := some .cannot_retrieve_history,
              db := db })) := by
  refine ⟨⟨by decide, by decide, by decide, by decide, by decide⟩, ?_⟩
  intro info db hstale
  refine ⟨stock_history_alloc_stale info db hstale, ?_, ?_⟩
  · intro dir
    unfold pfish_bovespa_stock_list_alloc
    rw [if_pos hstale]
  · intro stack stdin s hok ⟨n, hn, hne⟩
    have hq : ∃ n ∈ qsort s.quotes_list, n.stock ≠ [] :=
      ⟨n, (List.perm_insertionSort _ s.quotes_list).mem_iff.mpr hn, hne⟩
    have hl := stock_loop_stale info db hstale (qsort s.quotes_list) hq
    refine ⟨hl, ?_⟩
    unfold file_import_main
    simp only [hok, hl]

set_option maxRecDepth 100000 in
theorem stale_database_unnoticed_by_empty_ids_witness :
    pfish_bovespa_revision_marker_check sample_info sample_stale_db < 0 ∧
    register_loop (initial_state sample_stack) [sample_hist_header, sample_hist_quote]
      = .ok (state_reached sample_stack [sample_hist_header, sample_hist_quote]) ∧
    (∃ n ∈ (state_reached sample_stack [sample_hist_header, sample_hist_quote]).quotes_list,
      n.stock ≠ []) ∧
    file_import_main sample_info sample_stale_db sample_stack
        [sample_hist_header, sample_hist_quote] =
      { exit_status := EXIT_FAILURE, failure := some .cannot_retrieve_history,
        db := sample_stale_db } :=
  ⟨by decide,
    (section_reached_ok sample_stack [sample_hist_header, sample_hist_quote]
      BOVESPA_FILE_SECTION_QUOTES (by decide)).1,
    by decide,
    ((stale_database_unnoticed_by_empty_ids.2 sample_info sample_stale_db (by decide)).2.2
      sample_stack [sample_hist_header, sample_hist_quote]
      (state_reached sample_stack [sample_hist_header, sample_hist_quote])
      (section_reached_ok sample_stack [sample_hist_header, sample_hist_quote]
        BOVESPA_FILE_SECTION_QUOTES (by decide)).1 (by decide)).2⟩

theorem file_import_main_ok (info : pfish_bovespa_library_info) (db : database)
    (stack : List Char) (stdin : List (List Char)) (s : import_state)
    (hok : register_loop (initial_state stack) stdin = .ok s) :
    (file_import_main info db stack stdin).failure
        = (stock_loop info (qsort s.quotes_list) [] 0 db).1 ∧
      (file_import_main info db stack stdin).db
        = (stock_loop info (qsort s.quotes_list) [] 0 db).2.2 := by
  unfold file_import_main
  simp only [hok]
  rcases h : stock_loop info (qsort s.quotes_list) [] 0 db with ⟨f, n, d⟩
  cases f <;> exact ⟨rfl, rfl⟩

/-- Claim C26. A failure of the register loop ends main at once with EXIT_FAILURE and the
database directory as it was; and whenever the failure reported by main is one of the format
errors, it comes from the register loop, so the database directory is unchanged. -/
theorem format_error_leaves_database (info : pfish_bovespa_library_info) (db : database)
    (stack : List Char) (stdin : List (List Char)) :
    (∀ e, register_loop (initial_state stack) stdin = .error e →
      file_import_main info db stack stdin =
        { exit_status := EXIT_FAILURE, failure := some e, db := db }) ∧
    (∀ e, (file_import_main info db stack stdin).failure = some e → e ∈ format_errors →
      register_loop (initial_state stack) stdin = .error e ∧
      (file_import_main info db stack stdin).exit_status = EXIT_FAILURE ∧
      (file_import_main info db stack stdin).db = db) := by
  have h1 : ∀ e, register_loop (initial_state stack) stdin = .error e →
      file_import_main info db stack stdin =
        { exit_status := EXIT_FAILURE, failure := some e, db := db } := by
    intro e he
    unfold file_import_main
    simp only [he]
  refine ⟨h1, ?_⟩
  intro e hf hmem
  cases hloop : register_loop (initial_state stack) stdin with
  | error e2 =>
    have hm := h1 e2 hloop
    rw [hm] at hf
    cases hf
    exact ⟨rfl, by rw [hm], by rw [hm]⟩
  | ok s =>
    exfalso
    have hs := (file_import_main_ok info db stack stdin s hloop).1
    rw [hf] at hs
    exact stock_loop_failures info (qsort s.quotes_list) [] 0 db e hs.symm hmem

set_option maxRecDepth 100000 in
theorem format_error_leaves_database_witness :
    (file_import_main sample_info sample_db sample_stack
      [sample_hist_header, sample_hist_quote_malformed]).failure = some .cannot_append_quote ∧
    import_failure.cannot_append_quote ∈ format_errors ∧
    (file_import_main sample_info sample_db sample_stack
      [sample_hist_header, sample_hist_quote_malformed]).db = sample_db :=
  ⟨by decide, by decide,
    ((format_error_leaves_database sample_info sample_db sample_stack
      [sample_hist_header, sample_hist_quote_malformed]).2 .cannot_append_quote
      (by decide) (by decide)).2.2⟩

theorem cstr_eq_self (l : List Char) (h : NUL ∉ l) : cstr l = l := by
  induction l with
  | nil => rfl
  | cons x xs ih =>
    have hx : x ≠ NUL := fun e => h (by rw [e]; exact List.mem_cons_self _ _)
    rw [cstr_cons_ne x xs hx, ih (fun m => h (List.mem_cons_of_mem _ m))]

theorem path_components_plain (name : List Char) (h : '/' ∉ name) :
    path_components name = [name] := by
  induction name with
  | nil => rfl
  | cons c cs ih =>
    have hc : c ≠ '/' := fun e => h (by rw [e]; exact List.mem_cons_self _ _)
    rw [path_components, if_neg hc, ih (fun m => h (List.mem_cons_of_mem _ m))]

theorem db_resolve_plain (db : database) (name : List Char) (h : plain_name name) :
    db_resolve db name = .file name := by
  obtain ⟨h1, h2, h3, h4, h5⟩ := h
  unfold db_resolve
  have h12 : ¬ (name = [] ∨ name = ".".toList) := fun e => e.elim h1 h2
  rw [path_components_plain name h4, db_walk, if_neg h12, if_neg h3, if_neg (by omega)]
  simp

theorem sys_open_plain (db : database) (name : List Char) (h : plain_name name) :
    sys_open db name =
      match db_lookup db name with
      | none => .error .ENOENT
      | some f => .ok (some f) := by
  unfold sys_open
  rw [db_resolve_plain db name h]

theorem db_lookup_mem (db : database) (e : List Char × db_file) (he : e ∈ db) :
    db_lookup db e.1 ≠ none := by
  induction db with
  | nil => cases he
  | cons x xs ih =>
    obtain ⟨k, f⟩ := x
    rw [db_lookup]
    by_cases hkk : k = e.1
    · rw [if_pos hkk]; simp
    · rw [if_neg hkk]
      rcases List.mem_cons.mp he with rfl | hm
      · exact absurd rfl hkk
      · exact ih hm

theorem db_unlink_absent (db : database) (name : List Char) (hl : db_lookup db name = none) :
    db_unlink db name = db := by
  unfold db_unlink
  rw [List.filter_eq_self]
  intro e he
  simp only [ne_eq, decide_not, Bool.not_eq_true', decide_eq_false_iff_not]
  intro hk
  exact db_lookup_mem db e he (by rw [hk]; exact hl)

theorem sys_unlink_plain (db : database) (name : List Char) (h : plain_name name) :
    pass_ENOENT db (sys_unlink db name) = some (db_unlink db name) := by
  have e : sys_unlink db name =
      match db_lookup db name with
      | none => .error .ENOENT
      | some _ => .ok (db_unlink db name) := by
    unfold sys_unlink
    rw [db_resolve_plain db name h]
  rw [e]
  cases hl : db_lookup db name with
  | none =>
    show some db = some (db_unlink db name)
    rw [db_unlink_absent db name hl]
  | some f => rfl

theorem sys_rename_plain (db : database) (old new : List Char) (ho : plain_name old)
    (hn : plain_name new) :
    sys_rename db old new =
      match db_lookup db old with
      | none => .error .ENOENT
      | some f => if old = new then .ok db else .ok (db_write (db_unlink db old) new f) := by
  unfold sys_rename
  rw [db_resolve_plain db old ho, db_resolve_plain db new hn]

theorem sys_fopen_w_plain (db : database) (name : List Char) (f : db_file)
    (h : plain_name name) : sys_fopen_w db name f = .ok (db_write db name f) := by
  unfold sys_fopen_w
  rw [db_resolve_plain db name h]

theorem plain_name_backup (id : List Char) (h : plain_name id) (hlen : id.length ≤ 12) :
    plain_name ('.' :: id) := by
  obtain ⟨h1, h2, h3, h4, h5⟩ := h
  refine ⟨by simp, ?_, ?_, ?_, ?_⟩
  · intro e
    exact h1 (List.cons.inj e).2
  · intro e
    exact h2 (List.cons.inj e).2
  · intro hm
    rcases List.mem_cons.mp hm with e | hm
    · exact absurd e (by decide)
    · exact h4 hm
  · rw [List.length_cons]
    unfold NAME_MAX
    omega

theorem stock_history_alloc_plain (info : pfish_bovespa_library_info) (db : database)
    (name : List Char) (hmarker : pfish_bovespa_revision_marker_check info db = 0)
    (hnul : NUL ∉ name) (hplain : plain_name name) (hlen : name.length ≤ 12) :
    pfish_bovespa_stock_history_alloc info db name =
      match db_lookup db name with
      | none => some none
      | some (.stock h) => some (some h)
      | some (.text content) => if content = [] then none else some (some (mapped_history content)) := by
  unfold pfish_bovespa_stock_history_alloc
  have hfit : ¬ (DBPATH.length + 1 + name.length ≥ PATH_MAX) := by
    have : DBPATH.length = 22 := by decide
    unfold PATH_MAX
    omega
  rw [hmarker, if_neg (by decide), cstr_eq_self name hnul, if_neg hfit,
    sys_open_plain db name hplain]
  cases hl : db_lookup db name with
  | none => rfl
  | some f =>
    cases f with
    | stock h =>
      simp only [sys_fstat, sys_mmap, DAILY_QUOTE_SIZE]
      rw [if_neg (by omega)]
    | text content =>
      simp only [sys_fstat, sys_mmap]
      by_cases hc : content = []
      · subst hc
        simp
      · have : content.length ≠ 0 := fun e => hc (List.length_eq_zero.mp e)
        rw [if_neg this, if_neg hc]

theorem pathname_fits (id : List Char) (hlen : id.length ≤ 12) :
    ¬ (DBPATH.length + 1 + id.length ≥ PATH_MAX) ∧ ¬ (DBPATH.length + 2 + id.length ≥ PATH_MAX) := by
  have : DBPATH.length = 22 := by decide
  unfold PATH_MAX
  omega

theorem pass_ENOENT_ok (db d : database) : pass_ENOENT db (.ok d) = some d := rfl

theorem pass_ENOENT_missing (db : database) : pass_ENOENT db (.error .ENOENT) = some db := rfl

theorem plain_name_temp : plain_name STOCK_TEMP_NAME := by decide

/-- The write sequence for a stock whose id is the name of an entry and does not collide with
the temporary name, in terms of the operations on the map. -/
theorem write_sequence_plain (db : database) (id : List Char)
    (new : pfish_bovespa_stock_history)
    (hplain : plain_name id) (hnul : NUL ∉ id) (hlen : id.length ≤ 12)
    (h1 : STOCK_TEMP_NAME ≠ id) (h2 : STOCK_TEMP_NAME ≠ '.' :: id) :
    ∃ d3,
      (d3 = match db_lookup db id with
        | none => db_unlink (db_write db STOCK_TEMP_NAME (.stock new)) ('.' :: id)
        | some f =>
          db_write (db_unlink (db_unlink (db_write db STOCK_TEMP_NAME (.stock new)) ('.' :: id))
            id) ('.' :: id) f) ∧
      write_sequence db id new =
        ([db_write db STOCK_TEMP_NAME (.stock new),
          db_unlink (db_write db STOCK_TEMP_NAME (.stock new)) ('.' :: id),
          d3,
          db_write (db_unlink d3 STOCK_TEMP_NAME) id (.stock new),
          db_unlink (db_write (db_unlink d3 STOCK_TEMP_NAME) id (.stock new)) ('.' :: id)],
          none) := by
  have hB := plain_name_backup id hplain hlen
  have hT := plain_name_temp
  obtain ⟨f1, f2⟩ := pathname_fits id hlen
  have hb : id ≠ '.' :: id := by
    intro h
    have := congrArg List.length h
    simp at this
  have L1 : ∀ m, db_lookup (db_write db STOCK_TEMP_NAME (.stock new)) m
      = if m = STOCK_TEMP_NAME then some (.stock new) else db_lookup db m :=
    fun m => db_lookup_write db STOCK_TEMP_NAME m _
  have L2 : ∀ m, db_lookup (db_unlink (db_write db STOCK_TEMP_NAME (.stock new)) ('.' :: id)) m
      = if m = '.' :: id then none
        else if m = STOCK_TEMP_NAME then some (.stock new) else db_lookup db m := by
    intro m
    rw [db_lookup_unlink, L1]
  have l2id : db_lookup (db_unlink (db_write db STOCK_TEMP_NAME (.stock new)) ('.' :: id)) id
      = db_lookup db id := by
    rw [L2, if_neg hb, if_neg (fun h => h1 h.symm)]
  refine ⟨_, rfl, ?_⟩
  unfold write_sequence
  rw [sys_fopen_w_plain db STOCK_TEMP_NAME _ hT]
  simp only []
  rw [cstr_eq_self id hnul, if_neg f1, if_neg f2, sys_unlink_plain _ _ hB]
  simp only []
  rw [sys_rename_plain _ _ _ hplain hB, l2id]
  cases hold : db_lookup db id with
  | none =>
    simp only []
    rw [pass_ENOENT_missing]
    simp only []
    rw [sys_rename_plain _ _ _ hT hplain]
    have lt : db_lookup (db_unlink (db_write db STOCK_TEMP_NAME (.stock new)) ('.' :: id))
        STOCK_TEMP_NAME = some (.stock new) := by
      rw [L2, if_neg h2, if_pos rfl]
    rw [lt]
    simp only [if_neg h1]
    rw [sys_unlink_plain _ _ hB]
  | some f =>
    simp only [if_neg hb]
    rw [pass_ENOENT_ok]
    simp only []
    rw [sys_rename_plain _ _ _ hT hplain]
    have lt : db_lookup (db_write (db_unlink (db_unlink (db_write db STOCK_TEMP_NAME
        (.stock new)) ('.' :: id)) id) ('.' :: id) f) STOCK_TEMP_NAME = some (.stock new) := by
      rw [db_lookup_move, if_neg h2, if_neg h1, L2, if_neg h2, if_pos rfl]
    rw [lt]
    simp only [if_neg h1]
    rw [sys_unlink_plain _ _ hB]

theorem stock_history_alloc_found (info : pfish_bovespa_library_info) (db : database)
    (name : List Char) (h : pfish_bovespa_stock_history)
    (hmarker : pfish_bovespa_revision_marker_check info db = 0) (hnul : NUL ∉ name)
    (hplain : plain_name name) (hlen : name.length ≤ 12)
    (hl : db_lookup db name = some (.stock h)) :
    pfish_bovespa_stock_history_alloc info db name = some (some h) := by
  rw [stock_history_alloc_plain info db name hmarker hnul hplain hlen, hl]

theorem stock_history_alloc_absent (info : pfish_bovespa_library_info) (db : database)
    (name : List Char)
    (hmarker : pfish_bovespa_revision_marker_check info db = 0) (hnul : NUL ∉ name)
    (hplain : plain_name name) (hlen : name.length ≤ 12)
    (hl : db_lookup db name = none) :
    pfish_bovespa_stock_history_alloc info db name = some none := by
  rw [stock_history_alloc_plain info db name hmarker hnul hplain hlen, hl]

/-- The lookups in the five directories of the write sequence, for a stock with an official
file whose id is the name of an entry and does not collide with the temporary name. -/
theorem write_sequence_lookups (db : database) (id : List Char)
    (old new : pfish_bovespa_stock_history)
    (hold : db_lookup db id = some (.stock old))
    (hplain : plain_name id) (hnul : NUL ∉ id) (hlen : id.length ≤ 12)
    (h1 : STOCK_TEMP_NAME ≠ id) (h2 : STOCK_TEMP_NAME ≠ '.' :: id) :
    ∃ d1 d2 d3 d4 d5, write_sequence db id new = ([d1, d2, d3, d4, d5], none) ∧
      promote_stock_file db id new = (none, d5) ∧
      (∀ m, db_lookup d1 m = if m = STOCK_TEMP_NAME then some (.stock new) else db_lookup db m) ∧
      (∀ m, db_lookup d2 m = if m = '.' :: id then none
        else if m = STOCK_TEMP_NAME then some (.stock new) else db_lookup db m) ∧
      (∀ m, db_lookup d3 m = if m = '.' :: id then some (.stock old)
        else if m = id then none
        else if m = STOCK_TEMP_NAME then some (.stock new) else db_lookup db m) ∧
      (∀ m, db_lookup d4 m = if m = id then some (.stock new)
        else if m = STOCK_TEMP_NAME then none
        else if m = '.' :: id then some (.stock old) else db_lookup db m) ∧
      (∀ m, db_lookup d5 m = if m = '.' :: id then none
        else if m = id then some (.stock new)
        else if m = STOCK_TEMP_NAME then none else db_lookup db m) := by
  have hb : id ≠ '.' :: id := by
    intro h
    have := congrArg List.length h
    simp at this
  obtain ⟨d3, hd3, hseq⟩ := write_sequence_plain db id new hplain hnul hlen h1 h2
  rw [hold] at hd3
  simp only [] at hd3
  have L1 : ∀ m, db_lookup (db_write db STOCK_TEMP_NAME (.stock new)) m
      = if m = STOCK_TEMP_NAME then some (.stock new) else db_lookup db m :=
    fun m => db_lookup_write db STOCK_TEMP_NAME m _
  have L2 : ∀ m, db_lookup (db_unlink (db_write db STOCK_TEMP_NAME (.stock new)) ('.' :: id)) m
      = if m = '.' :: id then none
        else if m = STOCK_TEMP_NAME then some (.stock new) else db_lookup db m := by
    intro m
    rw [db_lookup_unlink, L1]
  have L3 : ∀ m, db_lookup d3 m
      = if m = '.' :: id then some (.stock old)
        else if m = id then none
        else if m = STOCK_TEMP_NAME then some (.stock new) else db_lookup db m := by
    intro m
    rw [hd3, db_lookup_move, L2 m]
    by_cases c1 : m = '.' :: id
    · simp only [c1, if_true]
    · by_cases c2 : m = id
      · simp only [c1, c2, if_false, if_true]
      · simp only [c1, c2, if_false]
  have L4 : ∀ m, db_lookup (db_write (db_unlink d3 STOCK_TEMP_NAME) id (.stock new)) m
      = if m = id then some (.stock new)
        else if m = STOCK_TEMP_NAME then none
        else if m = '.' :: id then some (.stock old) else db_lookup db m := by
    intro m
    rw [db_lookup_move, L3 m]
    by_cases c1 : m = id
    · simp only [c1, if_true]
    · by_cases c2 : m = STOCK_TEMP_NAME
      · simp only [c1, c2, if_false, if_true]
      · by_cases c3 : m = '.' :: id
        · simp only [c1, c2, c3, if_false, if_true]
        · simp only [c1, c2, c3, if_false]
  refine ⟨_, _, _, _, _, hseq, ?_, L1, L2, L3, L4, ?_⟩
  · unfold promote_stock_file
    rw [hseq]
    rfl
  · intro m
    rw [db_lookup_unlink, L4]
    by_cases c1 : m = '.' :: id
    · simp only [c1, if_true]
    · simp only [c1, if_false]

theorem write_sequence_general (info : pfish_bovespa_library_info) (db : database)
    (id : List Char) (old new : pfish_bovespa_stock_history)
    (hmarker : pfish_bovespa_revision_marker_check info db = 0)
    (hold : db_lookup db id = some (.stock old))
    (hplain : plain_name id) (hnul : NUL ∉ id) (hlen : id.length ≤ 12)
    (h1 : STOCK_TEMP_NAME ≠ id) (h2 : STOCK_TEMP_NAME ≠ '.' :: id) :
    (write_sequence db id new).2 = none ∧
    (write_sequence db id new).1.length = 5 ∧
    promote_stock_file db id new = (none, (write_sequence db id new).1.getD 4 []) ∧
    (∀ d ∈ db :: (write_sequence db id new).1,
      ∃ name ∈ [id, '.' :: id, STOCK_TEMP_NAME], ∃ h, (h = old ∨ h = new) ∧
        db_lookup d name = some (.stock h) ∧
        pfish_bovespa_stock_history_alloc info d name = some (some h)) ∧
    (∀ d ∈ db :: (write_sequence db id new).1,
      d ≠ (write_sequence db id new).1.getD 2 [] →
      pfish_bovespa_stock_history_alloc info d id = some (some old) ∨
        pfish_bovespa_stock_history_alloc info d id = some (some new)) ∧
    (pfish_bovespa_stock_history_alloc info ((write_sequence db id new).1.getD 2 []) id
        = some none ∧
      pfish_bovespa_stock_history_alloc info ((write_sequence db id new).1.getD 2 [])
        ('.' :: id) = some (some old) ∧
      pfish_bovespa_stock_history_alloc info ((write_sequence db id new).1.getD 2 [])
        STOCK_TEMP_NAME = some (some new)) ∧
    db_lookup (promote_stock_file db id new).2 id = some (.stock new) ∧
    db_lookup (promote_stock_file db id new).2 ('.' :: id) = none ∧
    db_lookup (promote_stock_file db id new).2 STOCK_TEMP_NAME = none := by
  obtain ⟨d1, d2, d3, d4, d5, hseq, hpro, L1, L2, L3, L4, L5⟩ :=
    write_sequence_lookups db id old new hold hplain hnul hlen h1 h2
  have hb : id ≠ '.' :: id := by
    intro h
    have := congrArg List.length h
    simp at this
  have hm0 : REVISION_MARKER_NAME.length = 16 := by decide
  have hm1 : REVISION_MARKER_NAME ≠ id := by
    intro h
    rw [← h] at hlen
    omega
  have hm2 : REVISION_MARKER_NAME ≠ '.' :: id := by
    intro h
    have := congrArg List.length h
    rw [hm0, List.length_cons] at this
    omega
  have hm3 : REVISION_MARKER_NAME ≠ STOCK_TEMP_NAME := by decide
  have hnb : NUL ∉ '.' :: id := by
    intro h
    rcases List.mem_cons.mp h with h | h
    · exact absurd h (by decide)
    · exact hnul h
  have hnt : NUL ∉ STOCK_TEMP_NAME := by decide
  have hpb := plain_name_backup id hplain hlen
  have hpt := plain_name_temp
  have hlb : ('.' :: id).length ≤ 13 := by rw [List.length_cons]; omega
  have c1 : pfish_bovespa_revision_marker_check info d1 = 0 := by
    rw [revision_marker_check_congr info db d1 (by rw [L1, if_neg hm3]), hmarker]
  have c2 : pfish_bovespa_revision_marker_check info d2 = 0 := by
    rw [revision_marker_check_congr info db d2 (by rw [L2, if_neg hm2, if_neg hm3]), hmarker]
  have c3 : pfish_bovespa_revision_marker_check info d3 = 0 := by
    rw [revision_marker_check_congr info db d3
      (by rw [L3, if_neg hm2, if_neg hm1, if_neg hm3]), hmarker]
  have c4 : pfish_bovespa_revision_marker_check info d4 = 0 := by
    rw [revision_marker_check_congr info db d4
      (by rw [L4, if_neg hm1, if_neg hm3, if_neg hm2]), hmarker]
  have c5 : pfish_bovespa_revision_marker_check info d5 = 0 := by
    rw [revision_marker_check_congr info db d5
      (by rw [L5, if_neg hm2, if_neg hm1, if_neg hm3]), hmarker]
  have a0 := stock_history_alloc_found info db id old hmarker hnul hplain hlen hold
  have l1 : db_lookup d1 id = some (.stock old) := by rw [L1, if_neg (fun h => h1 h.symm), hold]
  have l2 : db_lookup d2 id = some (.stock old) := by
    rw [L2, if_neg hb, if_neg (fun h => h1 h.symm), hold]
  have l3i : db_lookup d3 id = none := by rw [L3, if_neg hb, if_pos rfl]
  have l3b : db_lookup d3 ('.' :: id) = some (.stock old) := by rw [L3, if_pos rfl]
  have l3t : db_lookup d3 STOCK_TEMP_NAME = some (.stock new) := by
    rw [L3, if_neg h2, if_neg h1, if_pos rfl]
  have l4 : db_lookup d4 id = some (.stock new) := by rw [L4, if_pos rfl]
  have l5 : db_lookup d5 id = some (.stock new) := by rw [L5, if_neg hb, if_pos rfl]
  have l5b : db_lookup d5 ('.' :: id) = none := by rw [L5, if_pos rfl]
  have l5t : db_lookup d5 STOCK_TEMP_NAME = none := by
    rw [L5, if_neg h2, if_neg h1, if_pos rfl]
  have a1 := stock_history_alloc_found info d1 id old c1 hnul hplain hlen l1
  have a2 := stock_history_alloc_found info d2 id old c2 hnul hplain hlen l2
  have a3b : pfish_bovespa_stock_history_alloc info d3 ('.' :: id) = some (some old) := by
    unfold pfish_bovespa_stock_history_alloc
    have hfit : ¬ (DBPATH.length + 1 + ('.' :: id).length ≥ PATH_MAX) := by
      have : DBPATH.length = 22 := by decide
      unfold PATH_MAX
      omega
    rw [c3, if_neg (by decide), cstr_eq_self _ hnb, if_neg hfit, sys_open_plain d3 _ hpb, l3b]
    simp only [sys_fstat, sys_mmap, DAILY_QUOTE_SIZE]
    rw [if_neg (by omega)]
  have a3t := stock_history_alloc_found info d3 STOCK_TEMP_NAME new c3 hnt hpt (by decide) l3t
  have a3i := stock_history_alloc_absent info d3 id c3 hnul hplain hlen l3i
  have a4 := stock_history_alloc_found info d4 id new c4 hnul hplain hlen l4
  have a5 := stock_history_alloc_found info d5 id new c5 hnul hplain hlen l5
  rw [hseq, hpro]
  refine ⟨rfl, rfl, rfl, ?_, ?_, ⟨a3i, a3b, a3t⟩, l5, l5b, l5t⟩
  · intro d hd
    simp only [List.mem_cons, List.mem_singleton, List.not_mem_nil, or_false] at hd
    rcases hd with rfl | rfl | rfl | rfl | rfl | rfl
    · exact ⟨id, by simp, old, Or.inl rfl, hold, a0⟩
    · exact ⟨id, by simp, old, Or.inl rfl, l1, a1⟩
    · exact ⟨id, by simp, old, Or.inl rfl, l2, a2⟩
    · exact ⟨'.' :: id, by simp, old, Or.inl rfl, l3b, a3b⟩
    · exact ⟨id, by simp, new, Or.inr rfl, l4, a4⟩
    · exact ⟨id, by simp, new, Or.inr rfl, l5, a5⟩
  · intro d hd hne
    simp only [List.mem_cons, List.mem_singleton, List.not_mem_nil, or_false] at hd
    rcases hd with rfl | rfl | rfl | rfl | rfl | rfl
    · exact Or.inl a0
    · exact Or.inl a1
    · exact Or.inl a2
    · exact absurd rfl hne
    · exact Or.inr a4
    · exact Or.inr a5

theorem stock_history_alloc_eq (info : pfish_bovespa_library_info) (db : database)
    (stock_id : List Char) :
    pfish_bovespa_stock_history_alloc info db stock_id =
      if pfish_bovespa_revision_marker_check info db < 0 then none
      else if DBPATH.length + 1 + (cstr stock_id).length ≥ PATH_MAX then none
      else
        match sys_open db (cstr stock_id) with
        | .error .ENOENT => some none
        | .error _ => none
        | .ok stock_file_des =>
          match sys_fstat stock_file_des with
          | .error _ => none
          | .ok st_size =>
            match sys_mmap st_size stock_file_des with
            | .error _ => none
            | .ok answer => some (some answer) := rfl

/-- Claim C28. With a valid revision marker and a pathname that fits PATH_MAX,
pfish_bovespa_stock_history_alloc returns success with a NULL answer exactly when open finds no
file (ENOENT), which is the case of a stock id that is the name of an entry without a file in the
database directory. It returns a negative value exactly when the revision marker check fails, the
pathname is too long, open fails with an error other than ENOENT, or fstat or mmap fails; the
latter happens for the ids that name a directory (the empty id, `.` and `..`), which open accepts
and mmap refuses. In every other case it returns success with the mapped file. -/
theorem stock_history_alloc_not_found (info : pfish_bovespa_library_info) (db : database)
    (stock_id : List Char) :
    (pfish_bovespa_revision_marker_check info db = 0 →
      DBPATH.length + 1 + (cstr stock_id).length < PATH_MAX →
      sys_open db (cstr stock_id) = .error .ENOENT →
      pfish_bovespa_stock_history_alloc info db stock_id = some none) ∧
    (pfish_bovespa_stock_history_alloc info db stock_id = some none ↔
      ¬ pfish_bovespa_revision_marker_check info db < 0 ∧
      DBPATH.length + 1 + (cstr stock_id).length < PATH_MAX ∧
      sys_open db (cstr stock_id) = .error .ENOENT) ∧
    (pfish_bovespa_stock_history_alloc info db stock_id = none ↔
      pfish_bovespa_revision_marker_check info db < 0 ∨
      DBPATH.length + 1 + (cstr stock_id).length ≥ PATH_MAX ∨
      (∃ e, e ≠ errno.ENOENT ∧ sys_open db (cstr stock_id) = .error e) ∨
      (∃ stock_file_des e, sys_open db (cstr stock_id) = .ok stock_file_des ∧
        sys_fstat stock_file_des = .error e) ∨
      (∃ stock_file_des st_size e, sys_open db (cstr stock_id) = .ok stock_file_des ∧
        sys_fstat stock_file_des = .ok st_size ∧
        sys_mmap st_size stock_file_des = .error e)) ∧
    (plain_name (cstr stock_id) →
      (sys_open db (cstr stock_id) = .error .ENOENT ↔ db_lookup db (cstr stock_id) = none)) ∧
    (pfish_bovespa_revision_marker_check info db = 0 →
      cstr stock_id = [] ∨ cstr stock_id = ".".toList ∨ cstr stock_id = "..".toList →
      sys_open db (cstr stock_id) = .ok none ∧
      (∀ length, sys_mmap length none = .error .ENODEV) ∧
      pfish_bovespa_stock_history_alloc info db stock_id = none) := by
  rw [stock_history_alloc_eq]
  refine ⟨?_, ?_, ?_, ?_, ?_⟩
  · intro hm hfit ho
    rw [hm, if_neg (by decide), if_neg (by omega), ho]
  · by_cases hm : pfish_bovespa_revision_marker_check info db < 0
    · rw [if_pos hm]
      simp [hm]
    · rw [if_neg hm]
      by_cases hfit : DBPATH.length + 1 + (cstr stock_id).length ≥ PATH_MAX
      · rw [if_pos hfit]
        constructor
        · intro h; cases h
        · rintro ⟨_, h, _⟩
          omega
      · rw [if_neg hfit]
        have hfit2 : DBPATH.length + 1 + (cstr stock_id).length < PATH_MAX := by omega
        cases ho : sys_open db (cstr stock_id) with
        | error e =>
          cases e <;> simp [hm, hfit2]
        | ok fd =>
          cases hs : sys_fstat fd with
          | error e => simp [hm, hfit2, hs]
          | ok size =>
            cases hmm : sys_mmap size fd with
            | error e => simp [hm, hfit2, hs, hmm]
            | ok a => simp [hm, hfit2, hs, hmm]
  · by_cases hm : pfish_bovespa_revision_marker_check info db < 0
    · rw [if_pos hm]
      simp [hm]
    · rw [if_neg hm]
      by_cases hfit : DBPATH.length + 1 + (cstr stock_id).length ≥ PATH_MAX
      · rw [if_pos hfit]
        simp [hfit]
      · rw [if_neg hfit]
        cases ho : sys_open db (cstr stock_id) with
        | error e =>
          cases e <;> simp [hm, hfit]
        | ok fd =>
          cases hs : sys_fstat fd with
          | error e => simp [hm, hfit, hs]
          | ok size =>
            cases hmm : sys_mmap size fd with
            | error e => simp [hm, hfit, hs, hmm]
            | ok a => simp [hm, hfit, hs, hmm]
  · intro hplain
    rw [sys_open_plain db _ hplain]
    cases db_lookup db (cstr stock_id) <;> simp
  · intro hm hdir
    have hfit : ¬ (DBPATH.length + 1 + (cstr stock_id).length ≥ PATH_MAX) := by
      have : DBPATH.length = 22 := by decide
      unfold PATH_MAX
      rcases hdir with h | h | h <;> rw [h] <;> simp <;> omega
    have ho : sys_open db (cstr stock_id) = .ok none := by
      rcases hdir with h | h | h <;> rw [h] <;> rfl
    refine ⟨ho, fun _ => rfl, ?_⟩
    rw [hm, if_neg (by decide), if_neg hfit, ho]
    rfl

set_option maxRecDepth 100000 in
theorem stock_history_alloc_not_found_witness :
    pfish_bovespa_revision_marker_check sample_info sample_db = 0 ∧
    DBPATH.length + 1 + (cstr "PETR4".toList).length < PATH_MAX ∧
    sys_open sample_db (cstr "PETR4".toList) = .error .ENOENT ∧
    pfish_bovespa_stock_history_alloc sample_info sample_db "PETR4".toList = some none ∧
    plain_name (cstr "PETR4".toList) ∧
    db_lookup sample_db (cstr "PETR4".toList) = none ∧
    cstr ".".toList = ".".toList ∧
    pfish_bovespa_stock_history_alloc sample_info sample_db ".".toList = none :=
  ⟨by decide, by decide, by decide,
    (stock_history_alloc_not_found sample_info sample_db "PETR4".toList).1
      (by decide) (by decide) (by decide),
    by decide,
    ((stock_history_alloc_not_found sample_info sample_db "PETR4".toList).2.2.2.1
      (by decide)).mp (by decide),
    by decide,
    ((stock_history_alloc_not_found sample_info sample_db ".".toList).2.2.2.2
      (by decide) (Or.inr (Or.inl (by decide)))).2.2⟩

/-! ### The stock list and the stock_history export -/

theorem selector_iff (d : dirent) :
    pfish_bovespa_stock_list_alloc_selector d = 1 ↔
      (d.d_type = DT_REG ∧ d.d_name.getD 0 NUL ≠ '.') := by
  unfold pfish_bovespa_stock_list_alloc_selector
  split_ifs with h1 h2
  · exact ⟨fun h => absurd h (by decide), fun h => absurd h.1 h1⟩
  · exact ⟨fun h => absurd h (by decide), fun h => absurd h2 h.2⟩
  · exact ⟨fun _ => ⟨not_not.mp h1, h2⟩, fun _ => rfl⟩

theorem selector_values (d : dirent) :
    pfish_bovespa_stock_list_alloc_selector d = 0 ∨
      pfish_bovespa_stock_list_alloc_selector d = 1 := by
  unfold pfish_bovespa_stock_list_alloc_selector
  split_ifs <;> simp

theorem scandir_perm (dir : List dirent) (filter : dirent → Int)
    (compar : dirent → dirent → Int) :
    (scandir dir filter compar).Perm (dir.filter (fun d => filter d ≠ 0)) :=
  List.perm_insertionSort _ _

theorem scandir_alphasort_sorted (dir : List dirent) (filter : dirent → Int) :
    (scandir dir filter alphasort).Pairwise (fun a b => alphasort a b ≤ 0) := by
  haveI : IsTotal dirent (fun a b => alphasort a b ≤ 0) :=
    ⟨fun a b => by
      have := strcmp_swap a.d_name b.d_name
      unfold alphasort
      omega⟩
  haveI : IsTrans dirent (fun a b => alphasort a b ≤ 0) :=
    ⟨fun a b c => strcmp_trans_le a.d_name b.d_name c.d_name⟩
  exact List.sorted_insertionSort _ _

theorem export_loop_cons (a : pfish_bovespa_daily_quote)
    (rest : List pfish_bovespa_daily_quote) (date_buf : List Char)
    (hd : export_date a.trading_date = some date_buf) :
    export_loop (a :: rest)
      = (printf_row date_buf a :: (export_loop rest).1, (export_loop rest).2) := by
  rw [export_loop, hd]
  rfl

theorem export_loop_ok (l : List pfish_bovespa_daily_quote)
    (h : ∀ q ∈ l, export_date q.trading_date ≠ none) :
    (export_loop l).2 = true ∧ (export_loop l).1.length = l.length ∧
      ∀ (k : Nat) (q : pfish_bovespa_daily_quote), l[k]? = some q →
        ∃ date_buf, export_date q.trading_date = some date_buf ∧
          (export_loop l).1[k]? = some (printf_row date_buf q) := by
  induction l with
  | nil => exact ⟨rfl, rfl, fun k q hk => by simp at hk⟩
  | cons a rest ih =>
    obtain ⟨i1, i2, i3⟩ := ih (fun q hq => h q (List.mem_cons_of_mem _ hq))
    cases hd : export_date a.trading_date with
    | none => exact absurd hd (h a (List.mem_cons_self _ _))
    | some date_buf =>
      rw [export_loop_cons a rest date_buf hd]
      refine ⟨i1, ?_, ?_⟩
      · show ((export_loop rest).1.length + 1 = rest.length + 1)
        rw [i2]
      · intro k q hk
        cases k with
        | zero =>
          rw [List.getElem?_cons_zero] at hk
          cases hk
          exact ⟨date_buf, hd, List.getElem?_cons_zero⟩
        | succ j =>
          rw [List.getElem?_cons_succ] at hk
          obtain ⟨d, h1, h2⟩ := i3 j q hk
          exact ⟨d, h1, by rw [List.getElem?_cons_succ]; exact h2⟩

/-- Claim C30. For a stock whose file holds daily_quotes_size records with printable dates, the
stock_history command succeeds and prints one row per index from last_xplit (from 0 with option
all) up to daily_quotes_size - 1, in this order; a row holds, separated by commas, the date, the
spec, the price factor, the opening, closing, minimum, maximum and average price, the total
trades, the total stocks and the total volume. -/
theorem export_rows (info : pfish_bovespa_library_info) (db : database) (all : Nat)
    (stock : List Char) (h : pfish_bovespa_stock_history)
    (hname : (cstr stock).length ≤ PFISH_BOVESPA_CODNEG_SIZE - 1)
    (hfound : pfish_bovespa_stock_history_alloc info db stock = some (some h))
    (hfile : h.daily_quotes.length = h.daily_quotes_size)
    (hdates : ∀ q ∈ h.daily_quotes, export_date q.trading_date ≠ none) :
    (stock_history_main info db all (some stock)).exit_status = EXIT_SUCCESS ∧
    (stock_history_main info db all (some stock)).stdout.length
      = h.daily_quotes_size - (if all ≠ 0 then 0 else h.last_xplit) ∧
    (∀ k : Nat, k < h.daily_quotes_size - (if all ≠ 0 then 0 else h.last_xplit) →
      ∃ q date_buf,
        h.daily_quotes[(if all ≠ 0 then 0 else h.last_xplit) + k]? = some q ∧
        export_date q.trading_date = some date_buf ∧
        (stock_history_main info db all (some stock)).stdout[k]?
          = some (printf_row date_buf q)) ∧
    (∀ (date_buf : List Char) (q : pfish_bovespa_daily_quote),
      printf_row date_buf q =
        List.intercalate [',']
          [date_buf, cstr q.stock_spec, Nat.toDigits 10 (q.price_factor % 2 ^ 32),
            Nat.toDigits 10 q.opening_price, Nat.toDigits 10 q.closing_price,
            Nat.toDigits 10 q.minimum_price, Nat.toDigits 10 q.maximum_price,
            Nat.toDigits 10 q.average_price, Nat.toDigits 10 (q.total_trades % 2 ^ 32),
            Nat.toDigits 10 q.total_stocks, Nat.toDigits 10 q.total_volume]
          ++ [Char.ofNat 10]) := by
  have hmain : stock_history_main info db all (some stock) =
      { exit_status :=
          if (export_loop ((h.daily_quotes.take h.daily_quotes_size).drop
            (if all ≠ 0 then 0 else h.last_xplit))).2 then EXIT_SUCCESS else EXIT_FAILURE,
        stdout := (export_loop ((h.daily_quotes.take h.daily_quotes_size).drop
            (if all ≠ 0 then 0 else h.last_xplit))).1 } := by
    unfold stock_history_main
    simp only [if_neg (not_lt.mpr hname), hfound]
  have htake : h.daily_quotes.take h.daily_quotes_size = h.daily_quotes := by
    rw [← hfile, List.take_length]
  rw [htake] at hmain
  generalize (if all ≠ 0 then 0 else h.last_xplit) = start at hmain ⊢
  obtain ⟨e1, e2, e3⟩ := export_loop_ok (h.daily_quotes.drop start)
    (fun q hq => hdates q (List.mem_of_mem_drop hq))
  rw [hmain]
  refine ⟨by simp only [e1, if_true], by simp only [e2, List.length_drop, hfile], ?_, ?_⟩
  · intro k hk
    have hlt : start + k < h.daily_quotes.length := by omega
    have hq : (h.daily_quotes.drop start)[k]? = some (h.daily_quotes[start + k]) := by
      rw [List.getElem?_drop, List.getElem?_eq_getElem hlt]
    obtain ⟨date_buf, hd, hrow⟩ := e3 k _ hq
    exact ⟨_, date_buf, List.getElem?_eq_getElem hlt, hd, hrow⟩
  · intro date_buf q
    simp [printf_row, List.intercalate, ulong_to_uint]

set_option maxRecDepth 100000 in
theorem export_rows_witness :
    (cstr "PETR4".toList).length ≤ PFISH_BOVESPA_CODNEG_SIZE - 1 ∧
    pfish_bovespa_stock_history_alloc sample_info sample_db_xplit "PETR4".toList
      = some (some { daily_quotes_size := 2, last_xplit := 1, daily_quotes := sample_B }) ∧
    sample_B.length = 2 ∧
    (∀ q ∈ sample_B, export_date q.trading_date ≠ none) ∧
    (stock_history_main sample_info sample_db_xplit 0 (some "PETR4".toList)).stdout.length
      = 2 - 1 ∧
    (stock_history_main sample_info sample_db_xplit 0 (some "PETR4".toList)).stdout
      = ["2024-01-03,ON EB,1,510,510,510,510,510,1,1,510\n".toList] ∧
    (stock_history_main sample_info sample_db_xplit 1 (some "PETR4".toList)).stdout
      = ["2024-01-02,ON,1,1015,1015,1015,1015,1015,1,1,1015\n".toList,
          "2024-01-03,ON EB,1,510,510,510,510,510,1,1,510\n".toList] :=
  ⟨by decide, by decide, by decide, by decide,
    (export_rows sample_info sample_db_xplit 0 "PETR4".toList
      { daily_quotes_size := 2, last_xplit := 1, daily_quotes := sample_B }
      (by decide) (by decide) (by decide) (by decide)).2.1,
    by decide, by decide⟩

/-! ### The series that the import writes -/

theorem stock_loop_new_stock (info : pfish_bovespa_library_info) (node : quote_node)
    (rest : List quote_node) (cur : List Char) (n : Nat) (db : database)
    (hs : node.stock ≠ cur) :
    stock_loop info (node :: rest) cur n db =
      match pfish_bovespa_stock_history_alloc info db node.stock with
      | none => (some .cannot_retrieve_history, n + 1, db)
      | some dsh =>
        match detect_last_xplit (merged_quotes dsh (run_quotes node rest)) with
        | none => (some .cannot_match_xplit, n + 1, db)
        | some last_xplit =>
          match promote_stock_file db node.stock
              { daily_quotes_size := (merged_quotes dsh (run_quotes node rest)).length,
                last_xplit := last_xplit,
                daily_quotes := merged_quotes dsh (run_quotes node rest) } with
          | (some e, db1) => (some e, n + 1, db1)
          | (none, db1) => stock_loop info rest node.stock (n + 1) db1 := by
  rw [stock_loop, if_pos hs]
  rfl

theorem stock_writes_new_stock (info : pfish_bovespa_library_info) (node : quote_node)
    (rest : List quote_node) (cur : List Char) (db : database)
    (hs : node.stock ≠ cur) :
    stock_writes info (node :: rest) cur db =
      match pfish_bovespa_stock_history_alloc info db node.stock with
      | none => []
      | some dsh =>
        match detect_last_xplit (merged_quotes dsh (run_quotes node rest)) with
        | none => []
        | some last_xplit =>
          (node.stock,
            { daily_quotes_size := (merged_quotes dsh (run_quotes node rest)).length,
              last_xplit := last_xplit,
              daily_quotes := merged_quotes dsh (run_quotes node rest) }) ::
          match promote_stock_file db node.stock
              { daily_quotes_size := (merged_quotes dsh (run_quotes node rest)).length,
                last_xplit := last_xplit,
                daily_quotes := merged_quotes dsh (run_quotes node rest) } with
          | (some _, _) => []
          | (none, db1) => stock_writes info rest node.stock db1 := by
  rw [stock_writes, if_pos hs]
  rfl


set_option maxRecDepth 100000 in
/-- The quote that the register of sample_hist_file_stock_tmp gives. -/
theorem sample_hist_file_stock_tmp_quotes :
    register_loop (initial_state sample_stack) sample_hist_file_stock_tmp
      = .ok (state_reached sample_stack sample_hist_file_stock_tmp) ∧
    qsort (state_reached sample_stack sample_hist_file_stock_tmp).quotes_list
      = [⟨"stock.tmp".toList, sample_hist_daily_quote⟩] := by
  have hsec : section_reached sample_stack sample_hist_file_stock_tmp
      = some BOVESPA_FILE_SECTION_TRAILER := by decide
  exact ⟨(section_reached_ok sample_stack sample_hist_file_stock_tmp _ hsec).1, by decide⟩

set_option maxRecDepth 100000 in
theorem sample_hist_file_stock_tmp_merged :
    merged_quotes (some ⟨2, 0, sample_A⟩)
      (run_quotes ⟨"stock.tmp".toList, sample_hist_daily_quote⟩ [])
      = [sample_quote 1704110400 "ON" 1000, sample_hist_daily_quote] := by
  have hd : sample_hist_daily_quote.trading_date = 1704196800 := by decide
  generalize sample_hist_daily_quote = q at hd
  show merge_daily_quotes (fun q => q.trading_date) (sample_A.take 2) [q] = _
  rw [merge_daily_quotes_eq_heads]
  simp [merge_heads, sample_A, sample_quote, hd]

set_option maxRecDepth 100000 in
theorem sample_hist_file_stock_tmp_run :
    stock_writes sample_info
        (qsort (state_reached sample_stack sample_hist_file_stock_tmp).quotes_list) []
        sample_db_stock_tmp
      = [("stock.tmp".toList,
          ⟨2, 0, [sample_quote 1704110400 "ON" 1000, sample_hist_daily_quote]⟩)] ∧
    file_import_main sample_info sample_db_stock_tmp sample_stack sample_hist_file_stock_tmp
      = { exit_status := EXIT_SUCCESS, failure := none, db := sample_db_stock_tmp } := by
  obtain ⟨hreg, hq⟩ := sample_hist_file_stock_tmp_quotes
  have hne : ("stock.tmp".toList : List Char) ≠ [] := by decide
  have ha : pfish_bovespa_stock_history_alloc sample_info sample_db_stock_tmp
      "stock.tmp".toList = some (some ⟨2, 0, sample_A⟩) := by
    decide
  have hdet : detect_last_xplit [sample_quote 1704110400 "ON" 1000, sample_hist_daily_quote]
      = some 0 := by decide
  have hpro : promote_stock_file sample_db_stock_tmp "stock.tmp".toList
      ⟨2, 0, [sample_quote 1704110400 "ON" 1000, sample_hist_daily_quote]⟩
      = (none, sample_db_stock_tmp) := by decide
  constructor
  · rw [hq, stock_writes_new_stock _ _ _ _ _ hne, ha]
    simp only []
    rw [sample_hist_file_stock_tmp_merged, hdet]
    simp only [List.length_cons, List.length_nil]
    rw [hpro]
    rfl
  · unfold file_import_main
    rw [hreg]
    simp only []
    rw [hq, stock_loop_new_stock _ _ _ _ _ _ hne, ha]
    simp only []
    rw [sample_hist_file_stock_tmp_merged, hdet]
    simp only [List.length_cons, List.length_nil]
    rw [hpro]
    rfl

set_option maxRecDepth 100000 in
/-- Claim C27 fails for the stock whose id is stock.tmp: its backup name .stock.tmp is the name
of the temporary file. With the official file holding sample_A and the new series sample_B, the
five file operations all succeed, but the removal of the stale backup deletes the temporary file
just written, so that from the second state on no file holds the new series, and the official
name ends with the old series. The run of the importer on a register of stock.tmp dumps a merged
series with the new quote, exits with success and leaves the database directory exactly as it
was. For every other stock whose id is the name of an entry, with an official file and a valid
revision marker, the claim holds: the five operations succeed; before and after each of them the
read path finds the old or the new series under the official, the backup or the temporary name;
under the official name it finds one in every state but the one between the two renames, where
the old series is under the backup name and the new one under the temporary name; at the end the
official name holds the new series and neither the backup nor the temporary file exists. -/
theorem backup_name_of_stock_tmp_is_temporary_name :
    ('.' :: "stock.tmp".toList = STOCK_TEMP_NAME ∧
      (write_sequence sample_db_stock_tmp "stock.tmp".toList
        { daily_quotes_size := 2, last_xplit := 0, daily_quotes := sample_B }).2 = none ∧
      (write_sequence sample_db_stock_tmp "stock.tmp".toList
        { daily_quotes_size := 2, last_xplit := 0, daily_quotes := sample_B }).1.map
          (fun d => (stock_series d "stock.tmp".toList, stock_series d STOCK_TEMP_NAME))
        = [(sample_A, sample_B), (sample_A, []), ([], sample_A), (sample_A, []),
            (sample_A, [])] ∧
      stock_series (promote_stock_file sample_db_stock_tmp "stock.tmp".toList
        { daily_quotes_size := 2, last_xplit := 0, daily_quotes := sample_B }).2
        "stock.tmp".toList = sample_A ∧
      section_reached sample_stack sample_hist_file_stock_tmp
        = some BOVESPA_FILE_SECTION_TRAILER ∧
      stock_writes sample_info
          (qsort (state_reached sample_stack sample_hist_file_stock_tmp).quotes_list) []
          sample_db_stock_tmp
        = [("stock.tmp".toList,
            ⟨2, 0, [sample_quote 1704110400 "ON" 1000, sample_hist_daily_quote]⟩)] ∧
      [sample_quote 1704110400 "ON" 1000, sample_hist_daily_quote] ≠ sample_A ∧
      file_import_main sample_info sample_db_stock_tmp sample_stack sample_hist_file_stock_tmp
        = { exit_status := EXIT_SUCCESS, failure := none, db := sample_db_stock_tmp }) ∧
    (∀ (info : pfish_bovespa_library_info) (db : database) (id : List Char)
        (old new : pfish_bovespa_stock_history),
      pfish_bovespa_revision_marker_check info db = 0 →
      db_lookup db id = some (.stock old) →
      plain_name id → NUL ∉ id → id.length ≤ 12 →
      STOCK_TEMP_NAME ≠ id → STOCK_TEMP_NAME ≠ '.' :: id →
      (write_sequence db id new).2 = none ∧
      (write_sequence db id new).1.length = 5 ∧
      promote_stock_file db id new = (none, (write_sequence db id new).1.getD 4 []) ∧
      (∀ d ∈ db :: (write_sequence db id new).1,
        ∃ name ∈ [id, '.' :: id, STOCK_TEMP_NAME], ∃ h, (h = old ∨ h = new) ∧
          db_lookup d name = some (.stock h) ∧
          pfish_bovespa_stock_history_alloc info d name = some (some h)) ∧
      (∀ d ∈ db :: (write_sequence db id new).1,
        d ≠ (write_sequence db id new).1.getD 2 [] →
        pfish_bovespa_stock_history_alloc info d id = some (some old) ∨
          pfish_bovespa_stock_history_alloc info d id = some (some new)) ∧
      (pfish_bovespa_stock_history_alloc info ((write_sequence db id new).1.getD 2 []) id
          = some none ∧
        pfish_bovespa_stock_history_alloc info ((write_sequence db id new).1.getD 2 [])
          ('.' :: id) = some (some old) ∧
        pfish_bovespa_stock_history_alloc info ((write_sequence db id new).1.getD 2 [])
          STOCK_TEMP_NAME = some (some new)) ∧
      db_lookup (promote_stock_file db id new).2 id = some (.stock new) ∧
      db_lookup (promote_stock_file db id new).2 ('.' :: id) = none ∧
      db_lookup (promote_stock_file db id new).2 STOCK_TEMP_NAME = none) := by
  refine ⟨⟨by decide, by decide, by decide, by decide, by decide,
    sample_hist_file_stock_tmp_run.1, by decide, sample_hist_file_stock_tmp_run.2⟩, ?_⟩
  intro info db id old new hmarker hold hplain hnul hlen h1 h2
  exact write_sequence_general info db id old new hmarker hold hplain hnul hlen h1 h2

set_option maxRecDepth 100000 in
theorem backup_name_of_stock_tmp_is_temporary_name_witness :
    pfish_bovespa_revision_marker_check sample_info sample_db_petr4 = 0 ∧
    db_lookup sample_db_petr4 "PETR4".toList
      = some (.stock { daily_quotes_size := 2, last_xplit := 0, daily_quotes := sample_A }) ∧
    plain_name "PETR4".toList ∧ NUL ∉ "PETR4".toList ∧ "PETR4".toList.length ≤ 12 ∧
    STOCK_TEMP_NAME ≠ "PETR4".toList ∧ STOCK_TEMP_NAME ≠ '.' :: "PETR4".toList ∧
    db_lookup (promote_stock_file sample_db_petr4 "PETR4".toList
        { daily_quotes_size := 2, last_xplit := 0, daily_quotes := sample_B }).2 "PETR4".toList
      = some (.stock { daily_quotes_size := 2, last_xplit := 0, daily_quotes := sample_B }) :=
  ⟨by decide, by decide, by decide, by decide, by decide, by decide, by decide,
    (backup_name_of_stock_tmp_is_temporary_name.2 sample_info sample_db_petr4 "PETR4".toList
      { daily_quotes_size := 2, last_xplit := 0, daily_quotes := sample_A }
      { daily_quotes_size := 2, last_xplit := 0, daily_quotes := sample_B }
      (by decide) (by decide) (by decide) (by decide) (by decide) (by decide)
      (by decide)).2.2.2.2.2.2.1⟩

theorem db_lookup_unlink_some (db : database) (n m : List Char) (f : db_file)
    (h : db_lookup (db_unlink db n) m = some f) : db_lookup db m = some f := by
  rw [db_lookup_unlink] at h
  split_ifs at h
  exact h

theorem db_lookup_write_some (db : database) (n m : List Char) (g f : db_file)
    (h : db_lookup (db_write db n g) m = some f) : f = g ∨ db_lookup db m = some f := by
  rw [db_lookup_write] at h
  split_ifs at h
  · left; exact (Option.some.inj h).symm
  · right; exact h

theorem take_takeWhile_length {α : Type} (p : α → Bool) (l : List α) :
    l.take (l.takeWhile p).length = l.takeWhile p := by
  induction l with
  | nil => rfl
  | cons a t ih =>
    by_cases h : p a = true
    · rw [List.takeWhile_cons_of_pos h, List.length_cons, List.take_succ_cons, ih]
    · rw [List.takeWhile_cons_of_neg h]
      rfl

theorem run_quotes_eq (node : quote_node) (rest : List quote_node) :
    run_quotes node rest
      = (node :: rest.takeWhile (fun n => n.stock = node.stock)).map (fun n => n.quote) := by
  unfold run_quotes
  rw [Nat.add_comm, List.take_succ_cons, take_takeWhile_length]

/-- In a sorted array without two quotes of one stock on one date, the run of a stock is
strictly ascending by date. -/
theorem run_quotes_strict (node : quote_node) (rest : List quote_node)
    (hsorted : (node :: rest).Pairwise (fun a b => compare_quote_nodes a b ≤ 0))
    (hdist : dates_distinct_per_stock (node :: rest)) :
    StrictAscending (fun q : pfish_bovespa_daily_quote => q.trading_date)
      (run_quotes node rest) := by
  rw [run_quotes_eq]
  unfold StrictAscending
  rw [List.pairwise_map]
  have hsub : (node :: rest.takeWhile (fun n => n.stock = node.stock)).Sublist (node :: rest) :=
    List.Sublist.cons₂ node (List.takeWhile_sublist _)
  have hall : ∀ x ∈ node :: rest.takeWhile (fun n => n.stock = node.stock),
      x.stock = node.stock := by
    intro x hx
    rcases List.mem_cons.mp hx with rfl | hx
    · rfl
    · simpa using List.mem_takeWhile_imp hx
  have hboth := (hsorted.and hdist).sublist hsub
  refine hboth.imp_of_mem ?_
  intro a b ha hb hab
  obtain ⟨h1, h2⟩ := hab
  have hst : a.stock = b.stock := by rw [hall a ha, hall b hb]
  have hz : strcmp a.stock b.stock = 0 := (strcmp_eq_zero_iff _ _).mpr (by rw [hst])
  have hle := compare_le_date_le a b h1 hz
  have hne : a.quote.trading_date ≠ b.quote.trading_date := fun e => h2 ⟨hst, e⟩
  show a.quote.trading_date < b.quote.trading_date
  omega

theorem merged_quotes_strict (dsh : Option pfish_bovespa_stock_history)
    (new : List pfish_bovespa_daily_quote)
    (hd : ∀ h, dsh = some h →
      StrictAscending (fun q : pfish_bovespa_daily_quote => q.trading_date)
        (h.daily_quotes.take h.daily_quotes_size))
    (hn : StrictAscending (fun q : pfish_bovespa_daily_quote => q.trading_date) new) :
    StrictAscending (fun q : pfish_bovespa_daily_quote => q.trading_date)
      (merged_quotes dsh new) := by
  cases dsh with
  | none => exact hn
  | some h =>
    show StrictAscending _ (merge_daily_quotes _ _ _)
    rw [merge_daily_quotes_eq_heads]
    exact strictAscending_merge_heads _ _ _ (hd h rfl) hn

theorem histories_strictly_ascending_sample_db : histories_strictly_ascending sample_db := by
  intro name h hl
  unfold sample_db at hl
  simp only [db_lookup] at hl
  split_ifs at hl
  cases hl

set_option maxRecDepth 100000 in
/-- Claim C23. The series that the import writes need not be unique by trading date, though
the header of the library documents the elements of daily_quotes as ordered by trading date,
ascending and unique.  On a HIST stream that carries the same quote register of PETR4 twice,
against a database without stock files (so every history on disk is strictly ascending), the
stream is accepted through its trailer, the import succeeds, and the series written for PETR4
holds two records of 2024-01-02: it is not strictly ascending. -/
theorem duplicate_register_written_twice :
    section_reached sample_stack
        [sample_hist_header, sample_hist_quote, sample_hist_quote, sample_hist_trailer_4]
      = some BOVESPA_FILE_SECTION_TRAILER ∧
    histories_strictly_ascending sample_db ∧
    (file_import_main sample_info sample_db sample_stack
        [sample_hist_header, sample_hist_quote, sample_hist_quote, sample_hist_trailer_4]).exit_status
      = EXIT_SUCCESS ∧
    (stock_series (file_import_main sample_info sample_db sample_stack
        [sample_hist_header, sample_hist_quote, sample_hist_quote,
          sample_hist_trailer_4]).db "PETR4".toList).map (fun q => q.trading_date)
      = [1704196800, 1704196800] ∧
    ¬ StrictAscending (fun q : pfish_bovespa_daily_quote => q.trading_date)
      (stock_series (file_import_main sample_info sample_db sample_stack
        [sample_hist_header, sample_hist_quote, sample_hist_quote,
          sample_hist_trailer_4]).db "PETR4".toList) :=
  ⟨by decide, histories_strictly_ascending_sample_db, by decide, by decide, by decide⟩

/-! ### Field bounds, numbers, the xplit pattern, merge sizes and the runs of the stock loop -/

theorem memmove_length (field : List Char) (dst src n : Nat) :
    (memmove field dst src n).length = field.length := by
  unfold memmove
  simp

theorem sanitize_trailing_length :
    ∀ (i : Nat) (field : List Char) (n : Nat),
      (sanitize_trailing i field n).1.length = field.length := by
  intro i
  induction i with
  | zero => intro field n; rfl
  | succ k ih =>
    intro field n
    rw [sanitize_trailing]
    split
    · rfl
    · rw [ih, List.length_set]

theorem sanitize_shift_length :
    ∀ (fuel : Nat) (field : List Char) (n i : Nat),
      (sanitize_shift fuel field n i).1.length = field.length := by
  intro fuel
  induction fuel with
  | zero => intro field n i; rfl
  | succ k ih =>
    intro field n i
    rw [sanitize_shift]
    split
    · rw [ih, memmove_length]
    · rfl

theorem sanitize_consecutive_length :
    ∀ (fuel : Nat) (field : List Char) (n i : Nat),
      (sanitize_consecutive fuel field n i).1.length = field.length := by
  intro fuel
  induction fuel with
  | zero => intro field n i; rfl
  | succ k ih =>
    intro field n i
    rw [sanitize_consecutive]
    split
    · split
      · simp only []
        rw [ih, sanitize_shift_length]
      · rw [ih]
    · rfl

theorem sanitize_field_length (field : List Char) (n : Nat) :
    (sanitize_field field n).length = field.length := by
  unfold sanitize_field
  simp only []
  rw [memmove_length, sanitize_consecutive_length, sanitize_trailing_length]

theorem cstr_length_le (l : List Char) : (cstr l).length ≤ l.length :=
  (List.takeWhile_sublist _).length_le

theorem cstr_append_nul_eq (body junk : List Char) : cstr (body ++ NUL :: junk) = cstr body := by
  induction body with
  | nil => rw [List.nil_append, cstr_cons_nul]; rfl
  | cons b bs ih =>
    by_cases hb : b = NUL
    · subst hb
      rw [List.cons_append, cstr_cons_nul, cstr_cons_nul]
    · rw [List.cons_append, cstr_cons_ne b _ hb, cstr_cons_ne b _ hb, ih]

/-- The C string that sanitize_field leaves is never longer than the field. -/
theorem sanitize_field_cstr_length (content : List Char) (w : Nat)
    (h : content.length ≤ w) (hw : 1 ≤ w) :
    (cstr (sanitize_field (content ++ [NUL]) w)).length ≤ w := by
  by_cases he : content.length = w
  · cases content with
    | nil => simp at he; omega
    | cons c rest =>
      obtain ⟨junk, hj⟩ := sanitize_field_eq c rest
      have hw2 : w = rest.length + 1 := by simpa using he.symm
      rw [hw2, hj, cstr_append_nul_eq]
      have h1 := cstr_length_le
        ((collapse_spaces (c :: rstrip_spaces rest)).dropWhile (fun x => x == '0'))
      have h2 := (sanitized_sublist c rest).length_le
      simp only [List.length_cons] at h2
      omega
  · have h1 := cstr_length_le (sanitize_field (content ++ [NUL]) w)
    rw [sanitize_field_length] at h1
    simp only [List.length_append, List.length_singleton] at h1
    omega

theorem BOVESPA_FIELD_length (r : List Char) (FROM TO : Nat) :
    (cstr (BOVESPA_FIELD r FROM TO)).length ≤ TO - FROM + 1 := by
  unfold BOVESPA_FIELD
  apply sanitize_field_cstr_length
  · exact List.length_take_le _ _
  · omega

/-- Every node that the register loop appends, from section QUOTES on, is the node that
quotes_list_append builds from the mapper of a relevant register whose fields convert. -/
theorem register_loop_nodes_phase (P : quote_node → Prop)
    (hP : ∀ (s : import_state) (line : List Char), relevance_filter (quote_mapper s line) →
      (∀ f ∈ numeric_fields (quote_mapper s line), unread_rest f = []) →
      P (quote_node_of (quote_mapper s line)))
    (xs : List (List Char)) :
    ∀ (s s1 : import_state), s.register_count ≠ 0 →
      (s.file_section = BOVESPA_FILE_SECTION_QUOTES ∨
        s.file_section = BOVESPA_FILE_SECTION_TRAILER) →
      register_loop s xs = .ok s1 → (∀ n ∈ s.quotes_list, P n) →
      ∀ n ∈ s1.quotes_list, P n := by
  induction xs with
  | nil =>
    intro s s1 _ _ h hall
    simp only [register_loop] at h
    cases h
    exact hall
  | cons line rest ih =>
    intro s s1 hcount hsec h hall
    simp only [register_loop] at h
    cases hs : register_step s line with
    | error e => rw [hs] at h; exact absurd h (by simp)
    | ok s2 =>
      rw [hs] at h
      rcases hsec with hsec | hsec
      · obtain ⟨e1, e2, e3, e4, t, ht, hcase⟩ :=
          register_step_from_quotes s s2 line hcount hsec hs
        have hc2 : s2.register_count ≠ 0 := by omega
        rcases hcase with ⟨_, hsec2, hq⟩ | ⟨_, hsec2, q1, _⟩ | ⟨_, _, _, hsec2, q1, _⟩
        · rcases hq with ⟨_, q1, _⟩ | ⟨hrel, hnum, q1, _⟩
          · exact ih s2 s1 hc2 (Or.inl hsec2) h (by rw [q1]; exact hall)
          · refine ih s2 s1 hc2 (Or.inl hsec2) h ?_
            intro n hn
            rw [q1] at hn
            rcases List.mem_append.mp hn with h1 | h1
            · exact hall n h1
            · rw [List.mem_singleton] at h1
              rw [h1]
              exact hP s line hrel hnum
        · exact ih s2 s1 hc2 (Or.inr hsec2) h (by rw [q1]; exact hall)
        · exact ih s2 s1 hc2 (Or.inl hsec2) h (by rw [q1]; exact hall)
      · rcases register_step_in_trailer s line hcount hsec with he | he
        · rw [he] at hs; cases hs
        · rw [he] at hs; cases hs

theorem register_loop_nodes (P : quote_node → Prop)
    (hP : ∀ (s : import_state) (line : List Char), relevance_filter (quote_mapper s line) →
      (∀ f ∈ numeric_fields (quote_mapper s line), unread_rest f = []) →
      P (quote_node_of (quote_mapper s line)))
    (stack : List Char) (stdin : List (List Char)) (s : import_state)
    (h : register_loop (initial_state stack) stdin = .ok s) :
    ∀ n ∈ s.quotes_list, P n := by
  cases stdin with
  | nil =>
    simp only [register_loop] at h
    cases h
    intro n hn
    exact absurd hn (List.not_mem_nil n)
  | cons first rest =>
    obtain ⟨ft, s0, _, _, _, _, f3, f4, _, f6, hloop⟩ := register_loop_first stack first rest s h
    refine register_loop_nodes_phase P hP rest s0 s (by omega) (Or.inl f6) hloop ?_
    intro n hn
    rw [f4] at hn
    exact absurd hn (List.not_mem_nil n)

theorem quote_mapper_cod_neg_length (s : import_state) (line : List Char) :
    (cstr (quote_mapper s line).cod_neg).length ≤ 12 ∧
      (cstr (quote_mapper s line).especi).length ≤ 10 := by
  unfold quote_mapper mapper_of copy_quote
  by_cases h : s.file_type = BOVESPA_FILE_TYPE_HIST
  · rw [if_pos h, if_pos h]
    exact ⟨BOVESPA_FIELD_length _ 13 24, BOVESPA_FIELD_length _ 40 49⟩
  · rw [if_neg h, if_neg h]
    exact ⟨BOVESPA_FIELD_length _ 58 69, BOVESPA_FIELD_length _ 47 56⟩

theorem cstr_cstr (l : List Char) : cstr (cstr l) = cstr l := by
  induction l with
  | nil => rfl
  | cons x xs ih =>
    by_cases hx : x = NUL
    · subst hx
      rw [cstr_cons_nul]
      rfl
    · rw [cstr_cons_ne x xs hx, cstr_cons_ne x _ hx, ih]

/-- Claim C33. PFISH_BOVESPA_CODNEG_SIZE - 1 is 12 and PFISH_BOVESPA_ESPECI_SIZE - 1 is 10;
cod_neg is columns 13-24 (HIST) or 58-69 (BDIN) and especi is columns 40-49 (HIST) or 47-56
(BDIN); the string that BOVESPA_FIELD leaves is never longer than the width of its columns; so
for every quote register of both dialects the sanitized cod_neg has at most 12 characters and the
sanitized especi at most 10, and the copies into stock.id and stock_spec fit together with their
terminator. -/
theorem sanitized_fields_fit :
    PFISH_BOVESPA_CODNEG_SIZE - 1 = 12 ∧ PFISH_BOVESPA_ESPECI_SIZE - 1 = 10 ∧
    (∀ (r : List Char) (q : bovespa_quote_register),
      (HIST_QUOTE_REGISTER r q).cod_neg = BOVESPA_FIELD r 13 24 ∧
      (HIST_QUOTE_REGISTER r q).especi = BOVESPA_FIELD r 40 49 ∧
      (BDIN_QUOTE_REGISTER r q).cod_neg = BOVESPA_FIELD r 58 69 ∧
      (BDIN_QUOTE_REGISTER r q).especi = BOVESPA_FIELD r 47 56) ∧
    (∀ (r : List Char) (FROM TO : Nat), (cstr (BOVESPA_FIELD r FROM TO)).length ≤ TO - FROM + 1) ∧
    (∀ (s : import_state) (line : List Char),
      (cstr (quote_mapper s line).cod_neg).length ≤ PFISH_BOVESPA_CODNEG_SIZE - 1 ∧
      (cstr (quote_mapper s line).especi).length ≤ PFISH_BOVESPA_ESPECI_SIZE - 1 ∧
      (quote_node_of (quote_mapper s line)).stock.length + 1 ≤ PFISH_BOVESPA_CODNEG_SIZE ∧
      (quote_node_of (quote_mapper s line)).quote.stock_spec.length + 1
        ≤ PFISH_BOVESPA_ESPECI_SIZE) := by
  refine ⟨rfl, rfl, fun r q => ⟨rfl, rfl, rfl, rfl⟩, BOVESPA_FIELD_length, ?_⟩
  intro s line
  obtain ⟨h1, h2⟩ := quote_mapper_cod_neg_length s line
  have e1 : (quote_node_of (quote_mapper s line)).stock = cstr (quote_mapper s line).cod_neg :=
    rfl
  have e2 : (quote_node_of (quote_mapper s line)).quote.stock_spec
      = cstr (quote_mapper s line).especi := rfl
  rw [e1, e2]
  have c1 : PFISH_BOVESPA_CODNEG_SIZE = 13 := rfl
  have c2 : PFISH_BOVESPA_ESPECI_SIZE = 11 := rfl
  rw [c1, c2]
  omega

theorem nul_not_mem_cstr (l : List Char) : NUL ∉ cstr l := by
  intro h
  have := List.mem_takeWhile_imp h
  simp at this

set_option maxRecDepth 100000 in
/-- Claim C31 fails on the HIST quote register whose cod_neg field is ABCDEFGHIJKL: the parser
emits a stock id of 12 characters, which takes 13 bytes with its terminator, and the
stock_history command accepts that name and prints the two rows of its file. -/
theorem stock_id_of_twelve_characters :
    section_reached sample_stack
        [sample_hist_header, hist_quote_with "ABCDEFGHIJKL" "0000000003700"]
      = some BOVESPA_FILE_SECTION_QUOTES ∧
    (state_reached sample_stack
        [sample_hist_header, hist_quote_with "ABCDEFGHIJKL" "0000000003700"]).quotes_list.map
        (fun n => n.stock)
      = ["ABCDEFGHIJKL".toList] ∧
    "ABCDEFGHIJKL".toList.length = 12 ∧
    (stock_history_main sample_info sample_db_twelve 1
      (some "ABCDEFGHIJKL".toList)).exit_status = EXIT_SUCCESS ∧
    (stock_history_main sample_info sample_db_twelve 1
      (some "ABCDEFGHIJKL".toList)).stdout.length = 2 := by
  decide

/-- Claim C31, amended. PFISH_BOVESPA_CODNEG_SIZE is 13: every stock id that an accepted
register stream leaves in the quotes list has at most 12 characters, no NUL among them, and fits
13 bytes with its terminator; and the stock_history command fails, printing nothing, for every
stock name longer than 12 characters. -/
theorem stock_id_at_most_twelve_characters (stack : List Char) (stdin : List (List Char))
    (s : import_state) (hok : register_loop (initial_state stack) stdin = .ok s) :
    PFISH_BOVESPA_CODNEG_SIZE = 13 ∧
    (∀ n ∈ s.quotes_list, n.stock.length ≤ 12 ∧ NUL ∉ n.stock ∧
      n.stock.length + 1 ≤ PFISH_BOVESPA_CODNEG_SIZE) ∧
    (∀ (info : pfish_bovespa_library_info) (db : database) (all : Nat) (stock : List Char),
      12 < (cstr stock).length →
      stock_history_main info db all (some stock)
        = { exit_status := EXIT_FAILURE, stdout := [] }) := by
  refine ⟨rfl, ?_, ?_⟩
  · refine register_loop_nodes
      (fun n => n.stock.length ≤ 12 ∧ NUL ∉ n.stock ∧
        n.stock.length + 1 ≤ PFISH_BOVESPA_CODNEG_SIZE) ?_ stack stdin s hok
    intro s0 line _ _
    have h1 := (quote_mapper_cod_neg_length s0 line).1
    have e1 : (quote_node_of (quote_mapper s0 line)).stock = cstr (quote_mapper s0 line).cod_neg :=
      rfl
    have c1 : PFISH_BOVESPA_CODNEG_SIZE = 13 := rfl
    rw [e1, c1]
    exact ⟨h1, nul_not_mem_cstr _, by omega⟩
  · intro info db all stock hlen
    unfold stock_history_main
    have c1 : PFISH_BOVESPA_CODNEG_SIZE - 1 = 12 := rfl
    simp only [c1, if_pos hlen]

set_option maxRecDepth 100000 in
theorem stock_id_at_most_twelve_characters_witness :
    register_loop (initial_state sample_stack)
        [sample_hist_header, hist_quote_with "ABCDEFGHIJKL" "0000000003700"]
      = .ok (state_reached sample_stack
          [sample_hist_header, hist_quote_with "ABCDEFGHIJKL" "0000000003700"]) ∧
    ∀ n ∈ (state_reached sample_stack
        [sample_hist_header, hist_quote_with "ABCDEFGHIJKL" "0000000003700"]).quotes_list,
      n.stock.length ≤ 12 ∧ NUL ∉ n.stock ∧ n.stock.length + 1 ≤ PFISH_BOVESPA_CODNEG_SIZE :=
  ⟨(section_reached_ok sample_stack
      [sample_hist_header, hist_quote_with "ABCDEFGHIJKL" "0000000003700"]
      BOVESPA_FILE_SECTION_QUOTES (by decide)).1,
    (stock_id_at_most_twelve_characters sample_stack
      [sample_hist_header, hist_quote_with "ABCDEFGHIJKL" "0000000003700"]
      (state_reached sample_stack
        [sample_hist_header, hist_quote_with "ABCDEFGHIJKL" "0000000003700"])
      (section_reached_ok sample_stack
        [sample_hist_header, hist_quote_with "ABCDEFGHIJKL" "0000000003700"]
        BOVESPA_FILE_SECTION_QUOTES (by decide)).1).2.1⟩

set_option maxRecDepth 100000 in
/-- Claim C32 fails on two HIST quote registers: the one whose cod_neg field is made of zeros
gives the empty stock id, and the one whose cod_neg field is AB/CD gives a stock id with a path
separator in it. -/
theorem empty_and_slash_stock_ids_emitted :
    section_reached sample_stack
        [sample_hist_header, hist_quote_with "000000000000" "0000000003700",
          hist_quote_with "AB/CD       " "0000000003700"]
      = some BOVESPA_FILE_SECTION_QUOTES ∧
    (state_reached sample_stack
        [sample_hist_header, hist_quote_with "000000000000" "0000000003700",
          hist_quote_with "AB/CD       " "0000000003700"]).quotes_list.map (fun n => n.stock)
      = [[], "AB/CD".toList] ∧
    '/' ∈ "AB/CD".toList := by
  decide

/-- Claim C32, amended. quotes_list_append emits as stock id the sanitized cod_neg of a relevant
register whose fields convert, whatever it holds: for every content of the cod_neg field the node
appended carries the C string of that field, with no test for emptiness or for a path separator.
The id has no NUL, and the id read from a register has at most 12 characters. -/
theorem stock_id_is_unchecked_cod_neg (m : bovespa_mapper) (l : List quote_node)
    (hrel : relevance_filter m) (hnum : ∀ f ∈ numeric_fields m, unread_rest f = []) :
    (∀ cod_neg : List Char,
      quotes_list_append { m with cod_neg := cod_neg } l
        = (APPEND_SUCCESS,
            l ++ [{ stock := cstr cod_neg, quote := (quote_node_of m).quote }])) ∧
    NUL ∉ (quote_node_of m).stock ∧
    (∀ (s : import_state) (line : List Char),
      (quote_node_of (quote_mapper s line)).stock.length ≤ 12) := by
  refine ⟨?_, nul_not_mem_cstr _, fun s line => (quote_mapper_cod_neg_length s line).1⟩
  intro cod_neg
  exact quotes_list_append_success { m with cod_neg := cod_neg } l hrel hnum

set_option maxRecDepth 100000 in
theorem stock_id_is_unchecked_cod_neg_witness :
    relevance_filter
      (quote_mapper (state_reached sample_stack [sample_hist_header]) sample_hist_quote) ∧
    (∀ f ∈ numeric_fields
        (quote_mapper (state_reached sample_stack [sample_hist_header]) sample_hist_quote),
      unread_rest f = []) ∧
    quotes_list_append
        { quote_mapper (state_reached sample_stack [sample_hist_header]) sample_hist_quote with
          cod_neg := "../x".toList } []
      = (APPEND_SUCCESS,
          [] ++ [{ stock := cstr "../x".toList,
                   quote := (quote_node_of (quote_mapper
                     (state_reached sample_stack [sample_hist_header])
                     sample_hist_quote)).quote }]) :=
  ⟨by decide, by decide,
    (stock_id_is_unchecked_cod_neg
      (quote_mapper (state_reached sample_stack [sample_hist_header]) sample_hist_quote) []
      (by decide) (by decide)).1 "../x".toList⟩

theorem scan_digits_all (l : List Char) (acc : Nat) (h : ∀ c ∈ l, isdigit c = true) :
    scan_digits l acc = (acc * 10 ^ l.length + decimal_value l, []) := by
  induction l generalizing acc with
  | nil => simp [scan_digits, decimal_value]
  | cons c cs ih =>
    rw [scan_digits, if_pos (h c (List.mem_cons_self _ _)),
      ih _ (fun x hx => h x (List.mem_cons_of_mem _ hx))]
    simp only [decimal_value, List.length_cons, pow_succ]
    congr 1
    ring

theorem scan_digits_rest (l : List Char) (acc : Nat) :
    (scan_digits l acc).2 = l.dropWhile isdigit := by
  induction l generalizing acc with
  | nil => rfl
  | cons c cs ih =>
    rw [scan_digits]
    by_cases hc : isdigit c = true
    · rw [if_pos hc, ih, List.dropWhile_cons_of_pos hc]
    · rw [if_neg hc, List.dropWhile_cons_of_neg hc]

theorem scan_number_eq (s : List Char) :
    scan_number s =
      match strip_sign (skip_spaces s) with
      | [] => none
      | c :: cs =>
        if isdigit c then
          some ((skip_spaces s).head? == some '-', (scan_digits (c :: cs) 0).1,
            (scan_digits (c :: cs) 0).2)
        else none := by
  unfold scan_number
  generalize skip_spaces s = t
  match t with
  | [] => rfl
  | x :: u =>
    by_cases h1 : x = '-'
    · subst h1
      cases u <;> rfl
    · by_cases h2 : x = '+'
      · subst h2
        cases u <;> rfl
      · have e : strip_sign (x :: u) = x :: u := by
          unfold strip_sign
          split
          · rename_i heq; exact absurd (List.cons.inj heq).1 h1
          · rename_i heq; exact absurd (List.cons.inj heq).1 h2
          · rfl
        rw [e]
        have e3 : ((x :: u).head? == some '-') = false := by
          simp [h1]
        rw [e3]
        simp [h1, h2]

theorem unread_rest_eq (f : List Char) :
    unread_rest f =
      match strip_sign (skip_spaces (cstr f)) with
      | [] => cstr f
      | c :: cs => if isdigit c then (c :: cs).dropWhile isdigit else cstr f := by
  unfold unread_rest
  rw [scan_number_eq]
  cases strip_sign (skip_spaces (cstr f)) with
  | nil => rfl
  | cons c cs =>
    by_cases hc : isdigit c = true
    · simp only [if_pos hc, scan_digits_rest]
    · simp only [if_neg hc]

theorem skip_spaces_suffix (s : List Char) : skip_spaces s <:+ s := by
  induction s with
  | nil => exact List.suffix_refl _
  | cons c cs ih =>
    rw [skip_spaces]
    split_ifs
    · exact ih.trans (List.suffix_cons _ _)
    · exact List.suffix_refl _

theorem strip_sign_suffix (s : List Char) : strip_sign s <:+ s := by
  unfold strip_sign
  split
  · exact List.suffix_cons _ _
  · exact List.suffix_cons _ _
  · exact List.suffix_refl _

/-- The conversion check of STR2INT and STR2UINT passes exactly on the empty string and on the
texts that are a number. -/
theorem unread_rest_nil_iff (f : List Char) :
    unread_rest f = [] ↔ cstr f = [] ∨ number_text (cstr f) = true := by
  rw [unread_rest_eq]
  unfold number_text
  generalize hu : strip_sign (skip_spaces (cstr f)) = u
  have hsuf : u <:+ cstr f := by
    rw [← hu]
    exact (strip_sign_suffix _).trans (skip_spaces_suffix _)
  cases u with
  | nil => simp
  | cons c cs =>
    have hne : cstr f ≠ [] := by
      intro e
      rw [e] at hsuf
      simp at hsuf
    by_cases hc : isdigit c = true
    · simp only [if_pos hc, List.dropWhile_eq_nil_iff, List.isEmpty_cons, Bool.not_false,
        Bool.true_and, List.all_eq_true, hne, false_or]
    · show (if isdigit c = true then List.dropWhile isdigit (c :: cs) else cstr f) = [] ↔ _
      rw [if_neg hc]
      simp [hne, hc]

theorem append_code_success_iff (m : bovespa_mapper) (l : List quote_node) :
    (quotes_list_append m l).1 = APPEND_SUCCESS ↔
      relevance_filter m ∧ ∀ f ∈ numeric_fields m, unread_rest f = [] := by
  rcases quotes_list_append_result m l with ⟨h, hn⟩ | ⟨h, hr, f, hf, hbad⟩ | ⟨h, hr, hall⟩
  · rw [h]
    constructor
    · intro e; exact absurd (show APPEND_IGNORE = _ from e) (by decide)
    · intro e; exact absurd e.1 hn
  · rw [h]
    constructor
    · intro e; exact absurd (show APPEND_FAILURE = _ from e) (by decide)
    · intro e; exact absurd (e.2 f hf) hbad
  · rw [h]
    exact ⟨fun _ => ⟨hr, hall⟩, fun _ => rfl⟩

theorem append_code_failure_iff (m : bovespa_mapper) (l : List quote_node) :
    (quotes_list_append m l).1 = APPEND_FAILURE ↔
      relevance_filter m ∧ ∃ f ∈ numeric_fields m, unread_rest f ≠ [] := by
  rcases quotes_list_append_result m l with ⟨h, hn⟩ | ⟨h, hr, hbad⟩ | ⟨h, hr, hall⟩
  · rw [h]
    constructor
    · intro e; exact absurd (show APPEND_IGNORE = _ from e) (by decide)
    · intro e; exact absurd e.1 hn
  · rw [h]
    exact ⟨fun _ => ⟨hr, hbad⟩, fun _ => rfl⟩
  · rw [h]
    constructor
    · intro e; exact absurd (show APPEND_SUCCESS = _ from e) (by decide)
    · rintro ⟨_, f, hf, hbad⟩; exact absurd (hall f hf) hbad

set_option maxRecDepth 100000 in
/-- Claim C40 fails on three HIST quote registers that are all converted: the one whose pre_abe
field is made of zeros sanitizes to the empty string and gives the opening price 0, the one whose
pre_abe field starts with two spaces sanitizes to a string that starts with a space and gives
3700, and the one whose pre_abe field starts with a minus sign gives 2^64 - 3700. -/
theorem empty_spaced_and_signed_fields_accepted :
    section_reached sample_stack
        [sample_hist_header, hist_quote_with "PETR4       " "0000000000000",
          hist_quote_with "PETR4       " "  00000003700",
          hist_quote_with "PETR4       " "-000000003700"]
      = some BOVESPA_FILE_SECTION_QUOTES ∧
    cstr (quote_mapper (state_reached sample_stack [sample_hist_header])
        (hist_quote_with "PETR4       " "0000000000000")).pre_abe = [] ∧
    cstr (quote_mapper (state_reached sample_stack [sample_hist_header])
        (hist_quote_with "PETR4       " "  00000003700")).pre_abe = " 00000003700".toList ∧
    cstr (quote_mapper (state_reached sample_stack [sample_hist_header])
        (hist_quote_with "PETR4       " "-000000003700")).pre_abe = "-000000003700".toList ∧
    (state_reached sample_stack
        [sample_hist_header, hist_quote_with "PETR4       " "0000000000000",
          hist_quote_with "PETR4       " "  00000003700",
          hist_quote_with "PETR4       " "-000000003700"]).quotes_list.map
        (fun n => n.quote.opening_price)
      = [0, 3700, 2 ^ 64 - 3700] := by
  decide

/-- Claim C40, amended. The conversion check of a date or numeric field passes exactly when the
sanitized field is empty or is a number in the sense of strtol and strtoul: optional white space,
an optional sign, one or more decimal digits and nothing after them. quotes_list_append converts
a register exactly when it is relevant and every such field passes, and fails exactly when it is
relevant and some field does not. A string of digits passes, also after a space or a sign; a lone
space, a lone sign, digits followed by a letter and digits with a space inside do not. -/
theorem conversion_accepts_number_text (m : bovespa_mapper) (l : List quote_node) :
    (∀ f : List Char, unread_rest f = [] ↔ cstr f = [] ∨ number_text (cstr f) = true) ∧
    ((quotes_list_append m l).1 = APPEND_SUCCESS ↔
      relevance_filter m ∧
        ∀ f ∈ numeric_fields m, cstr f = [] ∨ number_text (cstr f) = true) ∧
    ((quotes_list_append m l).1 = APPEND_FAILURE ↔
      relevance_filter m ∧
        ∃ f ∈ numeric_fields m, cstr f ≠ [] ∧ number_text (cstr f) = false) ∧
    (∀ digits : List Char, digits ≠ [] → (∀ c ∈ digits, isdigit c = true) →
      number_text digits = true ∧ number_text (' ' :: digits) = true ∧
      number_text ('-' :: digits) = true ∧ number_text ('+' :: digits) = true) ∧
    number_text " ".toList = false ∧ number_text "-".toList = false ∧
    number_text "12A".toList = false ∧ number_text "1 2".toList = false := by
  refine ⟨unread_rest_nil_iff, ?_, ?_, ?_, by decide, by decide, by decide, by decide⟩
  · rw [append_code_success_iff]
    constructor
    · rintro ⟨hr, h⟩
      exact ⟨hr, fun f hf => (unread_rest_nil_iff f).mp (h f hf)⟩
    · rintro ⟨hr, h⟩
      exact ⟨hr, fun f hf => (unread_rest_nil_iff f).mpr (h f hf)⟩
  · rw [append_code_failure_iff]
    constructor
    · rintro ⟨hr, f, hf, hbad⟩
      refine ⟨hr, f, hf, ?_⟩
      rw [Ne, unread_rest_nil_iff, not_or] at hbad
      exact ⟨hbad.1, by simpa using hbad.2⟩
    · rintro ⟨hr, f, hf, h1, h2⟩
      refine ⟨hr, f, hf, ?_⟩
      rw [Ne, unread_rest_nil_iff, not_or]
      exact ⟨h1, by simp [h2]⟩
  · intro digits hne hd
    obtain ⟨c, cs, rfl⟩ := List.exists_cons_of_ne_nil hne
    have hc := hd c (List.mem_cons_self _ _)
    have hsp : isspace c = false := by
      unfold isdigit at hc
      unfold isspace
      simp only [Bool.and_eq_true, decide_eq_true_eq] at hc
      simp only [Bool.or_eq_false_iff, Bool.and_eq_false_iff, decide_eq_false_iff_not]
      omega
    have hm : c ≠ '-' := by
      rintro rfl
      exact absurd hc (by decide)
    have hp : c ≠ '+' := by
      rintro rfl
      exact absurd hc (by decide)
    have e1 : skip_spaces (c :: cs) = c :: cs := by
      rw [skip_spaces, hsp]
      rfl
    have e2 : strip_sign (c :: cs) = c :: cs := by
      unfold strip_sign
      split
      · rename_i heq; exact absurd (List.cons.inj heq).1 hm
      · rename_i heq; exact absurd (List.cons.inj heq).1 hp
      · rfl
    have hall : (c :: cs).all isdigit = true := by
      rw [List.all_eq_true]
      exact hd
    have e3 : skip_spaces (' ' :: c :: cs) = c :: cs := by
      rw [skip_spaces, if_pos (by decide), e1]
    have e4 : skip_spaces ('-' :: c :: cs) = '-' :: c :: cs := by
      rw [skip_spaces, if_neg (by decide)]
    have e5 : skip_spaces ('+' :: c :: cs) = '+' :: c :: cs := by
      rw [skip_spaces, if_neg (by decide)]
    have e6 : strip_sign ('-' :: c :: cs) = c :: cs := rfl
    have e7 : strip_sign ('+' :: c :: cs) = c :: cs := rfl
    unfold number_text
    rw [e1, e3, e4, e5, e6, e7, e2, hall]
    simp

set_option maxRecDepth 100000 in
theorem conversion_accepts_number_text_witness :
    "37".toList ≠ [] ∧ (∀ c ∈ "37".toList, isdigit c = true) ∧
    (number_text "37".toList = true ∧ number_text (' ' :: "37".toList) = true ∧
      number_text ('-' :: "37".toList) = true ∧ number_text ('+' :: "37".toList) = true) :=
  ⟨by decide, by decide,
    (conversion_accepts_number_text
      (quote_mapper (state_reached sample_stack [sample_hist_header]) sample_hist_quote)
      []).2.2.2.1 "37".toList (by decide) (by decide)⟩

theorem rstrip_spaces_no_space (l : List Char) (h : ∀ x ∈ l, x ≠ ' ') : rstrip_spaces l = l := by
  unfold rstrip_spaces
  have e : l.reverse.dropWhile (fun c => c == ' ') = l.reverse := by
    cases hr : l.reverse with
    | nil => rfl
    | cons a as =>
      have ha : a ∈ l := by
        rw [← List.mem_reverse, hr]
        exact List.mem_cons_self _ _
      rw [List.dropWhile_cons_of_neg]
      simpa using h a ha
  rw [e, List.reverse_reverse]

theorem isdigit_ne_nul (c : Char) (h : isdigit c = true) : c ≠ NUL := by
  rintro rfl
  exact absurd h (by decide)

theorem isdigit_ne_space (c : Char) (h : isdigit c = true) : c ≠ ' ' := by
  rintro rfl
  exact absurd h (by decide)

theorem decimal_value_dropWhile_zero (l : List Char) :
    decimal_value (l.dropWhile (fun x => x == '0')) = decimal_value l := by
  induction l with
  | nil => rfl
  | cons c cs ih =>
    by_cases hc : c = '0'
    · subst hc
      rw [List.dropWhile_cons_of_pos (by rfl), ih]
      show decimal_value cs = ('0'.toNat - 48) * 10 ^ cs.length + decimal_value cs
      have : '0'.toNat - 48 = 0 := by decide
      rw [this]
      simp
    · rw [List.dropWhile_cons_of_neg (by simpa using hc)]

/-- The strtoul of a NUL-terminated string of digits whose value fits 64 bits. -/
theorem strtoul_digits (d junk : List Char) (hd : ∀ c ∈ d, isdigit c = true)
    (hv : decimal_value d < 2 ^ 64) :
    strtoul (d ++ NUL :: junk) = (decimal_value d, []) := by
  have hnul : NUL ∉ d := fun hm => isdigit_ne_nul _ (hd _ hm) rfl
  unfold strtoul
  rw [cstr_append_nul d junk hnul, scan_number_eq]
  cases d with
  | nil => rfl
  | cons c cs =>
    have hc := hd c (List.mem_cons_self _ _)
    have hsp : isspace c = false := by
      unfold isdigit at hc
      unfold isspace
      simp only [Bool.and_eq_true, decide_eq_true_eq] at hc
      simp only [Bool.or_eq_false_iff, Bool.and_eq_false_iff, decide_eq_false_iff_not]
      omega
    have hm : c ≠ '-' := by
      rintro rfl
      exact absurd hc (by decide)
    have hp : c ≠ '+' := by
      rintro rfl
      exact absurd hc (by decide)
    have e1 : skip_spaces (c :: cs) = c :: cs := by
      rw [skip_spaces, hsp]
      rfl
    have e2 : strip_sign (c :: cs) = c :: cs := by
      unfold strip_sign
      split
      · rename_i heq; exact absurd (List.cons.inj heq).1 hm
      · rename_i heq; exact absurd (List.cons.inj heq).1 hp
      · rfl
    have e3 : ((c :: cs).head? == some '-') = false := by
      simp [hm]
    rw [e1, e2, e3]
    show (match (if isdigit c = true then
        some (false, (scan_digits (c :: cs) 0).1, (scan_digits (c :: cs) 0).2) else none) with
      | none => (0, c :: cs)
      | some (neg, v, rest) =>
        if v > ULONG_MAX then (ULONG_MAX, rest)
        else if neg then ((2 ^ 64 - v) % 2 ^ 64, rest)
        else (v, rest)) = _
    rw [if_pos hc, scan_digits_all (c :: cs) 0 hd]
    have hle : ¬ (0 * 10 ^ (c :: cs).length + decimal_value (c :: cs) > ULONG_MAX) := by
      unfold ULONG_MAX
      omega
    rw [zero_mul, zero_add] at hle
    simp only [zero_mul, zero_add, if_neg hle, Bool.false_eq_true, if_false]

/-- Claim C39. For a field made of one or more decimal digits whose decimal value is below 2^64,
the conversion check accepts the sanitized field (nothing is left unread), strtoul of the
sanitized field is the decimal value of the raw field, which is also what strtoul gives on the
raw field, and the same holds for the field that BOVESPA_FIELD cuts from such columns of a
register. -/
theorem digit_field_value (content : List Char) (hne : content ≠ [])
    (hd : ∀ c ∈ content, isdigit c = true) (hv : decimal_value content < 2 ^ 64) :
    unread_rest (sanitize_field (content ++ [NUL]) content.length) = [] ∧
    strtoul (sanitize_field (content ++ [NUL]) content.length) = (decimal_value content, []) ∧
    strtoul (content ++ [NUL]) = (decimal_value content, []) ∧
    (∀ (r : List Char) (FROM TO : Nat),
      (r.drop (FROM - 1)).take (TO - FROM + 1) = content → content.length = TO - FROM + 1 →
      strtoul (BOVESPA_FIELD r FROM TO) = (decimal_value content, [])) := by
  obtain ⟨c, rest, rfl⟩ := List.exists_cons_of_ne_nil hne
  obtain ⟨junk, hs⟩ := sanitize_field_eq c rest
  have hrest : ∀ x ∈ rest, x ≠ ' ' := fun x hx =>
    isdigit_ne_space x (hd x (List.mem_cons_of_mem _ hx))
  have hall : ∀ x ∈ c :: rest, x ≠ ' ' := fun x hx => isdigit_ne_space x (hd x hx)
  rw [rstrip_spaces_no_space rest hrest, collapse_spaces_no_space _ hall] at hs
  have hlen : (c :: rest).length = rest.length + 1 := rfl
  have hd2 : ∀ x ∈ (c :: rest).dropWhile (fun x => x == '0'), isdigit x = true := fun x hx =>
    hd x ((List.dropWhile_sublist _).subset hx)
  have hval : strtoul (sanitize_field (c :: rest ++ [NUL]) (c :: rest).length)
      = (decimal_value (c :: rest), []) := by
    rw [hlen, hs, strtoul_digits _ junk hd2 (by rw [decimal_value_dropWhile_zero]; exact hv),
      decimal_value_dropWhile_zero]
  refine ⟨?_, hval, strtoul_digits _ [] hd hv, ?_⟩
  · rw [← strtoul_rest, hval]
  · intro r FROM TO hcols hwidth
    unfold BOVESPA_FIELD
    rw [hcols, ← hwidth]
    exact hval

set_option maxRecDepth 100000 in
theorem digit_field_value_witness :
    "0000000003700".toList ≠ [] ∧ (∀ c ∈ "0000000003700".toList, isdigit c = true) ∧
    decimal_value "0000000003700".toList < 2 ^ 64 ∧
    decimal_value "0000000003700".toList = 3700 ∧
    strtoul (sanitize_field ("0000000003700".toList ++ [NUL]) "0000000003700".toList.length)
      = (decimal_value "0000000003700".toList, []) :=
  ⟨by decide, by decide, by decide, by decide,
    (digit_field_value "0000000003700".toList (by decide) (by decide) (by decide)).2.1⟩

theorem re_star_true (a : re_atom) (s : List Char) : re_star a (fun _ => true) s = true := by
  cases s <;> simp [re_star]

theorem bracket_BG (x : Char) :
    re_atom_matches (.bracket ['B', 'G']) x = (x == 'B' || x == 'G') := by
  simp only [re_atom_matches, List.contains, List.elem]
  cases x == 'B' <;> cases x == 'G' <;> rfl

theorem xplit_match_here_cons (c0 : Char) (t : List Char) :
    xplit_match_here (c0 :: t) =
      (c0 == 'E' &&
        match t with
        | [] => false
        | c1 :: rest =>
          (c1 == 'B' || c1 == 'G') ||
            (match rest with
             | c2 :: _ => c2 == 'B' || c2 == 'G'
             | [] => false)) := by
  by_cases h : c0 = 'E'
  · subst h
    cases t <;> rfl
  · have e : (c0 == 'E') = false := by simpa using h
    rw [e, Bool.false_and]
    unfold xplit_match_here
    split
    · rename_i heq; exact absurd (List.cons.inj heq).1 h
    · rfl

theorem re_match_here_head (s : List Char) :
    re_match_here XPLIT_PATTERN_HEAD s = xplit_match_here s := by
  cases s with
  | nil => rfl
  | cons c0 t =>
    rw [xplit_match_here_cons]
    cases t with
    | nil => simp [XPLIT_PATTERN_HEAD, re_match_here, re_atom_matches]
    | cons c1 rest =>
      cases rest with
      | nil =>
        simp only [XPLIT_PATTERN_HEAD, re_match_here, bracket_BG]
        simp [re_atom_matches]
      | cons c2 r =>
        simp only [XPLIT_PATTERN_HEAD, re_match_here, bracket_BG]
        simp [re_atom_matches]

theorem re_match_here_full (s : List Char) :
    re_match_here XPLIT_PATTERN s = re_match_here XPLIT_PATTERN_HEAD s := by
  cases s with
  | nil => rfl
  | cons c0 t =>
    cases t with
    | nil => simp [XPLIT_PATTERN, XPLIT_PATTERN_HEAD, re_match_here]
    | cons c1 rest =>
      cases rest with
      | nil =>
        simp only [XPLIT_PATTERN, XPLIT_PATTERN_HEAD, re_match_here, re_star_true]
      | cons c2 r =>
        simp only [XPLIT_PATTERN, XPLIT_PATTERN_HEAD, re_match_here, re_star_true]

theorem re_search_head (s : List Char) : re_search XPLIT_PATTERN_HEAD s = xplit_search s := by
  induction s with
  | nil => rfl
  | cons c cs ih => rw [re_search, xplit_search, ih, re_match_here_head]

theorem re_search_full (s : List Char) : re_search XPLIT_PATTERN s = xplit_search s := by
  induction s with
  | nil => rfl
  | cons c cs ih => rw [re_search, xplit_search, ih, re_match_here_full, re_match_here_head]

theorem xplit_match_here_iff (s : List Char) :
    xplit_match_here s = true ↔
      ∃ (post : List Char) (x : Char), (x = 'B' ∨ x = 'G') ∧
        (s = 'E' :: x :: post ∨ ∃ c : Char, s = 'E' :: c :: x :: post) := by
  cases s with
  | nil => simp [xplit_match_here]
  | cons c0 t =>
    rw [xplit_match_here_cons]
    cases t with
    | nil => simp
    | cons c1 rest =>
      cases rest with
      | nil =>
        simp only [Bool.or_false, Bool.and_eq_true, Bool.or_eq_true, beq_iff_eq]
        constructor
        · rintro ⟨rfl, h⟩
          exact ⟨[], c1, h, Or.inl rfl⟩
        · rintro ⟨post, x, hx, h | ⟨c, h⟩⟩
          · injection h with h0 h1
            injection h1 with h1 h2
            subst h0 h1
            exact ⟨rfl, hx⟩
          · injection h with h0 h1
            injection h1 with h1 h2
            exact absurd h2 (by simp)
      | cons c2 r =>
        simp only [Bool.and_eq_true, Bool.or_eq_true, beq_iff_eq]
        constructor
        · rintro ⟨rfl, h | h⟩
          · exact ⟨c2 :: r, c1, h, Or.inl rfl⟩
          · exact ⟨r, c2, h, Or.inr ⟨c1, rfl⟩⟩
        · rintro ⟨post, x, hx, h | ⟨c, h⟩⟩
          · injection h with h0 h1
            injection h1 with h1 h2
            subst h0 h1
            exact ⟨rfl, Or.inl hx⟩
          · injection h with h0 h1
            injection h1 with h1 h2
            injection h2 with h2 h3
            subst h0 h2
            exact ⟨rfl, Or.inr hx⟩

theorem xplit_search_iff (s : List Char) : xplit_search s = true ↔ has_xplit_mark s := by
  unfold has_xplit_mark
  induction s with
  | nil =>
    simp only [xplit_search, Bool.false_eq_true, false_iff]
    rintro ⟨pre, post, x, _, h | ⟨c, h⟩⟩
    · cases pre <;> simp at h
    · cases pre <;> simp at h
  | cons c0 t ih =>
    rw [xplit_search, Bool.or_eq_true, xplit_match_here_iff, ih]
    constructor
    · rintro (⟨post, x, hx, h⟩ | ⟨pre, post, x, hx, h⟩)
      · exact ⟨[], post, x, hx, h⟩
      · refine ⟨c0 :: pre, post, x, hx, ?_⟩
        rcases h with h | ⟨c, h⟩
        · exact Or.inl (by rw [h]; rfl)
        · exact Or.inr ⟨c, by rw [h]; rfl⟩
    · rintro ⟨pre, post, x, hx, h⟩
      cases pre with
      | nil => exact Or.inl ⟨post, x, hx, h⟩
      | cons p ps =>
        right
        refine ⟨ps, post, x, hx, ?_⟩
        rcases h with h | ⟨c, h⟩
        · exact Or.inl (List.cons.inj h).2
        · exact Or.inr ⟨c, (List.cons.inj h).2⟩

/-- Claim C34. regexec with the xplit pattern answers 0 on a stock_spec exactly when the
unanchored search of E.?[BG] *, read as an extended regular expression, finds a match; that is
exactly when the text holds, at some position, an E followed at once or after exactly one
character by B or G; and the search gives the same answer for the pattern without its trailing
part. -/
theorem xplit_pattern_meaning (stock_spec : List Char) :
    (regexec_xplit stock_spec = 0 ↔ re_search XPLIT_PATTERN stock_spec = true) ∧
    (re_search XPLIT_PATTERN stock_spec = true ↔ has_xplit_mark stock_spec) ∧
    re_search XPLIT_PATTERN stock_spec = re_search XPLIT_PATTERN_HEAD stock_spec ∧
    (regexec_xplit stock_spec = 0 ↔ has_xplit_mark stock_spec) := by
  have h1 : regexec_xplit stock_spec = 0 ↔ xplit_search stock_spec = true := by
    unfold regexec_xplit
    by_cases h : xplit_search stock_spec = true
    · simp [h]
    · simp [h, REG_NOMATCH]
  refine ⟨?_, ?_, ?_, ?_⟩
  · rw [h1, re_search_full]
  · rw [re_search_full, xplit_search_iff]
  · rw [re_search_full, re_search_head]
  · rw [h1, xplit_search_iff]

theorem merge_heads_length {P : Type} (date : P → Int) (a b : List P) :
    max a.length b.length ≤ (merge_heads date a b).length ∧
      (merge_heads date a b).length ≤ a.length + b.length := by
  induction a, b using merge_heads.induct date with
  | case1 bs => simp [merge_heads]
  | case2 x xs => simp [merge_heads]
  | case3 x xs y ys hlt ih =>
    simp only [merge_heads, if_pos hlt, List.length_cons] at ih ⊢
    omega
  | case4 x xs y ys hlt hgt ih =>
    simp only [merge_heads, if_neg hlt, if_pos hgt, List.length_cons] at ih ⊢
    omega
  | case5 x xs y ys hlt hgt ih =>
    simp only [merge_heads, if_neg hlt, if_neg hgt, List.length_cons] at ih ⊢
    omega

theorem mem_merge_heads_iff {P : Type} (date : P → Int) (a b : List P)
    (ha : StrictAscending date a) (hb : StrictAscending date b) (z : P) :
    z ∈ merge_heads date a b ↔ z ∈ b ∨ (z ∈ a ∧ ∀ y ∈ b, date y ≠ date z) := by
  unfold StrictAscending at ha hb
  induction a, b using merge_heads.induct date with
  | case1 bs => simp [merge_heads]
  | case2 x xs => simp [merge_heads]
  | case3 x xs y ys hlt ih =>
    rw [List.pairwise_cons] at ha
    have hb2 := List.pairwise_cons.mp hb
    simp only [merge_heads, if_pos hlt, List.mem_cons, ih ha.2 hb]
    constructor
    · rintro (rfl | h | ⟨h1, h2⟩)
      · right
        refine ⟨Or.inl rfl, ?_⟩
        rintro y2 (rfl | hy)
        · omega
        · have := hb2.1 y2 hy
          omega
      · exact Or.inl h
      · exact Or.inr ⟨Or.inr h1, h2⟩
    · rintro (h | ⟨h1 | h1, h2⟩)
      · exact Or.inr (Or.inl h)
      · exact Or.inl h1
      · exact Or.inr (Or.inr ⟨h1, h2⟩)
  | case4 x xs y ys hlt hgt ih =>
    have ha2 := List.pairwise_cons.mp ha
    rw [List.pairwise_cons] at hb
    simp only [merge_heads, if_neg hlt, if_pos hgt, List.mem_cons, ih ha hb.2]
    constructor
    · rintro (rfl | h | ⟨h1, h2⟩)
      · exact Or.inl (Or.inl rfl)
      · exact Or.inl (Or.inr h)
      · right
        refine ⟨h1, ?_⟩
        rintro y2 (rfl | hy)
        · rcases h1 with rfl | h1
          · omega
          · have := ha2.1 z h1
            omega
        · exact h2 y2 hy
    · rintro ((h | h) | ⟨h1, h2⟩)
      · exact Or.inl h
      · exact Or.inr (Or.inl h)
      · exact Or.inr (Or.inr ⟨h1, fun y2 hy => h2 y2 (Or.inr hy)⟩)
  | case5 x xs y ys hlt hgt ih =>
    have ha2 := List.pairwise_cons.mp ha
    have hb2 := List.pairwise_cons.mp hb
    have hxy : date x = date y := by omega
    simp only [merge_heads, if_neg hlt, if_neg hgt, List.mem_cons, ih ha2.2 hb2.2]
    constructor
    · rintro (rfl | h | ⟨h1, h2⟩)
      · exact Or.inl (Or.inl rfl)
      · exact Or.inl (Or.inr h)
      · right
        refine ⟨Or.inr h1, ?_⟩
        rintro y2 (rfl | hy)
        · have := ha2.1 z h1
          omega
        · exact h2 y2 hy
    · rintro ((h | h) | ⟨h1 | h1, h2⟩)
      · exact Or.inl h
      · exact Or.inr (Or.inl h)
      · subst h1
        exact absurd hxy.symm (h2 y (Or.inl rfl))
      · exact Or.inr (Or.inr ⟨h1, fun y2 hy => h2 y2 (Or.inr hy)⟩)

theorem common_dates_cons_left {P : Type} (date : P → Int) (x : P) (xs b : List P) :
    (common_dates date (x :: xs) b).length =
      (if date x ∈ b.map date then 1 else 0) + (common_dates date xs b).length := by
  unfold common_dates
  rw [List.map_cons, List.filter_cons]
  by_cases h : date x ∈ b.map date
  · simp only [h, decide_True, if_true, List.length_cons]
    omega
  · simp only [h, decide_False, if_false, Bool.false_eq_true]
    omega

theorem common_dates_drop_right {P : Type} (date : P → Int) (a : List P) (y : P) (ys : List P)
    (h : ∀ x ∈ a, date x ≠ date y) :
    common_dates date a (y :: ys) = common_dates date a ys := by
  unfold common_dates
  apply List.filter_congr
  intro d hd
  obtain ⟨x, hx, rfl⟩ := List.mem_map.mp hd
  have := h x hx
  simp only [List.map_cons, List.mem_cons, this, false_or]

theorem merge_heads_length_common {P : Type} (date : P → Int) (a b : List P)
    (ha : StrictAscending date a) (hb : StrictAscending date b) :
    (merge_heads date a b).length + (common_dates date a b).length = a.length + b.length := by
  unfold StrictAscending at ha hb
  induction a, b using merge_heads.induct date with
  | case1 bs => simp [merge_heads, common_dates]
  | case2 x xs => simp [merge_heads, common_dates]
  | case3 x xs y ys hlt ih =>
    rw [List.pairwise_cons] at ha
    have hb2 := List.pairwise_cons.mp hb
    have hx : ¬ date x ∈ (y :: ys).map date := by
      intro hm
      obtain ⟨y2, hy2, e⟩ := List.mem_map.mp hm
      rcases List.mem_cons.mp hy2 with rfl | hy
      · omega
      · have := hb2.1 y2 hy
        omega
    have := ih ha.2 hb
    simp only [merge_heads, if_pos hlt, List.length_cons, common_dates_cons_left, if_neg hx] at this ⊢
    omega
  | case4 x xs y ys hlt hgt ih =>
    have ha2 := List.pairwise_cons.mp ha
    rw [List.pairwise_cons] at hb
    have hne : ∀ z ∈ x :: xs, date z ≠ date y := by
      intro z hz
      rcases List.mem_cons.mp hz with rfl | hz
      · omega
      · have := ha2.1 z hz
        omega
    have := ih ha hb.2
    simp only [merge_heads, if_neg hlt, if_pos hgt, List.length_cons,
      common_dates_drop_right date (x :: xs) y ys hne] at this ⊢
    omega
  | case5 x xs y ys hlt hgt ih =>
    have ha2 := List.pairwise_cons.mp ha
    have hb2 := List.pairwise_cons.mp hb
    have hxy : date x = date y := by omega
    have hx : date x ∈ (y :: ys).map date := by
      rw [List.map_cons, hxy]
      exact List.mem_cons_self _ _
    have hne : ∀ z ∈ xs, date z ≠ date y := by
      intro z hz
      have := ha2.1 z hz
      omega
    have := ih ha2.2 hb2.2
    simp only [merge_heads, if_neg hlt, if_neg hgt, List.length_cons, common_dates_cons_left,
      if_pos hx, common_dates_drop_right date xs y ys hne] at this ⊢
    omega

/-- Claim C35. For strictly ascending A and B, a record occurs in merge_daily_quotes (A, B)
exactly when it is a record of B or a record of A whose trading date occurs in no record of B;
the dates of the output are the dates of A together with the dates of B; and the output length
is |A| + |B| minus the number of dates common to both. -/
theorem merge_daily_quotes_membership {P : Type} (TRADING_DATE : P → Int) (A B : List P)
    (hA : StrictAscending TRADING_DATE A) (hB : StrictAscending TRADING_DATE B) :
    (∀ z : P, z ∈ merge_daily_quotes TRADING_DATE A B ↔
      z ∈ B ∨ (z ∈ A ∧ ∀ y ∈ B, TRADING_DATE y ≠ TRADING_DATE z)) ∧
    (∀ d : Int, d ∈ (merge_daily_quotes TRADING_DATE A B).map TRADING_DATE ↔
      d ∈ A.map TRADING_DATE ∨ d ∈ B.map TRADING_DATE) ∧
    (merge_daily_quotes TRADING_DATE A B).length
      = A.length + B.length - (common_dates TRADING_DATE A B).length ∧
    (common_dates TRADING_DATE A B).length ≤ A.length ∧
    (∀ d : Int, d ∈ common_dates TRADING_DATE A B ↔
      d ∈ A.map TRADING_DATE ∧ d ∈ B.map TRADING_DATE) := by
  have hmem := mem_merge_heads_iff TRADING_DATE A B hA hB
  have hlen := merge_heads_length_common TRADING_DATE A B hA hB
  rw [merge_daily_quotes_eq_heads]
  refine ⟨hmem, ?_, by omega, ?_, ?_⟩
  · intro d
    simp only [List.mem_map, hmem]
    constructor
    · rintro ⟨z, hz | ⟨hz, _⟩, rfl⟩
      · exact Or.inr ⟨z, hz, rfl⟩
      · exact Or.inl ⟨z, hz, rfl⟩
    · rintro (⟨z, hz, rfl⟩ | ⟨z, hz, rfl⟩)
      · by_cases hex : ∃ y ∈ B, TRADING_DATE y = TRADING_DATE z
        · obtain ⟨y, hy, e⟩ := hex
          exact ⟨y, Or.inl hy, e⟩
        · exact ⟨z, Or.inr ⟨hz, fun y hy e => hex ⟨y, hy, e⟩⟩, rfl⟩
      · exact ⟨z, Or.inl hz, rfl⟩
  · unfold common_dates
    have := List.length_filter_le (fun d => decide (d ∈ B.map TRADING_DATE)) (A.map TRADING_DATE)
    rwa [List.length_map] at this
  · intro d
    unfold common_dates
    simp only [List.mem_filter, decide_eq_true_eq]

theorem merge_daily_quotes_membership_witness :
    StrictAscending (fun q : pfish_bovespa_daily_quote => q.trading_date) sample_A ∧
    StrictAscending (fun q : pfish_bovespa_daily_quote => q.trading_date) sample_B ∧
    (merge_daily_quotes (fun q => q.trading_date) sample_A sample_B).length
      = sample_A.length + sample_B.length
        - (common_dates (fun q => q.trading_date) sample_A sample_B).length ∧
    (common_dates (fun q : pfish_bovespa_daily_quote => q.trading_date) sample_A sample_B).length
      = 1 :=
  ⟨by decide, by decide,
    (merge_daily_quotes_membership (fun q : pfish_bovespa_daily_quote => q.trading_date)
      sample_A sample_B (by decide) (by decide)).2.2.1, by decide⟩

/-- Claim C37. For all arrays a and b, sorted or not, merge_daily_quotes returns, and the length
of its output is at least max (a_size, b_size) and at most a_size + b_size. At every state of the
loop the array c built so far is a prefix of the output, and the output has at least
max (a_size - a_count, b_size - b_count) and at most (a_size - a_count) + (b_size - b_count)
records more than c; so every write falls inside the a_size + b_size slots allocated and the
final assertion holds. -/
theorem merge_daily_quotes_length_bounds {P : Type} (TRADING_DATE : P → Int) (a b : List P) :
    max a.length b.length ≤ (merge_daily_quotes TRADING_DATE a b).length ∧
    (merge_daily_quotes TRADING_DATE a b).length ≤ a.length + b.length ∧
    (∀ (a_count b_count : Nat) (c : List P),
      c <+: merge_daily_quotes_loop TRADING_DATE a b a_count b_count c ∧
      c.length + max (a.length - a_count) (b.length - b_count)
        ≤ (merge_daily_quotes_loop TRADING_DATE a b a_count b_count c).length ∧
      (merge_daily_quotes_loop TRADING_DATE a b a_count b_count c).length
        ≤ c.length + (a.length - a_count) + (b.length - b_count)) := by
  have h := merge_heads_length TRADING_DATE a b
  rw [merge_daily_quotes_eq_heads]
  refine ⟨h.1, h.2, ?_⟩
  intro i j c
  rw [merge_daily_quotes_loop_eq]
  have h2 := merge_heads_length TRADING_DATE (a.drop i) (b.drop j)
  rw [List.length_drop, List.length_drop] at h2
  refine ⟨⟨_, rfl⟩, ?_, ?_⟩
  · rw [List.length_append]
    omega
  · rw [List.length_append]
    omega

theorem run_quotes_ne_nil (node : quote_node) (rest : List quote_node) :
    run_quotes node rest ≠ [] := by
  rw [run_quotes_eq]
  simp

theorem merged_quotes_length (dsh : Option pfish_bovespa_stock_history)
    (new_daily_quotes : List pfish_bovespa_daily_quote) :
    new_daily_quotes.length ≤ (merged_quotes dsh new_daily_quotes).length := by
  cases dsh with
  | none => exact le_refl _
  | some h =>
    show _ ≤ (merge_daily_quotes _ _ _).length
    rw [merge_daily_quotes_eq_heads]
    have := (merge_heads_length (fun q : pfish_bovespa_daily_quote => q.trading_date)
      (h.daily_quotes.take h.daily_quotes_size) new_daily_quotes).1
    omega

theorem merged_quotes_ne_nil (dsh : Option pfish_bovespa_stock_history) (node : quote_node)
    (rest : List quote_node) : merged_quotes dsh (run_quotes node rest) ≠ [] := by
  have h1 := merged_quotes_length dsh (run_quotes node rest)
  have h2 : 0 < (run_quotes node rest).length :=
    List.length_pos.mpr (run_quotes_ne_nil node rest)
  exact List.length_pos.mp (by omega)

theorem detect_last_xplit_lt (C : List pfish_bovespa_daily_quote) (hne : C ≠ []) :
    xplit_scan_loop C C.length 1 ≠ none ∧
      ∃ r, detect_last_xplit C = some r ∧ r < C.length := by
  obtain ⟨r, hr, hpost⟩ := detect_last_xplit_post C hne
  have hlen : 0 < C.length := List.length_pos.mpr hne
  constructor
  · intro hnone
    unfold detect_last_xplit at hr
    rw [hnone] at hr
    exact absurd hr (by simp)
  · refine ⟨r, hr, ?_⟩
    rcases hpost with ⟨h0, _⟩ | ⟨_, h1, _⟩
    · omega
    · exact h1

theorem stock_writes_in_bounds (info : pfish_bovespa_library_info) (q : List quote_node) :
    ∀ (cur : List Char) (db : database),
      ∀ w ∈ stock_writes info q cur db,
        1 ≤ w.2.daily_quotes_size ∧ w.2.daily_quotes.length = w.2.daily_quotes_size ∧
          w.2.last_xplit < w.2.daily_quotes_size := by
  induction q with
  | nil => intro cur db w hw; simp [stock_writes] at hw
  | cons node rest ih =>
    intro cur db w hw
    by_cases hs : node.stock ≠ cur
    · rw [stock_writes_new_stock info node rest cur db hs] at hw
      cases ha : pfish_bovespa_stock_history_alloc info db node.stock with
      | none => rw [ha] at hw; simp at hw
      | some dsh =>
        rw [ha] at hw
        simp only [] at hw
        obtain ⟨_, r, hr, hlt⟩ :=
          detect_last_xplit_lt _ (merged_quotes_ne_nil dsh node rest)
        rw [hr] at hw
        simp only [List.mem_cons] at hw
        rcases hw with rfl | hw
        · exact ⟨by show 1 ≤ (merged_quotes dsh (run_quotes node rest)).length; omega, rfl, hlt⟩
        · generalize promote_stock_file db node.stock _ = p at hw
          rcases p with ⟨_ | e, db1⟩
          · exact ih _ _ w hw
          · exact absurd hw (List.not_mem_nil w)
    · rw [stock_writes, if_neg hs] at hw
      exact ih _ _ w hw

/-- Claim C36. For every stock that the loop of main processes, the run of new quotes has at
least one record, so the merged series is not empty when the split scan starts; the scan then
ends without decrementing index 0 and without reading outside the array, and the last_xplit it
yields is below the size of the merged series. Hence every stock file written holds at least one
record, its last_xplit is below its daily_quotes_size, and the records from last_xplit on, which
the default export prints, are at least one. -/
theorem split_scan_in_bounds (info : pfish_bovespa_library_info) (quotes_array : List quote_node)
    (current_stock_id : List Char) (db : database) :
    (∀ (database_stock_history : Option pfish_bovespa_stock_history) (node : quote_node)
        (rest : List quote_node),
      1 ≤ (run_quotes node rest).length ∧
      merged_quotes database_stock_history (run_quotes node rest) ≠ [] ∧
      xplit_scan_loop (merged_quotes database_stock_history (run_quotes node rest))
        (merged_quotes database_stock_history (run_quotes node rest)).length 1 ≠ none ∧
      ∃ last_xplit,
        detect_last_xplit (merged_quotes database_stock_history (run_quotes node rest))
          = some last_xplit ∧
        last_xplit < (merged_quotes database_stock_history (run_quotes node rest)).length) ∧
    (∀ w ∈ stock_writes info quotes_array current_stock_id db,
      1 ≤ w.2.daily_quotes_size ∧ w.2.daily_quotes.length = w.2.daily_quotes_size ∧
      w.2.last_xplit < w.2.daily_quotes_size ∧
      (w.2.daily_quotes.take w.2.daily_quotes_size).drop w.2.last_xplit ≠ []) := by
  constructor
  · intro dsh node rest
    have hne := merged_quotes_ne_nil dsh node rest
    obtain ⟨h1, h2⟩ := detect_last_xplit_lt _ hne
    exact ⟨List.length_pos.mpr (run_quotes_ne_nil node rest), hne, h1, h2⟩
  · intro w hw
    obtain ⟨h1, h2, h3⟩ := stock_writes_in_bounds info quotes_array current_stock_id db w hw
    refine ⟨h1, h2, h3, ?_⟩
    apply List.ne_nil_of_length_pos
    rw [List.length_drop, List.length_take, h2]
    omega

set_option maxRecDepth 100000 in
theorem split_scan_in_bounds_witness :
    stock_writes sample_info [⟨"PETR4".toList, sample_quote 1704196800 "ON" 1015⟩] [] sample_db
      = [("PETR4".toList,
          { daily_quotes_size := 1, last_xplit := 0,
            daily_quotes := [sample_quote 1704196800 "ON" 1015] })] ∧
    (1 ≤ 1 ∧ [sample_quote 1704196800 "ON" 1015].length = 1 ∧ 0 < 1 ∧
      ([sample_quote 1704196800 "ON" 1015].take 1).drop 0 ≠ []) :=
  ⟨by decide,
    (split_scan_in_bounds sample_info [⟨"PETR4".toList, sample_quote 1704196800 "ON" 1015⟩] []
      sample_db).2
      ("PETR4".toList,
        { daily_quotes_size := 1, last_xplit := 0,
          daily_quotes := [sample_quote 1704196800 "ON" 1015] })
      (by decide)⟩

theorem stock_loop_same_stock (info : pfish_bovespa_library_info) (node : quote_node)
    (rest : List quote_node) (cur : List Char) (n : Nat) (db : database)
    (hs : node.stock = cur) :
    stock_loop info (node :: rest) cur n db = stock_loop info rest cur n db := by
  rw [stock_loop, if_neg (not_not.mpr hs)]

theorem stock_writes_same_stock (info : pfish_bovespa_library_info) (node : quote_node)
    (rest : List quote_node) (cur : List Char) (db : database)
    (hs : node.stock = cur) :
    stock_writes info (node :: rest) cur db = stock_writes info rest cur db := by
  rw [stock_writes, if_neg (not_not.mpr hs)]

theorem stock_runs_same_stock (node : quote_node) (rest : List quote_node) (cur : List Char)
    (hs : node.stock = cur) : stock_runs (node :: rest) cur = stock_runs rest cur := by
  rw [stock_runs, if_neg (not_not.mpr hs)]

theorem stock_runs_new_stock (node : quote_node) (rest : List quote_node) (cur : List Char)
    (hs : node.stock ≠ cur) :
    stock_runs (node :: rest) cur =
      (node.stock, 1 + (rest.takeWhile (fun n => n.stock = node.stock)).length)
        :: stock_runs rest node.stock := by
  rw [stock_runs, if_pos hs]

/-- When the loop ends without failure, stock_count has grown by the number of runs, the files
written are those of the runs, and each run went whole into the series written for it. -/
theorem stock_loop_runs (info : pfish_bovespa_library_info) (q : List quote_node) :
    ∀ (cur : List Char) (n : Nat) (db : database),
      (stock_loop info q cur n db).1 = none →
      (stock_loop info q cur n db).2.1 = n + (stock_runs q cur).length ∧
      (stock_writes info q cur db).map (fun w => w.1) = (stock_runs q cur).map (fun r => r.1) := by
  induction q with
  | nil => intro cur n db _; exact ⟨rfl, rfl⟩
  | cons node rest ih =>
    intro cur n db hok
    by_cases hs : node.stock ≠ cur
    · rw [stock_loop_new_stock info node rest cur n db hs] at hok ⊢
      rw [stock_writes_new_stock info node rest cur db hs, stock_runs_new_stock node rest cur hs]
      cases ha : pfish_bovespa_stock_history_alloc info db node.stock with
      | none => rw [ha] at hok; exact absurd hok (by simp)
      | some dsh =>
        rw [ha] at hok
        simp only [] at hok ⊢
        cases hd : detect_last_xplit (merged_quotes dsh (run_quotes node rest)) with
        | none => rw [hd] at hok; exact absurd hok (by simp)
        | some lx =>
          rw [hd] at hok
          simp only [] at hok ⊢
          generalize promote_stock_file db node.stock _ = p at hok ⊢
          rcases p with ⟨_ | e, db1⟩
          · obtain ⟨i1, i2⟩ := ih _ _ _ hok
            show (stock_loop info rest node.stock (n + 1) db1).2.1 = _ ∧ _
            rw [i1]
            refine ⟨?_, ?_⟩
            · rw [List.length_cons]
              omega
            · show List.map (fun w => w.1) (_ :: stock_writes info rest node.stock db1) = _
              rw [List.map_cons, List.map_cons, i2]
          · exact absurd hok (by simp)
    · have hs2 : node.stock = cur := not_not.mp hs
      rw [stock_loop_same_stock info node rest cur n db hs2] at hok ⊢
      rw [stock_writes_same_stock info node rest cur db hs2, stock_runs_same_stock node rest cur hs2]
      exact ih _ _ _ hok

theorem stock_runs_sum_aux (k : Nat) :
    ∀ (q : List quote_node) (cur : List Char), q.length ≤ k →
      ((stock_runs q cur).map (fun r => r.2)).sum
        + (q.takeWhile (fun n => n.stock = cur)).length = q.length := by
  induction k with
  | zero =>
    intro q cur hk
    have : q = [] := List.length_eq_zero.mp (by omega)
    subst this
    rfl
  | succ k ih =>
    intro q cur hk
    cases q with
    | nil => rfl
    | cons node rest =>
      have hr : rest.length ≤ k := by
        rw [List.length_cons] at hk
        omega
      by_cases hs : node.stock = cur
      · rw [stock_runs_same_stock node rest cur hs,
          List.takeWhile_cons_of_pos (by simpa using hs), List.length_cons, List.length_cons]
        have := ih rest cur hr
        omega
      · rw [stock_runs_new_stock node rest cur hs,
          List.takeWhile_cons_of_neg (by simpa using hs), List.map_cons, List.sum_cons,
          List.length_nil, List.length_cons]
        have := ih rest node.stock hr
        simp only [] at this ⊢
        omega

theorem strcmp_nil_le (s : List Char) : strcmp [] s ≤ 0 := by
  cases s with
  | nil => simp [strcmp]
  | cons y ys =>
    rw [strcmp]
    split_ifs <;> omega

theorem strcmp_antisymm (a b : List Char) (ha : NUL ∉ a) (hb : NUL ∉ b)
    (h1 : strcmp a b ≤ 0) (h2 : strcmp b a ≤ 0) : a = b := by
  have hs := strcmp_swap a b
  have h0 : strcmp a b = 0 := by omega
  have := (strcmp_eq_zero_iff a b).mp h0
  rwa [cstr_eq_self a ha, cstr_eq_self b hb] at this

/-- In an array sorted by compare_quote_nodes whose ids are all above the current id, the loop
finds every id other than the current one exactly once. -/
theorem stock_runs_ids (q : List quote_node) :
    ∀ (cur : List Char), NUL ∉ cur →
      q.Pairwise (fun a b => compare_quote_nodes a b ≤ 0) →
      (∀ n ∈ q, NUL ∉ n.stock) →
      (∀ n ∈ q, strcmp cur n.stock ≤ 0) →
      ((stock_runs q cur).map (fun r => r.1)).Nodup ∧
      ∀ s : List Char, s ∈ (stock_runs q cur).map (fun r => r.1) ↔
        s ≠ cur ∧ ∃ n ∈ q, n.stock = s := by
  induction q with
  | nil =>
    intro cur _ _ _ _
    exact ⟨List.nodup_nil, fun s => by simp [stock_runs]⟩
  | cons node rest ih =>
    intro cur hcur hsorted hnul hle
    have hs2 := List.pairwise_cons.mp hsorted
    have hnul2 : ∀ n ∈ rest, NUL ∉ n.stock := fun n hn => hnul n (List.mem_cons_of_mem _ hn)
    by_cases hs : node.stock = cur
    · rw [stock_runs_same_stock node rest cur hs]
      obtain ⟨i1, i2⟩ := ih cur hcur hs2.2 hnul2 (fun n hn => hle n (List.mem_cons_of_mem _ hn))
      refine ⟨i1, fun s => ?_⟩
      rw [i2]
      constructor
      · rintro ⟨h1, n, hn, h2⟩
        exact ⟨h1, n, List.mem_cons_of_mem _ hn, h2⟩
      · rintro ⟨h1, n, hn, h2⟩
        rcases List.mem_cons.mp hn with rfl | hn
        · exact absurd (h2.symm.trans hs) h1
        · exact ⟨h1, n, hn, h2⟩
    · rw [stock_runs_new_stock node rest cur hs]
      have hnode : NUL ∉ node.stock := hnul node (List.mem_cons_self _ _)
      obtain ⟨i1, i2⟩ := ih node.stock hnode hs2.2 hnul2
        (fun n hn => compare_le_strcmp_le node n (hs2.1 n hn))
      rw [List.map_cons]
      refine ⟨List.nodup_cons.mpr ⟨?_, i1⟩, fun s => ?_⟩
      · intro hm
        exact ((i2 node.stock).mp hm).1 rfl
      · rw [List.mem_cons, i2]
        constructor
        · rintro (rfl | ⟨h1, n, hn, rfl⟩)
          · exact ⟨hs, node, List.mem_cons_self _ _, rfl⟩
          · refine ⟨?_, n, List.mem_cons_of_mem _ hn, rfl⟩
            intro e
            have c1 := hle node (List.mem_cons_self _ _)
            have c2 := compare_le_strcmp_le node n (hs2.1 n hn)
            rw [e] at c2
            exact hs (strcmp_antisymm node.stock cur hnode hcur c2 c1)
        · rintro ⟨h1, n, hn, rfl⟩
          rcases List.mem_cons.mp hn with rfl | hn
          · exact Or.inl rfl
          · by_cases e : n.stock = node.stock
            · exact Or.inl e
            · exact Or.inr ⟨e, n, hn, rfl⟩

set_option maxRecDepth 100000 in
/-- Claim C38 fails when a quote with an empty stock id is emitted. On the HIST file made of the
header, a quote register whose cod_neg field is made of zeros, the quote register of PETR4 and
the trailer, two quotes with two distinct ids are sorted, but the loop finds one run of length 1
and ends with stock_count 1 and success: the quote with the empty id equals the zeroed
current_stock_id and is passed over. In general the loop passes over a leading quote whose id is
empty; the run lengths and the number of leading quotes with an empty id add up to the length of
the array; in a sorted array the ids of the runs are, without repetition, the non-empty ids of the
array; and when the loop ends without failure stock_count is the number of runs and the files
written are those of the runs. -/
theorem empty_id_quotes_not_processed :
    (section_reached sample_stack sample_hist_file_empty_id = some BOVESPA_FILE_SECTION_TRAILER ∧
      (qsort (state_reached sample_stack sample_hist_file_empty_id).quotes_list).map
          (fun n => n.stock) = [[], "PETR4".toList] ∧
      stock_runs (qsort (state_reached sample_stack sample_hist_file_empty_id).quotes_list) []
        = [("PETR4".toList, 1)] ∧
      (stock_loop sample_info
          (qsort (state_reached sample_stack sample_hist_file_empty_id).quotes_list) [] 0
          sample_db).1 = none ∧
      (stock_loop sample_info
          (qsort (state_reached sample_stack sample_hist_file_empty_id).quotes_list) [] 0
          sample_db).2.1 = 1 ∧
      (file_import_main sample_info sample_db sample_stack
          sample_hist_file_empty_id).exit_status = EXIT_SUCCESS ∧
      db_lookup (file_import_main sample_info sample_db sample_stack
          sample_hist_file_empty_id).db [] = none) ∧
    (∀ (info : pfish_bovespa_library_info) (quote : pfish_bovespa_daily_quote)
        (rest : List quote_node) (stock_count : Nat) (db : database),
      stock_loop info ({ stock := [], quote := quote } :: rest) [] stock_count db
        = stock_loop info rest [] stock_count db) ∧
    (∀ quotes_array : List quote_node,
      ((stock_runs quotes_array []).map (fun r => r.2)).sum
        + (quotes_array.takeWhile (fun n => n.stock = [])).length = quotes_array.length) ∧
    (∀ quotes_array : List quote_node,
      quotes_array.Pairwise (fun a b => compare_quote_nodes a b ≤ 0) →
      (∀ n ∈ quotes_array, NUL ∉ n.stock) →
      ((stock_runs quotes_array []).map (fun r => r.1)).Nodup ∧
      ∀ s : List Char, s ∈ (stock_runs quotes_array []).map (fun r => r.1) ↔
        s ≠ [] ∧ ∃ n ∈ quotes_array, n.stock = s) ∧
    (∀ (info : pfish_bovespa_library_info) (quotes_array : List quote_node) (db : database),
      (stock_loop info quotes_array [] 0 db).1 = none →
      (stock_loop info quotes_array [] 0 db).2.1 = (stock_runs quotes_array []).length ∧
      (stock_writes info quotes_array [] db).map (fun w => w.1)
        = (stock_runs quotes_array []).map (fun r => r.1)) := by
  refine ⟨by decide, ?_, ?_, ?_, ?_⟩
  · intro info quote rest n db
    exact stock_loop_same_stock info _ rest [] n db rfl
  · intro q
    exact stock_runs_sum_aux q.length q [] (le_refl _)
  · intro q hsorted hnul
    exact stock_runs_ids q [] (by simp) hsorted hnul (fun n _ => strcmp_nil_le n.stock)
  · intro info q db hok
    have h := stock_loop_runs info q [] 0 db hok
    rw [Nat.zero_add] at h
    exact h

set_option maxRecDepth 100000 in
theorem empty_id_quotes_not_processed_witness :
    (qsort (state_reached sample_stack sample_hist_file_empty_id).quotes_list).Pairwise
      (fun a b => compare_quote_nodes a b ≤ 0) ∧
    (∀ n ∈ qsort (state_reached sample_stack sample_hist_file_empty_id).quotes_list,
      NUL ∉ n.stock) ∧
    ((stock_runs (qsort (state_reached sample_stack sample_hist_file_empty_id).quotes_list)
        []).map (fun r => r.1)).Nodup :=
  ⟨by decide, by decide,
    (empty_id_quotes_not_processed.2.2.2.1
      (qsort (state_reached sample_stack sample_hist_file_empty_id).quotes_list)
      (by decide) (by decide)).1⟩

theorem store_bytes_append (done rest data : List Char) (h : data.length ≤ rest.length) :
    store_bytes (done ++ rest) done.length data
      = some (done ++ data ++ rest.drop data.length) := by
  unfold store_bytes
  rw [if_pos (by rw [List.length_append]; omega), List.take_left, List.drop_append]

theorem stock_list_fill_short (names : List dirent) :
    ∀ (i : Nat) (done : List Char), done.length = i * PFISH_BOVESPA_CODNEG_SIZE →
      (∀ d ∈ names, (cstr d.d_name).length ≤ PFISH_BOVESPA_CODNEG_SIZE - 1) →
      stock_list_fill names i
          (done ++ List.replicate (names.length * PFISH_BOVESPA_CODNEG_SIZE) NUL)
        = some (done ++ (names.map (fun d => id_bytes (cstr d.d_name))).flatten) := by
  induction names with
  | nil => intro i done _ _; simp [stock_list_fill]
  | cons d rest ih =>
    intro i done hdone hshort
    have hd := hshort d (List.mem_cons_self _ _)
    have c13 : PFISH_BOVESPA_CODNEG_SIZE = 13 := rfl
    rw [c13] at hd hdone ⊢
    have hrep : List.replicate ((d :: rest).length * 13) NUL
        = List.replicate 13 NUL ++ List.replicate (rest.length * 13) NUL := by
      rw [← List.replicate_add, List.length_cons]
      congr 1
      omega
    rw [stock_list_fill, c13, ← hdone, hrep,
      store_bytes_append done _ (List.replicate 13 NUL)
        (by simp only [List.length_append, List.length_replicate]; omega)]
    simp only []
    have hdrop : (List.replicate 13 NUL ++ List.replicate (rest.length * 13) NUL).drop
        (List.replicate 13 NUL).length = List.replicate (rest.length * 13) NUL := by
      rw [List.drop_left]
    rw [hdrop, List.append_assoc,
      store_bytes_append done _ (cstr d.d_name ++ [NUL])
        (by simp only [List.length_append, List.length_replicate, List.length_singleton]; omega)]
    simp only []
    have hdrop2 : (List.replicate 13 NUL ++ List.replicate (rest.length * 13) NUL).drop
        (cstr d.d_name ++ [NUL]).length
        = List.replicate (12 - (cstr d.d_name).length) NUL
            ++ List.replicate (rest.length * 13) NUL := by
      rw [List.drop_append_of_le_length
        (by simp only [List.length_append, List.length_replicate, List.length_singleton]; omega),
        List.drop_replicate]
      simp only [List.length_append, List.length_singleton]
      congr 2
      omega
    rw [hdrop2]
    have hid : done ++ (cstr d.d_name ++ [NUL])
          ++ (List.replicate (12 - (cstr d.d_name).length) NUL
            ++ List.replicate (rest.length * 13) NUL)
        = (done ++ id_bytes (cstr d.d_name)) ++ List.replicate (rest.length * 13) NUL := by
      unfold id_bytes
      rw [c13]
      have : List.replicate (13 - (cstr d.d_name).length) NUL
          = [NUL] ++ List.replicate (12 - (cstr d.d_name).length) NUL := by
        rw [show 13 - (cstr d.d_name).length = 1 + (12 - (cstr d.d_name).length) by omega,
          List.replicate_add]
        rfl
      rw [this]
      simp only [List.append_assoc]
    rw [hid]
    have hlen : (done ++ id_bytes (cstr d.d_name)).length = (i + 1) * 13 := by
      unfold id_bytes
      rw [c13]
      simp only [List.length_append, List.length_replicate]
      omega
    have := ih (i + 1) (done ++ id_bytes (cstr d.d_name)) (by rw [c13]; exact hlen)
      (fun x hx => hshort x (List.mem_cons_of_mem _ hx))
    rw [c13] at this
    rw [this, List.map_cons, List.flatten_cons, List.append_assoc]

theorem id_bytes_length (name : List Char) (h : name.length ≤ PFISH_BOVESPA_CODNEG_SIZE - 1) :
    (id_bytes name).length = PFISH_BOVESPA_CODNEG_SIZE := by
  unfold id_bytes
  have c13 : PFISH_BOVESPA_CODNEG_SIZE = 13 := rfl
  rw [c13] at h ⊢
  simp only [List.length_append, List.length_replicate]
  omega

theorem flatten_id_bytes_drop (names : List (List Char)) :
    ∀ (i : Nat) (name : List Char), names[i]? = some name →
      (∀ x ∈ names, x.length ≤ PFISH_BOVESPA_CODNEG_SIZE - 1) →
      ((names.map id_bytes).flatten).drop (i * PFISH_BOVESPA_CODNEG_SIZE)
        = id_bytes name ++ (((names.drop (i + 1)).map id_bytes).flatten) := by
  induction names with
  | nil => intro i name h; simp at h
  | cons x xs ih =>
    intro i name h hshort
    cases i with
    | zero =>
      rw [List.getElem?_cons_zero] at h
      cases h
      simp
    | succ j =>
      rw [List.getElem?_cons_succ] at h
      have hx := id_bytes_length x (hshort x (List.mem_cons_self _ _))
      rw [List.map_cons, List.flatten_cons, Nat.succ_mul, Nat.add_comm, ← hx, List.drop_append,
        hx, ih j name h (fun y hy => hshort y (List.mem_cons_of_mem _ hy))]
      rfl

theorem stock_list_id_short (names : List (List Char)) (n i : Nat) (name : List Char)
    (hi : names[i]? = some name)
    (hshort : ∀ x ∈ names, x.length ≤ PFISH_BOVESPA_CODNEG_SIZE - 1)
    (hnul : ∀ x ∈ names, NUL ∉ x) :
    stock_list_id { stock_list_size := n, stock_list := (names.map id_bytes).flatten } i
      = some name := by
  unfold stock_list_id
  simp only []
  rw [flatten_id_bytes_drop names i name hi hshort]
  have hmem : name ∈ names := List.mem_iff_getElem?.mpr ⟨i, hi⟩
  have hlen := hshort name hmem
  have c13 : PFISH_BOVESPA_CODNEG_SIZE = 13 := rfl
  have hb : id_bytes name = name ++ NUL :: List.replicate (12 - name.length) NUL := by
    unfold id_bytes
    rw [c13] at hlen ⊢
    rw [show 13 - name.length = 1 + (12 - name.length) by omega, List.replicate_add]
    rfl
  rw [hb, List.append_assoc, List.cons_append, cstr_append_nul name _ (hnul name hmem),
    if_pos (by simp)]

/-- With names of at most 12 characters the answer holds the names, one id each, and the
stock_list command prints them. -/
theorem stock_list_alloc_short (info : pfish_bovespa_library_info) (db : database)
    (dir : List dirent)
    (hm : pfish_bovespa_revision_marker_check info db = 0)
    (hshort : ∀ d ∈ scandir dir pfish_bovespa_stock_list_alloc_selector alphasort,
      (cstr d.d_name).length ≤ PFISH_BOVESPA_CODNEG_SIZE - 1) :
    ∃ answer, pfish_bovespa_stock_list_alloc info db dir = .list answer ∧
      answer.stock_list_size
        = (scandir dir pfish_bovespa_stock_list_alloc_selector alphasort).length ∧
      answer.stock_list.length
        = (scandir dir pfish_bovespa_stock_list_alloc_selector alphasort).length
          * PFISH_BOVESPA_CODNEG_SIZE ∧
      stock_list_export answer
        = (scandir dir pfish_bovespa_stock_list_alloc_selector alphasort).map
            (fun d => some (cstr d.d_name)) := by
  have hfill := stock_list_fill_short
    (scandir dir pfish_bovespa_stock_list_alloc_selector alphasort) 0 [] rfl hshort
  rw [List.nil_append, List.nil_append] at hfill
  refine ⟨⟨(scandir dir pfish_bovespa_stock_list_alloc_selector alphasort).length,
      ((scandir dir pfish_bovespa_stock_list_alloc_selector alphasort).map
        (fun d => id_bytes (cstr d.d_name))).flatten⟩, ?_, rfl, ?_, ?_⟩
  · unfold pfish_bovespa_stock_list_alloc
    rw [hm, if_neg (by decide)]
    simp only []
    rw [hfill]
  · simp only []
    generalize scandir dir pfish_bovespa_stock_list_alloc_selector alphasort = namelist at hshort
    clear hfill
    induction namelist with
    | nil => rfl
    | cons d rest ih =>
      rw [List.map_cons, List.flatten_cons, List.length_append,
        ih (fun x hx => hshort x (List.mem_cons_of_mem _ hx)),
        id_bytes_length _ (hshort d (List.mem_cons_self _ _)), List.length_cons,
        Nat.succ_mul, Nat.add_comm]
  · generalize scandir dir pfish_bovespa_stock_list_alloc_selector alphasort = namelist at hshort
    unfold stock_list_export
    simp only []
    apply List.ext_getElem?
    intro i
    by_cases hi : i < namelist.length
    · rw [List.getElem?_map, List.getElem?_range hi, List.getElem?_map,
        List.getElem?_eq_getElem hi]
      simp only [Option.map_some']
      have hmap : (namelist.map (fun d => id_bytes (cstr d.d_name)))
          = (namelist.map (fun d => cstr d.d_name)).map id_bytes := by
        rw [List.map_map]
        rfl
      rw [hmap]
      congr 1
      apply stock_list_id_short
      · rw [List.getElem?_map, List.getElem?_eq_getElem hi]
        rfl
      · intro x hx
        obtain ⟨d, hd, rfl⟩ := List.mem_map.mp hx
        exact hshort d hd
      · intro x hx
        obtain ⟨d, hd, rfl⟩ := List.mem_map.mp hx
        exact nul_not_mem_cstr _
    · rw [List.getElem?_eq_none (by simp; omega), List.getElem?_eq_none (by simp; omega)]

theorem mem_scandir_selected (dir : List dirent) (d : dirent)
    (h : d ∈ scandir dir pfish_bovespa_stock_list_alloc_selector alphasort) :
    d ∈ dir ∧ pfish_bovespa_stock_list_alloc_selector d = 1 := by
  have hp := (scandir_perm dir pfish_bovespa_stock_list_alloc_selector alphasort).mem_iff.mp h
  rw [List.mem_filter] at hp
  refine ⟨hp.1, ?_⟩
  have h0 := of_decide_eq_true hp.2
  rcases selector_values d with h1 | h1
  · exact absurd h1 h0
  · exact h1

set_option maxRecDepth 100000 in
/-- Claim C29. The selector keeps a directory entry exactly when it is a regular file whose name
does not begin with a dot, so the revision marker, the temporary stock file and every name that
begins with a dot are left out.  The list, however, is not one entry for each kept file:
pfish_bovespa_stock_list_alloc copies each name with strcpy into an id of
PFISH_BOVESPA_CODNEG_SIZE = 13 bytes, and a kept name of 13 characters or more runs into the
next element.  With the regular files AAAAAAAAAAAAAAAA (16 characters) and B in the directory
the stock_list command prints AAAAAAAAAAAAAB, which is no file of the directory, and B; when the
long name is the last in order, strcpy writes past the end of the allocated answer.  When every
kept name has at most 12 characters, the list holds the names of the kept entries, one each, in
ascending strcmp order. -/
theorem stock_list_strcpy_overruns_id :
    (pfish_bovespa_revision_marker_check sample_info sample_db = 0 ∧
      (∀ d ∈ sample_long_name_dir, pfish_bovespa_stock_list_alloc_selector d = 1) ∧
      (∃ answer, pfish_bovespa_stock_list_alloc sample_info sample_db sample_long_name_dir
          = .list answer ∧
        answer.stock_list_size = 2 ∧
        stock_list_export answer = [some "AAAAAAAAAAAAAB".toList, some "B".toList] ∧
        (∀ d ∈ sample_long_name_dir, some "AAAAAAAAAAAAAB".toList ≠ some (cstr d.d_name)) ∧
        some "AAAAAAAAAAAAAAAA".toList ∉ stock_list_export answer) ∧
      (∀ d ∈ sample_long_last_name_dir, pfish_bovespa_stock_list_alloc_selector d = 1) ∧
      pfish_bovespa_stock_list_alloc sample_info sample_db sample_long_last_name_dir
        = .overrun) ∧
    (∀ d : dirent, pfish_bovespa_stock_list_alloc_selector d = 1 ↔
      (d.d_type = DT_REG ∧ d.d_name.getD 0 NUL ≠ '.')) ∧
    (∀ d : dirent, pfish_bovespa_stock_list_alloc_selector d = 0 ∨
      pfish_bovespa_stock_list_alloc_selector d = 1) ∧
    (∀ (t : Nat) (name : List Char),
      pfish_bovespa_stock_list_alloc_selector { d_type := t, d_name := '.' :: name } = 0) ∧
    pfish_bovespa_stock_list_alloc_selector { d_type := DT_REG, d_name := REVISION_MARKER_NAME }
      = 0 ∧
    pfish_bovespa_stock_list_alloc_selector { d_type := DT_REG, d_name := STOCK_TEMP_NAME } = 0 ∧
    (∀ (info : pfish_bovespa_library_info) (db : database) (dir : List dirent),
      pfish_bovespa_revision_marker_check info db = 0 →
      (∀ d ∈ dir, pfish_bovespa_stock_list_alloc_selector d = 1 →
        (cstr d.d_name).length ≤ PFISH_BOVESPA_CODNEG_SIZE - 1) →
      ∃ namelist : List dirent,
        namelist.Perm (dir.filter (fun d => d.d_type = DT_REG ∧ d.d_name.getD 0 NUL ≠ '.')) ∧
        namelist.Pairwise (fun a b => strcmp a.d_name b.d_name ≤ 0) ∧
        ∃ answer, pfish_bovespa_stock_list_alloc info db dir = .list answer ∧
          answer.stock_list_size = namelist.length ∧
          answer.stock_list.length = namelist.length * PFISH_BOVESPA_CODNEG_SIZE ∧
          stock_list_export answer = namelist.map (fun d => some (cstr d.d_name))) := by
  refine ⟨⟨by decide, by decide, ⟨⟨2, "AAAAAAAAAAAAAB".toList ++ [NUL]
      ++ List.replicate 11 NUL⟩, by decide, rfl, by decide, by decide, by decide⟩, by decide,
      by decide⟩,
    selector_iff, selector_values, ?_, by decide, by decide, ?_⟩
  · intro t name
    unfold pfish_bovespa_stock_list_alloc_selector
    split_ifs with h1 h2
    · rfl
    · rfl
    · exact absurd rfl h2
  · intro info db dir hm hshort
    have hs : ∀ d ∈ scandir dir pfish_bovespa_stock_list_alloc_selector alphasort,
        (cstr d.d_name).length ≤ PFISH_BOVESPA_CODNEG_SIZE - 1 := fun d hd =>
      hshort d (mem_scandir_selected dir d hd).1 (mem_scandir_selected dir d hd).2
    refine ⟨scandir dir pfish_bovespa_stock_list_alloc_selector alphasort, ?_,
      scandir_alphasort_sorted dir _, ?_⟩
    · have hf : (fun d => decide (pfish_bovespa_stock_list_alloc_selector d ≠ 0))
          = (fun d => decide (d.d_type = DT_REG ∧ d.d_name.getD 0 NUL ≠ '.')) := by
        funext d
        have h1 := selector_iff d
        have h2 := selector_values d
        by_cases hs : pfish_bovespa_stock_list_alloc_selector d = 1
        · have hp := h1.mp hs
          have hne : pfish_bovespa_stock_list_alloc_selector d ≠ 0 := by omega
          rw [decide_eq_true hne, decide_eq_true hp]
        · have h0 : pfish_bovespa_stock_list_alloc_selector d = 0 := by omega
          have hn : ¬ (d.d_type = DT_REG ∧ d.d_name.getD 0 NUL ≠ '.') := fun h => hs (h1.mpr h)
          rw [h0]
          simp only [ne_eq, not_true_eq_false, decide_False]
          exact (decide_eq_false hn).symm
      have hp := scandir_perm dir pfish_bovespa_stock_list_alloc_selector alphasort
      rw [hf] at hp
      exact hp
    · obtain ⟨answer, ha, hn, hl, he⟩ := stock_list_alloc_short info db dir hm hs
      exact ⟨answer, ha, hn, hl, he⟩

set_option maxRecDepth 100000 in
theorem stock_list_strcpy_overruns_id_witness :
    pfish_bovespa_revision_marker_check sample_info sample_db = 0 ∧
    (∀ d ∈ [(⟨DT_REG, "VALE3".toList⟩ : dirent), ⟨DT_REG, REVISION_MARKER_NAME⟩,
        ⟨4, ".".toList⟩, ⟨DT_REG, ".PETR4".toList⟩, ⟨DT_REG, "PETR4".toList⟩],
      pfish_bovespa_stock_list_alloc_selector d = 1 →
        (cstr d.d_name).length ≤ PFISH_BOVESPA_CODNEG_SIZE - 1) ∧
    (∃ answer, pfish_bovespa_stock_list_alloc sample_info sample_db
        [⟨DT_REG, "VALE3".toList⟩, ⟨DT_REG, REVISION_MARKER_NAME⟩, ⟨4, ".".toList⟩,
          ⟨DT_REG, ".PETR4".toList⟩, ⟨DT_REG, "PETR4".toList⟩] = .list answer ∧
      stock_list_export answer = [some "PETR4".toList, some "VALE3".toList]) ∧
    ∃ namelist : List dirent,
      namelist.Perm
        ([⟨DT_REG, "VALE3".toList⟩, ⟨DT_REG, REVISION_MARKER_NAME⟩, ⟨4, ".".toList⟩,
          ⟨DT_REG, ".PETR4".toList⟩, ⟨DT_REG, "PETR4".toList⟩].filter
            (fun d => d.d_type = DT_REG ∧ d.d_name.getD 0 NUL ≠ '.')) ∧
      namelist.Pairwise (fun a b => strcmp a.d_name b.d_name ≤ 0) ∧
      ∃ answer, pfish_bovespa_stock_list_alloc sample_info sample_db
          [⟨DT_REG, "VALE3".toList⟩, ⟨DT_REG, REVISION_MARKER_NAME⟩, ⟨4, ".".toList⟩,
            ⟨DT_REG, ".PETR4".toList⟩, ⟨DT_REG, "PETR4".toList⟩] = .list answer ∧
        answer.stock_list_size = namelist.length ∧
        answer.stock_list.length = namelist.length * PFISH_BOVESPA_CODNEG_SIZE ∧
        stock_list_export answer = namelist.map (fun d => some (cstr d.d_name)) :=
  ⟨by decide, by decide,
    ⟨⟨2, "PETR4".toList ++ List.replicate 8 NUL ++ "VALE3".toList ++ List.replicate 8 NUL⟩,
      by decide, by decide⟩,
    stock_list_strcpy_overruns_id.2.2.2.2.2.2 sample_info sample_db
      [⟨DT_REG, "VALE3".toList⟩, ⟨DT_REG, REVISION_MARKER_NAME⟩, ⟨4, ".".toList⟩,
        ⟨DT_REG, ".PETR4".toList⟩, ⟨DT_REG, "PETR4".toList⟩] (by decide) (by decide)⟩
